import Mathlib

/-!
Verification of the hash-join executor of a modified PostgreSQL 12.5
(`src/backend/executor/nodeHashjoin.c` and
`src/src/backend/executor/nodeSymHashjoin.c`) against its natural-language
design specification.

The embedding models rows, the per-side hash tables, and the cooperative
state machines of the two executor functions.  Pure helper routines that
live in the repository's `nodeHash.c` (which is not part of the sources,
only its callers are) are modelled from the specification; each such
definition carries a doc comment starting with `Modelled from the spec:`.
-/

namespace PgHashJoin

/-- A row of one input relation.  `key` is the join-key column; `none`
models a SQL NULL join key (the spec's "null join key").  `payload`
stands for the remaining columns. -/
structure Row where
  key : Option Nat
  payload : Nat
deriving DecidableEq, Repr

/-- Join types, as used by `ExecInitSymHashJoin`'s `switch` on
`node->join.jointype`. -/
inductive JoinType where
  | inner
  | left
  | right
  | full
  | semi
  | anti
deriving DecidableEq, Repr

/-- An output row of the join as produced by `ExecProject`: the outer part
and the inner part.  `none` on a side models the null tuple slot used for
outer-join padding. -/
abbrev JoinOut := Option Row × Option Row

/-- A tuple stored in a hash-table bucket.  `matched` models the
`HeapTupleHeaderSetMatch` / `HeapTupleHeaderHasMatch` bit kept on the
stored tuple header (the spec's MatchTracker bit). -/
structure HashTuple where
  row : Row
  hashvalue : Nat
  matched : Bool
deriving DecidableEq, Repr

/-- Modelled from the spec: the `HashTable` of section 3 / 4.1, owned by one
side of the join (`ExecHashTableCreate` lives in the missing `nodeHash.c`).
`buckets` are the in-memory chains of the current batch (`curbatch`,
always 0 for the symmetric operator, which never advances batches);
`batchFiles` are the spill files of batches other than the current one,
represented as sequences of `(hashvalue, row)` records.  `keepNulls` is the
`keepNulls` argument of `ExecHashTableCreate` (retain null-keyed rows for
outer-join completion). -/
structure HashJoinTable where
  nbuckets : Nat
  nbatch : Nat
  curbatch : Nat
  buckets : List (List HashTuple)
  batchFiles : List (List (Nat × Row))
  keepNulls : Bool
deriving DecidableEq, Repr

/-- The in-memory bucket chain with the given number (empty when out of
range, mirroring an all-NULL freshly allocated bucket array). -/
def HashJoinTable.bucket (tbl : HashJoinTable) (b : Nat) : List HashTuple :=
  tbl.buckets.getD b []

/-- The spill file of the given batch number. -/
def HashJoinTable.batchFile (tbl : HashJoinTable) (b : Nat) : List (Nat × Row) :=
  tbl.batchFiles.getD b []

/-- Modelled from the spec: `ExecHashTableCreate` (missing `nodeHash.c`)
produces an empty table with the planner-chosen bucket and batch counts. -/
def mkHashTable (nbuckets nbatch : Nat) (keepNulls : Bool) : HashJoinTable :=
  ⟨nbuckets, nbatch, 0, List.replicate nbuckets [], List.replicate nbatch [], keepNulls⟩

/-- Modelled from the spec: `ExecHashGetBucketAndBatch` (missing
`nodeHash.c`); section 3 of the spec: bucket is `hash mod nbuckets`, batch
is `hash mod nbatch`. -/
def execHashGetBucketAndBatch (tbl : HashJoinTable) (h : Nat) : Nat × Nat :=
  (h % tbl.nbuckets, h % tbl.nbatch)

/-- Replace the element at position `n` (no-op when out of range). -/
def listModify {α : Type} : List α → Nat → (α → α) → List α
  | [], _, _ => []
  | a :: t, 0, f => f a :: t
  | a :: t, n + 1, f => a :: listModify t n f

/-- Modelled from the spec: `ExecHashTableInsert` (missing `nodeHash.c`);
section 4.1: place the row into bucket `hash mod nbuckets` when
`hash mod nbatch` is the current batch, otherwise append a
`(hashvalue, row)` record to that batch's spill file.  In-memory insertion
pushes at the head of the bucket chain, as in the source. -/
def execHashTableInsert (tbl : HashJoinTable) (r : Row) (h : Nat) : HashJoinTable :=
  let bno := h % tbl.nbuckets
  let batchno := h % tbl.nbatch
  if batchno = tbl.curbatch then
    { tbl with buckets := tbl.buckets.set bno (⟨r, h, false⟩ :: tbl.bucket bno) }
  else
    { tbl with batchFiles := tbl.batchFiles.set batchno (tbl.batchFile batchno ++ [(h, r)]) }

/-- Set the matched bit of the tuple at position `j` of bucket `b`
(`HeapTupleHeaderSetMatch(HJTUPLE_MINTUPLE(node->hj_CurOutTuple))` on the
tuple the scan cursor points at). -/
def setMatchAt (tbl : HashJoinTable) (b j : Nat) : HashJoinTable :=
  { tbl with buckets := tbl.buckets.set b (listModify (tbl.bucket b) j (fun t => { t with matched := true })) }

/-- Set the matched bit of the head tuple of bucket `b`, mirroring
`HeapTupleHeaderSetMatch(HJTUPLE_MINTUPLE(hashtable->buckets.unshared[bucketno]))`
in `ExecSymHashJoin`.  The C code dereferences the bucket head
unconditionally; on an empty bucket that is a crash, modelled here as a
no-op (no confirmed theorem relies on the empty case). -/
def setMatchHead (tbl : HashJoinTable) (b : Nat) : HashJoinTable :=
  { tbl with buckets := tbl.buckets.set b (listModify (tbl.bucket b) 0 (fun t => { t with matched := true })) }

/-- Evaluation of `joinqual` in the scan states:
`joinqual == NULL || ExecQual(joinqual, econtext)` with
`ecxt_outertuple = o` and `ecxt_innertuple = i`. -/
def evalJoinQual (q : Option (Row → Row → Bool)) (o i : Row) : Bool :=
  match q with
  | none => true
  | some f => f o i

/-- Evaluation of `otherqual` (`node->js.ps.qual`), which in the fill
states sees a null tuple slot on one side (modelled by `none`). -/
def evalOtherQual (q : Option (Option Row → Option Row → Bool)) (o i : Option Row) : Bool :=
  match q with
  | none => true
  | some f => f o i

/-- Static configuration of the symmetric operator: the external
collaborators (hash function, hash clauses, join qualifier, residual
qualifier), the null-fill flags derived from the join type, and the
planner-chosen table geometry for each side. -/
structure SymCfg where
  hashFn : Nat → Nat
  hashclauses : Row → Row → Bool
  joinqual : Option (Row → Row → Bool)
  otherqual : Option (Option Row → Option Row → Bool)
  fillInner : Bool
  fillOuter : Bool
  innerNbuckets : Nat
  innerNbatch : Nat
  outerNbuckets : Nat
  outerNbatch : Nat

/-- Modelled from the spec: the hash value the Hash node computes when it
inserts a pulled row into its own table (`ExecHashGetHashValue` with
`keep_nulls` true treats a NULL key as contributing nothing, i.e. hash 0). -/
def rowHashKept (cfg : SymCfg) (r : Row) : Nat :=
  match r.key with
  | some k => cfg.hashFn k
  | none => 0

/-- Modelled from the spec: `ExecHashGetHashValue` with `keep_nulls` false,
as called by the join state machine; returns `none` exactly on a NULL join
key ("row has a null join key, exclude from hashing"). -/
def execHashGetHashValue (cfg : SymCfg) (r : Row) : Option Nat :=
  r.key.map cfg.hashFn

/-- Result of one `ExecProcNode` call on a (modified) Hash child node. -/
structure HashNodeResult where
  slot : Option Row
  table : HashJoinTable
  rest : List Row
  flagNull : Bool
  insertHash : Nat
deriving Repr

/-- Modelled from the spec: `ExecProcNode` on the modified Hash node
(missing `nodeHash.c`): pull the next row of the input, insert it into the
node's own hash table (section 4.1), remember the insertion hash value in
`curInsertHashValue`, and report `insertTupleValueEqulNull` when the
pulled row's join key is NULL.  A NULL-keyed row is inserted (with kept
hash 0) only when the table is configured to retain nulls for outer-join
completion (section 4.2), otherwise it is skipped. -/
def hashNodeNext (cfg : SymCfg) (tbl : HashJoinTable) (input : List Row)
    (prevHash : Nat) : HashNodeResult :=
  match input with
  | [] => ⟨none, tbl, [], false, prevHash⟩
  | r :: rest =>
    match r.key with
    | some k => ⟨some r, execHashTableInsert tbl r (cfg.hashFn k), rest, false, cfg.hashFn k⟩
    | none =>
      if tbl.keepNulls then ⟨some r, execHashTableInsert tbl r 0, rest, true, 0⟩
      else ⟨some r, tbl, rest, true, prevHash⟩

/-- State machine constants of `ExecSymHashJoin`. -/
def HJ_BUILD_HASHTABLE : Nat := 1

/-- State constant `HJ_NEED_NEW_OUTER` of `ExecSymHashJoin`. -/
def HJ_NEED_NEW_OUTER : Nat := 2

/-- State constant `HJ_NEED_NEW_INNER` of `ExecSymHashJoin`. -/
def HJ_NEED_NEW_INNER : Nat := 3

/-- State constant `HJ_FILL_TUPLES` of `ExecSymHashJoin`. -/
def HJ_FILL_TUPLES : Nat := 4

/-- State constant `HJ_SCAN_OUTER_BUCKET` of `ExecSymHashJoin`. -/
def HJ_SCAN_OUTER_BUCKET : Nat := 5

/-- State constant `HJ_SCAN_INNER_BUCKET` of `ExecSymHashJoin`. -/
def HJ_SCAN_INNER_BUCKET : Nat := 6

/-- Mutable state of the symmetric hash-join operator: the mirror of the
`HashJoinState` fields used by `ExecSymHashJoin`, plus the two producers'
remaining inputs and a `(bucket, position)` cursor for the unmatched
(fill) scans of the missing `nodeHash.c` (shared between the two fill
scans just as `hj_CurBucketNo`/`hj_CurTuple` are). -/
structure SymState where
  jstate : Nat
  innerInput : List Row
  outerInput : List Row
  innerTupleNull : Bool
  outerTupleNull : Bool
  innerTable : HashJoinTable
  outerTable : HashJoinTable
  curHashValue : Nat
  curOutHashValue : Nat
  curBucketNo : Nat
  curTuple : Option Nat
  curOutTuple : Option Nat
  ecxtInner : Option Row
  ecxtOuter : Option Row
  innerInsertHash : Nat
  outerInsertHash : Nat
  firstFill : Bool
  fillInnerFinished : Bool
  fillOuterFinished : Bool
  fillBucketNo : Nat
  fillIdx : Nat
deriving DecidableEq, Repr

/-- Result of one iteration of the `for (;;)` dispatch loop of
`ExecSymHashJoin`: continue looping, return a projected tuple, return
NULL (end of stream), or raise `elog(ERROR, ...)`. -/
inductive StepResult where
  | next (s : SymState)
  | yield (out : JoinOut) (s : SymState)
  | done (s : SymState)
  | error
deriving DecidableEq, Repr

/-- Position at which a bucket scan resumes: `hj_CurTuple == NULL` means
the start of the chain, otherwise the position after the tuple the cursor
points at. -/
def startIdx : Option Nat → Nat
  | none => 0
  | some j => j + 1

/-- Modelled from the spec: the candidate search inside
`ExecScanHashBucket` (missing `nodeHash.c`): walk the bucket chain from
position `i`, returning the first tuple whose stored hash value equals the
probe hash and which passes the hash clauses (section 4.2's
BucketScanner). -/
def findFrom (h : Nat) (p : Row → Bool) (chain : List HashTuple) (i : Nat) :
    Option (Nat × HashTuple) :=
  if hlt : i < chain.length then
    let t := chain[i]
    if t.hashvalue = h && p t.row then some (i, t)
    else findFrom h p chain (i + 1)
  else none
termination_by chain.length - i
decreasing_by omega

/-- Modelled from the spec: search one bucket chain from position `i` for
the next tuple whose matched bit is unset (part of
`ExecScanHashTableForUnmatched`). -/
def findUnmatchedIn (chain : List HashTuple) (i : Nat) : Option (Nat × HashTuple) :=
  if hlt : i < chain.length then
    let t := chain[i]
    if t.matched then findUnmatchedIn chain (i + 1)
    else some (i, t)
  else none
termination_by chain.length - i
decreasing_by omega

/-- Modelled from the spec: `ExecScanHashTableForUnmatched` /
`ExecScanOutHashTableForUnmatched` (missing `nodeHash.c`): advance the
`(bucket, position)` cursor over the in-memory buckets to the next stored
tuple whose matched bit is unset (the spec's NullCompletionScanner). -/
def findUnmatched (bs : List (List HashTuple)) (b i : Nat) :
    Option (Nat × Nat × HashTuple) :=
  if hlt : b < bs.length then
    match findUnmatchedIn bs[b] i with
    | some (j, t) => some (b, j, t)
    | none => findUnmatched bs (b + 1) 0
  else none
termination_by bs.length - b
decreasing_by omega

/-- Case `HJ_BUILD_HASHTABLE` of `ExecSymHashJoin`: create the two hash
tables (`ExecHashTableCreate` with `HJ_FILL_INNER` for the inner table and
`HJ_FILL_OUTER` for the outer table) and move to `HJ_NEED_NEW_INNER`. -/
def stepBuildHashtable (cfg : SymCfg) (s : SymState) : StepResult :=
  .next { s with
    innerTable := mkHashTable cfg.innerNbuckets cfg.innerNbatch cfg.fillInner,
    outerTable := mkHashTable cfg.outerNbuckets cfg.outerNbatch cfg.fillOuter,
    jstate := HJ_NEED_NEW_INNER }

/-- Case `HJ_NEED_NEW_INNER` of `ExecSymHashJoin` (lines 124-165): pull
the next inner row through the Hash child, handle exhaustion and the
NULL-key skip, otherwise compute the probe hash against the outer table's
layout, reset the outer-bucket cursor and move to
`HJ_SCAN_OUTER_BUCKET`. -/
def stepNeedNewInner (cfg : SymCfg) (s : SymState) : StepResult :=
  if s.innerTupleNull then
    if s.outerTupleNull then .next { s with jstate := HJ_FILL_TUPLES }
    else .next { s with jstate := HJ_NEED_NEW_OUTER }
  else
    let res := hashNodeNext cfg s.innerTable s.innerInput s.innerInsertHash
    match res.slot with
    | none =>
      if !s.outerTupleNull then
        .next { s with innerTupleNull := true, jstate := HJ_NEED_NEW_OUTER }
      else if cfg.fillInner || cfg.fillOuter then
        .next { s with innerTupleNull := true, jstate := HJ_FILL_TUPLES }
      else .done { s with innerTupleNull := true }
    | some t =>
      let s1 := { s with innerTable := res.table, innerInput := res.rest,
                         innerInsertHash := res.insertHash }
      if res.flagNull then .next { s1 with jstate := HJ_NEED_NEW_OUTER }
      else
        match execHashGetHashValue cfg t with
        | some h =>
          .next { s1 with
            ecxtOuter := some t,
            ecxtInner := some t,
            curOutHashValue := h,
            curBucketNo := (execHashGetBucketAndBatch s1.outerTable h).1,
            curOutTuple := none,
            jstate := HJ_SCAN_OUTER_BUCKET }
        | none =>
          .next { s1 with ecxtOuter := none, jstate := HJ_NEED_NEW_OUTER }

/-- Case `HJ_NEED_NEW_OUTER` of `ExecSymHashJoin` (lines 169-209),
mirror image of `HJ_NEED_NEW_INNER`. -/
def stepNeedNewOuter (cfg : SymCfg) (s : SymState) : StepResult :=
  if s.outerTupleNull then
    if s.innerTupleNull then .next { s with jstate := HJ_FILL_TUPLES }
    else .next { s with jstate := HJ_NEED_NEW_INNER }
  else
    let res := hashNodeNext cfg s.outerTable s.outerInput s.outerInsertHash
    match res.slot with
    | none =>
      if !s.innerTupleNull then
        .next { s with outerTupleNull := true, jstate := HJ_NEED_NEW_INNER }
      else if cfg.fillInner || cfg.fillOuter then
        .next { s with outerTupleNull := true, jstate := HJ_FILL_TUPLES }
      else .done { s with outerTupleNull := true }
    | some t =>
      let s1 := { s with outerTable := res.table, outerInput := res.rest,
                         outerInsertHash := res.insertHash }
      if res.flagNull then .next { s1 with jstate := HJ_NEED_NEW_INNER }
      else
        match execHashGetHashValue cfg t with
        | some h =>
          .next { s1 with
            ecxtOuter := some t,
            curHashValue := h,
            curBucketNo := (execHashGetBucketAndBatch s1.innerTable h).1,
            curTuple := none,
            jstate := HJ_SCAN_INNER_BUCKET }
        | none =>
          .next { s1 with ecxtOuter := none, jstate := HJ_NEED_NEW_INNER }

/-- Case `HJ_SCAN_OUTER_BUCKET` of `ExecSymHashJoin` (lines 211-241):
advance the scan of the outer table's bucket for the current inner tuple;
on a candidate passing `joinqual`, set the matched bits on the candidate
(`hj_CurOutTuple`) and on the head of the inner table's bucket for
`curInsertHashValue`, then emit through `otherqual`.  A probe without a
current inner tuple would dereference a NULL slot in C; modelled as an
internal error. -/
def stepScanOuterBucket (cfg : SymCfg) (s : SymState) : StepResult :=
  match s.ecxtInner with
  | none => .error
  | some pulled =>
    match findFrom s.curOutHashValue (fun r => cfg.hashclauses r pulled)
        (s.outerTable.bucket s.curBucketNo) (startIdx s.curOutTuple) with
    | none => .next { s with jstate := HJ_NEED_NEW_OUTER }
    | some (j, cand) =>
      let s1 := { s with curOutTuple := some j, ecxtOuter := some cand.row }
      if evalJoinQual cfg.joinqual cand.row pulled then
        let s2 := { s1 with
          outerTable := setMatchAt s1.outerTable s.curBucketNo j,
          innerTable := setMatchHead s1.innerTable
            (execHashGetBucketAndBatch s1.innerTable s.innerInsertHash).1 }
        if evalOtherQual cfg.otherqual (some cand.row) (some pulled) then
          .yield (some cand.row, some pulled) s2
        else .next s2
      else .next s1

/-- Case `HJ_SCAN_INNER_BUCKET` of `ExecSymHashJoin` (lines 243-272),
mirror image of `HJ_SCAN_OUTER_BUCKET`. -/
def stepScanInnerBucket (cfg : SymCfg) (s : SymState) : StepResult :=
  match s.ecxtOuter with
  | none => .error
  | some pulled =>
    match findFrom s.curHashValue (fun r => cfg.hashclauses pulled r)
        (s.innerTable.bucket s.curBucketNo) (startIdx s.curTuple) with
    | none => .next { s with jstate := HJ_NEED_NEW_INNER }
    | some (j, cand) =>
      let s1 := { s with curTuple := some j, ecxtInner := some cand.row }
      if evalJoinQual cfg.joinqual pulled cand.row then
        let s2 := { s1 with
          innerTable := setMatchAt s1.innerTable s.curBucketNo j,
          outerTable := setMatchHead s1.outerTable
            (execHashGetBucketAndBatch s1.outerTable s.outerInsertHash).1 }
        if evalOtherQual cfg.otherqual (some pulled) (some cand.row) then
          .yield (some pulled, some cand.row) s2
        else .next s2
      else .next s1

/-- Case `HJ_FILL_TUPLES` of `ExecSymHashJoin` (lines 274-312): on the
first visit reset the unmatched-scan cursor
(`ExecPrepHashTableForUnmatched`); scan the inner table for unmatched
tuples when `HJ_FILL_INNER`, emitting each padded with the null outer
slot; when that scan finishes, re-arm the cursor and scan the outer table
when `HJ_FILL_OUTER`, emitting each unmatched tuple padded with the null
inner slot; when the outer scan (or neither scan) applies no longer,
return NULL. -/
def stepFillTuples (cfg : SymCfg) (s : SymState) : StepResult :=
  let s0 := if s.firstFill then
    { s with firstFill := false, fillBucketNo := 0, fillIdx := 0 } else s
  if !s0.fillInnerFinished && cfg.fillInner then
    match findUnmatched s0.innerTable.buckets s0.fillBucketNo s0.fillIdx with
    | none => .next { s0 with fillInnerFinished := true, firstFill := true }
    | some (b, j, t) =>
      let s1 := { s0 with fillBucketNo := b, fillIdx := j + 1,
                          ecxtOuter := none, ecxtInner := some t.row }
      if evalOtherQual cfg.otherqual none (some t.row) then
        .yield (none, some t.row) s1
      else .next s1
  else if !s0.fillOuterFinished && cfg.fillOuter then
    match findUnmatched s0.outerTable.buckets s0.fillBucketNo s0.fillIdx with
    | none => .done { s0 with fillOuterFinished := true }
    | some (b, j, t) =>
      let s1 := { s0 with fillBucketNo := b, fillIdx := j + 1,
                          ecxtInner := none, ecxtOuter := some t.row }
      if evalOtherQual cfg.otherqual (some t.row) none then
        .yield (some t.row, none) s1
      else .next s1
  else .done s0

/-- One iteration of the `for (;;)` state dispatch of `ExecSymHashJoin`;
the `default` case raises `elog(ERROR, "unrecognized hashjoin state")`. -/
def symStep (cfg : SymCfg) (s : SymState) : StepResult :=
  if s.jstate = HJ_BUILD_HASHTABLE then stepBuildHashtable cfg s
  else if s.jstate = HJ_NEED_NEW_OUTER then stepNeedNewOuter cfg s
  else if s.jstate = HJ_NEED_NEW_INNER then stepNeedNewInner cfg s
  else if s.jstate = HJ_FILL_TUPLES then stepFillTuples cfg s
  else if s.jstate = HJ_SCAN_OUTER_BUCKET then stepScanOuterBucket cfg s
  else if s.jstate = HJ_SCAN_INNER_BUCKET then stepScanInnerBucket cfg s
  else .error

/-- Drain the operator: iterate the dispatch loop, collecting every
returned tuple together with the state-machine state it was returned
from, until the operator returns NULL (end of stream).  `fuel` bounds the
number of loop iterations; `none` means fuel ran out (or the internal
error was raised). -/
def symDrainTr (cfg : SymCfg) : Nat → SymState → Option (List (Nat × JoinOut) × SymState)
  | 0, _ => none
  | fuel + 1, s =>
    match symStep cfg s with
    | .done s2 => some ([], s2)
    | .error => none
    | .yield out s2 =>
      match symDrainTr cfg fuel s2 with
      | none => none
      | some (tr, fin) => some ((s.jstate, out) :: tr, fin)
    | .next s2 => symDrainTr cfg fuel s2

/-- Drain the operator, keeping only the stream of returned tuples and the
final state. -/
def symDrain (cfg : SymCfg) (fuel : Nat) (s : SymState) :
    Option (List JoinOut × SymState) :=
  (symDrainTr cfg fuel s).map (fun p => (p.1.map Prod.snd, p.2))

/-- Whether `ExecInitSymHashJoin` sets up `hj_NullInnerTupleSlot`
(`HJ_FILL_OUTER`): join types LEFT, ANTI and FULL. -/
def fillsOuter : JoinType → Bool
  | .left => true
  | .anti => true
  | .full => true
  | _ => false

/-- Whether `ExecInitSymHashJoin` sets up `hj_NullOuterTupleSlot`
(`HJ_FILL_INNER`): join types RIGHT and FULL. -/
def fillsInner : JoinType → Bool
  | .right => true
  | .full => true
  | _ => false

/-- The initialization `ExecInitSymHashJoin`: derive the null-fill
configuration from the join type and produce the initial machine state
(`hj_JoinState = HJ_BUILD_HASHTABLE`, both exhaustion flags false, fill
bookkeeping as in lines 463-470).  The table fields start as empty
placeholders standing for the NULL `hj_HashTable`/`hj_outerHashTable`
pointers; `HJ_BUILD_HASHTABLE` creates the real tables. -/
def execInitSymHashJoin (jt : JoinType) (hashFn : Nat → Nat)
    (hc : Row → Row → Bool) (jq : Option (Row → Row → Bool))
    (oq : Option (Option Row → Option Row → Bool))
    (inb ibt onb obt : Nat) (innerRows outerRows : List Row) :
    SymCfg × SymState :=
  let cfg : SymCfg :=
    { hashFn := hashFn, hashclauses := hc, joinqual := jq, otherqual := oq,
      fillInner := fillsInner jt, fillOuter := fillsOuter jt,
      innerNbuckets := inb, innerNbatch := ibt,
      outerNbuckets := onb, outerNbatch := obt }
  (cfg,
    { jstate := HJ_BUILD_HASHTABLE,
      innerInput := innerRows, outerInput := outerRows,
      innerTupleNull := false, outerTupleNull := false,
      innerTable := mkHashTable inb ibt cfg.fillInner,
      outerTable := mkHashTable onb obt cfg.fillOuter,
      curHashValue := 0, curOutHashValue := 0, curBucketNo := 0,
      curTuple := none, curOutTuple := none,
      ecxtInner := none, ecxtOuter := none,
      innerInsertHash := 0, outerInsertHash := 0,
      firstFill := true, fillInnerFinished := false, fillOuterFinished := false,
      fillBucketNo := 0, fillIdx := 0 })

/-! ### Characterization of the bucket scan and the unmatched scans -/

/-- The stream of outputs a bucket scan would still emit from position
`start` on: every chain tuple with the probe hash value, sent through the
emission filter `sel` (which performs the qualifier checks). -/
def scanEmits (h : Nat) (sel : Row → Option JoinOut) (chain : List HashTuple)
    (start : Nat) : List JoinOut :=
  (chain.drop start).filterMap (fun t => if t.hashvalue = h then sel t.row else none)

theorem scanEmits_of_ge (h : Nat) (sel : Row → Option JoinOut)
    (chain : List HashTuple) (start : Nat) (hge : chain.length ≤ start) :
    scanEmits h sel chain start = [] := by
  unfold scanEmits
  rw [List.drop_eq_nil_of_le hge]
  rfl

theorem findFrom_none_emits (h : Nat) (p : Row → Bool) (chain : List HashTuple)
    (sel : Row → Option JoinOut) (hsel : ∀ r, p r = false → sel r = none) :
    ∀ start, findFrom h p chain start = none → scanEmits h sel chain start = [] := by
  have main : ∀ d start, chain.length - start ≤ d →
      findFrom h p chain start = none → scanEmits h sel chain start = [] := by
    intro d
    induction d with
    | zero =>
      intro start hd _
      exact scanEmits_of_ge h sel chain start (by omega)
    | succ d ih =>
      intro start hd hf
      by_cases hlt : start < chain.length
      · unfold findFrom at hf
        rw [dif_pos hlt] at hf
        simp only [] at hf
        by_cases hcond : (chain[start].hashvalue = h && p chain[start].row) = true
        · rw [if_pos hcond] at hf
          exact absurd hf (by simp)
        · rw [if_neg hcond] at hf
          have hrest := ih (start + 1) (by omega) hf
          unfold scanEmits
          rw [List.drop_eq_getElem_cons hlt, List.filterMap_cons]
          have hnone : (if chain[start].hashvalue = h then sel chain[start].row else none) = none := by
            by_cases hh : chain[start].hashvalue = h
            · rw [if_pos hh]
              apply hsel
              simpa [hh] using hcond
            · rw [if_neg hh]
          rw [hnone]
          exact hrest
      · exact scanEmits_of_ge h sel chain start (by omega)
  intro start
  exact main (chain.length - start) start (Nat.le_refl _)

theorem findFrom_some_emits (h : Nat) (p : Row → Bool) (chain : List HashTuple)
    (sel : Row → Option JoinOut) (hsel : ∀ r, p r = false → sel r = none) :
    ∀ start j t, findFrom h p chain start = some (j, t) →
      start ≤ j ∧ j < chain.length ∧ chain[j]? = some t ∧
      t.hashvalue = h ∧ p t.row = true ∧
      scanEmits h sel chain start = (sel t.row).toList ++ scanEmits h sel chain (j + 1) := by
  have main : ∀ d start, chain.length - start ≤ d → ∀ j t,
      findFrom h p chain start = some (j, t) →
      start ≤ j ∧ j < chain.length ∧ chain[j]? = some t ∧
      t.hashvalue = h ∧ p t.row = true ∧
      scanEmits h sel chain start = (sel t.row).toList ++ scanEmits h sel chain (j + 1) := by
    intro d
    induction d with
    | zero =>
      intro start hd j t hf
      unfold findFrom at hf
      rw [dif_neg (by omega)] at hf
      exact absurd hf (by simp)
    | succ d ih =>
      intro start hd j t hf
      by_cases hlt : start < chain.length
      · unfold findFrom at hf
        rw [dif_pos hlt] at hf
        simp only [] at hf
        by_cases hcond : (chain[start].hashvalue = h && p chain[start].row) = true
        · rw [if_pos hcond] at hf
          have hj : start = j := congrArg Prod.fst ((Option.some.injEq _ _).mp hf)
          have ht : chain[start] = t := congrArg Prod.snd ((Option.some.injEq _ _).mp hf)
          subst hj
          simp only [Bool.and_eq_true, decide_eq_true_eq] at hcond
          refine ⟨Nat.le_refl _, hlt, ?_, ?_, ?_, ?_⟩
          · rw [List.getElem?_eq_getElem hlt, ht]
          · rw [← ht]; exact hcond.1
          · rw [← ht]; exact hcond.2
          · unfold scanEmits
            rw [List.drop_eq_getElem_cons hlt, List.filterMap_cons, ht, if_pos (by rw [← ht]; exact hcond.1)]
            cases hse : sel t.row with
            | none => simp [hse]
            | some out => simp [hse]
        · rw [if_neg hcond] at hf
          obtain ⟨h1, h2, h3, h4, h5, h6⟩ := ih (start + 1) (by omega) j t hf
          refine ⟨by omega, h2, h3, h4, h5, ?_⟩
          unfold scanEmits
          rw [List.drop_eq_getElem_cons hlt, List.filterMap_cons]
          have hnone : (if chain[start].hashvalue = h then sel chain[start].row else none) = none := by
            by_cases hh : chain[start].hashvalue = h
            · rw [if_pos hh]
              apply hsel
              simpa [hh] using hcond
            · rw [if_neg hh]
          rw [hnone]
          exact h6
      · unfold findFrom at hf
        rw [dif_neg hlt] at hf
        exact absurd hf (by simp)
  intro start
  exact main (chain.length - start) start (Nat.le_refl _)

/-- The stored tuples the unmatched scan has not visited yet from cursor
`(b, i)` on: the rest of bucket `b` followed by all later buckets. -/
def remList (bs : List (List HashTuple)) (b i : Nat) : List HashTuple :=
  (bs.getD b []).drop i ++ (bs.drop (b + 1)).flatMap (fun c => c)

theorem remList_of_ge (bs : List (List HashTuple)) (b i : Nat)
    (hge : bs.length ≤ b) : remList bs b i = [] := by
  unfold remList
  have h2 : bs.drop (b + 1) = [] := List.drop_eq_nil_of_le (by omega)
  rw [List.getD_eq_default bs [] hge, h2]
  simp

theorem remList_zero (bs : List (List HashTuple)) (c : Nat) :
    remList bs c 0 = (bs.drop c).flatMap (fun x => x) := by
  by_cases hc : c < bs.length
  · unfold remList
    rw [List.drop_eq_getElem_cons hc, List.flatMap_cons, List.drop_zero,
      List.getD_eq_getElem bs [] hc]
  · rw [remList_of_ge bs c 0 (by omega)]
    have h1 : bs.drop c = [] := List.drop_eq_nil_of_le (by omega)
    rw [h1]
    rfl

theorem findUnmatchedIn_none (chain : List HashTuple) :
    ∀ i, findUnmatchedIn chain i = none →
      ∀ t ∈ chain.drop i, t.matched = true := by
  have main : ∀ d i, chain.length - i ≤ d → findUnmatchedIn chain i = none →
      ∀ t ∈ chain.drop i, t.matched = true := by
    intro d
    induction d with
    | zero =>
      intro i hd _ t ht
      rw [List.drop_eq_nil_of_le (by omega)] at ht
      exact absurd ht (by simp)
    | succ d ih =>
      intro i hd hf t ht
      by_cases hlt : i < chain.length
      · unfold findUnmatchedIn at hf
        rw [dif_pos hlt] at hf
        simp only [] at hf
        by_cases hmt : chain[i].matched = true
        · rw [if_pos hmt] at hf
          rw [List.drop_eq_getElem_cons hlt] at ht
          rcases List.mem_cons.mp ht with hh | hh
          · rw [hh]; exact hmt
          · exact ih (i + 1) (by omega) hf t hh
        · rw [if_neg hmt] at hf
          exact absurd hf (by simp)
      · rw [List.drop_eq_nil_of_le (by omega)] at ht
        exact absurd ht (by simp)
  intro i
  exact main (chain.length - i) i (Nat.le_refl _)

theorem findUnmatchedIn_some (chain : List HashTuple) :
    ∀ i j t, findUnmatchedIn chain i = some (j, t) →
      i ≤ j ∧ j < chain.length ∧ chain[j]? = some t ∧ t.matched = false ∧
      ∃ pre, chain.drop i = pre ++ t :: chain.drop (j + 1) ∧
        ∀ u ∈ pre, u.matched = true := by
  have main : ∀ d i, chain.length - i ≤ d → ∀ j t,
      findUnmatchedIn chain i = some (j, t) →
      i ≤ j ∧ j < chain.length ∧ chain[j]? = some t ∧ t.matched = false ∧
      ∃ pre, chain.drop i = pre ++ t :: chain.drop (j + 1) ∧
        ∀ u ∈ pre, u.matched = true := by
    intro d
    induction d with
    | zero =>
      intro i hd j t hf
      unfold findUnmatchedIn at hf
      rw [dif_neg (by omega)] at hf
      exact absurd hf (by simp)
    | succ d ih =>
      intro i hd j t hf
      by_cases hlt : i < chain.length
      · unfold findUnmatchedIn at hf
        rw [dif_pos hlt] at hf
        simp only [] at hf
        by_cases hmt : chain[i].matched = true
        · rw [if_pos hmt] at hf
          obtain ⟨h1, h2, h3, h4, pre, hpre, hprem⟩ := ih (i + 1) (by omega) j t hf
          refine ⟨by omega, h2, h3, h4, chain[i] :: pre, ?_, ?_⟩
          · rw [List.drop_eq_getElem_cons hlt, hpre]
            rfl
          · intro u hu
            rcases List.mem_cons.mp hu with hh | hh
            · rw [hh]; exact hmt
            · exact hprem u hh
        · rw [if_neg hmt] at hf
          have hj : i = j := congrArg Prod.fst ((Option.some.injEq _ _).mp hf)
          have ht : chain[i] = t := congrArg Prod.snd ((Option.some.injEq _ _).mp hf)
          subst hj
          refine ⟨Nat.le_refl _, hlt, ?_, ?_, [], ?_, by intro u hu; exact absurd hu (by simp)⟩
          · rw [List.getElem?_eq_getElem hlt, ht]
          · rw [← ht]
            simpa using hmt
          · rw [List.drop_eq_getElem_cons hlt, ht]
            rfl
      · unfold findUnmatchedIn at hf
        rw [dif_neg hlt] at hf
        exact absurd hf (by simp)
  intro i
  exact main (chain.length - i) i (Nat.le_refl _)

theorem findUnmatched_none (bs : List (List HashTuple)) :
    ∀ b i, findUnmatched bs b i = none →
      ∀ t ∈ remList bs b i, t.matched = true := by
  have main : ∀ d b, bs.length - b ≤ d → ∀ i, findUnmatched bs b i = none →
      ∀ t ∈ remList bs b i, t.matched = true := by
    intro d
    induction d with
    | zero =>
      intro b hd i _ t ht
      rw [remList_of_ge bs b i (by omega)] at ht
      exact absurd ht (by simp)
    | succ d ih =>
      intro b hd i hf t ht
      by_cases hlt : b < bs.length
      · unfold findUnmatched at hf
        rw [dif_pos hlt] at hf
        cases hin : findUnmatchedIn bs[b] i with
        | some p =>
          rw [hin] at hf
          exact absurd hf (by simp)
        | none =>
          rw [hin] at hf
          unfold remList at ht
          rw [List.getD_eq_getElem bs [] hlt] at ht
          rcases List.mem_append.mp ht with hh | hh
          · exact findUnmatchedIn_none bs[b] i hin t hh
          · have := ih (b + 1) (by omega) 0 hf t
            rw [remList_zero] at this
            exact this hh
      · rw [remList_of_ge bs b i (by omega)] at ht
        exact absurd ht (by simp)
  intro b
  exact main (bs.length - b) b (Nat.le_refl _)

theorem findUnmatched_some (bs : List (List HashTuple)) :
    ∀ b i bb j t, findUnmatched bs b i = some (bb, j, t) →
      b ≤ bb ∧ bb < bs.length ∧ t.matched = false ∧
      ∃ pre, remList bs b i = pre ++ t :: remList bs bb (j + 1) ∧
        ∀ u ∈ pre, u.matched = true := by
  have main : ∀ d b, bs.length - b ≤ d → ∀ i bb j t,
      findUnmatched bs b i = some (bb, j, t) →
      b ≤ bb ∧ bb < bs.length ∧ t.matched = false ∧
      ∃ pre, remList bs b i = pre ++ t :: remList bs bb (j + 1) ∧
        ∀ u ∈ pre, u.matched = true := by
    intro d
    induction d with
    | zero =>
      intro b hd i bb j t hf
      unfold findUnmatched at hf
      rw [dif_neg (by omega)] at hf
      exact absurd hf (by simp)
    | succ d ih =>
      intro b hd i bb j t hf
      by_cases hlt : b < bs.length
      · unfold findUnmatched at hf
        rw [dif_pos hlt] at hf
        cases hin : findUnmatchedIn bs[b] i with
        | some p =>
          rw [hin] at hf
          have hbb : b = bb := congrArg (fun q => q.1) ((Option.some.injEq _ _).mp hf)
          have hp1 : p.1 = j := by
            have := congrArg (fun q => q.2.1) ((Option.some.injEq _ _).mp hf)
            simpa using this
          have hp2 : p.2 = t := by
            have := congrArg (fun q => q.2.2) ((Option.some.injEq _ _).mp hf)
            simpa using this
          subst hbb
          obtain ⟨h1, h2, h3, h4, pre, hpre, hprem⟩ :=
            findUnmatchedIn_some bs[b] i j t (by rw [← hp1, ← hp2]; simpa using hin)
          refine ⟨Nat.le_refl _, hlt, h4, pre, ?_, hprem⟩
          unfold remList
          rw [List.getD_eq_getElem bs [] hlt, hpre]
          simp [List.append_assoc]
        | none =>
          rw [hin] at hf
          obtain ⟨h1, h2, h3, pre, hpre, hprem⟩ := ih (b + 1) (by omega) 0 bb j t hf
          refine ⟨by omega, h2, h3, (bs[b].drop i) ++ pre, ?_, ?_⟩
          · unfold remList
            rw [List.getD_eq_getElem bs [] hlt]
            rw [remList_zero] at hpre
            have hflat : (bs.drop (b + 1)).flatMap (fun c => c) = pre ++ t :: remList bs bb (j + 1) := hpre
            rw [hflat]
            exact (List.append_assoc _ _ _).symm
          · intro u hu
            rcases List.mem_append.mp hu with hh | hh
            · exact findUnmatchedIn_none bs[b] i hin u hh
            · exact hprem u hh
      · unfold findUnmatched at hf
        rw [dif_neg hlt] at hf
        exact absurd hf (by simp)
  intro b
  exact main (bs.length - b) b (Nat.le_refl _)

/-! ### The effective match predicate and multiset bookkeeping -/

/-- The combined per-pair predicate an emitted match satisfies: the hash
clauses (checked inside the bucket scan), then `joinqual`, then
`otherqual`, in the order the state machine evaluates them. -/
def matchB (cfg : SymCfg) (o i : Row) : Bool :=
  cfg.hashclauses o i &&
    (evalJoinQual cfg.joinqual o i && evalOtherQual cfg.otherqual (some o) (some i))

/-- The output produced for the pair `(o, i)` when it matches. -/
def matchOut (cfg : SymCfg) (o i : Row) : Option JoinOut :=
  if matchB cfg o i then some (some o, some i) else none

/-- The nested-loop reference join of spec section 8: every outer/inner
pair is tested against the same predicate and emitted on success. -/
def nestedLoopJoin (cfg : SymCfg) (outerRows innerRows : List Row) : List JoinOut :=
  outerRows.flatMap (fun o => innerRows.filterMap (fun i => matchOut cfg o i))

/-- Multiset of joined outputs over multisets of outer and inner rows. -/
def pairsMM (cfg : SymCfg) (os is : Multiset Row) : Multiset JoinOut :=
  os.bind (fun o => is.filterMap (fun i => matchOut cfg o i))

theorem ms_filterMap_cons {α β : Type} (f : α → Option β) (a : α) (s : Multiset α) :
    Multiset.filterMap f (a ::ₘ s) = (↑(f a).toList : Multiset β) + Multiset.filterMap f s := by
  cases h : f a with
  | none => rw [Multiset.filterMap_cons_none a s h]; simp
  | some b =>
    rw [Multiset.filterMap_cons_some f a s h]
    simp [Multiset.singleton_add]

theorem bind_toList_eq_filterMap {α β : Type} (g : α → Option β) (s : Multiset α) :
    (s.bind fun a => (↑(g a).toList : Multiset β)) = Multiset.filterMap g s := by
  induction s using Multiset.induction with
  | empty => simp
  | cons a s ih => rw [Multiset.cons_bind, ih, ms_filterMap_cons]

theorem pairsMM_zero_left (cfg : SymCfg) (is : Multiset Row) :
    pairsMM cfg 0 is = 0 :=
  Multiset.zero_bind _

theorem pairsMM_zero_right (cfg : SymCfg) (os : Multiset Row) :
    pairsMM cfg os 0 = 0 := by
  unfold pairsMM
  simp

theorem pairsMM_cons_left (cfg : SymCfg) (o : Row) (os is : Multiset Row) :
    pairsMM cfg (o ::ₘ os) is =
      Multiset.filterMap (fun i => matchOut cfg o i) is + pairsMM cfg os is :=
  Multiset.cons_bind _ _ _

theorem pairsMM_add_left (cfg : SymCfg) (os os2 is : Multiset Row) :
    pairsMM cfg (os + os2) is = pairsMM cfg os is + pairsMM cfg os2 is :=
  Multiset.add_bind _ _ _

theorem pairsMM_cons_right (cfg : SymCfg) (i : Row) (os is : Multiset Row) :
    pairsMM cfg os (i ::ₘ is) =
      Multiset.filterMap (fun o => matchOut cfg o i) os + pairsMM cfg os is := by
  unfold pairsMM
  have hpt : ∀ o : Row, (i ::ₘ is).filterMap (fun j => matchOut cfg o j)
      = (↑(matchOut cfg o i).toList : Multiset JoinOut) + is.filterMap (fun j => matchOut cfg o j) := by
    intro o
    exact ms_filterMap_cons _ _ _
  calc os.bind (fun o => (i ::ₘ is).filterMap (fun j => matchOut cfg o j))
      = os.bind (fun o => (↑(matchOut cfg o i).toList : Multiset JoinOut)
          + is.filterMap (fun j => matchOut cfg o j)) := by
        exact Multiset.bind_congr (fun o _ => hpt o)
    _ = os.bind (fun o => (↑(matchOut cfg o i).toList : Multiset JoinOut))
          + os.bind (fun o => is.filterMap (fun j => matchOut cfg o j)) :=
        Multiset.bind_add _ _ _
    _ = Multiset.filterMap (fun o => matchOut cfg o i) os
          + os.bind (fun o => is.filterMap (fun j => matchOut cfg o j)) := by
        rw [bind_toList_eqFM]
where
  bind_toList_eqFM := bind_toList_eq_filterMap (fun o => matchOut cfg o i) os

theorem pairsMM_singleton_left (cfg : SymCfg) (o : Row) (is : Multiset Row) :
    pairsMM cfg {o} is = Multiset.filterMap (fun i => matchOut cfg o i) is :=
  Multiset.singleton_bind _ _

theorem pairsMM_singleton_right (cfg : SymCfg) (i : Row) (os : Multiset Row) :
    pairsMM cfg os {i} = Multiset.filterMap (fun o => matchOut cfg o i) os := by
  have := pairsMM_cons_right cfg i os 0
  rw [pairsMM_zero_right] at this
  simpa using this

theorem nestedLoopJoin_eq_pairsMM (cfg : SymCfg) (outerRows innerRows : List Row) :
    (↑(nestedLoopJoin cfg outerRows innerRows) : Multiset JoinOut)
      = pairsMM cfg ↑outerRows ↑innerRows := by
  induction outerRows with
  | nil => simp [nestedLoopJoin, pairsMM]
  | cons o os ih =>
    rw [nestedLoopJoin, List.flatMap_cons, ← Multiset.coe_add]
    have hcoe : (↑(o :: os) : Multiset Row) = o ::ₘ ↑os := rfl
    rw [hcoe, pairsMM_cons_left, ← ih]
    rfl

/-! ### Rows stored in a table -/

/-- All rows stored in the in-memory buckets, in bucket order. -/
def tableRowsL (tbl : HashJoinTable) : List Row :=
  tbl.buckets.flatMap (fun ch => ch.map (fun t => t.row))

/-- Multiset of rows stored in the in-memory buckets. -/
def tableRowsM (tbl : HashJoinTable) : Multiset Row :=
  ↑(tableRowsL tbl)

theorem tableRows_mk (nbuckets nbatch : Nat) (keep : Bool) :
    tableRowsL (mkHashTable nbuckets nbatch keep) = [] := by
  unfold tableRowsL mkHashTable
  induction nbuckets with
  | zero => rfl
  | succ n ih =>
    rw [List.replicate_succ, List.flatMap_cons]
    simp only [List.map_nil, List.nil_append]
    exact ih

theorem flatMap_set_ms {α β : Type} (f : α → List β) (bs : List α) :
    ∀ b, ∀ hb : b < bs.length, ∀ v : α,
      (↑((bs.set b v).flatMap f) : Multiset β) + ↑(f bs[b])
        = ↑(bs.flatMap f) + ↑(f v) := by
  induction bs with
  | nil => intro b hb; exact absurd hb (by simp)
  | cons a t ih =>
    intro b hb v
    cases b with
    | zero =>
      rw [List.set_cons_zero, List.flatMap_cons, List.flatMap_cons]
      have h1 : (↑((f v) ++ t.flatMap f) : Multiset β) = ↑(f v) + ↑(t.flatMap f) :=
        (Multiset.coe_add _ _).symm
      have h2 : (↑((f a) ++ t.flatMap f) : Multiset β) = ↑(f a) + ↑(t.flatMap f) :=
        (Multiset.coe_add _ _).symm
      rw [h1, h2]
      have hget : (a :: t)[0] = a := rfl
      rw [hget]
      abel
    | succ b =>
      rw [List.set_cons_succ, List.flatMap_cons, List.flatMap_cons]
      have hb2 : b < t.length := by simpa using hb
      have h1 : (↑((f a) ++ (t.set b v).flatMap f) : Multiset β) = ↑(f a) + ↑((t.set b v).flatMap f) :=
        (Multiset.coe_add _ _).symm
      have h2 : (↑((f a) ++ t.flatMap f) : Multiset β) = ↑(f a) + ↑(t.flatMap f) :=
        (Multiset.coe_add _ _).symm
      rw [h1, h2]
      have hget : (a :: t)[b + 1] = t[b] := rfl
      rw [hget]
      have := ih b hb2 v
      rw [add_assoc, this, ← add_assoc]

theorem tableRowsM_insert (tbl : HashJoinTable) (r : Row) (h : Nat)
    (hbatch : h % tbl.nbatch = tbl.curbatch)
    (hbuck : h % tbl.nbuckets < tbl.buckets.length) :
    tableRowsM (execHashTableInsert tbl r h) = r ::ₘ tableRowsM tbl := by
  unfold execHashTableInsert
  simp only [hbatch, if_pos rfl]
  unfold tableRowsM tableRowsL
  have hset := flatMap_set_ms (fun ch => ch.map (fun t => t.row)) tbl.buckets
    (h % tbl.nbuckets) hbuck (⟨r, h, false⟩ :: tbl.bucket (h % tbl.nbuckets))
  have hbucketEq : tbl.bucket (h % tbl.nbuckets) = tbl.buckets[h % tbl.nbuckets] := by
    unfold HashJoinTable.bucket
    exact List.getD_eq_getElem tbl.buckets [] hbuck
  rw [hbucketEq] at hset
  have hmap : ((⟨r, h, false⟩ : HashTuple) :: tbl.buckets[h % tbl.nbuckets]).map (fun t => t.row)
      = r :: (tbl.buckets[h % tbl.nbuckets]).map (fun t => t.row) := rfl
  rw [hmap] at hset
  have hcons : (↑(r :: (tbl.buckets[h % tbl.nbuckets]).map (fun t => t.row)) : Multiset Row)
      = r ::ₘ ↑((tbl.buckets[h % tbl.nbuckets]).map (fun t => t.row)) := rfl
  rw [hcons] at hset
  have key : (↑((tbl.buckets.set (h % tbl.nbuckets)
        (⟨r, h, false⟩ :: tbl.buckets[h % tbl.nbuckets])).flatMap (fun ch => ch.map (fun t => t.row))) : Multiset Row)
      = r ::ₘ ↑(tbl.buckets.flatMap (fun ch => ch.map (fun t => t.row))) := by
    have hswap : r ::ₘ (↑(tbl.buckets.flatMap (fun ch => ch.map (fun t => t.row))) : Multiset Row)
        + ↑((tbl.buckets[h % tbl.nbuckets]).map (fun t => t.row))
        = ↑(tbl.buckets.flatMap (fun ch => ch.map (fun t => t.row)))
        + (r ::ₘ ↑((tbl.buckets[h % tbl.nbuckets]).map (fun t => t.row))) := by
      rw [Multiset.cons_add, Multiset.add_cons]
    have := hset.trans hswap.symm
    exact add_right_cancel this
  rw [hbucketEq]
  exact key

/-! ### Bucket accessors and matched-bit operations preserve stored rows -/

theorem bucket_set (bs : List (List HashTuple)) (b : Nat) (v : List HashTuple) (c : Nat) :
    (bs.set b v).getD c [] =
      if c = b ∧ b < bs.length then v else bs.getD c [] := by
  by_cases hcb : c = b
  · subst hcb
    by_cases hlt : c < bs.length
    · rw [if_pos ⟨rfl, hlt⟩, List.getD_eq_getElem?_getD, List.getElem?_set_eq_of_lt _ hlt]
      rfl
    · rw [if_neg (by tauto), List.set_eq_of_length_le (by omega)]
  · rw [if_neg (by tauto), List.getD_eq_getElem?_getD, List.getD_eq_getElem?_getD,
      List.getElem?_set_ne (by omega)]

theorem listModify_map {α β : Type} (f : α → α) (g : α → β)
    (hfg : ∀ a, g (f a) = g a) :
    ∀ (ch : List α) (j : Nat), (listModify ch j f).map g = ch.map g := by
  intro ch
  induction ch with
  | nil => intro j; rfl
  | cons a t ih =>
    intro j
    cases j with
    | zero => simp [listModify, hfg]
    | succ j => simp [listModify, ih j]

theorem listModify_length {α : Type} (f : α → α) :
    ∀ (ch : List α) (j : Nat), (listModify ch j f).length = ch.length := by
  intro ch
  induction ch with
  | nil => intro j; rfl
  | cons a t ih =>
    intro j
    cases j with
    | zero => simp [listModify]
    | succ j => simp [listModify, ih j]

theorem listModify_mem {α : Type} (f : α → α) :
    ∀ (ch : List α) (j : Nat), ∀ x ∈ listModify ch j f, x ∈ ch ∨ ∃ a ∈ ch, x = f a := by
  intro ch
  induction ch with
  | nil => intro j x hx; exact absurd hx (by simp [listModify])
  | cons a t ih =>
    intro j x hx
    cases j with
    | zero =>
      simp only [listModify] at hx
      rcases List.mem_cons.mp hx with hh | hh
      · exact Or.inr ⟨a, by simp, hh⟩
      · exact Or.inl (List.mem_cons.mpr (Or.inr hh))
    | succ j =>
      simp only [listModify] at hx
      rcases List.mem_cons.mp hx with hh | hh
      · exact Or.inl (by simp [hh])
      · rcases ih j x hh with h1 | ⟨b, hb, hbx⟩
        · exact Or.inl (List.mem_cons.mpr (Or.inr h1))
        · exact Or.inr ⟨b, List.mem_cons.mpr (Or.inr hb), hbx⟩

theorem setMatchHead_eq_setMatchAt (tbl : HashJoinTable) (b : Nat) :
    setMatchHead tbl b = setMatchAt tbl b 0 := rfl

theorem tableRowsM_set_modify (tbl : HashJoinTable) (b : Nat) (v : List HashTuple)
    (hv : v.map (fun t => t.row) = (tbl.bucket b).map (fun t => t.row)) :
    tableRowsM { tbl with buckets := tbl.buckets.set b v } = tableRowsM tbl := by
  by_cases hlt : b < tbl.buckets.length
  · unfold tableRowsM tableRowsL
    have hset := flatMap_set_ms (fun ch => ch.map (fun t => t.row)) tbl.buckets b hlt v
    have hbk : tbl.bucket b = tbl.buckets[b] := List.getD_eq_getElem tbl.buckets [] hlt
    rw [hbk] at hv
    rw [hv] at hset
    exact add_right_cancel hset
  · unfold tableRowsM tableRowsL
    rw [List.set_eq_of_length_le (by omega)]

theorem tableRowsM_setMatchAt (tbl : HashJoinTable) (b j : Nat) :
    tableRowsM (setMatchAt tbl b j) = tableRowsM tbl := by
  unfold setMatchAt
  exact tableRowsM_set_modify tbl b _
    (listModify_map (fun t => { t with matched := true }) (fun t => t.row) (fun a => rfl) (tbl.bucket b) j)

theorem tableRowsM_setMatchHead (tbl : HashJoinTable) (b : Nat) :
    tableRowsM (setMatchHead tbl b) = tableRowsM tbl := by
  rw [setMatchHead_eq_setMatchAt]
  exact tableRowsM_setMatchAt tbl b 0

theorem bucket_setMatchAt (tbl : HashJoinTable) (b j c : Nat) :
    (setMatchAt tbl b j).bucket c =
      if c = b ∧ b < tbl.buckets.length then
        listModify (tbl.bucket b) j (fun t => { t with matched := true })
      else tbl.bucket c := by
  unfold setMatchAt HashJoinTable.bucket
  exact bucket_set tbl.buckets b _ c

theorem bucket_insert (tbl : HashJoinTable) (r : Row) (h : Nat) (c : Nat)
    (hbatch : h % tbl.nbatch = tbl.curbatch) :
    (execHashTableInsert tbl r h).bucket c =
      if c = h % tbl.nbuckets ∧ h % tbl.nbuckets < tbl.buckets.length then
        ⟨r, h, false⟩ :: tbl.bucket (h % tbl.nbuckets)
      else tbl.bucket c := by
  unfold execHashTableInsert
  simp only [hbatch, if_pos rfl]
  unfold HashJoinTable.bucket
  exact bucket_set tbl.buckets _ _ c

theorem getD_length_le_flatMap (bs : List (List HashTuple)) :
    ∀ c, (bs.getD c []).length ≤ (bs.flatMap (fun ch => ch.map (fun t => t.row))).length := by
  induction bs with
  | nil => intro c; simp
  | cons a t ih =>
    intro c
    cases c with
    | zero =>
      rw [List.getD_cons_zero, List.flatMap_cons, List.length_append, List.length_map]
      omega
    | succ c =>
      rw [List.getD_cons_succ, List.flatMap_cons, List.length_append]
      have := ih c
      omega

theorem bucket_length_le (tbl : HashJoinTable) (c : Nat) :
    (tbl.bucket c).length ≤ (tableRowsL tbl).length :=
  getD_length_le_flatMap tbl.buckets c

/-! ### Table well-formedness: every stored tuple carries its row's kept
hash value and sits in the bucket that hash selects -/

def TableWF (cfg : SymCfg) (tbl : HashJoinTable) : Prop :=
  tbl.buckets.length = tbl.nbuckets ∧ 0 < tbl.nbuckets ∧
  ∀ c : Nat, ∀ t ∈ tbl.bucket c,
    t.hashvalue = rowHashKept cfg t.row ∧ t.hashvalue % tbl.nbuckets = c

theorem bucket_mk (n b : Nat) (keep : Bool) (c : Nat) :
    (mkHashTable n b keep).bucket c = [] := by
  unfold mkHashTable HashJoinTable.bucket
  rw [List.getD_eq_getElem?_getD]
  by_cases hc : c < n
  · rw [List.getElem?_eq_getElem (by simpa using hc)]
    simp [List.getElem_replicate]
  · rw [List.getElem?_eq_none (by simpa using hc)]
    rfl

theorem TableWF_mk (cfg : SymCfg) (n b : Nat) (keep : Bool) (hn : 0 < n) :
    TableWF cfg (mkHashTable n b keep) := by
  refine ⟨by simp [mkHashTable], hn, ?_⟩
  intro c t ht
  rw [bucket_mk] at ht
  exact absurd ht (by simp)

theorem insert_nbuckets (tbl : HashJoinTable) (r : Row) (h : Nat) :
    (execHashTableInsert tbl r h).nbuckets = tbl.nbuckets := by
  simp only [execHashTableInsert]
  split <;> rfl

theorem insert_nbatch (tbl : HashJoinTable) (r : Row) (h : Nat) :
    (execHashTableInsert tbl r h).nbatch = tbl.nbatch := by
  simp only [execHashTableInsert]
  split <;> rfl

theorem insert_curbatch (tbl : HashJoinTable) (r : Row) (h : Nat) :
    (execHashTableInsert tbl r h).curbatch = tbl.curbatch := by
  simp only [execHashTableInsert]
  split <;> rfl

theorem insert_keepNulls (tbl : HashJoinTable) (r : Row) (h : Nat) :
    (execHashTableInsert tbl r h).keepNulls = tbl.keepNulls := by
  simp only [execHashTableInsert]
  split <;> rfl

theorem insert_buckets_length (tbl : HashJoinTable) (r : Row) (h : Nat) :
    (execHashTableInsert tbl r h).buckets.length = tbl.buckets.length := by
  simp only [execHashTableInsert]
  split
  · exact List.length_set tbl.buckets _ _
  · rfl

theorem insert_bucket_spill (tbl : HashJoinTable) (r : Row) (h : Nat)
    (hbatch : h % tbl.nbatch ≠ tbl.curbatch) (c : Nat) :
    (execHashTableInsert tbl r h).bucket c = tbl.bucket c := by
  simp only [execHashTableInsert]
  rw [if_neg hbatch]
  rfl

theorem TableWF_insert (cfg : SymCfg) (tbl : HashJoinTable) (r : Row) (h : Nat)
    (hW : TableWF cfg tbl) (hh : h = rowHashKept cfg r) :
    TableWF cfg (execHashTableInsert tbl r h) := by
  obtain ⟨hlen, hpos, hmem⟩ := hW
  refine ⟨by rw [insert_buckets_length, insert_nbuckets]; exact hlen,
    by rw [insert_nbuckets]; exact hpos, ?_⟩
  intro c t ht
  rw [insert_nbuckets]
  by_cases hbatch : h % tbl.nbatch = tbl.curbatch
  · rw [bucket_insert tbl r h c hbatch] at ht
    by_cases hcb : c = h % tbl.nbuckets ∧ h % tbl.nbuckets < tbl.buckets.length
    · rw [if_pos hcb] at ht
      rcases List.mem_cons.mp ht with hh2 | hh2
      · rw [hh2]
        refine ⟨hh, ?_⟩
        show h % tbl.nbuckets = c
        omega
      · have := hmem (h % tbl.nbuckets) t hh2
        exact ⟨this.1, by omega⟩
    · rw [if_neg hcb] at ht
      exact hmem c t ht
  · rw [insert_bucket_spill tbl r h hbatch c] at ht
    exact hmem c t ht

theorem setMatchAt_nbuckets (tbl : HashJoinTable) (b j : Nat) :
    (setMatchAt tbl b j).nbuckets = tbl.nbuckets := rfl

theorem setMatchAt_nbatch (tbl : HashJoinTable) (b j : Nat) :
    (setMatchAt tbl b j).nbatch = tbl.nbatch := rfl

theorem setMatchAt_curbatch (tbl : HashJoinTable) (b j : Nat) :
    (setMatchAt tbl b j).curbatch = tbl.curbatch := rfl

theorem setMatchAt_keepNulls (tbl : HashJoinTable) (b j : Nat) :
    (setMatchAt tbl b j).keepNulls = tbl.keepNulls := rfl

theorem setMatchAt_buckets_length (tbl : HashJoinTable) (b j : Nat) :
    (setMatchAt tbl b j).buckets.length = tbl.buckets.length :=
  List.length_set tbl.buckets _ _

theorem TableWF_setMatchAt (cfg : SymCfg) (tbl : HashJoinTable) (b j : Nat)
    (hW : TableWF cfg tbl) : TableWF cfg (setMatchAt tbl b j) := by
  obtain ⟨hlen, hpos, hmem⟩ := hW
  refine ⟨by rw [setMatchAt_buckets_length, setMatchAt_nbuckets]; exact hlen,
    hpos, ?_⟩
  intro c t ht
  rw [bucket_setMatchAt] at ht
  by_cases hcb : c = b ∧ b < tbl.buckets.length
  · rw [if_pos hcb] at ht
    rcases listModify_mem _ _ _ t ht with hold | ⟨a, ha, hta⟩
    · have := hmem b t hold
      rw [setMatchAt_nbuckets]
      exact ⟨this.1, by rw [hcb.1]; exact this.2⟩
    · have := hmem b a ha
      rw [setMatchAt_nbuckets, hta]
      exact ⟨this.1, by rw [hcb.1]; exact this.2⟩
  · rw [if_neg hcb] at ht
    exact hmem c t ht

theorem TableWF_setMatchHead (cfg : SymCfg) (tbl : HashJoinTable) (b : Nat)
    (hW : TableWF cfg tbl) : TableWF cfg (setMatchHead tbl b) := by
  rw [setMatchHead_eq_setMatchAt]
  exact TableWF_setMatchAt cfg tbl b 0 hW

/-! ### A fresh bucket scan emits exactly the table matches -/

theorem flatMap_filterMap_single (g : Row → Option JoinOut) :
    ∀ (bs : List (List HashTuple)) (b : Nat) (hb : b < bs.length),
      (∀ c (hc : c < bs.length), c ≠ b → ∀ t ∈ bs[c], g t.row = none) →
      (bs.flatMap (fun ch => ch.map (fun t => t.row))).filterMap g
        = (bs[b].map (fun t => t.row)).filterMap g := by
  intro bs
  induction bs with
  | nil => intro b hb; exact absurd hb (by simp)
  | cons a t ih =>
    intro b hb hnone
    cases b with
    | zero =>
      rw [List.flatMap_cons, List.filterMap_append]
      have hrest : (t.flatMap (fun ch => ch.map (fun u => u.row))).filterMap g = [] := by
        apply List.filterMap_eq_nil_iff.mpr
        intro x hx
        rcases List.mem_flatMap.mp hx with ⟨ch, hch, hxch⟩
        rcases List.mem_map.mp hxch with ⟨u, hu, hux⟩
        rcases List.mem_iff_getElem.mp hch with ⟨idx, hidx, hgetc⟩
        have hlt1 : idx + 1 < (a :: t).length := by
          simp only [List.length_cons]
          omega
        have hconsEq : (a :: t)[idx + 1] = t[idx] := rfl
        have := hnone (idx + 1) hlt1 (by omega) u (by rw [hconsEq, hgetc]; exact hu)
        rw [← hux]
        exact this
      rw [hrest, List.append_nil]
      rfl
    | succ b =>
      rw [List.flatMap_cons, List.filterMap_append]
      have hhead : (a.map (fun u => u.row)).filterMap g = [] := by
        apply List.filterMap_eq_nil_iff.mpr
        intro x hx
        rcases List.mem_map.mp hx with ⟨u, hu, hux⟩
        have := hnone 0 (by simp) (by omega) u (by simpa using hu)
        rw [← hux]
        exact this
      rw [hhead, List.nil_append]
      have hb2 : b < t.length := by simpa using hb
      have hshift : ∀ c (hc : c < t.length), c ≠ b → ∀ u ∈ t[c], g u.row = none := by
        intro c hc hcb u hu
        have hlt1 : c + 1 < (a :: t).length := by
          simp only [List.length_cons]
          omega
        have hconsEq : (a :: t)[c + 1] = t[c] := rfl
        exact hnone (c + 1) hlt1 (by omega) u (by rw [hconsEq]; exact hu)
      have := ih b hb2 hshift
      rw [this]
      rfl

theorem scan_fresh_core (cfg : SymCfg) (tbl : HashJoinTable) (H : Nat)
    (g : Row → Option JoinOut) (hW : TableWF cfg tbl)
    (hg : ∀ r x, g r = some x → rowHashKept cfg r = H) :
    (tableRowsL tbl).filterMap g
      = scanEmits H g (tbl.bucket (H % tbl.nbuckets)) 0 := by
  obtain ⟨hlen, hpos, hmem⟩ := hW
  have hblt : H % tbl.nbuckets < tbl.buckets.length := by
    rw [hlen]
    exact Nat.mod_lt H hpos
  have hbk : tbl.bucket (H % tbl.nbuckets) = tbl.buckets[H % tbl.nbuckets] :=
    List.getD_eq_getElem tbl.buckets [] hblt
  have hnone : ∀ c (hc : c < tbl.buckets.length), c ≠ H % tbl.nbuckets →
      ∀ t ∈ tbl.buckets[c], g t.row = none := by
    intro c hc hcb t ht
    have htb : t ∈ tbl.bucket c := by
      rw [HashJoinTable.bucket, List.getD_eq_getElem tbl.buckets [] hc]
      exact ht
    cases hgx : g t.row with
    | none => rfl
    | some x =>
      have hrh := hg t.row x hgx
      have := hmem c t htb
      exact absurd (by rw [← this.2, this.1, hrh]) hcb
  have hmain := flatMap_filterMap_single g tbl.buckets (H % tbl.nbuckets) hblt hnone
  unfold tableRowsL
  rw [hmain, List.filterMap_map]
  unfold scanEmits
  rw [List.drop_zero, hbk]
  apply List.filterMap_congr
  intro t ht
  show g t.row = if t.hashvalue = H then g t.row else none
  by_cases hh : t.hashvalue = H
  · rw [if_pos hh]
  · rw [if_neg hh]
    cases hgx : g t.row with
    | none => rfl
    | some x =>
      have hrh := hg t.row x hgx
      have htb : t ∈ tbl.bucket (H % tbl.nbuckets) := by rw [hbk]; exact ht
      have := hmem (H % tbl.nbuckets) t htb
      exact absurd (by rw [this.1, hrh]) hh

/-! ### Shape lemmas: explicit transition equations for each dispatch case -/

theorem symStep_eq_build (cfg : SymCfg) (s : SymState) (h : s.jstate = HJ_BUILD_HASHTABLE) :
    symStep cfg s = stepBuildHashtable cfg s := by
  simp [symStep, h, HJ_BUILD_HASHTABLE]

theorem symStep_eq_nno (cfg : SymCfg) (s : SymState) (h : s.jstate = HJ_NEED_NEW_OUTER) :
    symStep cfg s = stepNeedNewOuter cfg s := by
  simp [symStep, h, HJ_BUILD_HASHTABLE, HJ_NEED_NEW_OUTER]

theorem symStep_eq_nni (cfg : SymCfg) (s : SymState) (h : s.jstate = HJ_NEED_NEW_INNER) :
    symStep cfg s = stepNeedNewInner cfg s := by
  simp [symStep, h, HJ_BUILD_HASHTABLE, HJ_NEED_NEW_OUTER, HJ_NEED_NEW_INNER]

theorem symStep_eq_fill (cfg : SymCfg) (s : SymState) (h : s.jstate = HJ_FILL_TUPLES) :
    symStep cfg s = stepFillTuples cfg s := by
  simp [symStep, h, HJ_BUILD_HASHTABLE, HJ_NEED_NEW_OUTER, HJ_NEED_NEW_INNER, HJ_FILL_TUPLES]

theorem symStep_eq_scanOuter (cfg : SymCfg) (s : SymState) (h : s.jstate = HJ_SCAN_OUTER_BUCKET) :
    symStep cfg s = stepScanOuterBucket cfg s := by
  simp [symStep, h, HJ_BUILD_HASHTABLE, HJ_NEED_NEW_OUTER, HJ_NEED_NEW_INNER,
    HJ_FILL_TUPLES, HJ_SCAN_OUTER_BUCKET]

theorem symStep_eq_scanInner (cfg : SymCfg) (s : SymState) (h : s.jstate = HJ_SCAN_INNER_BUCKET) :
    symStep cfg s = stepScanInnerBucket cfg s := by
  simp [symStep, h, HJ_BUILD_HASHTABLE, HJ_NEED_NEW_OUTER, HJ_NEED_NEW_INNER,
    HJ_FILL_TUPLES, HJ_SCAN_OUTER_BUCKET, HJ_SCAN_INNER_BUCKET]

theorem symStep_eq_error (cfg : SymCfg) (s : SymState)
    (h : s.jstate = 0 ∨ 6 < s.jstate) :
    symStep cfg s = .error := by
  unfold symStep
  rw [if_neg, if_neg, if_neg, if_neg, if_neg, if_neg] <;>
    simp only [HJ_BUILD_HASHTABLE, HJ_NEED_NEW_OUTER, HJ_NEED_NEW_INNER,
      HJ_FILL_TUPLES, HJ_SCAN_OUTER_BUCKET, HJ_SCAN_INNER_BUCKET] <;> omega

theorem shape_build (cfg : SymCfg) (s : SymState) :
    stepBuildHashtable cfg s = .next { s with
      innerTable := mkHashTable cfg.innerNbuckets cfg.innerNbatch cfg.fillInner,
      outerTable := mkHashTable cfg.outerNbuckets cfg.outerNbatch cfg.fillOuter,
      jstate := HJ_NEED_NEW_INNER } := rfl

theorem shape_nni_bothNull (cfg : SymCfg) (s : SymState)
    (h1 : s.innerTupleNull = true) (h2 : s.outerTupleNull = true) :
    stepNeedNewInner cfg s = .next { s with jstate := HJ_FILL_TUPLES } := by
  simp [stepNeedNewInner, h1, h2]

theorem shape_nni_innerNull (cfg : SymCfg) (s : SymState)
    (h1 : s.innerTupleNull = true) (h2 : s.outerTupleNull = false) :
    stepNeedNewInner cfg s = .next { s with jstate := HJ_NEED_NEW_OUTER } := by
  simp [stepNeedNewInner, h1, h2]

theorem shape_nni_exhaust_toOuter (cfg : SymCfg) (s : SymState)
    (h1 : s.innerTupleNull = false) (h2 : s.innerInput = [])
    (h3 : s.outerTupleNull = false) :
    stepNeedNewInner cfg s =
      .next { s with innerTupleNull := true, jstate := HJ_NEED_NEW_OUTER } := by
  simp [stepNeedNewInner, h1, h2, h3, hashNodeNext]

theorem shape_nni_exhaust_toFill (cfg : SymCfg) (s : SymState)
    (h1 : s.innerTupleNull = false) (h2 : s.innerInput = [])
    (h3 : s.outerTupleNull = true) (h4 : (cfg.fillInner || cfg.fillOuter) = true) :
    stepNeedNewInner cfg s =
      .next { s with innerTupleNull := true, jstate := HJ_FILL_TUPLES } := by
  simp [stepNeedNewInner, h1, h2, h3, h4, hashNodeNext]

theorem shape_nni_exhaust_done (cfg : SymCfg) (s : SymState)
    (h1 : s.innerTupleNull = false) (h2 : s.innerInput = [])
    (h3 : s.outerTupleNull = true) (h4 : (cfg.fillInner || cfg.fillOuter) = false) :
    stepNeedNewInner cfg s = .done { s with innerTupleNull := true } := by
  simp [stepNeedNewInner, h1, h2, h3, h4, hashNodeNext]

theorem shape_nni_pull (cfg : SymCfg) (s : SymState) (r : Row) (rest : List Row) (k : Nat)
    (h1 : s.innerTupleNull = false) (h2 : s.innerInput = r :: rest)
    (h3 : r.key = some k) :
    stepNeedNewInner cfg s = .next { s with
      innerTable := execHashTableInsert s.innerTable r (cfg.hashFn k),
      innerInput := rest,
      innerInsertHash := cfg.hashFn k,
      ecxtOuter := some r,
      ecxtInner := some r,
      curOutHashValue := cfg.hashFn k,
      curBucketNo := cfg.hashFn k % s.outerTable.nbuckets,
      curOutTuple := none,
      jstate := HJ_SCAN_OUTER_BUCKET } := by
  simp [stepNeedNewInner, h1, h2, h3, hashNodeNext, execHashGetHashValue,
    execHashGetBucketAndBatch]

theorem shape_nni_pullNull_kept (cfg : SymCfg) (s : SymState) (r : Row) (rest : List Row)
    (h1 : s.innerTupleNull = false) (h2 : s.innerInput = r :: rest)
    (h3 : r.key = none) (h4 : s.innerTable.keepNulls = true) :
    stepNeedNewInner cfg s = .next { s with
      innerTable := execHashTableInsert s.innerTable r 0,
      innerInput := rest,
      innerInsertHash := 0,
      jstate := HJ_NEED_NEW_OUTER } := by
  simp [stepNeedNewInner, h1, h2, h3, h4, hashNodeNext]

theorem shape_nni_pullNull_skip (cfg : SymCfg) (s : SymState) (r : Row) (rest : List Row)
    (h1 : s.innerTupleNull = false) (h2 : s.innerInput = r :: rest)
    (h3 : r.key = none) (h4 : s.innerTable.keepNulls = false) :
    stepNeedNewInner cfg s = .next { s with
      innerInput := rest,
      jstate := HJ_NEED_NEW_OUTER } := by
  simp [stepNeedNewInner, h1, h2, h3, h4, hashNodeNext]

theorem shape_nno_bothNull (cfg : SymCfg) (s : SymState)
    (h1 : s.outerTupleNull = true) (h2 : s.innerTupleNull = true) :
    stepNeedNewOuter cfg s = .next { s with jstate := HJ_FILL_TUPLES } := by
  simp [stepNeedNewOuter, h1, h2]

theorem shape_nno_outerNull (cfg : SymCfg) (s : SymState)
    (h1 : s.outerTupleNull = true) (h2 : s.innerTupleNull = false) :
    stepNeedNewOuter cfg s = .next { s with jstate := HJ_NEED_NEW_INNER } := by
  simp [stepNeedNewOuter, h1, h2]

theorem shape_nno_exhaust_toInner (cfg : SymCfg) (s : SymState)
    (h1 : s.outerTupleNull = false) (h2 : s.outerInput = [])
    (h3 : s.innerTupleNull = false) :
    stepNeedNewOuter cfg s =
      .next { s with outerTupleNull := true, jstate := HJ_NEED_NEW_INNER } := by
  simp [stepNeedNewOuter, h1, h2, h3, hashNodeNext]

theorem shape_nno_exhaust_toFill (cfg : SymCfg) (s : SymState)
    (h1 : s.outerTupleNull = false) (h2 : s.outerInput = [])
    (h3 : s.innerTupleNull = true) (h4 : (cfg.fillInner || cfg.fillOuter) = true) :
    stepNeedNewOuter cfg s =
      .next { s with outerTupleNull := true, jstate := HJ_FILL_TUPLES } := by
  simp [stepNeedNewOuter, h1, h2, h3, h4, hashNodeNext]

theorem shape_nno_exhaust_done (cfg : SymCfg) (s : SymState)
    (h1 : s.outerTupleNull = false) (h2 : s.outerInput = [])
    (h3 : s.innerTupleNull = true) (h4 : (cfg.fillInner || cfg.fillOuter) = false) :
    stepNeedNewOuter cfg s = .done { s with outerTupleNull := true } := by
  simp [stepNeedNewOuter, h1, h2, h3, h4, hashNodeNext]

theorem shape_nno_pull (cfg : SymCfg) (s : SymState) (r : Row) (rest : List Row) (k : Nat)
    (h1 : s.outerTupleNull = false) (h2 : s.outerInput = r :: rest)
    (h3 : r.key = some k) :
    stepNeedNewOuter cfg s = .next { s with
      outerTable := execHashTableInsert s.outerTable r (cfg.hashFn k),
      outerInput := rest,
      outerInsertHash := cfg.hashFn k,
      ecxtOuter := some r,
      curHashValue := cfg.hashFn k,
      curBucketNo := cfg.hashFn k % s.innerTable.nbuckets,
      curTuple := none,
      jstate := HJ_SCAN_INNER_BUCKET } := by
  simp [stepNeedNewOuter, h1, h2, h3, hashNodeNext, execHashGetHashValue,
    execHashGetBucketAndBatch]

theorem shape_nno_pullNull_kept (cfg : SymCfg) (s : SymState) (r : Row) (rest : List Row)
    (h1 : s.outerTupleNull = false) (h2 : s.outerInput = r :: rest)
    (h3 : r.key = none) (h4 : s.outerTable.keepNulls = true) :
    stepNeedNewOuter cfg s = .next { s with
      outerTable := execHashTableInsert s.outerTable r 0,
      outerInput := rest,
      outerInsertHash := 0,
      jstate := HJ_NEED_NEW_INNER } := by
  simp [stepNeedNewOuter, h1, h2, h3, h4, hashNodeNext]

theorem shape_nno_pullNull_skip (cfg : SymCfg) (s : SymState) (r : Row) (rest : List Row)
    (h1 : s.outerTupleNull = false) (h2 : s.outerInput = r :: rest)
    (h3 : r.key = none) (h4 : s.outerTable.keepNulls = false) :
    stepNeedNewOuter cfg s = .next { s with
      outerInput := rest,
      jstate := HJ_NEED_NEW_INNER } := by
  simp [stepNeedNewOuter, h1, h2, h3, h4, hashNodeNext]

theorem shape_scanOuter_noSlot (cfg : SymCfg) (s : SymState)
    (h : s.ecxtInner = none) : stepScanOuterBucket cfg s = .error := by
  simp [stepScanOuterBucket, h]

theorem shape_scanOuter_none (cfg : SymCfg) (s : SymState) (pulled : Row)
    (h : s.ecxtInner = some pulled)
    (hf : findFrom s.curOutHashValue (fun r => cfg.hashclauses r pulled)
      (s.outerTable.bucket s.curBucketNo) (startIdx s.curOutTuple) = none) :
    stepScanOuterBucket cfg s = .next { s with jstate := HJ_NEED_NEW_OUTER } := by
  simp [stepScanOuterBucket, h, hf]

theorem shape_scanOuter_match (cfg : SymCfg) (s : SymState) (pulled : Row)
    (j : Nat) (cand : HashTuple)
    (h : s.ecxtInner = some pulled)
    (hf : findFrom s.curOutHashValue (fun r => cfg.hashclauses r pulled)
      (s.outerTable.bucket s.curBucketNo) (startIdx s.curOutTuple) = some (j, cand))
    (hjq : evalJoinQual cfg.joinqual cand.row pulled = true)
    (hoq : evalOtherQual cfg.otherqual (some cand.row) (some pulled) = true) :
    stepScanOuterBucket cfg s = .yield (some cand.row, some pulled) { s with
      curOutTuple := some j,
      ecxtOuter := some cand.row,
      outerTable := setMatchAt s.outerTable s.curBucketNo j,
      innerTable := setMatchHead s.innerTable (s.innerInsertHash % s.innerTable.nbuckets) } := by
  simp [stepScanOuterBucket, h, hf, hjq, hoq, execHashGetBucketAndBatch]

theorem shape_scanOuter_matchFiltered (cfg : SymCfg) (s : SymState) (pulled : Row)
    (j : Nat) (cand : HashTuple)
    (h : s.ecxtInner = some pulled)
    (hf : findFrom s.curOutHashValue (fun r => cfg.hashclauses r pulled)
      (s.outerTable.bucket s.curBucketNo) (startIdx s.curOutTuple) = some (j, cand))
    (hjq : evalJoinQual cfg.joinqual cand.row pulled = true)
    (hoq : evalOtherQual cfg.otherqual (some cand.row) (some pulled) = false) :
    stepScanOuterBucket cfg s = .next { s with
      curOutTuple := some j,
      ecxtOuter := some cand.row,
      outerTable := setMatchAt s.outerTable s.curBucketNo j,
      innerTable := setMatchHead s.innerTable (s.innerInsertHash % s.innerTable.nbuckets) } := by
  simp [stepScanOuterBucket, h, hf, hjq, hoq, execHashGetBucketAndBatch]

theorem shape_scanOuter_noJq (cfg : SymCfg) (s : SymState) (pulled : Row)
    (j : Nat) (cand : HashTuple)
    (h : s.ecxtInner = some pulled)
    (hf : findFrom s.curOutHashValue (fun r => cfg.hashclauses r pulled)
      (s.outerTable.bucket s.curBucketNo) (startIdx s.curOutTuple) = some (j, cand))
    (hjq : evalJoinQual cfg.joinqual cand.row pulled = false) :
    stepScanOuterBucket cfg s = .next { s with
      curOutTuple := some j,
      ecxtOuter := some cand.row } := by
  simp [stepScanOuterBucket, h, hf, hjq]

theorem shape_scanInner_noSlot (cfg : SymCfg) (s : SymState)
    (h : s.ecxtOuter = none) : stepScanInnerBucket cfg s = .error := by
  simp [stepScanInnerBucket, h]

theorem shape_scanInner_none (cfg : SymCfg) (s : SymState) (pulled : Row)
    (h : s.ecxtOuter = some pulled)
    (hf : findFrom s.curHashValue (fun r => cfg.hashclauses pulled r)
      (s.innerTable.bucket s.curBucketNo) (startIdx s.curTuple) = none) :
    stepScanInnerBucket cfg s = .next { s with jstate := HJ_NEED_NEW_INNER } := by
  simp [stepScanInnerBucket, h, hf]

theorem shape_scanInner_match (cfg : SymCfg) (s : SymState) (pulled : Row)
    (j : Nat) (cand : HashTuple)
    (h : s.ecxtOuter = some pulled)
    (hf : findFrom s.curHashValue (fun r => cfg.hashclauses pulled r)
      (s.innerTable.bucket s.curBucketNo) (startIdx s.curTuple) = some (j, cand))
    (hjq : evalJoinQual cfg.joinqual pulled cand.row = true)
    (hoq : evalOtherQual cfg.otherqual (some pulled) (some cand.row) = true) :
    stepScanInnerBucket cfg s = .yield (some pulled, some cand.row) { s with
      curTuple := some j,
      ecxtInner := some cand.row,
      innerTable := setMatchAt s.innerTable s.curBucketNo j,
      outerTable := setMatchHead s.outerTable (s.outerInsertHash % s.outerTable.nbuckets) } := by
  simp [stepScanInnerBucket, h, hf, hjq, hoq, execHashGetBucketAndBatch]

theorem shape_scanInner_matchFiltered (cfg : SymCfg) (s : SymState) (pulled : Row)
    (j : Nat) (cand : HashTuple)
    (h : s.ecxtOuter = some pulled)
    (hf : findFrom s.curHashValue (fun r => cfg.hashclauses pulled r)
      (s.innerTable.bucket s.curBucketNo) (startIdx s.curTuple) = some (j, cand))
    (hjq : evalJoinQual cfg.joinqual pulled cand.row = true)
    (hoq : evalOtherQual cfg.otherqual (some pulled) (some cand.row) = false) :
    stepScanInnerBucket cfg s = .next { s with
      curTuple := some j,
      ecxtInner := some cand.row,
      innerTable := setMatchAt s.innerTable s.curBucketNo j,
      outerTable := setMatchHead s.outerTable (s.outerInsertHash % s.outerTable.nbuckets) } := by
  simp [stepScanInnerBucket, h, hf, hjq, hoq, execHashGetBucketAndBatch]

theorem shape_scanInner_noJq (cfg : SymCfg) (s : SymState) (pulled : Row)
    (j : Nat) (cand : HashTuple)
    (h : s.ecxtOuter = some pulled)
    (hf : findFrom s.curHashValue (fun r => cfg.hashclauses pulled r)
      (s.innerTable.bucket s.curBucketNo) (startIdx s.curTuple) = some (j, cand))
    (hjq : evalJoinQual cfg.joinqual pulled cand.row = false) :
    stepScanInnerBucket cfg s = .next { s with
      curTuple := some j,
      ecxtInner := some cand.row } := by
  simp [stepScanInnerBucket, h, hf, hjq]

theorem shape_fill_reset (cfg : SymCfg) (s : SymState) (h : s.firstFill = true) :
    stepFillTuples cfg s =
      stepFillTuples cfg { s with firstFill := false, fillBucketNo := 0, fillIdx := 0 } := by
  simp [stepFillTuples, h]

theorem shape_fill_innerDone (cfg : SymCfg) (s : SymState)
    (h0 : s.firstFill = false)
    (h1 : s.fillInnerFinished = false) (h2 : cfg.fillInner = true)
    (hf : findUnmatched s.innerTable.buckets s.fillBucketNo s.fillIdx = none) :
    stepFillTuples cfg s = .next { s with fillInnerFinished := true, firstFill := true } := by
  simp [stepFillTuples, h0, h1, h2, hf]

theorem shape_fill_innerEmit (cfg : SymCfg) (s : SymState) (b j : Nat) (t : HashTuple)
    (h0 : s.firstFill = false)
    (h1 : s.fillInnerFinished = false) (h2 : cfg.fillInner = true)
    (hf : findUnmatched s.innerTable.buckets s.fillBucketNo s.fillIdx = some (b, j, t))
    (hoq : evalOtherQual cfg.otherqual none (some t.row) = true) :
    stepFillTuples cfg s = .yield (none, some t.row) { s with
      fillBucketNo := b, fillIdx := j + 1,
      ecxtOuter := none, ecxtInner := some t.row } := by
  simp [stepFillTuples, h0, h1, h2, hf, hoq]

theorem shape_fill_innerFiltered (cfg : SymCfg) (s : SymState) (b j : Nat) (t : HashTuple)
    (h0 : s.firstFill = false)
    (h1 : s.fillInnerFinished = false) (h2 : cfg.fillInner = true)
    (hf : findUnmatched s.innerTable.buckets s.fillBucketNo s.fillIdx = some (b, j, t))
    (hoq : evalOtherQual cfg.otherqual none (some t.row) = false) :
    stepFillTuples cfg s = .next { s with
      fillBucketNo := b, fillIdx := j + 1,
      ecxtOuter := none, ecxtInner := some t.row } := by
  simp [stepFillTuples, h0, h1, h2, hf, hoq]

theorem shape_fill_outerDone (cfg : SymCfg) (s : SymState)
    (h0 : s.firstFill = false)
    (h1 : (!s.fillInnerFinished && cfg.fillInner) = false)
    (h2 : s.fillOuterFinished = false) (h3 : cfg.fillOuter = true)
    (hf : findUnmatched s.outerTable.buckets s.fillBucketNo s.fillIdx = none) :
    stepFillTuples cfg s = .done { s with fillOuterFinished := true } := by
  simp [stepFillTuples, h0, h1, h2, h3, hf]

theorem shape_fill_outerEmit (cfg : SymCfg) (s : SymState) (b j : Nat) (t : HashTuple)
    (h0 : s.firstFill = false)
    (h1 : (!s.fillInnerFinished && cfg.fillInner) = false)
    (h2 : s.fillOuterFinished = false) (h3 : cfg.fillOuter = true)
    (hf : findUnmatched s.outerTable.buckets s.fillBucketNo s.fillIdx = some (b, j, t))
    (hoq : evalOtherQual cfg.otherqual (some t.row) none = true) :
    stepFillTuples cfg s = .yield (some t.row, none) { s with
      fillBucketNo := b, fillIdx := j + 1,
      ecxtInner := none, ecxtOuter := some t.row } := by
  simp [stepFillTuples, h0, h1, h2, h3, hf, hoq]

theorem shape_fill_outerFiltered (cfg : SymCfg) (s : SymState) (b j : Nat) (t : HashTuple)
    (h0 : s.firstFill = false)
    (h1 : (!s.fillInnerFinished && cfg.fillInner) = false)
    (h2 : s.fillOuterFinished = false) (h3 : cfg.fillOuter = true)
    (hf : findUnmatched s.outerTable.buckets s.fillBucketNo s.fillIdx = some (b, j, t))
    (hoq : evalOtherQual cfg.otherqual (some t.row) none = false) :
    stepFillTuples cfg s = .next { s with
      fillBucketNo := b, fillIdx := j + 1,
      ecxtInner := none, ecxtOuter := some t.row } := by
  simp [stepFillTuples, h0, h1, h2, h3, hf, hoq]

theorem shape_fill_done (cfg : SymCfg) (s : SymState)
    (h0 : s.firstFill = false)
    (h1 : (!s.fillInnerFinished && cfg.fillInner) = false)
    (h2 : (!s.fillOuterFinished && cfg.fillOuter) = false) :
    stepFillTuples cfg s = .done s := by
  simp [stepFillTuples, h0, h1, h2]

/-! ### Termination measure for the dispatch loop -/

/-- Basic reachability facts every state of a run satisfies; enough to
show each loop iteration decreases the measure `mu` and never reaches the
internal-error case. -/
def StepInv (s : SymState) : Prop :=
  (1 ≤ s.jstate ∧ s.jstate ≤ 6) ∧
  (s.innerTupleNull = true → s.innerInput = []) ∧
  (s.outerTupleNull = true → s.outerInput = []) ∧
  (s.jstate = HJ_BUILD_HASHTABLE → s.innerTupleNull = false ∧ s.outerTupleNull = false) ∧
  (s.jstate = HJ_SCAN_OUTER_BUCKET → s.ecxtInner.isSome = true ∧ s.innerTupleNull = false) ∧
  (s.jstate = HJ_SCAN_INNER_BUCKET → s.ecxtOuter.isSome = true ∧ s.outerTupleNull = false)

/-- Candidates the outer-bucket scan can still visit. -/
def scanRemOuter (s : SymState) : Nat :=
  (s.outerTable.bucket s.curBucketNo).length - startIdx s.curOutTuple

/-- Candidates the inner-bucket scan can still visit. -/
def scanRemInner (s : SymState) : Nat :=
  (s.innerTable.bucket s.curBucketNo).length - startIdx s.curTuple

/-- Effective bucket cursor of the fill scan (reset applied). -/
def effFillB (s : SymState) : Nat := if s.firstFill then 0 else s.fillBucketNo

/-- Effective position cursor of the fill scan (reset applied). -/
def effFillI (s : SymState) : Nat := if s.firstFill then 0 else s.fillIdx

/-- Remaining fill-phase work. -/
def fillRem (cfg : SymCfg) (s : SymState) : Nat :=
  if cfg.fillInner && !s.fillInnerFinished then
    (remList s.innerTable.buckets (effFillB s) (effFillI s)).length + 1 +
      (if cfg.fillOuter && !s.fillOuterFinished then
        (remList s.outerTable.buckets 0 0).length + 2 else 0)
  else if cfg.fillOuter && !s.fillOuterFinished then
    (remList s.outerTable.buckets (effFillB s) (effFillI s)).length + 1
  else 0

/-- Per-state rank: distance to the next input consumption or, once both
inputs are exhausted, the remaining fill work. -/
def rank (cfg : SymCfg) (s : SymState) : Nat :=
  if s.jstate = HJ_BUILD_HASHTABLE then 2
  else if s.jstate = HJ_NEED_NEW_INNER then
    (if s.innerTupleNull then (if s.outerTupleNull then fillRem cfg s + 1 else 2) else 1)
  else if s.jstate = HJ_NEED_NEW_OUTER then
    (if s.outerTupleNull then (if s.innerTupleNull then fillRem cfg s + 1 else 2) else 1)
  else if s.jstate = HJ_SCAN_OUTER_BUCKET then scanRemOuter s + 3
  else if s.jstate = HJ_SCAN_INNER_BUCKET then scanRemInner s + 3
  else if s.jstate = HJ_FILL_TUPLES then fillRem cfg s
  else 0

/-- Remaining pull budget: unconsumed input rows plus the two exhaustion
flags still to flip. -/
def bigCount (s : SymState) : Nat :=
  s.innerInput.length + s.outerInput.length +
    (if s.innerTupleNull then 0 else 1) + (if s.outerTupleNull then 0 else 1)

/-- Conserved volume: rows stored in memory plus rows still to pull. -/
def NTotal (s : SymState) : Nat :=
  (tableRowsL s.innerTable).length + (tableRowsL s.outerTable).length +
    s.innerInput.length + s.outerInput.length

/-- The loop measure. -/
def mu (cfg : SymCfg) (s : SymState) : Nat :=
  bigCount s * (NTotal s + 8) + rank cfg s

theorem flatMap_id_len_eq (t : List (List HashTuple)) :
    ((t.flatMap fun c => c).length) = ((t.flatMap fun ch => ch.map (fun u => u.row)).length) := by
  induction t with
  | nil => rfl
  | cons a u ih =>
    rw [List.flatMap_cons, List.flatMap_cons, List.length_append, List.length_append,
      List.length_map, ih]

theorem remList_cons_succ (a : List HashTuple) (t : List (List HashTuple)) (b i : Nat) :
    remList (a :: t) (b + 1) i = remList t b i := rfl

theorem remList_length_le (bs : List (List HashTuple)) :
    ∀ b i, (remList bs b i).length
      ≤ (bs.flatMap (fun ch => ch.map (fun u => u.row))).length := by
  induction bs with
  | nil =>
    intro b i
    rw [remList_of_ge [] b i (by simp)]
    simp
  | cons a t ih =>
    intro b i
    cases b with
    | zero =>
      unfold remList
      rw [List.getD_cons_zero, List.length_append, List.length_drop]
      have hdrop : (a :: t).drop 1 = t := rfl
      rw [hdrop, List.flatMap_cons, List.length_append, List.length_map]
      have := flatMap_id_len_eq t
      omega
    | succ b =>
      rw [remList_cons_succ, List.flatMap_cons, List.length_append]
      have := ih b i
      omega

theorem fillRem_le (cfg : SymCfg) (s : SymState) :
    fillRem cfg s ≤ (tableRowsL s.innerTable).length + (tableRowsL s.outerTable).length + 3 := by
  unfold fillRem
  have h1 := remList_length_le s.innerTable.buckets (effFillB s) (effFillI s)
  have h2 := remList_length_le s.outerTable.buckets 0 0
  have h3 := remList_length_le s.outerTable.buckets (effFillB s) (effFillI s)
  unfold tableRowsL
  split
  · split <;> omega
  · split <;> omega

theorem tableRowsL_insert_len (tbl : HashJoinTable) (r : Row) (h : Nat) :
    (tableRowsL (execHashTableInsert tbl r h)).length ≤ (tableRowsL tbl).length + 1 := by
  by_cases hbatch : h % tbl.nbatch = tbl.curbatch
  · by_cases hb : h % tbl.nbuckets < tbl.buckets.length
    · have := congrArg Multiset.card (tableRowsM_insert tbl r h hbatch hb)
      unfold tableRowsM at this
      rw [Multiset.card_cons] at this
      rw [Multiset.coe_card, Multiset.coe_card] at this
      omega
    · unfold execHashTableInsert
      rw [if_pos hbatch]
      unfold tableRowsL
      rw [List.set_eq_of_length_le (by omega)]
      exact Nat.le_succ _
  · unfold execHashTableInsert
    rw [if_neg hbatch]
    exact Nat.le_succ _

theorem tableRowsL_setMatchAt_len (tbl : HashJoinTable) (b j : Nat) :
    (tableRowsL (setMatchAt tbl b j)).length = (tableRowsL tbl).length := by
  have := congrArg Multiset.card (tableRowsM_setMatchAt tbl b j)
  unfold tableRowsM at this
  rw [Multiset.coe_card, Multiset.coe_card] at this
  exact this

theorem tableRowsL_setMatchHead_len (tbl : HashJoinTable) (b : Nat) :
    (tableRowsL (setMatchHead tbl b)).length = (tableRowsL tbl).length := by
  rw [setMatchHead_eq_setMatchAt]
  exact tableRowsL_setMatchAt_len tbl b 0

theorem bucket_setMatchAt_len (tbl : HashJoinTable) (b j c : Nat) :
    ((setMatchAt tbl b j).bucket c).length = (tbl.bucket c).length := by
  rw [bucket_setMatchAt]
  split
  · rename_i hcb
    rw [listModify_length, hcb.1]
  · rfl

theorem dec_build (cfg : SymCfg) (s : SymState) (hI : StepInv s)
    (hj : s.jstate = HJ_BUILD_HASHTABLE) :
    ∀ s2, stepBuildHashtable cfg s = .next s2 → StepInv s2 ∧ mu cfg s2 < mu cfg s := by
  intro s2 hstep
  rw [shape_build] at hstep
  have hs2 : s2 = { s with
      innerTable := mkHashTable cfg.innerNbuckets cfg.innerNbatch cfg.fillInner,
      outerTable := mkHashTable cfg.outerNbuckets cfg.outerNbatch cfg.fillOuter,
      jstate := HJ_NEED_NEW_INNER } := by
    have := (StepResult.next.injEq _ _).mp hstep
    exact this.symm
  obtain ⟨hrange, hin, hout, hbuild, hso, hsi⟩ := hI
  obtain ⟨hfi, hfo⟩ := hbuild hj
  subst hs2
  constructor
  · refine ⟨by simp [HJ_NEED_NEW_INNER], ?_, ?_, ?_, ?_, ?_⟩
    · intro h; exact hin h
    · intro h; exact hout h
    · intro h; simp [HJ_NEED_NEW_INNER, HJ_BUILD_HASHTABLE] at h
    · intro h; simp [HJ_NEED_NEW_INNER, HJ_SCAN_OUTER_BUCKET] at h
    · intro h; simp [HJ_NEED_NEW_INNER, HJ_SCAN_INNER_BUCKET] at h
  · unfold mu bigCount NTotal rank
    simp only [hj, hfi, hfo, HJ_BUILD_HASHTABLE, HJ_NEED_NEW_INNER, HJ_NEED_NEW_OUTER,
      HJ_FILL_TUPLES, HJ_SCAN_OUTER_BUCKET, HJ_SCAN_INNER_BUCKET]
    simp only [tableRows_mk]
    have hbound := Nat.le_refl 0
    simp
    have h1 : (tableRowsL s.innerTable).length + (tableRowsL s.outerTable).length
        + s.innerInput.length + s.outerInput.length + 8
        ≥ s.innerInput.length + s.outerInput.length + 8 := by omega
    nlinarith [Nat.zero_le ((tableRowsL s.innerTable).length),
      Nat.zero_le ((tableRowsL s.outerTable).length)]

theorem rank_le (cfg : SymCfg) (s : SymState) : rank cfg s ≤ NTotal s + 7 := by
  unfold rank NTotal
  have hf := fillRem_le cfg s
  have hso : scanRemOuter s ≤ (tableRowsL s.outerTable).length := by
    unfold scanRemOuter
    have := bucket_length_le s.outerTable s.curBucketNo
    omega
  have hsi : scanRemInner s ≤ (tableRowsL s.innerTable).length := by
    unfold scanRemInner
    have := bucket_length_le s.innerTable s.curBucketNo
    omega
  split_ifs <;> omega

theorem mu_lt_of_lt (cfg : SymCfg) (s2 s : SymState)
    (hb : bigCount s2 < bigCount s) (hN : NTotal s2 ≤ NTotal s) :
    mu cfg s2 < mu cfg s := by
  unfold mu
  have hr := rank_le cfg s2
  have h1 : bigCount s2 * (NTotal s2 + 8) ≤ bigCount s2 * (NTotal s + 8) :=
    Nat.mul_le_mul_left _ (by omega)
  have h2 : bigCount s2 * (NTotal s + 8) + (NTotal s + 8) ≤ bigCount s * (NTotal s + 8) := by
    calc bigCount s2 * (NTotal s + 8) + (NTotal s + 8)
        = (bigCount s2 + 1) * (NTotal s + 8) := by ring
      _ ≤ bigCount s * (NTotal s + 8) := Nat.mul_le_mul_right _ (by omega)
  omega

theorem findFrom_some_bounds (h : Nat) (p : Row → Bool) (chain : List HashTuple)
    (start j : Nat) (t : HashTuple) (hf : findFrom h p chain start = some (j, t)) :
    start ≤ j ∧ j < chain.length :=
  ⟨(findFrom_some_emits h p chain (fun _ => none) (fun _ _ => rfl) start j t hf).1,
   (findFrom_some_emits h p chain (fun _ => none) (fun _ _ => rfl) start j t hf).2.1⟩

theorem rank_build_eq (cfg : SymCfg) (s : SymState) (h : s.jstate = HJ_BUILD_HASHTABLE) :
    rank cfg s = 2 := by
  unfold rank
  simp [h, HJ_BUILD_HASHTABLE]

theorem rank_nni_eq (cfg : SymCfg) (s : SymState) (h : s.jstate = HJ_NEED_NEW_INNER) :
    rank cfg s =
      (if s.innerTupleNull then (if s.outerTupleNull then fillRem cfg s + 1 else 2) else 1) := by
  unfold rank
  simp [h, HJ_BUILD_HASHTABLE, HJ_NEED_NEW_INNER]

theorem rank_nno_eq (cfg : SymCfg) (s : SymState) (h : s.jstate = HJ_NEED_NEW_OUTER) :
    rank cfg s =
      (if s.outerTupleNull then (if s.innerTupleNull then fillRem cfg s + 1 else 2) else 1) := by
  unfold rank
  simp [h, HJ_BUILD_HASHTABLE, HJ_NEED_NEW_INNER, HJ_NEED_NEW_OUTER]

theorem rank_scanOuter_eq (cfg : SymCfg) (s : SymState) (h : s.jstate = HJ_SCAN_OUTER_BUCKET) :
    rank cfg s = scanRemOuter s + 3 := by
  unfold rank
  simp [h, HJ_BUILD_HASHTABLE, HJ_NEED_NEW_INNER, HJ_NEED_NEW_OUTER, HJ_SCAN_OUTER_BUCKET]

theorem rank_scanInner_eq (cfg : SymCfg) (s : SymState) (h : s.jstate = HJ_SCAN_INNER_BUCKET) :
    rank cfg s = scanRemInner s + 3 := by
  unfold rank
  simp [h, HJ_BUILD_HASHTABLE, HJ_NEED_NEW_INNER, HJ_NEED_NEW_OUTER,
    HJ_SCAN_OUTER_BUCKET, HJ_SCAN_INNER_BUCKET]

theorem rank_fill_eq (cfg : SymCfg) (s : SymState) (h : s.jstate = HJ_FILL_TUPLES) :
    rank cfg s = fillRem cfg s := by
  unfold rank
  simp [h, HJ_BUILD_HASHTABLE, HJ_NEED_NEW_INNER, HJ_NEED_NEW_OUTER,
    HJ_SCAN_OUTER_BUCKET, HJ_SCAN_INNER_BUCKET, HJ_FILL_TUPLES]

theorem dec_nni (cfg : SymCfg) (s : SymState) (hI : StepInv s)
    (hj : s.jstate = HJ_NEED_NEW_INNER) :
    (stepNeedNewInner cfg s ≠ .error) ∧
    (∀ s2, stepNeedNewInner cfg s = .next s2 → StepInv s2 ∧ mu cfg s2 < mu cfg s) ∧
    (∀ o s2, stepNeedNewInner cfg s = .yield o s2 → StepInv s2 ∧ mu cfg s2 < mu cfg s) := by
  obtain ⟨hrange, hin, hout, hbuild, hso2, hsi2⟩ := hI
  by_cases h1 : s.innerTupleNull = true
  · by_cases h2 : s.outerTupleNull = true
    · -- both exhausted: move to FILL
      rw [shape_nni_bothNull cfg s h1 h2]
      refine ⟨by simp, ?_, by intro o s2 hstep; exact absurd hstep (by simp)⟩
      intro s2 hstep
      have hs2 : ({ s with jstate := HJ_FILL_TUPLES } : SymState) = s2 :=
        (StepResult.next.injEq _ _).mp hstep
      subst hs2
      refine ⟨⟨⟨by simp [HJ_FILL_TUPLES], by simp [HJ_FILL_TUPLES]⟩, hin, hout,
        by intro hh; simp [HJ_FILL_TUPLES, HJ_BUILD_HASHTABLE] at hh,
        by intro hh; simp [HJ_FILL_TUPLES, HJ_SCAN_OUTER_BUCKET] at hh,
        by intro hh; simp [HJ_FILL_TUPLES, HJ_SCAN_INNER_BUCKET] at hh⟩, ?_⟩
      unfold mu
      have hb : bigCount { s with jstate := HJ_FILL_TUPLES } = bigCount s := rfl
      have hN : NTotal { s with jstate := HJ_FILL_TUPLES } = NTotal s := rfl
      have hr2 : rank cfg { s with jstate := HJ_FILL_TUPLES } = fillRem cfg s :=
        rank_fill_eq cfg _ rfl
      have hr1 : rank cfg s = fillRem cfg s + 1 := by
        rw [rank_nni_eq cfg s hj, if_pos h1, if_pos h2]
      rw [hb, hN, hr2, hr1]
      omega
    · -- inner exhausted, outer not: move to NEED_NEW_OUTER
      have h2f : s.outerTupleNull = false := by
        cases hx : s.outerTupleNull
        · rfl
        · exact absurd hx h2
      rw [shape_nni_innerNull cfg s h1 h2f]
      refine ⟨by simp, ?_, by intro o s2 hstep; exact absurd hstep (by simp)⟩
      intro s2 hstep
      have hs2 : ({ s with jstate := HJ_NEED_NEW_OUTER } : SymState) = s2 :=
        (StepResult.next.injEq _ _).mp hstep
      subst hs2
      refine ⟨⟨⟨by simp [HJ_NEED_NEW_OUTER], by simp [HJ_NEED_NEW_OUTER]⟩, hin, hout,
        by intro hh; simp [HJ_NEED_NEW_OUTER, HJ_BUILD_HASHTABLE] at hh,
        by intro hh; simp [HJ_NEED_NEW_OUTER, HJ_SCAN_OUTER_BUCKET] at hh,
        by intro hh; simp [HJ_NEED_NEW_OUTER, HJ_SCAN_INNER_BUCKET] at hh⟩, ?_⟩
      unfold mu
      have hb : bigCount { s with jstate := HJ_NEED_NEW_OUTER } = bigCount s := rfl
      have hN : NTotal { s with jstate := HJ_NEED_NEW_OUTER } = NTotal s := rfl
      have hr2 : rank cfg { s with jstate := HJ_NEED_NEW_OUTER } = 1 := by
        rw [rank_nno_eq cfg _ rfl]
        simp [h2f]
      have hr1 : rank cfg s = 2 := by
        rw [rank_nni_eq cfg s hj, if_pos h1, if_neg (by simp [h2f])]
      rw [hb, hN, hr2, hr1]
      omega
  · have h1f : s.innerTupleNull = false := by
      cases hx : s.innerTupleNull
      · rfl
      · exact absurd hx h1
    cases hinp : s.innerInput with
    | nil =>
      by_cases h3 : s.outerTupleNull = true
      · by_cases h4 : (cfg.fillInner || cfg.fillOuter) = true
        · -- exhaust, outer done, fill needed: to FILL with flag flip
          rw [shape_nni_exhaust_toFill cfg s h1f hinp h3 h4]
          refine ⟨by simp, ?_, by intro o s2 hstep; exact absurd hstep (by simp)⟩
          intro s2 hstep
          have hs2 : ({ s with innerTupleNull := true, jstate := HJ_FILL_TUPLES } : SymState) = s2 :=
            (StepResult.next.injEq _ _).mp hstep
          subst hs2
          refine ⟨⟨⟨by simp [HJ_FILL_TUPLES], by simp [HJ_FILL_TUPLES]⟩,
            by intro hh; simpa using hinp, by intro hh; exact hout hh,
            by intro hh; simp [HJ_FILL_TUPLES, HJ_BUILD_HASHTABLE] at hh,
            by intro hh; simp [HJ_FILL_TUPLES, HJ_SCAN_OUTER_BUCKET] at hh,
            by intro hh; simp [HJ_FILL_TUPLES, HJ_SCAN_INNER_BUCKET] at hh⟩, ?_⟩
          apply mu_lt_of_lt
          · unfold bigCount
            simp only [h1f, h3, hinp]
            simp
          · exact Nat.le_refl _
        · -- exhaust, outer done, no fill: done (no next/yield)
          rw [shape_nni_exhaust_done cfg s h1f hinp h3 (by simpa using h4)]
          exact ⟨by simp, by intro s2 hstep; exact absurd hstep (by simp),
            by intro o s2 hstep; exact absurd hstep (by simp)⟩
      · have h3f : s.outerTupleNull = false := by
          cases hx : s.outerTupleNull
          · rfl
          · exact absurd hx h3
        rw [shape_nni_exhaust_toOuter cfg s h1f hinp h3f]
        refine ⟨by simp, ?_, by intro o s2 hstep; exact absurd hstep (by simp)⟩
        intro s2 hstep
        have hs2 : ({ s with innerTupleNull := true, jstate := HJ_NEED_NEW_OUTER } : SymState) = s2 :=
          (StepResult.next.injEq _ _).mp hstep
        subst hs2
        refine ⟨⟨⟨by simp [HJ_NEED_NEW_OUTER], by simp [HJ_NEED_NEW_OUTER]⟩,
          by intro hh; simpa using hinp, by intro hh; exact hout hh,
          by intro hh; simp [HJ_NEED_NEW_OUTER, HJ_BUILD_HASHTABLE] at hh,
          by intro hh; simp [HJ_NEED_NEW_OUTER, HJ_SCAN_OUTER_BUCKET] at hh,
          by intro hh; simp [HJ_NEED_NEW_OUTER, HJ_SCAN_INNER_BUCKET] at hh⟩, ?_⟩
        apply mu_lt_of_lt
        · unfold bigCount
          simp only [h1f, h3f, hinp]
          simp
        · exact Nat.le_refl _
    | cons r rest =>
      cases hkey : r.key with
      | some k =>
        rw [shape_nni_pull cfg s r rest k h1f hinp hkey]
        refine ⟨by simp, ?_, by intro o s2 hstep; exact absurd hstep (by simp)⟩
        intro s2 hstep
        have hs2 := (StepResult.next.injEq _ _).mp hstep
        subst hs2
        constructor
        · refine ⟨⟨by simp [HJ_SCAN_OUTER_BUCKET], by simp [HJ_SCAN_OUTER_BUCKET]⟩,
            by intro hh; simp only [] at hh; rw [h1f] at hh; exact absurd hh (by simp),
            by intro hh; exact hout hh,
            by intro hh; simp [HJ_SCAN_OUTER_BUCKET, HJ_BUILD_HASHTABLE] at hh,
            by intro hh; exact ⟨by simp, h1f⟩,
            by intro hh; simp [HJ_SCAN_OUTER_BUCKET, HJ_SCAN_INNER_BUCKET] at hh⟩
        · apply mu_lt_of_lt
          · unfold bigCount
            simp only [h1f, hinp]
            simp
          · unfold NTotal
            have hlen := tableRowsL_insert_len s.innerTable r (cfg.hashFn k)
            simp only [hinp]
            simp only [List.length_cons]
            omega
      | none =>
        cases hkeep : s.innerTable.keepNulls with
        | true =>
          rw [shape_nni_pullNull_kept cfg s r rest h1f hinp hkey hkeep]
          refine ⟨by simp, ?_, by intro o s2 hstep; exact absurd hstep (by simp)⟩
          intro s2 hstep
          have hs2 := (StepResult.next.injEq _ _).mp hstep
          subst hs2
          constructor
          · refine ⟨⟨by simp [HJ_NEED_NEW_OUTER], by simp [HJ_NEED_NEW_OUTER]⟩,
              by intro hh; simp only [] at hh; rw [h1f] at hh; exact absurd hh (by simp),
              by intro hh; exact hout hh,
              by intro hh; simp [HJ_NEED_NEW_OUTER, HJ_BUILD_HASHTABLE] at hh,
              by intro hh; simp [HJ_NEED_NEW_OUTER, HJ_SCAN_OUTER_BUCKET] at hh,
              by intro hh; simp [HJ_NEED_NEW_OUTER, HJ_SCAN_INNER_BUCKET] at hh⟩
          · apply mu_lt_of_lt
            · unfold bigCount
              simp only [h1f, hinp]
              simp
            · unfold NTotal
              have hlen := tableRowsL_insert_len s.innerTable r 0
              simp only [hinp]
              simp only [List.length_cons]
              omega
        | false =>
          rw [shape_nni_pullNull_skip cfg s r rest h1f hinp hkey hkeep]
          refine ⟨by simp, ?_, by intro o s2 hstep; exact absurd hstep (by simp)⟩
          intro s2 hstep
          have hs2 := (StepResult.next.injEq _ _).mp hstep
          subst hs2
          constructor
          · refine ⟨⟨by simp [HJ_NEED_NEW_OUTER], by simp [HJ_NEED_NEW_OUTER]⟩,
              by intro hh; simp only [] at hh; rw [h1f] at hh; exact absurd hh (by simp),
              by intro hh; exact hout hh,
              by intro hh; simp [HJ_NEED_NEW_OUTER, HJ_BUILD_HASHTABLE] at hh,
              by intro hh; simp [HJ_NEED_NEW_OUTER, HJ_SCAN_OUTER_BUCKET] at hh,
              by intro hh; simp [HJ_NEED_NEW_OUTER, HJ_SCAN_INNER_BUCKET] at hh⟩
          · apply mu_lt_of_lt
            · unfold bigCount
              simp only [h1f, hinp]
              simp
            · unfold NTotal
              simp only [hinp]
              simp only [List.length_cons]
              omega

theorem dec_nno (cfg : SymCfg) (s : SymState) (hI : StepInv s)
    (hj : s.jstate = HJ_NEED_NEW_OUTER) :
    (stepNeedNewOuter cfg s ≠ .error) ∧
    (∀ s2, stepNeedNewOuter cfg s = .next s2 → StepInv s2 ∧ mu cfg s2 < mu cfg s) ∧
    (∀ o s2, stepNeedNewOuter cfg s = .yield o s2 → StepInv s2 ∧ mu cfg s2 < mu cfg s) := by
  obtain ⟨hrange, hin, hout, hbuild, hso2, hsi2⟩ := hI
  by_cases h1 : s.outerTupleNull = true
  · by_cases h2 : s.innerTupleNull = true
    · rw [shape_nno_bothNull cfg s h1 h2]
      refine ⟨by simp, ?_, by intro o s2 hstep; exact absurd hstep (by simp)⟩
      intro s2 hstep
      have hs2 : ({ s with jstate := HJ_FILL_TUPLES } : SymState) = s2 :=
        (StepResult.next.injEq _ _).mp hstep
      subst hs2
      refine ⟨⟨⟨by simp [HJ_FILL_TUPLES], by simp [HJ_FILL_TUPLES]⟩, hin, hout,
        by intro hh; simp [HJ_FILL_TUPLES, HJ_BUILD_HASHTABLE] at hh,
        by intro hh; simp [HJ_FILL_TUPLES, HJ_SCAN_OUTER_BUCKET] at hh,
        by intro hh; simp [HJ_FILL_TUPLES, HJ_SCAN_INNER_BUCKET] at hh⟩, ?_⟩
      unfold mu
      have hb : bigCount { s with jstate := HJ_FILL_TUPLES } = bigCount s := rfl
      have hN : NTotal { s with jstate := HJ_FILL_TUPLES } = NTotal s := rfl
      have hr2 : rank cfg { s with jstate := HJ_FILL_TUPLES } = fillRem cfg s :=
        rank_fill_eq cfg _ rfl
      have hr1 : rank cfg s = fillRem cfg s + 1 := by
        rw [rank_nno_eq cfg s hj, if_pos h1, if_pos h2]
      rw [hb, hN, hr2, hr1]
      omega
    · have h2f : s.innerTupleNull = false := by
        cases hx : s.innerTupleNull
        · rfl
        · exact absurd hx h2
      rw [shape_nno_outerNull cfg s h1 h2f]
      refine ⟨by simp, ?_, by intro o s2 hstep; exact absurd hstep (by simp)⟩
      intro s2 hstep
      have hs2 : ({ s with jstate := HJ_NEED_NEW_INNER } : SymState) = s2 :=
        (StepResult.next.injEq _ _).mp hstep
      subst hs2
      refine ⟨⟨⟨by simp [HJ_NEED_NEW_INNER], by simp [HJ_NEED_NEW_INNER]⟩, hin, hout,
        by intro hh; simp [HJ_NEED_NEW_INNER, HJ_BUILD_HASHTABLE] at hh,
        by intro hh; simp [HJ_NEED_NEW_INNER, HJ_SCAN_OUTER_BUCKET] at hh,
        by intro hh; simp [HJ_NEED_NEW_INNER, HJ_SCAN_INNER_BUCKET] at hh⟩, ?_⟩
      unfold mu
      have hb : bigCount { s with jstate := HJ_NEED_NEW_INNER } = bigCount s := rfl
      have hN : NTotal { s with jstate := HJ_NEED_NEW_INNER } = NTotal s := rfl
      have hr2 : rank cfg { s with jstate := HJ_NEED_NEW_INNER } = 1 := by
        rw [rank_nni_eq cfg _ rfl]
        simp [h2f]
      have hr1 : rank cfg s = 2 := by
        rw [rank_nno_eq cfg s hj, if_pos h1, if_neg (by simp [h2f])]
      rw [hb, hN, hr2, hr1]
      omega
  · have h1f : s.outerTupleNull = false := by
      cases hx : s.outerTupleNull
      · rfl
      · exact absurd hx h1
    cases hinp : s.outerInput with
    | nil =>
      by_cases h3 : s.innerTupleNull = true
      · by_cases h4 : (cfg.fillInner || cfg.fillOuter) = true
        · rw [shape_nno_exhaust_toFill cfg s h1f hinp h3 h4]
          refine ⟨by simp, ?_, by intro o s2 hstep; exact absurd hstep (by simp)⟩
          intro s2 hstep
          have hs2 : ({ s with outerTupleNull := true, jstate := HJ_FILL_TUPLES } : SymState) = s2 :=
            (StepResult.next.injEq _ _).mp hstep
          subst hs2
          refine ⟨⟨⟨by simp [HJ_FILL_TUPLES], by simp [HJ_FILL_TUPLES]⟩,
            by intro hh; exact hin hh, by intro hh; simpa using hinp,
            by intro hh; simp [HJ_FILL_TUPLES, HJ_BUILD_HASHTABLE] at hh,
            by intro hh; simp [HJ_FILL_TUPLES, HJ_SCAN_OUTER_BUCKET] at hh,
            by intro hh; simp [HJ_FILL_TUPLES, HJ_SCAN_INNER_BUCKET] at hh⟩, ?_⟩
          apply mu_lt_of_lt
          · unfold bigCount
            simp only [h1f, h3, hinp]
            simp
          · exact Nat.le_refl _
        · rw [shape_nno_exhaust_done cfg s h1f hinp h3 (by simpa using h4)]
          exact ⟨by simp, by intro s2 hstep; exact absurd hstep (by simp),
            by intro o s2 hstep; exact absurd hstep (by simp)⟩
      · have h3f : s.innerTupleNull = false := by
          cases hx : s.innerTupleNull
          · rfl
          · exact absurd hx h3
        rw [shape_nno_exhaust_toInner cfg s h1f hinp h3f]
        refine ⟨by simp, ?_, by intro o s2 hstep; exact absurd hstep (by simp)⟩
        intro s2 hstep
        have hs2 : ({ s with outerTupleNull := true, jstate := HJ_NEED_NEW_INNER } : SymState) = s2 :=
          (StepResult.next.injEq _ _).mp hstep
        subst hs2
        refine ⟨⟨⟨by simp [HJ_NEED_NEW_INNER], by simp [HJ_NEED_NEW_INNER]⟩,
          by intro hh; exact hin hh, by intro hh; simpa using hinp,
          by intro hh; simp [HJ_NEED_NEW_INNER, HJ_BUILD_HASHTABLE] at hh,
          by intro hh; simp [HJ_NEED_NEW_INNER, HJ_SCAN_OUTER_BUCKET] at hh,
          by intro hh; simp [HJ_NEED_NEW_INNER, HJ_SCAN_INNER_BUCKET] at hh⟩, ?_⟩
        apply mu_lt_of_lt
        · unfold bigCount
          simp only [h1f, h3f, hinp]
          simp
        · exact Nat.le_refl _
    | cons r rest =>
      cases hkey : r.key with
      | some k =>
        rw [shape_nno_pull cfg s r rest k h1f hinp hkey]
        refine ⟨by simp, ?_, by intro o s2 hstep; exact absurd hstep (by simp)⟩
        intro s2 hstep
        have hs2 := (StepResult.next.injEq _ _).mp hstep
        subst hs2
        constructor
        · refine ⟨⟨by simp [HJ_SCAN_INNER_BUCKET], by simp [HJ_SCAN_INNER_BUCKET]⟩,
            by intro hh; exact hin hh,
            by intro hh; simp only [] at hh; rw [h1f] at hh; exact absurd hh (by simp),
            by intro hh; simp [HJ_SCAN_INNER_BUCKET, HJ_BUILD_HASHTABLE] at hh,
            by intro hh; simp [HJ_SCAN_INNER_BUCKET, HJ_SCAN_OUTER_BUCKET] at hh,
            by intro hh; exact ⟨by simp, h1f⟩⟩
        · apply mu_lt_of_lt
          · unfold bigCount
            simp only [h1f, hinp]
            simp
          · unfold NTotal
            have hlen := tableRowsL_insert_len s.outerTable r (cfg.hashFn k)
            simp only [hinp]
            simp only [List.length_cons]
            omega
      | none =>
        cases hkeep : s.outerTable.keepNulls with
        | true =>
          rw [shape_nno_pullNull_kept cfg s r rest h1f hinp hkey hkeep]
          refine ⟨by simp, ?_, by intro o s2 hstep; exact absurd hstep (by simp)⟩
          intro s2 hstep
          have hs2 := (StepResult.next.injEq _ _).mp hstep
          subst hs2
          constructor
          · refine ⟨⟨by simp [HJ_NEED_NEW_INNER], by simp [HJ_NEED_NEW_INNER]⟩,
              by intro hh; exact hin hh,
              by intro hh; simp only [] at hh; rw [h1f] at hh; exact absurd hh (by simp),
              by intro hh; simp [HJ_NEED_NEW_INNER, HJ_BUILD_HASHTABLE] at hh,
              by intro hh; simp [HJ_NEED_NEW_INNER, HJ_SCAN_OUTER_BUCKET] at hh,
              by intro hh; simp [HJ_NEED_NEW_INNER, HJ_SCAN_INNER_BUCKET] at hh⟩
          · apply mu_lt_of_lt
            · unfold bigCount
              simp only [h1f, hinp]
              simp
            · unfold NTotal
              have hlen := tableRowsL_insert_len s.outerTable r 0
              simp only [hinp]
              simp only [List.length_cons]
              omega
        | false =>
          rw [shape_nno_pullNull_skip cfg s r rest h1f hinp hkey hkeep]
          refine ⟨by simp, ?_, by intro o s2 hstep; exact absurd hstep (by simp)⟩
          intro s2 hstep
          have hs2 := (StepResult.next.injEq _ _).mp hstep
          subst hs2
          constructor
          · refine ⟨⟨by simp [HJ_NEED_NEW_INNER], by simp [HJ_NEED_NEW_INNER]⟩,
              by intro hh; exact hin hh,
              by intro hh; simp only [] at hh; rw [h1f] at hh; exact absurd hh (by simp),
              by intro hh; simp [HJ_NEED_NEW_INNER, HJ_BUILD_HASHTABLE] at hh,
              by intro hh; simp [HJ_NEED_NEW_INNER, HJ_SCAN_OUTER_BUCKET] at hh,
              by intro hh; simp [HJ_NEED_NEW_INNER, HJ_SCAN_INNER_BUCKET] at hh⟩
          · apply mu_lt_of_lt
            · unfold bigCount
              simp only [h1f, hinp]
              simp
            · unfold NTotal
              simp only [hinp]
              simp only [List.length_cons]
              omega

theorem dec_scanOuter (cfg : SymCfg) (s : SymState) (hI : StepInv s)
    (hj : s.jstate = HJ_SCAN_OUTER_BUCKET) :
    (stepScanOuterBucket cfg s ≠ .error) ∧
    (∀ s2, stepScanOuterBucket cfg s = .next s2 → StepInv s2 ∧ mu cfg s2 < mu cfg s) ∧
    (∀ o s2, stepScanOuterBucket cfg s = .yield o s2 → StepInv s2 ∧ mu cfg s2 < mu cfg s) := by
  obtain ⟨hrange, hin, hout, hbuild, hso2, hsi2⟩ := hI
  obtain ⟨hsome, hiN⟩ := hso2 hj
  cases hec : s.ecxtInner with
  | none => rw [hec] at hsome; exact absurd hsome (by simp)
  | some pulled =>
  have hrank1 : rank cfg s = scanRemOuter s + 3 := rank_scanOuter_eq cfg s hj
  cases hf : findFrom s.curOutHashValue (fun r => cfg.hashclauses r pulled)
      (s.outerTable.bucket s.curBucketNo) (startIdx s.curOutTuple) with
  | none =>
    rw [shape_scanOuter_none cfg s pulled hec hf]
    refine ⟨by simp, ?_, by intro o s2 hstep; exact absurd hstep (by simp)⟩
    intro s2 hstep
    have hs2 : ({ s with jstate := HJ_NEED_NEW_OUTER } : SymState) = s2 :=
      (StepResult.next.injEq _ _).mp hstep
    subst hs2
    refine ⟨⟨⟨by simp [HJ_NEED_NEW_OUTER], by simp [HJ_NEED_NEW_OUTER]⟩, hin, hout,
      by intro hh; simp [HJ_NEED_NEW_OUTER, HJ_BUILD_HASHTABLE] at hh,
      by intro hh; simp [HJ_NEED_NEW_OUTER, HJ_SCAN_OUTER_BUCKET] at hh,
      by intro hh; simp [HJ_NEED_NEW_OUTER, HJ_SCAN_INNER_BUCKET] at hh⟩, ?_⟩
    unfold mu
    have hb : bigCount { s with jstate := HJ_NEED_NEW_OUTER } = bigCount s := rfl
    have hN : NTotal { s with jstate := HJ_NEED_NEW_OUTER } = NTotal s := rfl
    have hr2 : rank cfg { s with jstate := HJ_NEED_NEW_OUTER } ≤ 2 := by
      rw [rank_nno_eq cfg _ rfl]
      by_cases hx : s.outerTupleNull = true
      · simp [hx, hiN]
      · simp [hx, hiN]
    rw [hb, hN, hrank1]
    omega
  | some p =>
    obtain ⟨j, cand⟩ := p
    obtain ⟨hstart, hjlt⟩ := findFrom_some_bounds _ _ _ _ _ _ hf
    by_cases hjq : evalJoinQual cfg.joinqual cand.row pulled = true
    · by_cases hoq : evalOtherQual cfg.otherqual (some cand.row) (some pulled) = true
      · rw [shape_scanOuter_match cfg s pulled j cand hec hf hjq hoq]
        refine ⟨by simp, by intro s2 hstep; exact absurd hstep (by simp), ?_⟩
        intro o s2 hstep
        have hs2 : ({ s with
            curOutTuple := some j,
            ecxtOuter := some cand.row,
            outerTable := setMatchAt s.outerTable s.curBucketNo j,
            innerTable := setMatchHead s.innerTable (s.innerInsertHash % s.innerTable.nbuckets) } : SymState) = s2 := by
          have := (StepResult.yield.injEq _ _ _ _).mp hstep
          exact this.2
        subst hs2
        refine ⟨⟨⟨by simpa [HJ_SCAN_OUTER_BUCKET] using hrange.1, by simpa [HJ_SCAN_OUTER_BUCKET] using hrange.2⟩,
          hin, hout,
          by intro hh; rw [hj] at hh; simp [HJ_SCAN_OUTER_BUCKET, HJ_BUILD_HASHTABLE] at hh,
          by intro hh; exact ⟨by rw [hec]; rfl, hiN⟩,
          by intro hh; rw [hj] at hh; simp [HJ_SCAN_OUTER_BUCKET, HJ_SCAN_INNER_BUCKET] at hh⟩, ?_⟩
        unfold mu
        have hb : bigCount { s with
            curOutTuple := some j,
            ecxtOuter := some cand.row,
            outerTable := setMatchAt s.outerTable s.curBucketNo j,
            innerTable := setMatchHead s.innerTable (s.innerInsertHash % s.innerTable.nbuckets) } = bigCount s := rfl
        have hN : NTotal { s with
            curOutTuple := some j,
            ecxtOuter := some cand.row,
            outerTable := setMatchAt s.outerTable s.curBucketNo j,
            innerTable := setMatchHead s.innerTable (s.innerInsertHash % s.innerTable.nbuckets) } = NTotal s := by
          unfold NTotal
          rw [tableRowsL_setMatchAt_len, tableRowsL_setMatchHead_len]
        have hr2 : rank cfg { s with
            curOutTuple := some j,
            ecxtOuter := some cand.row,
            outerTable := setMatchAt s.outerTable s.curBucketNo j,
            innerTable := setMatchHead s.innerTable (s.innerInsertHash % s.innerTable.nbuckets) }
            = (s.outerTable.bucket s.curBucketNo).length - (j + 1) + 3 := by
          rw [rank_scanOuter_eq cfg _ (by rw [hj])]
          unfold scanRemOuter
          rw [bucket_setMatchAt_len]
          rfl
        rw [hb, hN, hr2, hrank1]
        unfold scanRemOuter
        have hstartle : startIdx s.curOutTuple ≤ j := hstart
        omega
      · have hoqf : evalOtherQual cfg.otherqual (some cand.row) (some pulled) = false := by
          cases hx : evalOtherQual cfg.otherqual (some cand.row) (some pulled)
          · rfl
          · exact absurd hx hoq
        rw [shape_scanOuter_matchFiltered cfg s pulled j cand hec hf hjq hoqf]
        refine ⟨by simp, ?_, by intro o s2 hstep; exact absurd hstep (by simp)⟩
        intro s2 hstep
        have hs2 := (StepResult.next.injEq _ _).mp hstep
        subst hs2
        refine ⟨⟨⟨by simpa [HJ_SCAN_OUTER_BUCKET] using hrange.1, by simpa [HJ_SCAN_OUTER_BUCKET] using hrange.2⟩,
          hin, hout,
          by intro hh; rw [hj] at hh; simp [HJ_SCAN_OUTER_BUCKET, HJ_BUILD_HASHTABLE] at hh,
          by intro hh; exact ⟨by rw [hec]; rfl, hiN⟩,
          by intro hh; rw [hj] at hh; simp [HJ_SCAN_OUTER_BUCKET, HJ_SCAN_INNER_BUCKET] at hh⟩, ?_⟩
        unfold mu
        have hN : NTotal { s with
            curOutTuple := some j,
            ecxtOuter := some cand.row,
            outerTable := setMatchAt s.outerTable s.curBucketNo j,
            innerTable := setMatchHead s.innerTable (s.innerInsertHash % s.innerTable.nbuckets) } = NTotal s := by
          unfold NTotal
          rw [tableRowsL_setMatchAt_len, tableRowsL_setMatchHead_len]
        have hr2 : rank cfg { s with
            curOutTuple := some j,
            ecxtOuter := some cand.row,
            outerTable := setMatchAt s.outerTable s.curBucketNo j,
            innerTable := setMatchHead s.innerTable (s.innerInsertHash % s.innerTable.nbuckets) }
            = (s.outerTable.bucket s.curBucketNo).length - (j + 1) + 3 := by
          rw [rank_scanOuter_eq cfg _ (by rw [hj])]
          unfold scanRemOuter
          rw [bucket_setMatchAt_len]
          rfl
        have hb : bigCount { s with
            curOutTuple := some j,
            ecxtOuter := some cand.row,
            outerTable := setMatchAt s.outerTable s.curBucketNo j,
            innerTable := setMatchHead s.innerTable (s.innerInsertHash % s.innerTable.nbuckets) } = bigCount s := rfl
        rw [hb, hN, hr2, hrank1]
        unfold scanRemOuter
        have hstartle : startIdx s.curOutTuple ≤ j := hstart
        omega
    · have hjqf : evalJoinQual cfg.joinqual cand.row pulled = false := by
        cases hx : evalJoinQual cfg.joinqual cand.row pulled
        · rfl
        · exact absurd hx hjq
      rw [shape_scanOuter_noJq cfg s pulled j cand hec hf hjqf]
      refine ⟨by simp, ?_, by intro o s2 hstep; exact absurd hstep (by simp)⟩
      intro s2 hstep
      have hs2 := (StepResult.next.injEq _ _).mp hstep
      subst hs2
      refine ⟨⟨⟨by simpa [HJ_SCAN_OUTER_BUCKET] using hrange.1, by simpa [HJ_SCAN_OUTER_BUCKET] using hrange.2⟩,
        hin, hout,
        by intro hh; rw [hj] at hh; simp [HJ_SCAN_OUTER_BUCKET, HJ_BUILD_HASHTABLE] at hh,
        by intro hh; exact ⟨by rw [hec]; rfl, hiN⟩,
        by intro hh; rw [hj] at hh; simp [HJ_SCAN_OUTER_BUCKET, HJ_SCAN_INNER_BUCKET] at hh⟩, ?_⟩
      unfold mu
      have hb : bigCount { s with curOutTuple := some j, ecxtOuter := some cand.row } = bigCount s := rfl
      have hN : NTotal { s with curOutTuple := some j, ecxtOuter := some cand.row } = NTotal s := rfl
      have hr2 : rank cfg { s with curOutTuple := some j, ecxtOuter := some cand.row }
          = (s.outerTable.bucket s.curBucketNo).length - (j + 1) + 3 := by
        rw [rank_scanOuter_eq cfg _ (by rw [hj])]
        rfl
      rw [hb, hN, hr2, hrank1]
      unfold scanRemOuter
      have hstartle : startIdx s.curOutTuple ≤ j := hstart
      omega

theorem dec_scanInner (cfg : SymCfg) (s : SymState) (hI : StepInv s)
    (hj : s.jstate = HJ_SCAN_INNER_BUCKET) :
    (stepScanInnerBucket cfg s ≠ .error) ∧
    (∀ s2, stepScanInnerBucket cfg s = .next s2 → StepInv s2 ∧ mu cfg s2 < mu cfg s) ∧
    (∀ o s2, stepScanInnerBucket cfg s = .yield o s2 → StepInv s2 ∧ mu cfg s2 < mu cfg s) := by
  obtain ⟨hrange, hin, hout, hbuild, hso2, hsi2⟩ := hI
  obtain ⟨hsome, hoN⟩ := hsi2 hj
  cases hec : s.ecxtOuter with
  | none => rw [hec] at hsome; exact absurd hsome (by simp)
  | some pulled =>
  have hrank1 : rank cfg s = scanRemInner s + 3 := rank_scanInner_eq cfg s hj
  cases hf : findFrom s.curHashValue (fun r => cfg.hashclauses pulled r)
      (s.innerTable.bucket s.curBucketNo) (startIdx s.curTuple) with
  | none =>
    rw [shape_scanInner_none cfg s pulled hec hf]
    refine ⟨by simp, ?_, by intro o s2 hstep; exact absurd hstep (by simp)⟩
    intro s2 hstep
    have hs2 : ({ s with jstate := HJ_NEED_NEW_INNER } : SymState) = s2 :=
      (StepResult.next.injEq _ _).mp hstep
    subst hs2
    refine ⟨⟨⟨by simp [HJ_NEED_NEW_INNER], by simp [HJ_NEED_NEW_INNER]⟩, hin, hout,
      by intro hh; simp [HJ_NEED_NEW_INNER, HJ_BUILD_HASHTABLE] at hh,
      by intro hh; simp [HJ_NEED_NEW_INNER, HJ_SCAN_OUTER_BUCKET] at hh,
      by intro hh; simp [HJ_NEED_NEW_INNER, HJ_SCAN_INNER_BUCKET] at hh⟩, ?_⟩
    unfold mu
    have hb : bigCount { s with jstate := HJ_NEED_NEW_INNER } = bigCount s := rfl
    have hN : NTotal { s with jstate := HJ_NEED_NEW_INNER } = NTotal s := rfl
    have hr2 : rank cfg { s with jstate := HJ_NEED_NEW_INNER } ≤ 2 := by
      rw [rank_nni_eq cfg _ rfl]
      by_cases hx : s.innerTupleNull = true
      · simp [hx, hoN]
      · simp [hx, hoN]
    rw [hb, hN, hrank1]
    omega
  | some p =>
    obtain ⟨j, cand⟩ := p
    obtain ⟨hstart, hjlt⟩ := findFrom_some_bounds _ _ _ _ _ _ hf
    by_cases hjq : evalJoinQual cfg.joinqual pulled cand.row = true
    · by_cases hoq : evalOtherQual cfg.otherqual (some pulled) (some cand.row) = true
      · rw [shape_scanInner_match cfg s pulled j cand hec hf hjq hoq]
        refine ⟨by simp, by intro s2 hstep; exact absurd hstep (by simp), ?_⟩
        intro o s2 hstep
        have hs2 : ({ s with
            curTuple := some j,
            ecxtInner := some cand.row,
            innerTable := setMatchAt s.innerTable s.curBucketNo j,
            outerTable := setMatchHead s.outerTable (s.outerInsertHash % s.outerTable.nbuckets) } : SymState) = s2 := by
          have := (StepResult.yield.injEq _ _ _ _).mp hstep
          exact this.2
        subst hs2
        refine ⟨⟨⟨by simpa [HJ_SCAN_INNER_BUCKET] using hrange.1, by simpa [HJ_SCAN_INNER_BUCKET] using hrange.2⟩,
          hin, hout,
          by intro hh; rw [hj] at hh; simp [HJ_SCAN_INNER_BUCKET, HJ_BUILD_HASHTABLE] at hh,
          by intro hh; rw [hj] at hh; simp [HJ_SCAN_INNER_BUCKET, HJ_SCAN_OUTER_BUCKET] at hh,
          by intro hh; exact ⟨by rw [hec]; rfl, hoN⟩⟩, ?_⟩
        unfold mu
        have hb : bigCount { s with
            curTuple := some j,
            ecxtInner := some cand.row,
            innerTable := setMatchAt s.innerTable s.curBucketNo j,
            outerTable := setMatchHead s.outerTable (s.outerInsertHash % s.outerTable.nbuckets) } = bigCount s := rfl
        have hN : NTotal { s with
            curTuple := some j,
            ecxtInner := some cand.row,
            innerTable := setMatchAt s.innerTable s.curBucketNo j,
            outerTable := setMatchHead s.outerTable (s.outerInsertHash % s.outerTable.nbuckets) } = NTotal s := by
          unfold NTotal
          rw [tableRowsL_setMatchAt_len, tableRowsL_setMatchHead_len]
        have hr2 : rank cfg { s with
            curTuple := some j,
            ecxtInner := some cand.row,
            innerTable := setMatchAt s.innerTable s.curBucketNo j,
            outerTable := setMatchHead s.outerTable (s.outerInsertHash % s.outerTable.nbuckets) }
            = (s.innerTable.bucket s.curBucketNo).length - (j + 1) + 3 := by
          rw [rank_scanInner_eq cfg _ (by rw [hj])]
          unfold scanRemInner
          rw [bucket_setMatchAt_len]
          rfl
        rw [hb, hN, hr2, hrank1]
        unfold scanRemInner
        have hstartle : startIdx s.curTuple ≤ j := hstart
        omega
      · have hoqf : evalOtherQual cfg.otherqual (some pulled) (some cand.row) = false := by
          cases hx : evalOtherQual cfg.otherqual (some pulled) (some cand.row)
          · rfl
          · exact absurd hx hoq
        rw [shape_scanInner_matchFiltered cfg s pulled j cand hec hf hjq hoqf]
        refine ⟨by simp, ?_, by intro o s2 hstep; exact absurd hstep (by simp)⟩
        intro s2 hstep
        have hs2 := (StepResult.next.injEq _ _).mp hstep
        subst hs2
        refine ⟨⟨⟨by simpa [HJ_SCAN_INNER_BUCKET] using hrange.1, by simpa [HJ_SCAN_INNER_BUCKET] using hrange.2⟩,
          hin, hout,
          by intro hh; rw [hj] at hh; simp [HJ_SCAN_INNER_BUCKET, HJ_BUILD_HASHTABLE] at hh,
          by intro hh; rw [hj] at hh; simp [HJ_SCAN_INNER_BUCKET, HJ_SCAN_OUTER_BUCKET] at hh,
          by intro hh; exact ⟨by rw [hec]; rfl, hoN⟩⟩, ?_⟩
        unfold mu
        have hb : bigCount { s with
            curTuple := some j,
            ecxtInner := some cand.row,
            innerTable := setMatchAt s.innerTable s.curBucketNo j,
            outerTable := setMatchHead s.outerTable (s.outerInsertHash % s.outerTable.nbuckets) } = bigCount s := rfl
        have hN : NTotal { s with
            curTuple := some j,
            ecxtInner := some cand.row,
            innerTable := setMatchAt s.innerTable s.curBucketNo j,
            outerTable := setMatchHead s.outerTable (s.outerInsertHash % s.outerTable.nbuckets) } = NTotal s := by
          unfold NTotal
          rw [tableRowsL_setMatchAt_len, tableRowsL_setMatchHead_len]
        have hr2 : rank cfg { s with
            curTuple := some j,
            ecxtInner := some cand.row,
            innerTable := setMatchAt s.innerTable s.curBucketNo j,
            outerTable := setMatchHead s.outerTable (s.outerInsertHash % s.outerTable.nbuckets) }
            = (s.innerTable.bucket s.curBucketNo).length - (j + 1) + 3 := by
          rw [rank_scanInner_eq cfg _ (by rw [hj])]
          unfold scanRemInner
          rw [bucket_setMatchAt_len]
          rfl
        rw [hb, hN, hr2, hrank1]
        unfold scanRemInner
        have hstartle : startIdx s.curTuple ≤ j := hstart
        omega
    · have hjqf : evalJoinQual cfg.joinqual pulled cand.row = false := by
        cases hx : evalJoinQual cfg.joinqual pulled cand.row
        · rfl
        · exact absurd hx hjq
      rw [shape_scanInner_noJq cfg s pulled j cand hec hf hjqf]
      refine ⟨by simp, ?_, by intro o s2 hstep; exact absurd hstep (by simp)⟩
      intro s2 hstep
      have hs2 := (StepResult.next.injEq _ _).mp hstep
      subst hs2
      refine ⟨⟨⟨by simpa [HJ_SCAN_INNER_BUCKET] using hrange.1, by simpa [HJ_SCAN_INNER_BUCKET] using hrange.2⟩,
        hin, hout,
        by intro hh; rw [hj] at hh; simp [HJ_SCAN_INNER_BUCKET, HJ_BUILD_HASHTABLE] at hh,
        by intro hh; rw [hj] at hh; simp [HJ_SCAN_INNER_BUCKET, HJ_SCAN_OUTER_BUCKET] at hh,
        by intro hh; exact ⟨by rw [hec]; rfl, hoN⟩⟩, ?_⟩
      unfold mu
      have hb : bigCount { s with curTuple := some j, ecxtInner := some cand.row } = bigCount s := rfl
      have hN : NTotal { s with curTuple := some j, ecxtInner := some cand.row } = NTotal s := rfl
      have hr2 : rank cfg { s with curTuple := some j, ecxtInner := some cand.row }
          = (s.innerTable.bucket s.curBucketNo).length - (j + 1) + 3 := by
        rw [rank_scanInner_eq cfg _ (by rw [hj])]
        rfl
      rw [hb, hN, hr2, hrank1]
      unfold scanRemInner
      have hstartle : startIdx s.curTuple ≤ j := hstart
      omega

theorem dec_fill_nf (cfg : SymCfg) (s : SymState) (hI : StepInv s)
    (hj : s.jstate = HJ_FILL_TUPLES) (h0 : s.firstFill = false) :
    (stepFillTuples cfg s ≠ .error) ∧
    (∀ s2, stepFillTuples cfg s = .next s2 → StepInv s2 ∧ mu cfg s2 < mu cfg s) ∧
    (∀ o s2, stepFillTuples cfg s = .yield o s2 → StepInv s2 ∧ mu cfg s2 < mu cfg s) := by
  obtain ⟨hrange, hin, hout, hbuild, hso2, hsi2⟩ := hI
  have hInvX : ∀ s2 : SymState, s2.jstate = s.jstate → s2.innerInput = s.innerInput →
      s2.outerInput = s.outerInput → s2.innerTupleNull = s.innerTupleNull →
      s2.outerTupleNull = s.outerTupleNull → StepInv s2 := by
    intro s2 e1 e2 e3 e4 e5
    refine ⟨by rw [e1]; exact hrange, ?_, ?_, ?_, ?_, ?_⟩
    · intro hh; rw [e4] at hh; rw [e2]; exact hin hh
    · intro hh; rw [e5] at hh; rw [e3]; exact hout hh
    · intro hh; rw [e1, hj] at hh
      simp [HJ_FILL_TUPLES, HJ_BUILD_HASHTABLE] at hh
    · intro hh; rw [e1, hj] at hh
      simp [HJ_FILL_TUPLES, HJ_SCAN_OUTER_BUCKET] at hh
    · intro hh; rw [e1, hj] at hh
      simp [HJ_FILL_TUPLES, HJ_SCAN_INNER_BUCKET] at hh
  by_cases hfi : (!s.fillInnerFinished && cfg.fillInner) = true
  · have h1 : s.fillInnerFinished = false := by
      cases hx : s.fillInnerFinished
      · rfl
      · rw [hx] at hfi; simp at hfi
    have h2 : cfg.fillInner = true := (Bool.and_eq_true _ _).mp hfi |>.2
    cases hf : findUnmatched s.innerTable.buckets s.fillBucketNo s.fillIdx with
    | none =>
      rw [shape_fill_innerDone cfg s h0 h1 h2 hf]
      refine ⟨by simp, ?_, by intro o s2 hstep; exact absurd hstep (by simp)⟩
      intro s2 hstep
      have hs2 := (StepResult.next.injEq _ _).mp hstep
      subst hs2
      refine ⟨hInvX _ rfl rfl rfl rfl rfl, ?_⟩
      unfold mu
      have hb : bigCount { s with fillInnerFinished := true, firstFill := true }
          = bigCount s := rfl
      have hN : NTotal { s with fillInnerFinished := true, firstFill := true }
          = NTotal s := rfl
      rw [hb, hN, rank_fill_eq cfg { s with fillInnerFinished := true, firstFill := true } hj,
        rank_fill_eq cfg s hj]
      have hlt : fillRem cfg { s with fillInnerFinished := true, firstFill := true }
          < fillRem cfg s := by
        unfold fillRem effFillB effFillI
        simp only [h0, h1, h2, Bool.not_true, Bool.not_false, Bool.and_false, Bool.and_true,
          if_false, if_true, Bool.false_eq_true, Bool.true_and, if_neg, ite_false, ite_true]
        split_ifs
        all_goals simp_all
        all_goals omega
      omega
    | some p =>
      obtain ⟨b, p2⟩ := p
      obtain ⟨j, t⟩ := p2
      obtain ⟨hble, hblt, htm, pre, hpreEq, hprem⟩ :=
        findUnmatched_some s.innerTable.buckets s.fillBucketNo s.fillIdx b j t hf
      have hkey : StepInv ({ s with
            fillBucketNo := b, fillIdx := j + 1,
            ecxtOuter := none, ecxtInner := some t.row } : SymState) ∧
          mu cfg { s with
            fillBucketNo := b, fillIdx := j + 1,
            ecxtOuter := none, ecxtInner := some t.row } < mu cfg s := by
        refine ⟨hInvX _ rfl rfl rfl rfl rfl, ?_⟩
        unfold mu
        have hb2 : bigCount { s with
            fillBucketNo := b, fillIdx := j + 1,
            ecxtOuter := none, ecxtInner := some t.row } = bigCount s := rfl
        have hN2 : NTotal { s with
            fillBucketNo := b, fillIdx := j + 1,
            ecxtOuter := none, ecxtInner := some t.row } = NTotal s := rfl
        rw [hb2, hN2, rank_fill_eq cfg { s with
            fillBucketNo := b, fillIdx := j + 1,
            ecxtOuter := none, ecxtInner := some t.row } hj, rank_fill_eq cfg s hj]
        have hlt : fillRem cfg { s with
            fillBucketNo := b, fillIdx := j + 1,
            ecxtOuter := none, ecxtInner := some t.row } < fillRem cfg s := by
          unfold fillRem effFillB effFillI
          simp only [h0, h1, h2, Bool.not_false, Bool.and_true, if_true, ite_true, ite_false,
            Bool.false_eq_true, if_false]
          rw [hpreEq]
          simp only [List.length_append, List.length_cons]
          split_ifs <;> omega
        omega
      by_cases hoq : evalOtherQual cfg.otherqual none (some t.row) = true
      · rw [shape_fill_innerEmit cfg s b j t h0 h1 h2 hf hoq]
        refine ⟨by simp, by intro s2 hstep; exact absurd hstep (by simp), ?_⟩
        intro o s2 hstep
        have hs2 := ((StepResult.yield.injEq _ _ _ _).mp hstep).2
        subst hs2
        exact hkey
      · have hoqf : evalOtherQual cfg.otherqual none (some t.row) = false := by
          cases hx : evalOtherQual cfg.otherqual none (some t.row)
          · rfl
          · exact absurd hx hoq
        rw [shape_fill_innerFiltered cfg s b j t h0 h1 h2 hf hoqf]
        refine ⟨by simp, ?_, by intro o s2 hstep; exact absurd hstep (by simp)⟩
        intro s2 hstep
        have hs2 := (StepResult.next.injEq _ _).mp hstep
        subst hs2
        exact hkey
  · have hfe : (!s.fillInnerFinished && cfg.fillInner) = false := by
      cases hx : (!s.fillInnerFinished && cfg.fillInner)
      · rfl
      · exact absurd hx hfi
    have hfe2 : (cfg.fillInner && !s.fillInnerFinished) = false := by
      rw [Bool.and_comm]; exact hfe
    by_cases hfo : (!s.fillOuterFinished && cfg.fillOuter) = true
    · have h2 : s.fillOuterFinished = false := by
        cases hx : s.fillOuterFinished
        · rfl
        · rw [hx] at hfo; simp at hfo
      have h3 : cfg.fillOuter = true := (Bool.and_eq_true _ _).mp hfo |>.2
      cases hf : findUnmatched s.outerTable.buckets s.fillBucketNo s.fillIdx with
      | none =>
        rw [shape_fill_outerDone cfg s h0 hfe h2 h3 hf]
        exact ⟨by simp, by intro s2 hstep; exact absurd hstep (by simp),
          by intro o s2 hstep; exact absurd hstep (by simp)⟩
      | some p =>
        obtain ⟨b, p2⟩ := p
        obtain ⟨j, t⟩ := p2
        obtain ⟨hble, hblt, htm, pre, hpreEq, hprem⟩ :=
          findUnmatched_some s.outerTable.buckets s.fillBucketNo s.fillIdx b j t hf
        have hkey : StepInv ({ s with
              fillBucketNo := b, fillIdx := j + 1,
              ecxtInner := none, ecxtOuter := some t.row } : SymState) ∧
            mu cfg { s with
              fillBucketNo := b, fillIdx := j + 1,
              ecxtInner := none, ecxtOuter := some t.row } < mu cfg s := by
          refine ⟨hInvX _ rfl rfl rfl rfl rfl, ?_⟩
          unfold mu
          have hb2 : bigCount { s with
              fillBucketNo := b, fillIdx := j + 1,
              ecxtInner := none, ecxtOuter := some t.row } = bigCount s := rfl
          have hN2 : NTotal { s with
              fillBucketNo := b, fillIdx := j + 1,
              ecxtInner := none, ecxtOuter := some t.row } = NTotal s := rfl
          rw [hb2, hN2, rank_fill_eq cfg { s with
              fillBucketNo := b, fillIdx := j + 1,
              ecxtInner := none, ecxtOuter := some t.row } hj, rank_fill_eq cfg s hj]
          have hlt : fillRem cfg { s with
              fillBucketNo := b, fillIdx := j + 1,
              ecxtInner := none, ecxtOuter := some t.row } < fillRem cfg s := by
            unfold fillRem effFillB effFillI
            simp only [h0, h2, h3, hfe2, Bool.not_false, Bool.and_true, Bool.false_eq_true,
              if_false, ite_false, if_true, ite_true]
            rw [hpreEq]
            simp only [List.length_append, List.length_cons]
            omega
          omega
        by_cases hoq : evalOtherQual cfg.otherqual (some t.row) none = true
        · rw [shape_fill_outerEmit cfg s b j t h0 hfe h2 h3 hf hoq]
          refine ⟨by simp, by intro s2 hstep; exact absurd hstep (by simp), ?_⟩
          intro o s2 hstep
          have hs2 := ((StepResult.yield.injEq _ _ _ _).mp hstep).2
          subst hs2
          exact hkey
        · have hoqf : evalOtherQual cfg.otherqual (some t.row) none = false := by
            cases hx : evalOtherQual cfg.otherqual (some t.row) none
            · rfl
            · exact absurd hx hoq
          rw [shape_fill_outerFiltered cfg s b j t h0 hfe h2 h3 hf hoqf]
          refine ⟨by simp, ?_, by intro o s2 hstep; exact absurd hstep (by simp)⟩
          intro s2 hstep
          have hs2 := (StepResult.next.injEq _ _).mp hstep
          subst hs2
          exact hkey
    · have hfoe : (!s.fillOuterFinished && cfg.fillOuter) = false := by
        cases hx : (!s.fillOuterFinished && cfg.fillOuter)
        · rfl
        · exact absurd hx hfo
      rw [shape_fill_done cfg s h0 hfe hfoe]
      exact ⟨by simp, by intro s2 hstep; exact absurd hstep (by simp),
        by intro o s2 hstep; exact absurd hstep (by simp)⟩

theorem dec_fill (cfg : SymCfg) (s : SymState) (hI : StepInv s)
    (hj : s.jstate = HJ_FILL_TUPLES) :
    (stepFillTuples cfg s ≠ .error) ∧
    (∀ s2, stepFillTuples cfg s = .next s2 → StepInv s2 ∧ mu cfg s2 < mu cfg s) ∧
    (∀ o s2, stepFillTuples cfg s = .yield o s2 → StepInv s2 ∧ mu cfg s2 < mu cfg s) := by
  cases hff : s.firstFill with
  | false => exact dec_fill_nf cfg s hI hj hff
  | true =>
    have hIR : StepInv ({ s with firstFill := false, fillBucketNo := 0, fillIdx := 0 } : SymState) := hI
    have hmuR : mu cfg { s with firstFill := false, fillBucketNo := 0, fillIdx := 0 }
        = mu cfg s := by
      unfold mu
      have hb : bigCount { s with firstFill := false, fillBucketNo := 0, fillIdx := 0 }
          = bigCount s := rfl
      have hN : NTotal { s with firstFill := false, fillBucketNo := 0, fillIdx := 0 }
          = NTotal s := rfl
      rw [hb, hN, rank_fill_eq cfg { s with
          firstFill := false, fillBucketNo := 0, fillIdx := 0 } hj, rank_fill_eq cfg s hj]
      unfold fillRem effFillB effFillI
      simp [hff]
    have hR := dec_fill_nf cfg { s with firstFill := false, fillBucketNo := 0, fillIdx := 0 }
      hIR hj rfl
    rw [shape_fill_reset cfg s hff]
    refine ⟨hR.1, ?_, ?_⟩
    · intro s2 hstep
      have := hR.2.1 s2 hstep
      rw [hmuR] at this
      exact this
    · intro o s2 hstep
      have := hR.2.2 o s2 hstep
      rw [hmuR] at this
      exact this

/-- Every reachable iteration of the dispatch loop keeps the invariant,
never hits the `elog(ERROR)` default case, and strictly decreases the
measure. -/
theorem symStep_decrease (cfg : SymCfg) (s : SymState) (hI : StepInv s) :
    (symStep cfg s ≠ .error) ∧
    (∀ s2, symStep cfg s = .next s2 → StepInv s2 ∧ mu cfg s2 < mu cfg s) ∧
    (∀ o s2, symStep cfg s = .yield o s2 → StepInv s2 ∧ mu cfg s2 < mu cfg s) := by
  have hrange := hI.1
  by_cases hj1 : s.jstate = HJ_BUILD_HASHTABLE
  · rw [symStep_eq_build cfg s hj1]
    refine ⟨by rw [shape_build]; simp, ?_, ?_⟩
    · intro s2 hstep
      exact dec_build cfg s hI hj1 s2 hstep
    · intro o s2 hstep
      rw [shape_build] at hstep
      exact absurd hstep (by simp)
  by_cases hj2 : s.jstate = HJ_NEED_NEW_OUTER
  · rw [symStep_eq_nno cfg s hj2]
    exact dec_nno cfg s hI hj2
  by_cases hj3 : s.jstate = HJ_NEED_NEW_INNER
  · rw [symStep_eq_nni cfg s hj3]
    exact dec_nni cfg s hI hj3
  by_cases hj4 : s.jstate = HJ_FILL_TUPLES
  · rw [symStep_eq_fill cfg s hj4]
    exact dec_fill cfg s hI hj4
  by_cases hj5 : s.jstate = HJ_SCAN_OUTER_BUCKET
  · rw [symStep_eq_scanOuter cfg s hj5]
    exact dec_scanOuter cfg s hI hj5
  by_cases hj6 : s.jstate = HJ_SCAN_INNER_BUCKET
  · rw [symStep_eq_scanInner cfg s hj6]
    exact dec_scanInner cfg s hI hj6
  exfalso
  simp only [HJ_BUILD_HASHTABLE, HJ_NEED_NEW_OUTER, HJ_NEED_NEW_INNER, HJ_FILL_TUPLES,
    HJ_SCAN_OUTER_BUCKET, HJ_SCAN_INNER_BUCKET] at hj1 hj2 hj3 hj4 hj5 hj6
  omega

/-- With fuel at least `mu` plus one, draining terminates (never returns
`none` for lack of fuel and never reaches the internal error). -/
theorem symDrainTr_total (cfg : SymCfg) :
    ∀ fuel s, StepInv s → mu cfg s < fuel →
      ∃ tr s3, symDrainTr cfg fuel s = some (tr, s3) := by
  intro fuel
  induction fuel with
  | zero =>
    intro s _ hmu
    exact absurd hmu (by omega)
  | succ fuel ih =>
    intro s hI hmu
    have hdec := symStep_decrease cfg s hI
    unfold symDrainTr
    cases hst : symStep cfg s with
    | next s2 =>
      obtain ⟨hI2, hlt⟩ := hdec.2.1 s2 hst
      obtain ⟨tr, s3, htr⟩ := ih s2 hI2 (by omega)
      exact ⟨tr, s3, by simp only [htr]⟩
    | yield o s2 =>
      obtain ⟨hI2, hlt⟩ := hdec.2.2 o s2 hst
      obtain ⟨tr, s3, htr⟩ := ih s2 hI2 (by omega)
      exact ⟨(s.jstate, o) :: tr, s3, by simp only [htr]⟩
    | done s2 =>
      exact ⟨[], s2, rfl⟩
    | error =>
      exact absurd hst hdec.1

/-! ### Pull states never return a row -/

theorem nni_no_yield (cfg : SymCfg) (s : SymState) (o : JoinOut) (s2 : SymState) :
    stepNeedNewInner cfg s ≠ .yield o s2 := by
  intro h
  simp only [stepNeedNewInner] at h
  repeat' split at h
  all_goals exact absurd h (by simp)

theorem nno_no_yield (cfg : SymCfg) (s : SymState) (o : JoinOut) (s2 : SymState) :
    stepNeedNewOuter cfg s ≠ .yield o s2 := by
  intro h
  simp only [stepNeedNewOuter] at h
  repeat' split at h
  all_goals exact absurd h (by simp)

/-! ### Concrete instances used to run the machine on closed inputs -/

/-- Identity hash function, for concrete runs. -/
def exHash : Nat → Nat := fun n => n

/-- Hash clause comparing the two join keys for equality (null never
equal), for concrete runs. -/
def exKeyEq : Row → Row → Bool := fun a b =>
  match a.key, b.key with
  | some x, some y => x == y
  | _, _ => false

/-- The successor state of a `.next` step result, if any. -/
def nextState : StepResult → Option SymState
  | .next s2 => some s2
  | _ => none

/-- A pull-state configuration of a RIGHT join whose next inner row has a
NULL join key (the inner table therefore retains nulls). -/
def c3Cfg : SymCfg :=
  (execInitSymHashJoin .right exHash exKeyEq none none 1 1 1 1 [] []).1

/-- A `HJ_NEED_NEW_INNER` state about to pull the NULL-keyed row `⟨none, 9⟩`. -/
def c3S : SymState :=
  { jstate := HJ_NEED_NEW_INNER,
    innerInput := [⟨none, 9⟩], outerInput := [],
    innerTupleNull := false, outerTupleNull := false,
    innerTable := mkHashTable 1 1 true,
    outerTable := mkHashTable 1 1 false,
    curHashValue := 0, curOutHashValue := 0, curBucketNo := 0,
    curTuple := none, curOutTuple := none,
    ecxtInner := none, ecxtOuter := none,
    innerInsertHash := 0, outerInsertHash := 0,
    firstFill := true, fillInnerFinished := false, fillOuterFinished := false,
    fillBucketNo := 0, fillIdx := 0 }

/-- C3 (corrected): in a pull state, fetching a row whose join key is null
never probes the opposite side: the opposite table is untouched and no
scan state is entered.  But contrary to the spec, the machine switches to
the OTHER side's pull state (`HJ_NEED_NEW_OUTER` from `HJ_NEED_NEW_INNER`
and vice versa, lines 148-151 and 193-196), and the row IS inserted into
its own side's table (with hash value 0) exactly when that table retains
null-keyed rows for outer-join completion; it is skipped otherwise. -/
theorem c3_nullKeyPull (cfg : SymCfg) (s : SymState) (r : Row) (rest : List Row)
    (hk : r.key = none) :
    (s.innerTupleNull = false → s.innerInput = r :: rest →
      stepNeedNewInner cfg s = .next { s with
        innerTable := if s.innerTable.keepNulls then execHashTableInsert s.innerTable r 0
          else s.innerTable,
        innerInput := rest,
        innerInsertHash := if s.innerTable.keepNulls then 0 else s.innerInsertHash,
        jstate := HJ_NEED_NEW_OUTER }) ∧
    (s.outerTupleNull = false → s.outerInput = r :: rest →
      stepNeedNewOuter cfg s = .next { s with
        outerTable := if s.outerTable.keepNulls then execHashTableInsert s.outerTable r 0
          else s.outerTable,
        outerInput := rest,
        outerInsertHash := if s.outerTable.keepNulls then 0 else s.outerInsertHash,
        jstate := HJ_NEED_NEW_INNER }) := by
  constructor
  · intro h1 h2
    by_cases hkn : s.innerTable.keepNulls = true
    · rw [shape_nni_pullNull_kept cfg s r rest h1 h2 hk hkn]
      simp [hkn]
    · have hknf : s.innerTable.keepNulls = false := by
        cases hx : s.innerTable.keepNulls
        · rfl
        · exact absurd hx hkn
      rw [shape_nni_pullNull_skip cfg s r rest h1 h2 hk hknf]
      simp [hknf]
  · intro h1 h2
    by_cases hkn : s.outerTable.keepNulls = true
    · rw [shape_nno_pullNull_kept cfg s r rest h1 h2 hk hkn]
      simp [hkn]
    · have hknf : s.outerTable.keepNulls = false := by
        cases hx : s.outerTable.keepNulls
        · rfl
        · exact absurd hx hkn
      rw [shape_nno_pullNull_skip cfg s r rest h1 h2 hk hknf]
      simp [hknf]

/-- Witness for C3 at the concrete RIGHT-join state: the null-keyed inner
row is pulled, the machine switches to `HJ_NEED_NEW_OUTER`, and the row is
inserted with hash value 0 (the inner table retains nulls). -/
theorem c3_nullKeyPull_witness :
    stepNeedNewInner c3Cfg c3S = .next { c3S with
      innerTable := if c3S.innerTable.keepNulls then
          execHashTableInsert c3S.innerTable ⟨none, 9⟩ 0
        else c3S.innerTable,
      innerInput := [],
      innerInsertHash := if c3S.innerTable.keepNulls then 0 else c3S.innerInsertHash,
      jstate := HJ_NEED_NEW_OUTER } :=
  (c3_nullKeyPull c3Cfg c3S ⟨none, 9⟩ [] rfl).1 rfl rfl

/-- Counterexample to C3 as stated: at the concrete state the null-keyed
pull moves to `HJ_NEED_NEW_OUTER` rather than staying on the inner side,
and the row is inserted into the inner table rather than skipped. -/
theorem c3_counterexample :
    (nextState (stepNeedNewInner c3Cfg c3S)).map SymState.jstate = some HJ_NEED_NEW_OUTER ∧
    HJ_NEED_NEW_OUTER ≠ HJ_NEED_NEW_INNER ∧
    (nextState (stepNeedNewInner c3Cfg c3S)).map (fun s2 => tableRowsL s2.innerTable)
      = some [⟨none, 9⟩] ∧
    tableRowsL c3S.innerTable = [] := by
  refine ⟨by decide, by decide, by decide, by decide⟩

/-- Inner join over single-bucket single-batch tables with one stored row
on each side, used to exercise a scan-state suspension. -/
def c4wCfg : SymCfg :=
  (execInitSymHashJoin .inner exHash exKeyEq none none 1 1 1 1 [] []).1

/-- A `HJ_SCAN_OUTER_BUCKET` state mid-probe: the pulled inner row
`⟨some 1, 10⟩` probes the outer bucket holding `⟨some 1, 20⟩`. -/
def c4wS : SymState :=
  { jstate := HJ_SCAN_OUTER_BUCKET,
    innerInput := [], outerInput := [],
    innerTupleNull := false, outerTupleNull := false,
    innerTable := execHashTableInsert (mkHashTable 1 1 false) ⟨some 1, 10⟩ 1,
    outerTable := execHashTableInsert (mkHashTable 1 1 false) ⟨some 1, 20⟩ 1,
    curHashValue := 0, curOutHashValue := 1, curBucketNo := 0,
    curTuple := none, curOutTuple := none,
    ecxtInner := some ⟨some 1, 10⟩, ecxtOuter := some ⟨some 1, 10⟩,
    innerInsertHash := 1, outerInsertHash := 1,
    firstFill := true, fillInnerFinished := false, fillOuterFinished := false,
    fillBucketNo := 0, fillIdx := 0 }

/-- The row returned at that suspension. -/
def c4wOut : JoinOut := (some ⟨some 1, 20⟩, some ⟨some 1, 10⟩)

/-- The state saved at that suspension. -/
def c4wS2 : SymState :=
  { c4wS with
    curOutTuple := some 0,
    ecxtOuter := some ⟨some 1, 20⟩,
    outerTable := setMatchAt c4wS.outerTable 0 0,
    innerTable := setMatchHead c4wS.innerTable 0 }

/-- A LEFT join with an empty inner input: its only output row comes out
of the `HJ_FILL_TUPLES` state. -/
def c4cInit : SymCfg × SymState :=
  execInitSymHashJoin .left exHash exKeyEq none none 1 1 1 1 [] [⟨some 2, 1⟩]

/-- C4 (corrected): each dispatch iteration returns at most one row (a
`.yield` carries exactly one `JoinOut`), and rows are returned from the
two bucket-scan states and — contrary to the spec — also from
`HJ_FILL_TUPLES`; at a bucket-scan return the cursors (join state, probe
hash value, bucket number, pulled tuple) are all preserved and the
current-tuple pointer records the match position `j`, so the next
iteration resumes the same bucket scan at position `j + 1`
(`startIdx (some j) = j + 1`). -/
theorem c4_suspensionPoints (cfg : SymCfg) (s : SymState) (o : JoinOut) (s2 : SymState)
    (hy : symStep cfg s = .yield o s2) :
    (s.jstate = HJ_FILL_TUPLES ∨ s.jstate = HJ_SCAN_OUTER_BUCKET ∨
      s.jstate = HJ_SCAN_INNER_BUCKET) ∧
    (s.jstate = HJ_SCAN_OUTER_BUCKET →
      s2.jstate = s.jstate ∧ s2.curOutHashValue = s.curOutHashValue ∧
      s2.curBucketNo = s.curBucketNo ∧ s2.ecxtInner = s.ecxtInner ∧
      ∃ pulled j cand, s.ecxtInner = some pulled ∧
        findFrom s.curOutHashValue (fun r => cfg.hashclauses r pulled)
          (s.outerTable.bucket s.curBucketNo) (startIdx s.curOutTuple) = some (j, cand) ∧
        s2.curOutTuple = some j ∧ o = (some cand.row, some pulled)) ∧
    (s.jstate = HJ_SCAN_INNER_BUCKET →
      s2.jstate = s.jstate ∧ s2.curHashValue = s.curHashValue ∧
      s2.curBucketNo = s.curBucketNo ∧ s2.ecxtOuter = s.ecxtOuter ∧
      ∃ pulled j cand, s.ecxtOuter = some pulled ∧
        findFrom s.curHashValue (fun r => cfg.hashclauses pulled r)
          (s.innerTable.bucket s.curBucketNo) (startIdx s.curTuple) = some (j, cand) ∧
        s2.curTuple = some j ∧ o = (some pulled, some cand.row)) := by
  by_cases hj1 : s.jstate = HJ_BUILD_HASHTABLE
  · rw [symStep_eq_build cfg s hj1, shape_build] at hy
    exact absurd hy (by simp)
  by_cases hj2 : s.jstate = HJ_NEED_NEW_OUTER
  · rw [symStep_eq_nno cfg s hj2] at hy
    exact absurd hy (nno_no_yield cfg s o s2)
  by_cases hj3 : s.jstate = HJ_NEED_NEW_INNER
  · rw [symStep_eq_nni cfg s hj3] at hy
    exact absurd hy (nni_no_yield cfg s o s2)
  by_cases hj4 : s.jstate = HJ_FILL_TUPLES
  · refine ⟨Or.inl hj4, ?_, ?_⟩
    · intro hh
      rw [hj4] at hh
      simp [HJ_FILL_TUPLES, HJ_SCAN_OUTER_BUCKET] at hh
    · intro hh
      rw [hj4] at hh
      simp [HJ_FILL_TUPLES, HJ_SCAN_INNER_BUCKET] at hh
  by_cases hj5 : s.jstate = HJ_SCAN_OUTER_BUCKET
  · refine ⟨Or.inr (Or.inl hj5), ?_, ?_⟩
    · intro _
      rw [symStep_eq_scanOuter cfg s hj5] at hy
      cases hec : s.ecxtInner with
      | none =>
        rw [shape_scanOuter_noSlot cfg s hec] at hy
        exact absurd hy (by simp)
      | some pulled =>
        cases hf : findFrom s.curOutHashValue (fun r => cfg.hashclauses r pulled)
            (s.outerTable.bucket s.curBucketNo) (startIdx s.curOutTuple) with
        | none =>
          rw [shape_scanOuter_none cfg s pulled hec hf] at hy
          exact absurd hy (by simp)
        | some p =>
          obtain ⟨j, cand⟩ := p
          by_cases hjq : evalJoinQual cfg.joinqual cand.row pulled = true
          · by_cases hoq : evalOtherQual cfg.otherqual (some cand.row) (some pulled) = true
            · rw [shape_scanOuter_match cfg s pulled j cand hec hf hjq hoq] at hy
              obtain ⟨ho, hs2⟩ := (StepResult.yield.injEq _ _ _ _).mp hy
              subst hs2
              subst ho
              exact ⟨rfl, rfl, rfl, hec, pulled, j, cand, rfl, hf, rfl, rfl⟩
            · have hoqf : evalOtherQual cfg.otherqual (some cand.row) (some pulled) = false := by
                cases hx : evalOtherQual cfg.otherqual (some cand.row) (some pulled)
                · rfl
                · exact absurd hx hoq
              rw [shape_scanOuter_matchFiltered cfg s pulled j cand hec hf hjq hoqf] at hy
              exact absurd hy (by simp)
          · have hjqf : evalJoinQual cfg.joinqual cand.row pulled = false := by
              cases hx : evalJoinQual cfg.joinqual cand.row pulled
              · rfl
              · exact absurd hx hjq
            rw [shape_scanOuter_noJq cfg s pulled j cand hec hf hjqf] at hy
            exact absurd hy (by simp)
    · intro hh
      rw [hj5] at hh
      simp [HJ_SCAN_OUTER_BUCKET, HJ_SCAN_INNER_BUCKET] at hh
  by_cases hj6 : s.jstate = HJ_SCAN_INNER_BUCKET
  · refine ⟨Or.inr (Or.inr hj6), ?_, ?_⟩
    · intro hh
      rw [hj6] at hh
      simp [HJ_SCAN_OUTER_BUCKET, HJ_SCAN_INNER_BUCKET] at hh
    · intro _
      rw [symStep_eq_scanInner cfg s hj6] at hy
      cases hec : s.ecxtOuter with
      | none =>
        rw [shape_scanInner_noSlot cfg s hec] at hy
        exact absurd hy (by simp)
      | some pulled =>
        cases hf : findFrom s.curHashValue (fun r => cfg.hashclauses pulled r)
            (s.innerTable.bucket s.curBucketNo) (startIdx s.curTuple) with
        | none =>
          rw [shape_scanInner_none cfg s pulled hec hf] at hy
          exact absurd hy (by simp)
        | some p =>
          obtain ⟨j, cand⟩ := p
          by_cases hjq : evalJoinQual cfg.joinqual pulled cand.row = true
          · by_cases hoq : evalOtherQual cfg.otherqual (some pulled) (some cand.row) = true
            · rw [shape_scanInner_match cfg s pulled j cand hec hf hjq hoq] at hy
              obtain ⟨ho, hs2⟩ := (StepResult.yield.injEq _ _ _ _).mp hy
              subst hs2
              subst ho
              exact ⟨rfl, rfl, rfl, hec, pulled, j, cand, rfl, hf, rfl, rfl⟩
            · have hoqf : evalOtherQual cfg.otherqual (some pulled) (some cand.row) = false := by
                cases hx : evalOtherQual cfg.otherqual (some pulled) (some cand.row)
                · rfl
                · exact absurd hx hoq
              rw [shape_scanInner_matchFiltered cfg s pulled j cand hec hf hjq hoqf] at hy
              exact absurd hy (by simp)
          · have hjqf : evalJoinQual cfg.joinqual pulled cand.row = false := by
              cases hx : evalJoinQual cfg.joinqual pulled cand.row
              · rfl
              · exact absurd hx hjq
            rw [shape_scanInner_noJq cfg s pulled j cand hec hf hjqf] at hy
            exact absurd hy (by simp)
  exfalso
  rw [symStep_eq_error cfg s ?_] at hy
  · exact absurd hy (by simp)
  · simp only [HJ_BUILD_HASHTABLE, HJ_NEED_NEW_OUTER, HJ_NEED_NEW_INNER, HJ_FILL_TUPLES,
      HJ_SCAN_OUTER_BUCKET, HJ_SCAN_INNER_BUCKET] at hj1 hj2 hj3 hj4 hj5 hj6
    omega

/-- Witness for C4 at a concrete scan suspension: the yield happens in
`HJ_SCAN_OUTER_BUCKET` and the saved state records the match position. -/
theorem c4_suspensionPoints_witness :
    symStep c4wCfg c4wS = .yield c4wOut c4wS2 ∧
    (c4wS.jstate = HJ_FILL_TUPLES ∨ c4wS.jstate = HJ_SCAN_OUTER_BUCKET ∨
      c4wS.jstate = HJ_SCAN_INNER_BUCKET) := by
  have hy : symStep c4wCfg c4wS = .yield c4wOut c4wS2 := by
    simp [symStep, stepScanOuterBucket, findFrom, c4wCfg, c4wS, c4wOut, c4wS2,
      execInitSymHashJoin, exHash, exKeyEq, execHashTableInsert, mkHashTable,
      HashJoinTable.bucket, startIdx, evalJoinQual, evalOtherQual, setMatchAt,
      setMatchHead, listModify, execHashGetBucketAndBatch,
      HJ_BUILD_HASHTABLE, HJ_NEED_NEW_OUTER, HJ_NEED_NEW_INNER, HJ_FILL_TUPLES,
      HJ_SCAN_OUTER_BUCKET, HJ_SCAN_INNER_BUCKET]
  exact ⟨hy, (c4_suspensionPoints c4wCfg c4wS c4wOut c4wS2 hy).1⟩

/-- Counterexample to C4 as stated: the LEFT join with empty inner input
returns its single output row from `HJ_FILL_TUPLES`, which is not one of
the two bucket-scan states the spec names as the only suspension
points. -/
theorem c4_counterexample :
    ((symDrainTr c4cInit.1 32 c4cInit.2).map (fun p => p.1.map Prod.fst))
      = some [HJ_FILL_TUPLES] ∧
    HJ_FILL_TUPLES ≠ HJ_SCAN_OUTER_BUCKET ∧ HJ_FILL_TUPLES ≠ HJ_SCAN_INNER_BUCKET := by
  refine ⟨?_, by decide, by decide⟩
  simp [symDrainTr, symStep, stepBuildHashtable, stepNeedNewInner, stepNeedNewOuter,
    stepScanOuterBucket, stepScanInnerBucket, stepFillTuples, findFrom, findUnmatched,
    findUnmatchedIn, hashNodeNext, execHashGetHashValue, execHashGetBucketAndBatch,
    execHashTableInsert, mkHashTable, setMatchAt, setMatchHead, listModify,
    evalJoinQual, evalOtherQual, exHash, exKeyEq, execInitSymHashJoin, c4cInit,
    HJ_BUILD_HASHTABLE, HJ_NEED_NEW_OUTER, HJ_NEED_NEW_INNER, HJ_FILL_TUPLES,
    HJ_SCAN_OUTER_BUCKET, HJ_SCAN_INNER_BUCKET, startIdx, fillsOuter, fillsInner,
    HashJoinTable.bucket, rowHashKept]

/-! ### Parallel batch-phase dispatch (C8) -/

/-- Modelled from the spec: barrier phase `PHJ_BATCH_ELECTING` of the
missing `hashjoin.h` (value 0). -/
def PHJ_BATCH_ELECTING : Nat := 0

/-- Modelled from the spec: barrier phase `PHJ_BATCH_ALLOCATING` (value 1). -/
def PHJ_BATCH_ALLOCATING : Nat := 1

/-- Modelled from the spec: barrier phase `PHJ_BATCH_LOADING` (value 2). -/
def PHJ_BATCH_LOADING : Nat := 2

/-- Modelled from the spec: barrier phase `PHJ_BATCH_PROBING` (value 3). -/
def PHJ_BATCH_PROBING : Nat := 3

/-- Modelled from the spec: barrier phase `PHJ_BATCH_DONE` (value 4). -/
def PHJ_BATCH_DONE : Nat := 4

/-- What the `switch (BarrierAttach(batch_barrier))` of
`ExecParallelHashJoinNewBatch` does for an attached phase. -/
inductive PhjAttachAction where
  | probeBatch
  | detachDone
  | internalError
deriving DecidableEq, Repr

/-- The `switch (BarrierAttach(batch_barrier))` of
`ExecParallelHashJoinNewBatch` (nodeHashjoin.c lines 952-1017): phases
ELECTING through PROBING fall through into probing the batch and
returning control; DONE detaches and keeps searching; any other phase
reaches the `default:` case, `elog(ERROR, "unexpected batch phase %d")`. -/
def parallelBatchPhaseDispatch (phase : Nat) : PhjAttachAction :=
  if phase = PHJ_BATCH_ELECTING then .probeBatch
  else if phase = PHJ_BATCH_ALLOCATING then .probeBatch
  else if phase = PHJ_BATCH_LOADING then .probeBatch
  else if phase = PHJ_BATCH_PROBING then .probeBatch
  else if phase = PHJ_BATCH_DONE then .detachDone
  else .internalError

/-- Configuration and state used to drive the dispatch loop into its
`default:` case. -/
def c8S : SymState :=
  { (execInitSymHashJoin .inner exHash exKeyEq none none 1 1 1 1 [] []).2 with
      jstate := 9 }

/-- A generic inner-join configuration for concrete runs. -/
def exCfg : SymCfg :=
  (execInitSymHashJoin .inner exHash exKeyEq none none 1 1 1 1 [] []).1

/-- C8 (confirmed): an unrecognized join-state value makes the dispatch
loop of `ExecSymHashJoin` hit its `default:` case
(`elog(ERROR, "unrecognized hashjoin state")`, lines 314-316), modelled as
the `.error` result — in particular it never returns a row; and a barrier
phase outside `PHJ_BATCH_ELECTING..PHJ_BATCH_DONE` makes
`ExecParallelHashJoinNewBatch` hit its `default:` case
(`elog(ERROR, "unexpected batch phase %d")`, lines 1015-1017). -/
theorem c8_internalErrors (cfg : SymCfg) (s : SymState) (phase : Nat) :
    (s.jstate = 0 ∨ 6 < s.jstate →
      symStep cfg s = .error ∧ ∀ o s2, symStep cfg s ≠ .yield o s2) ∧
    (PHJ_BATCH_DONE < phase → parallelBatchPhaseDispatch phase = .internalError) := by
  constructor
  · intro h
    have he := symStep_eq_error cfg s h
    refine ⟨he, ?_⟩
    intro o s2
    rw [he]
    simp
  · intro hp
    simp only [PHJ_BATCH_DONE] at hp
    unfold parallelBatchPhaseDispatch
    rw [if_neg, if_neg, if_neg, if_neg, if_neg] <;>
      simp only [PHJ_BATCH_ELECTING, PHJ_BATCH_ALLOCATING, PHJ_BATCH_LOADING,
        PHJ_BATCH_PROBING, PHJ_BATCH_DONE] <;> omega

/-- Witness for C8: join-state 9 errors out of the dispatch loop, and
barrier phase 7 reaches the parallel `default:` case. -/
theorem c8_internalErrors_witness :
    (c8S.jstate = 0 ∨ 6 < c8S.jstate) ∧ symStep exCfg c8S = .error ∧
    PHJ_BATCH_DONE < 7 ∧ parallelBatchPhaseDispatch 7 = .internalError := by
  have h := c8_internalErrors exCfg c8S 7
  exact ⟨Or.inr (by decide), (h.1 (Or.inr (by decide))).1, by decide, h.2 (by decide)⟩

/-! ### The non-symmetric operator of nodeHashjoin.c (C10) -/

/-- `#define HJ_BUILD_HASHTABLE 1` of nodeHashjoin.c (line 123). -/
def NHJ_BUILD_HASHTABLE : Nat := 1

/-- `#define HJ_NEED_NEW_INNER 2` of nodeHashjoin.c (line 124). -/
def NHJ_NEED_NEW_INNER : Nat := 2

/-- `#define HJ_SCAN_OUTER_BUCKET 3` of nodeHashjoin.c (line 125). -/
def NHJ_SCAN_OUTER_BUCKET : Nat := 3

/-- `#define HJ_NEED_NEW_OUTER 4` of nodeHashjoin.c (line 126). -/
def NHJ_NEED_NEW_OUTER : Nat := 4

/-- `#define HJ_SCAN_INNER_BUCKET 5` of nodeHashjoin.c (line 127). -/
def NHJ_SCAN_INNER_BUCKET : Nat := 5

/-- `#define HJ_FILL_TUPLES 6` of nodeHashjoin.c (line 128). -/
def NHJ_FILL_TUPLES : Nat := 6

/-- Static configuration of `ExecHashJoinImpl` as set up by
`ExecInitHashJoin`: quals, join type stored in the executor state,
`single_match`, whether the two null-fill tuple slots were allocated
(`hj_NullInnerTupleSlot` / `hj_NullOuterTupleSlot`, whose non-NULLness is
`HJ_FILL_OUTER` / `HJ_FILL_INNER`), and the table layouts. -/
structure ImplCfg where
  hashFn : Nat → Nat
  hashclauses : Row → Row → Bool
  joinqual : Option (Row → Row → Bool)
  otherqual : Option (Option Row → Option Row → Bool)
  jointype : JoinType
  singleMatch : Bool
  nullInnerSlot : Bool
  nullOuterSlot : Bool
  innerNbuckets : Nat
  innerNbatch : Nat
  outerNbuckets : Nat
  outerNbatch : Nat

/-- Mutable executor state of `ExecHashJoinImpl` (`HashJoinState` fields
used by the non-symmetric machine). -/
structure ImplState where
  jstate : Nat
  innerInput : List Row
  outerInput : List Row
  innerNotEmpty : Bool
  outerNotEmpty : Bool
  innerTable : HashJoinTable
  outerTable : HashJoinTable
  curHashInner : Nat
  curHashOuter : Nat
  curBucketInner : Nat
  curBucketOuter : Nat
  curTupleInner : Option Nat
  curTupleOuter : Option Nat
  ecxtInner : Option Row
  ecxtOuter : Option Row
  matchedInner : Bool
  matchedOuter : Bool
deriving DecidableEq, Repr

/-- Result of one iteration of the `for (;;)` loop of
`ExecHashJoinImpl`. -/
inductive ImplStepResult where
  | next (s : ImplState)
  | yield (out : JoinOut) (s : ImplState)
  | done (s : ImplState)
  | error
deriving DecidableEq, Repr

/-- Modelled from the spec: `ExecHashJoinInnerGetTuple` /
`ExecHashJoinOuterGetTuple` (lines 628-660 and the outer twin) pulling
through the modified Hash child of the missing `nodeHash.c`: each pulled
row is stored in the child's own table; a row whose join key is NULL makes
`ExecHashGetHashValue(..., keep_nulls, ...)` fail when `keep_nulls` is
false, so the loop advances to the next row (when `keep_nulls` is true the
row hashes to 0 and is kept). -/
def implGet (hashFn : Nat → Nat) (keepNulls : Bool) :
    List Row → HashJoinTable → Option (Row × Nat) × List Row × HashJoinTable
  | [], tbl => (none, [], tbl)
  | r :: rest, tbl =>
    match r.key with
    | some k => (some (r, hashFn k), rest, execHashTableInsert tbl r (hashFn k))
    | none =>
      if keepNulls then (some (r, 0), rest, execHashTableInsert tbl r 0)
      else implGet hashFn keepNulls rest tbl

/-- One iteration of the `for (;;)` switch of `ExecHashJoinImpl` (lines
207-380): BUILD creates the two tables and goes to `HJ_NEED_NEW_OUTER`;
the pull states fetch through the Hash child (skipping NULL keys), flip
the side's not-empty flag on exhaustion (returning NULL once both are
exhausted), and enter the opposite bucket scan; the scan states probe one
candidate per iteration, set the pulled side's matched flag and leave the
scan after the first join-qual success (`hj_JoinState` is reset to the
pull state before projecting); `HJ_FILL_TUPLES` just returns NULL (lines
378-379); a `hj_JoinState` outside the six cases matches no `case` label
and the loop spins (the switch has no `default:`).  The scan states use
the bucket number computed by `ExecHashGetBucketAndBatch` on the pulled
side's table (lines 271-273, 343-345) to index the opposite table, as the
3-argument `ExecScanHashBucket` of the missing `nodeHash.c` must. -/
def implStep (cfg : ImplCfg) (s : ImplState) : ImplStepResult :=
  if s.jstate = NHJ_BUILD_HASHTABLE then
    .next { s with
      innerTable := mkHashTable cfg.innerNbuckets cfg.innerNbatch cfg.nullOuterSlot,
      outerTable := mkHashTable cfg.outerNbuckets cfg.outerNbatch cfg.nullInnerSlot,
      jstate := NHJ_NEED_NEW_OUTER }
  else if s.jstate = NHJ_NEED_NEW_INNER then
    if s.innerNotEmpty then
      match implGet cfg.hashFn cfg.nullOuterSlot s.innerInput s.innerTable with
      | (none, rest, tbl) =>
        if s.outerNotEmpty then
          .next { s with
            innerInput := rest, innerTable := tbl,
            innerNotEmpty := false, jstate := NHJ_NEED_NEW_OUTER }
        else .done { s with
          innerInput := rest, innerTable := tbl,
          innerNotEmpty := false }
      | (some (r, h), rest, tbl) =>
        .next { s with
          innerInput := rest, innerTable := tbl,
          ecxtInner := some r, matchedInner := false,
          curHashInner := h,
          curBucketInner := (execHashGetBucketAndBatch tbl h).1,
          curTupleInner := none,
          jstate := NHJ_SCAN_OUTER_BUCKET }
    else if s.outerNotEmpty then .next { s with jstate := NHJ_NEED_NEW_OUTER }
    else .done s
  else if s.jstate = NHJ_SCAN_OUTER_BUCKET then
    match s.ecxtInner with
    | none => .error
    | some pulled =>
      match findFrom s.curHashInner (fun r => cfg.hashclauses r pulled)
          (s.outerTable.bucket s.curBucketInner) (startIdx s.curTupleInner) with
      | none => .next { s with jstate := NHJ_NEED_NEW_OUTER }
      | some (j, cand) =>
        if evalJoinQual cfg.joinqual cand.row pulled then
          if evalOtherQual cfg.otherqual (some cand.row) (some pulled) then
            .yield (some cand.row, some pulled) { s with
              curTupleInner := some j,
              matchedInner := true, jstate := NHJ_NEED_NEW_OUTER }
          else .next { s with
            curTupleInner := some j,
            matchedInner := true, jstate := NHJ_NEED_NEW_OUTER }
        else .next { s with curTupleInner := some j }
  else if s.jstate = NHJ_NEED_NEW_OUTER then
    if s.outerNotEmpty then
      match implGet cfg.hashFn cfg.nullInnerSlot s.outerInput s.outerTable with
      | (none, rest, tbl) =>
        if s.innerNotEmpty then
          .next { s with
            outerInput := rest, outerTable := tbl,
            outerNotEmpty := false, jstate := NHJ_NEED_NEW_INNER }
        else .done { s with
          outerInput := rest, outerTable := tbl,
          outerNotEmpty := false }
      | (some (r, h), rest, tbl) =>
        .next { s with
          outerInput := rest, outerTable := tbl,
          ecxtOuter := some r, matchedOuter := false,
          curHashOuter := h,
          curBucketOuter := (execHashGetBucketAndBatch tbl h).1,
          curTupleOuter := none,
          jstate := NHJ_SCAN_INNER_BUCKET }
    else if s.innerNotEmpty then .next { s with jstate := NHJ_NEED_NEW_INNER }
    else .done s
  else if s.jstate = NHJ_SCAN_INNER_BUCKET then
    match s.ecxtOuter with
    | none => .error
    | some pulled =>
      match findFrom s.curHashOuter (fun r => cfg.hashclauses pulled r)
          (s.innerTable.bucket s.curBucketOuter) (startIdx s.curTupleOuter) with
      | none => .next { s with jstate := NHJ_NEED_NEW_INNER }
      | some (j, cand) =>
        if evalJoinQual cfg.joinqual pulled cand.row then
          if evalOtherQual cfg.otherqual (some pulled) (some cand.row) then
            .yield (some pulled, some cand.row) { s with
              curTupleOuter := some j,
              matchedOuter := true, jstate := NHJ_NEED_NEW_INNER }
          else .next { s with
            curTupleOuter := some j,
            matchedOuter := true, jstate := NHJ_NEED_NEW_INNER }
        else .next { s with curTupleOuter := some j }
  else if s.jstate = NHJ_FILL_TUPLES then .done s
  else .next s

/-- Drain `ExecHashJoinImpl`, collecting the returned rows until it
returns NULL; `fuel` bounds the loop iterations. -/
def implDrainTr (cfg : ImplCfg) : Nat → ImplState → Option (List JoinOut × ImplState)
  | 0, _ => none
  | fuel + 1, s =>
    match implStep cfg s with
    | .done s2 => some ([], s2)
    | .error => none
    | .yield o s2 =>
      match implDrainTr cfg fuel s2 with
      | none => none
      | some (tr, fin) => some (o :: tr, fin)
    | .next s2 => implDrainTr cfg fuel s2

/-- The `switch (node->join.jointype)` of `ExecInitHashJoin` (lines
500-522) allocating the null-fill tuple slots: which of
(`hj_NullInnerTupleSlot`, `hj_NullOuterTupleSlot`) the requested type
would allocate. -/
def nullSlotsSwitch : JoinType → Bool × Bool
  | .inner => (false, false)
  | .semi => (false, false)
  | .left => (true, false)
  | .anti => (true, false)
  | .right => (false, true)
  | .full => (true, true)

/-- `ExecInitHashJoin` (lines 421-581): the requested join type `jt` is
used only for `js.single_match` (line 496); line 449 stores `JOIN_INNER`
as the executor join type and line 499 overwrites `node->join.jointype`
with `JOIN_INNER` immediately before the null-slot switch, so the switch
always takes the `JOIN_INNER` branch. -/
def execInitHashJoin (jt : JoinType) (hashFn : Nat → Nat)
    (hc : Row → Row → Bool) (jq : Option (Row → Row → Bool))
    (oq : Option (Option Row → Option Row → Bool))
    (inb ibt onb obt : Nat) (innerRows outerRows : List Row) :
    ImplCfg × ImplState :=
  let jointype := JoinType.inner
  let singleMatch := jt == JoinType.semi
  let planJointype := JoinType.inner
  let slots := nullSlotsSwitch planJointype
  ({ hashFn := hashFn, hashclauses := hc, joinqual := jq, otherqual := oq,
     jointype := jointype, singleMatch := singleMatch,
     nullInnerSlot := slots.1, nullOuterSlot := slots.2,
     innerNbuckets := inb, innerNbatch := ibt,
     outerNbuckets := onb, outerNbatch := obt },
   { jstate := NHJ_BUILD_HASHTABLE,
     innerInput := innerRows, outerInput := outerRows,
     innerNotEmpty := true, outerNotEmpty := true,
     innerTable := mkHashTable inb ibt slots.2,
     outerTable := mkHashTable onb obt slots.1,
     curHashInner := 0, curHashOuter := 0,
     curBucketInner := 0, curBucketOuter := 0,
     curTupleInner := none, curTupleOuter := none,
     ecxtInner := none, ecxtOuter := none,
     matchedInner := false, matchedOuter := false })

theorem implStep_yield_bothSome (cfg : ImplCfg) (s : ImplState) (o : JoinOut)
    (s2 : ImplState) (h : implStep cfg s = .yield o s2) :
    o.1.isSome = true ∧ o.2.isSome = true := by
  simp only [implStep] at h
  repeat' split at h
  all_goals
    first
    | (obtain ⟨ho, hs⟩ := (ImplStepResult.yield.injEq _ _ _ _).mp h
       subst ho
       exact ⟨rfl, rfl⟩)
    | exact absurd h (by simp)

theorem implDrainTr_bothSome (cfg : ImplCfg) :
    ∀ fuel s tr fin, implDrainTr cfg fuel s = some (tr, fin) →
      ∀ o ∈ tr, o.1.isSome = true ∧ o.2.isSome = true := by
  intro fuel
  induction fuel with
  | zero =>
    intro s tr fin h
    exact absurd h (by simp [implDrainTr])
  | succ fuel ih =>
    intro s tr fin h
    unfold implDrainTr at h
    cases hst : implStep cfg s with
    | done s2 =>
      rw [hst] at h
      have h2 : some (([] : List JoinOut), s2) = some (tr, fin) := h
      obtain ⟨h3, h4⟩ := (Prod.mk.injEq _ _ _ _).mp ((Option.some.injEq _ _).mp h2)
      intro o ho
      rw [← h3] at ho
      exact absurd ho (by simp)
    | error =>
      rw [hst] at h
      have h2 : (none : Option (List JoinOut × ImplState)) = some (tr, fin) := h
      exact absurd h2 (by simp)
    | yield o2 s2 =>
      rw [hst] at h
      have h2 : (match implDrainTr cfg fuel s2 with
        | none => (none : Option (List JoinOut × ImplState))
        | some (tr2, fin2) => some (o2 :: tr2, fin2)) = some (tr, fin) := h
      cases hrec : implDrainTr cfg fuel s2 with
      | none =>
        rw [hrec] at h2
        exact absurd h2 (by simp)
      | some p =>
        obtain ⟨tr2, fin2⟩ := p
        rw [hrec] at h2
        have h5 : some (o2 :: tr2, fin2) = some (tr, fin) := h2
        obtain ⟨h3, h4⟩ := (Prod.mk.injEq _ _ _ _).mp ((Option.some.injEq _ _).mp h5)
        intro o ho
        rw [← h3] at ho
        rcases List.mem_cons.mp ho with hh | hh
        · subst hh
          exact implStep_yield_bothSome cfg s o s2 hst
        · exact ih s2 tr2 fin2 hrec o hh
    | next s2 =>
      rw [hst] at h
      exact ih s2 tr fin h

/-- A state sitting in `HJ_FILL_TUPLES` of the non-symmetric machine. -/
def c10FillS : ImplState :=
  { jstate := NHJ_FILL_TUPLES,
    innerInput := [], outerInput := [],
    innerNotEmpty := false, outerNotEmpty := false,
    innerTable := mkHashTable 1 1 false, outerTable := mkHashTable 1 1 false,
    curHashInner := 0, curHashOuter := 0,
    curBucketInner := 0, curBucketOuter := 0,
    curTupleInner := none, curTupleOuter := none,
    ecxtInner := none, ecxtOuter := none,
    matchedInner := false, matchedOuter := false }

/-- C10 (confirmed): `ExecInitHashJoin` overwrites the plan's join type
with `JOIN_INNER` (lines 449 and 499) before the null-slot switch, so for
every requested join type both null-fill tuple slots are NULL and the
stored join type is `JOIN_INNER`; `HJ_FILL_TUPLES` of `ExecHashJoinImpl`
returns NULL immediately (lines 378-379); and every row the operator
returns — in one step or over a whole drain — has both sides present:
the operator never emits a null-padded outer-join row. -/
theorem c10_neverNullPadded (jt : JoinType) (hashFn : Nat → Nat)
    (hc : Row → Row → Bool) (jq : Option (Row → Row → Bool))
    (oq : Option (Option Row → Option Row → Bool))
    (inb ibt onb obt : Nat) (innerRows outerRows : List Row) :
    ((execInitHashJoin jt hashFn hc jq oq inb ibt onb obt innerRows outerRows).1.nullInnerSlot
        = false ∧
      (execInitHashJoin jt hashFn hc jq oq inb ibt onb obt innerRows outerRows).1.nullOuterSlot
        = false ∧
      (execInitHashJoin jt hashFn hc jq oq inb ibt onb obt innerRows outerRows).1.jointype
        = JoinType.inner) ∧
    (∀ cfg : ImplCfg, ∀ s : ImplState, s.jstate = NHJ_FILL_TUPLES →
      implStep cfg s = .done s) ∧
    (∀ cfg : ImplCfg, ∀ s o s2, implStep cfg s = .yield o s2 →
      o.1.isSome = true ∧ o.2.isSome = true) ∧
    (∀ cfg : ImplCfg, ∀ fuel s tr fin, implDrainTr cfg fuel s = some (tr, fin) →
      ∀ o ∈ tr, o.1.isSome = true ∧ o.2.isSome = true) := by
  refine ⟨⟨rfl, rfl, rfl⟩, ?_, ?_, ?_⟩
  · intro cfg s hj
    simp [implStep, hj, NHJ_FILL_TUPLES, NHJ_BUILD_HASHTABLE, NHJ_NEED_NEW_INNER,
      NHJ_SCAN_OUTER_BUCKET, NHJ_NEED_NEW_OUTER, NHJ_SCAN_INNER_BUCKET]
  · intro cfg s o s2 h
    exact implStep_yield_bothSome cfg s o s2 h
  · intro cfg fuel s tr fin h
    exact implDrainTr_bothSome cfg fuel s tr fin h

/-- Witness for C10: a FULL-join request still gets no null slots, stores
`JOIN_INNER`, and `HJ_FILL_TUPLES` ends the stream at a concrete state. -/
theorem c10_neverNullPadded_witness :
    (execInitHashJoin JoinType.full exHash exKeyEq none none 1 1 1 1 [] []).1.nullInnerSlot
        = false ∧
    (execInitHashJoin JoinType.full exHash exKeyEq none none 1 1 1 1 [] []).1.nullOuterSlot
        = false ∧
    (execInitHashJoin JoinType.full exHash exKeyEq none none 1 1 1 1 [] []).1.jointype
        = JoinType.inner ∧
    implStep (execInitHashJoin JoinType.full exHash exKeyEq none none 1 1 1 1 [] []).1
        c10FillS = .done c10FillS := by
  have h := c10_neverNullPadded JoinType.full exHash exKeyEq none none 1 1 1 1 [] []
  exact ⟨h.1.1, h.1.2.1, h.1.2.2, h.2.1 _ c10FillS rfl⟩

/-! ### Batch spill files (C7) -/

/-- Little-endian 32-bit encoding of a value as four bytes
(`BufFileWrite(file, ..., sizeof(uint32))`). -/
def le32 (n : Nat) : List Nat :=
  [n % 256, n / 256 % 256, n / 256 / 256 % 256, n / 256 / 256 / 256 % 256]

/-- Little-endian 32-bit decoding of four bytes. -/
def de32 (b0 b1 b2 b3 : Nat) : Nat := b0 + 256 * (b1 + 256 * (b2 + 256 * b3))

/-- A `MinimalTuple`: its leading `uint32 t_len` word is the total length
in bytes of the tuple INCLUDING that word, followed by the remaining
`t_len - 4` bytes of the tuple body.  A well-formed tuple satisfies
`t_len = 4 + body.length`. -/
structure MinTuple where
  t_len : Nat
  body : List Nat
deriving DecidableEq, Repr

/-- `ExecHashJoinSaveTuple` (lines 1037-1051): append the 4 hash-value
bytes and then the tuple's `t_len` bytes (its length word followed by its
body) to the batch file. -/
def execHashJoinSaveTuple (t : MinTuple) (h : Nat) (file : List Nat) : List Nat :=
  file ++ le32 h ++ (le32 t.t_len ++ t.body)

/-- Result of `ExecHashJoinGetSavedTuple`: NULL at end of file, a
`(hashvalue, tuple)` pair on success, or
`ereport(ERROR, "could not read from hash-join temporary file...")` on a
short read. -/
inductive SavedRead where
  | endOfStream
  | tuple (h : Nat) (t : MinTuple) (rest : List Nat)
  | readError
deriving DecidableEq, Repr

/-- `ExecHashJoinGetSavedTuple` (lines 1060-1103): read the 8-byte header
(hash value and `t_len`) — 0 bytes available means end of file, fewer
than 8 is an error; then read the remaining `t_len - sizeof(uint32)`
bytes of the tuple.  `header[1] - sizeof(uint32)` is computed in `size_t`
arithmetic, so `t_len < 4` wraps around to an astronomically large read
request, which fails the short-read check against a finite file. -/
def execHashJoinGetSavedTuple (file : List Nat) : SavedRead :=
  match file with
  | [] => .endOfStream
  | b0 :: b1 :: b2 :: b3 :: b4 :: b5 :: b6 :: b7 :: rest =>
    let h := de32 b0 b1 b2 b3
    let tlen := de32 b4 b5 b6 b7
    if 4 ≤ tlen then
      if tlen - 4 ≤ rest.length then
        .tuple h ⟨tlen, rest.take (tlen - 4)⟩ (rest.drop (tlen - 4))
      else .readError
    else .readError
  | _ => .readError

theorem de32_le32 (n : Nat) (hn : n < 2 ^ 32) :
    de32 (n % 256) (n / 256 % 256) (n / 256 / 256 % 256) (n / 256 / 256 / 256 % 256)
      = n := by
  unfold de32
  omega

/-- C7 (corrected): writing a record with `ExecHashJoinSaveTuple` and
reading it back with `ExecHashJoinGetSavedTuple` returns the same hash
value and the same tuple and leaves the read position at the following
record, and reading an empty file returns end-of-stream.  But the record
layout is `{hash: uint32} ++ tuple`, where the tuple's OWN leading
`uint32` length word counts itself: a record occupies `4 + t_len` bytes
in total, and the bytes following the two header words number
`t_len - 4` — not `t_len` as the spec's
`{hash, length, payload: bytes[length]}` format says. -/
theorem c7_spillRoundtrip (t : MinTuple) (h : Nat) (rest : List Nat)
    (hwf : t.t_len = 4 + t.body.length) (hh : h < 2 ^ 32) (hl : t.t_len < 2 ^ 32) :
    execHashJoinGetSavedTuple (execHashJoinSaveTuple t h [] ++ rest)
        = .tuple h t rest ∧
    (execHashJoinSaveTuple t h []).length = 4 + t.t_len ∧
    execHashJoinGetSavedTuple [] = .endOfStream := by
  obtain ⟨tlen, body⟩ := t
  simp only [MinTuple.mk.injEq] at hwf hl ⊢
  subst hwf
  refine ⟨?_, ?_, rfl⟩
  · unfold execHashJoinSaveTuple
    simp only [List.nil_append]
    unfold le32
    simp only [List.cons_append, List.nil_append]
    unfold execHashJoinGetSavedTuple
    simp only []
    rw [de32_le32 h hh, de32_le32 _ hl]
    rw [if_pos (by omega)]
    have htk : 4 + body.length - 4 = body.length := by omega
    rw [htk, if_pos (by rw [List.length_append]; omega)]
    rw [List.take_left, List.drop_left]
  · unfold execHashJoinSaveTuple le32
    simp [List.length_append]
    omega

/-- Witness for C7 at a concrete record: tuple `⟨5, [7]⟩` with hash 3
roundtrips, and the on-disk record is `4 + 5` bytes. -/
theorem c7_spillRoundtrip_witness :
    (⟨5, [7]⟩ : MinTuple).t_len = 4 + (⟨5, [7]⟩ : MinTuple).body.length ∧
    execHashJoinGetSavedTuple (execHashJoinSaveTuple ⟨5, [7]⟩ 3 [] ++ [9])
        = .tuple 3 ⟨5, [7]⟩ [9] ∧
    (execHashJoinSaveTuple ⟨5, [7]⟩ 3 []).length = 4 + (⟨5, [7]⟩ : MinTuple).t_len := by
  have hr := c7_spillRoundtrip ⟨5, [7]⟩ 3 [9] rfl (by decide) (by decide)
  exact ⟨rfl, hr.1, hr.2.1⟩

/-- Counterexample to C7's format clause as stated: the record for tuple
`⟨5, [7]⟩` occupies `4 + 5` bytes, not the `8 + 5` a
`{hash, length, payload: bytes[length]}` layout would need, and only one
byte — not `length` bytes — follows the two header words before the next
record begins. -/
theorem c7_counterexample :
    (execHashJoinSaveTuple ⟨5, [7]⟩ 1 []).length = 4 + 5 ∧
    (execHashJoinSaveTuple ⟨5, [7]⟩ 1 []).length ≠ 8 + 5 ∧
    execHashJoinGetSavedTuple (execHashJoinSaveTuple ⟨5, [7]⟩ 1 [] ++ [99])
        = .tuple 1 ⟨5, [7]⟩ [99] := by
  refine ⟨by decide, by decide, by decide⟩

/-! ### Batch advancement of nodeHashjoin.c (C6) -/

/-- The state `ExecHashJoinNewBatch` works on: batch counts, the current
batch, the two `nbatch` snapshots used by rules 2 and 3 of its comment,
spill-file presence per batch index on each side, and the two
`HJ_FILL_*` flags. -/
structure NBState where
  nbatch : Nat
  curbatch : Nat
  nbatchOriginal : Nat
  nbatchOutstart : Nat
  innerBatchFile : List Bool
  outerBatchFile : List Bool
  fillInner : Bool
  fillOuter : Bool
deriving DecidableEq, Repr

/-- The conditions under which the advancement loop of
`ExecHashJoinNewBatch` (lines 827-851) stops at batch `c`: the `while`
guard fails because both spill files are present, or one of the four
`break` rules fires (null-fill on a present side, or a batch-count
increase since the original estimate / since the outer scan started with
that side present). -/
def nbMustProcess (st : NBState) (c : Nat) : Bool :=
  let outerP := st.outerBatchFile.getD c false
  let innerP := st.innerBatchFile.getD c false
  (outerP && innerP) ||
  (outerP && st.fillOuter) ||
  (innerP && st.fillInner) ||
  (innerP && (st.nbatch != st.nbatchOriginal)) ||
  (outerP && (st.nbatch != st.nbatchOutstart))

/-- The `curbatch++; while (...) ...` advancement loop of
`ExecHashJoinNewBatch` (lines 827-855): walk forward from `c`, skipping
(and releasing) every batch that need not be processed; `none` models the
`return false` when `curbatch >= nbatch`. -/
def execHashJoinNewBatchLoop (st : NBState) (c : Nat) : Option Nat :=
  if h : c < st.nbatch then
    if nbMustProcess st c then some c
    else execHashJoinNewBatchLoop st (c + 1)
  else none
termination_by st.nbatch - c
decreasing_by omega

/-- `ExecHashJoinNewBatch` (lines 771-900), reduced to the batch it
selects: starting just past the current batch, the first batch that must
be processed, if any. -/
def execHashJoinNewBatch (st : NBState) : Option Nat :=
  execHashJoinNewBatchLoop st (st.curbatch + 1)

theorem nbLoop_spec (st : NBState) :
    ∀ d c, st.nbatch - c ≤ d →
      (∀ r, execHashJoinNewBatchLoop st c = some r →
        c ≤ r ∧ r < st.nbatch ∧ nbMustProcess st r = true ∧
          ∀ b, c ≤ b → b < r → nbMustProcess st b = false) ∧
      (execHashJoinNewBatchLoop st c = none →
        ∀ b, c ≤ b → b < st.nbatch → nbMustProcess st b = false) := by
  intro d
  induction d with
  | zero =>
    intro c hd
    have hge : st.nbatch ≤ c := by omega
    unfold execHashJoinNewBatchLoop
    rw [dif_neg (by omega)]
    exact ⟨fun r hr => absurd hr (by simp), fun _ b hb1 hb2 => absurd hb2 (by omega)⟩
  | succ d ih =>
    intro c hd
    by_cases hc : c < st.nbatch
    · unfold execHashJoinNewBatchLoop
      rw [dif_pos hc]
      by_cases hq : nbMustProcess st c = true
      · rw [if_pos hq]
        refine ⟨?_, ?_⟩
        · intro r hr
          have hrc : c = r := (Option.some.injEq _ _).mp hr
          subst hrc
          exact ⟨Nat.le_refl _, hc, hq, fun b hb1 hb2 => absurd hb2 (by omega)⟩
        · intro hr
          exact absurd hr (by simp)
      · have hqf : nbMustProcess st c = false := by
          cases hx : nbMustProcess st c
          · rfl
          · exact absurd hx hq
        rw [if_neg hq]
        obtain ⟨ihs, ihn⟩ := ih (c + 1) (by omega)
        refine ⟨?_, ?_⟩
        · intro r hr
          obtain ⟨h1, h2, h3, h4⟩ := ihs r hr
          refine ⟨by omega, h2, h3, ?_⟩
          intro b hb1 hb2
          by_cases hbc : b = c
          · rw [hbc]; exact hqf
          · exact h4 b (by omega) hb2
        · intro hr b hb1 hb2
          by_cases hbc : b = c
          · rw [hbc]; exact hqf
          · exact ihn hr b (by omega) hb2
    · unfold execHashJoinNewBatchLoop
      rw [dif_neg hc]
      exact ⟨fun r hr => absurd hr (by simp), fun _ b hb1 hb2 => absurd hb2 (by omega)⟩

/-- C6 (confirmed): advancing past a consumed batch selects exactly the
least later batch index that must be processed — one with both spill
files present, or with one side present when that side's rows need
outer-join null completion, or with the inner (outer) side present after
the batch count grew past `nbatch_original` (`nbatch_outstart`); a batch
absent on both sides never qualifies and is skipped; and no-more-batches
is reported exactly when no later batch qualifies. -/
theorem c6_newBatchAdvance (st : NBState) :
    (∀ c, execHashJoinNewBatch st = some c →
      st.curbatch < c ∧ c < st.nbatch ∧ nbMustProcess st c = true ∧
        (∀ b, st.curbatch < b → b < c → nbMustProcess st b = false)) ∧
    (execHashJoinNewBatch st = none →
      ∀ b, st.curbatch < b → b < st.nbatch → nbMustProcess st b = false) ∧
    (∀ b, st.innerBatchFile.getD b false = false →
      st.outerBatchFile.getD b false = false → nbMustProcess st b = false) := by
  obtain ⟨hs, hn⟩ := nbLoop_spec st (st.nbatch - (st.curbatch + 1)) (st.curbatch + 1)
    (Nat.le_refl _)
  refine ⟨?_, ?_, ?_⟩
  · intro c hc
    obtain ⟨h1, h2, h3, h4⟩ := hs c hc
    exact ⟨by omega, h2, h3, fun b hb1 hb2 => h4 b (by omega) hb2⟩
  · intro hc b hb1 hb2
    exact hn hc b (by omega) hb2
  · intro b hbi hbo
    unfold nbMustProcess
    rw [hbi, hbo]
    rfl

/-- Witness for C6: with batch 1 empty on both sides, batch 2 present
only on the inner side of a right join (null completion needed), the
operator advances from batch 0 straight to batch 2. -/
theorem c6_newBatchAdvance_witness :
    execHashJoinNewBatch
        { nbatch := 4, curbatch := 0, nbatchOriginal := 4, nbatchOutstart := 4,
          innerBatchFile := [false, false, true, false],
          outerBatchFile := [false, false, false, false],
          fillInner := true, fillOuter := false } = some 2 ∧
    0 < 2 ∧ 2 < 4 ∧
    nbMustProcess
        { nbatch := 4, curbatch := 0, nbatchOriginal := 4, nbatchOutstart := 4,
          innerBatchFile := [false, false, true, false],
          outerBatchFile := [false, false, false, false],
          fillInner := true, fillOuter := false } 2 = true := by
  have hrun : execHashJoinNewBatch
      { nbatch := 4, curbatch := 0, nbatchOriginal := 4, nbatchOutstart := 4,
        innerBatchFile := [false, false, true, false],
        outerBatchFile := [false, false, false, false],
        fillInner := true, fillOuter := false } = some 2 := by
    simp [execHashJoinNewBatch, execHashJoinNewBatchLoop, nbMustProcess]
  have h := (c6_newBatchAdvance
      { nbatch := 4, curbatch := 0, nbatchOriginal := 4, nbatchOutstart := 4,
        innerBatchFile := [false, false, true, false],
        outerBatchFile := [false, false, false, false],
        fillInner := true, fillOuter := false }).1 2 hrun
  exact ⟨hrun, h.1, h.2.1, h.2.2.1⟩

theorem listModify_getElem {α : Type} (f : α → α) :
    ∀ (l : List α) (j : Nat), (listModify l j f)[j]? = (l[j]?).map f := by
  intro l
  induction l with
  | nil => intro j; rfl
  | cons a t ih =>
    intro j
    cases j with
    | zero => simp [listModify]
    | succ j =>
      show (a :: listModify t j f)[j + 1]? = ((a :: t)[j + 1]?).map f
      rw [List.getElem?_cons_succ, List.getElem?_cons_succ]
      exact ih j

theorem bucket_ne_nil_lt (tbl : HashJoinTable) (b : Nat) (h : tbl.bucket b ≠ []) :
    b < tbl.buckets.length := by
  by_contra hge
  exact h (List.getD_eq_default _ _ (by omega))

/-- Multi-batch run in which the matched bit lands on the wrong row: the
second outer row spills to batch 1, and the bucket head its insert hash
selects holds the first outer row. -/
def c5cInit : SymCfg × SymState :=
  execInitSymHashJoin .inner exHash exKeyEq none none 1 1 1 2
    [⟨some 1, 10⟩] [⟨some 2, 20⟩, ⟨some 1, 21⟩]

/-- C5 (corrected): when a bucket-scan candidate passes the join
qualifier — also when the residual predicate then fails — the matched bit
is set on the candidate at the scan position, and on the HEAD of the
bucket of the pulled side's table selected by the pulled row's insert
hash (`hashtable->buckets.unshared[bucketno]`, lines 223-225 and
253-255); that head is the just-pulled row exactly when that row was just
pushed into the in-memory bucket (in particular with a single batch), not
in general.  When the join qualifier fails (or no candidate is found) the
scan changes no bits. -/
theorem c5_matchedBits (cfg : SymCfg) (s : SymState) (pulled : Row) (j : Nat)
    (cand : HashTuple) :
    (s.jstate = HJ_SCAN_OUTER_BUCKET → s.ecxtInner = some pulled →
      findFrom s.curOutHashValue (fun r => cfg.hashclauses r pulled)
        (s.outerTable.bucket s.curBucketNo) (startIdx s.curOutTuple) = some (j, cand) →
      evalJoinQual cfg.joinqual cand.row pulled = true →
      ∀ s2, (symStep cfg s = .next s2 ∨ ∃ o, symStep cfg s = .yield o s2) →
        (s2.outerTable.bucket s.curBucketNo)[j]? = some { cand with matched := true } ∧
        (∀ t ts, s.innerTable.bucket (s.innerInsertHash % s.innerTable.nbuckets) = t :: ts →
          s2.innerTable.bucket (s.innerInsertHash % s.innerTable.nbuckets)
            = { t with matched := true } :: ts)) ∧
    (s.jstate = HJ_SCAN_INNER_BUCKET → s.ecxtOuter = some pulled →
      findFrom s.curHashValue (fun r => cfg.hashclauses pulled r)
        (s.innerTable.bucket s.curBucketNo) (startIdx s.curTuple) = some (j, cand) →
      evalJoinQual cfg.joinqual pulled cand.row = true →
      ∀ s2, (symStep cfg s = .next s2 ∨ ∃ o, symStep cfg s = .yield o s2) →
        (s2.innerTable.bucket s.curBucketNo)[j]? = some { cand with matched := true } ∧
        (∀ t ts, s.outerTable.bucket (s.outerInsertHash % s.outerTable.nbuckets) = t :: ts →
          s2.outerTable.bucket (s.outerInsertHash % s.outerTable.nbuckets)
            = { t with matched := true } :: ts)) ∧
    (s.jstate = HJ_SCAN_OUTER_BUCKET → s.ecxtInner = some pulled →
      findFrom s.curOutHashValue (fun r => cfg.hashclauses r pulled)
        (s.outerTable.bucket s.curBucketNo) (startIdx s.curOutTuple) = some (j, cand) →
      evalJoinQual cfg.joinqual cand.row pulled = false →
      ∀ s2, symStep cfg s = .next s2 →
        s2.outerTable = s.outerTable ∧ s2.innerTable = s.innerTable) ∧
    (s.jstate = HJ_SCAN_INNER_BUCKET → s.ecxtOuter = some pulled →
      findFrom s.curHashValue (fun r => cfg.hashclauses pulled r)
        (s.innerTable.bucket s.curBucketNo) (startIdx s.curTuple) = some (j, cand) →
      evalJoinQual cfg.joinqual pulled cand.row = false →
      ∀ s2, symStep cfg s = .next s2 →
        s2.outerTable = s.outerTable ∧ s2.innerTable = s.innerTable) := by
  have hbits : ∀ tblO tblI : HashJoinTable, ∀ bO hI : Nat,
      (tblO.bucket bO)[j]? = some cand →
      ((setMatchAt tblO bO j).bucket bO)[j]? = some { cand with matched := true } ∧
      (∀ t ts, tblI.bucket (hI % tblI.nbuckets) = t :: ts →
        (setMatchHead tblI (hI % tblI.nbuckets)).bucket (hI % tblI.nbuckets)
          = { t with matched := true } :: ts) := by
    intro tblO tblI bO hI hj
    constructor
    · have hne : tblO.bucket bO ≠ [] := by
        intro hnil
        rw [hnil] at hj
        exact absurd hj (by simp)
      have hlt := bucket_ne_nil_lt tblO bO hne
      rw [bucket_setMatchAt, if_pos ⟨rfl, hlt⟩, listModify_getElem, hj]
      rfl
    · intro t ts hts
      have hne : tblI.bucket (hI % tblI.nbuckets) ≠ [] := by rw [hts]; simp
      have hlt := bucket_ne_nil_lt tblI _ hne
      rw [setMatchHead_eq_setMatchAt, bucket_setMatchAt, if_pos ⟨rfl, hlt⟩, hts]
      rfl
  refine ⟨?_, ?_, ?_, ?_⟩
  · intro h5 hec hf hjq s2 hstep
    rw [symStep_eq_scanOuter cfg s h5] at hstep
    have hj := (findFrom_some_emits _ _ _ (fun _ => none) (fun _ _ => rfl) _ _ _ hf).2.2.1
    by_cases hoq : evalOtherQual cfg.otherqual (some cand.row) (some pulled) = true
    · rw [shape_scanOuter_match cfg s pulled j cand hec hf hjq hoq] at hstep
      rcases hstep with hstep | ⟨o, hstep⟩
      · exact absurd hstep (by simp)
      · obtain ⟨ho, hs2⟩ := (StepResult.yield.injEq _ _ _ _).mp hstep
        subst hs2
        exact hbits s.outerTable s.innerTable s.curBucketNo s.innerInsertHash hj
    · have hoqf : evalOtherQual cfg.otherqual (some cand.row) (some pulled) = false := by
        cases hx : evalOtherQual cfg.otherqual (some cand.row) (some pulled)
        · rfl
        · exact absurd hx hoq
      rw [shape_scanOuter_matchFiltered cfg s pulled j cand hec hf hjq hoqf] at hstep
      rcases hstep with hstep | ⟨o, hstep⟩
      · have hs2 := (StepResult.next.injEq _ _).mp hstep
        subst hs2
        exact hbits s.outerTable s.innerTable s.curBucketNo s.innerInsertHash hj
      · exact absurd hstep (by simp)
  · intro h6 hec hf hjq s2 hstep
    rw [symStep_eq_scanInner cfg s h6] at hstep
    have hj := (findFrom_some_emits _ _ _ (fun _ => none) (fun _ _ => rfl) _ _ _ hf).2.2.1
    by_cases hoq : evalOtherQual cfg.otherqual (some pulled) (some cand.row) = true
    · rw [shape_scanInner_match cfg s pulled j cand hec hf hjq hoq] at hstep
      rcases hstep with hstep | ⟨o, hstep⟩
      · exact absurd hstep (by simp)
      · obtain ⟨ho, hs2⟩ := (StepResult.yield.injEq _ _ _ _).mp hstep
        subst hs2
        exact hbits s.innerTable s.outerTable s.curBucketNo s.outerInsertHash hj
    · have hoqf : evalOtherQual cfg.otherqual (some pulled) (some cand.row) = false := by
        cases hx : evalOtherQual cfg.otherqual (some pulled) (some cand.row)
        · rfl
        · exact absurd hx hoq
      rw [shape_scanInner_matchFiltered cfg s pulled j cand hec hf hjq hoqf] at hstep
      rcases hstep with hstep | ⟨o, hstep⟩
      · have hs2 := (StepResult.next.injEq _ _).mp hstep
        subst hs2
        exact hbits s.innerTable s.outerTable s.curBucketNo s.outerInsertHash hj
      · exact absurd hstep (by simp)
  · intro h5 hec hf hjq s2 hstep
    rw [symStep_eq_scanOuter cfg s h5,
      shape_scanOuter_noJq cfg s pulled j cand hec hf hjq] at hstep
    have hs2 := (StepResult.next.injEq _ _).mp hstep
    subst hs2
    exact ⟨rfl, rfl⟩
  · intro h6 hec hf hjq s2 hstep
    rw [symStep_eq_scanInner cfg s h6,
      shape_scanInner_noJq cfg s pulled j cand hec hf hjq] at hstep
    have hs2 := (StepResult.next.injEq _ _).mp hstep
    subst hs2
    exact ⟨rfl, rfl⟩

/-- Witness for C5 at the concrete scan suspension of `c4wS`: both the
candidate's bit and the bucket head's bit (here the head IS the pulled
row, single batch) are set. -/
theorem c5_matchedBits_witness :
    (c4wS2.outerTable.bucket 0)[0]? = some ⟨⟨some 1, 20⟩, 1, true⟩ ∧
    c4wS2.innerTable.bucket 0 = [⟨⟨some 1, 10⟩, 1, true⟩] := by
  have hy : symStep c4wCfg c4wS = .yield c4wOut c4wS2 := by
    simp [symStep, stepScanOuterBucket, findFrom, c4wCfg, c4wS, c4wOut, c4wS2,
      execInitSymHashJoin, exHash, exKeyEq, execHashTableInsert, mkHashTable,
      HashJoinTable.bucket, startIdx, evalJoinQual, evalOtherQual, setMatchAt,
      setMatchHead, listModify, execHashGetBucketAndBatch,
      HJ_BUILD_HASHTABLE, HJ_NEED_NEW_OUTER, HJ_NEED_NEW_INNER, HJ_FILL_TUPLES,
      HJ_SCAN_OUTER_BUCKET, HJ_SCAN_INNER_BUCKET]
  have hff : findFrom c4wS.curOutHashValue
      (fun r => c4wCfg.hashclauses r ⟨some 1, 10⟩)
      (c4wS.outerTable.bucket c4wS.curBucketNo) (startIdx c4wS.curOutTuple)
      = some (0, ⟨⟨some 1, 20⟩, 1, false⟩) := by
    simp [findFrom, c4wCfg, c4wS, execInitSymHashJoin, exHash, exKeyEq,
      execHashTableInsert, mkHashTable, HashJoinTable.bucket, startIdx, listModify]
  have h := (c5_matchedBits c4wCfg c4wS ⟨some 1, 10⟩ 0 ⟨⟨some 1, 20⟩, 1, false⟩).1
    rfl rfl hff (by decide) c4wS2 (Or.inr ⟨c4wOut, hy⟩)
  refine ⟨h.1, ?_⟩
  have h2 := h.2 ⟨⟨some 1, 10⟩, 1, false⟩ [] (by decide)
  exact h2

/-- Counterexample to C5 as stated: in the two-batch run `c5cInit` the
only join-qual success is for pulled row `⟨some 1, 21⟩`, yet after the
drain the matched bit sits on `⟨some 2, 20⟩` — the bucket head — whose
key never matched anything, while the pulled row itself lies bitless in
the batch-1 spill file. -/
theorem c5_counterexample :
    ((symDrainTr c5cInit.1 64 c5cInit.2).map
        (fun p => ((p.2.outerTable.bucket 0).map (fun t => (t.row, t.matched)),
          p.2.outerTable.batchFile 1)))
      = some ([((⟨some 2, 20⟩ : Row), true)], [(1, (⟨some 1, 21⟩ : Row))]) ∧
    exKeyEq ⟨some 2, 20⟩ ⟨some 1, 10⟩ = false ∧
    (⟨some 2, 20⟩ : Row) ≠ (⟨some 1, 21⟩ : Row) := by
  refine ⟨?_, by decide, by decide⟩
  simp [symDrainTr, symStep, stepBuildHashtable, stepNeedNewInner, stepNeedNewOuter,
    stepScanOuterBucket, stepScanInnerBucket, stepFillTuples, findFrom, findUnmatched,
    findUnmatchedIn, hashNodeNext, execHashGetHashValue, execHashGetBucketAndBatch,
    execHashTableInsert, mkHashTable, setMatchAt, setMatchHead, listModify,
    evalJoinQual, evalOtherQual, exHash, exKeyEq, execInitSymHashJoin, c5cInit,
    HJ_BUILD_HASHTABLE, HJ_NEED_NEW_OUTER, HJ_NEED_NEW_INNER, HJ_FILL_TUPLES,
    HJ_SCAN_OUTER_BUCKET, HJ_SCAN_INNER_BUCKET, startIdx, fillsOuter, fillsInner,
    HashJoinTable.bucket, HashJoinTable.batchFile, rowHashKept]

/-! ### What the fill phase emits (C2) -/

/-- Null-completion outputs still pending from the inner unmatched scan at
cursor `(b, i)`: each remaining unmatched tuple padded with the null outer
slot. -/
def fillOutsInner (bs : List (List HashTuple)) (b i : Nat) : List JoinOut :=
  (remList bs b i).filterMap
    (fun t => if t.matched then none else some ((none : Option Row), some t.row))

/-- Null-completion outputs still pending from the outer unmatched scan. -/
def fillOutsOuter (bs : List (List HashTuple)) (b i : Nat) : List JoinOut :=
  (remList bs b i).filterMap
    (fun t => if t.matched then none else some (some t.row, (none : Option Row)))

/-- All outputs the fill phase will still emit from state `s` (with no
residual qual): the rest of the inner unmatched scan if it is still
active, then the whole outer unmatched scan if it applies. -/
def fillPendingOuts (cfg : SymCfg) (s : SymState) : List JoinOut :=
  if cfg.fillInner && !s.fillInnerFinished then
    fillOutsInner s.innerTable.buckets (effFillB s) (effFillI s) ++
      (if cfg.fillOuter && !s.fillOuterFinished then
        fillOutsOuter s.outerTable.buckets 0 0 else [])
  else if cfg.fillOuter && !s.fillOuterFinished then
    fillOutsOuter s.outerTable.buckets (effFillB s) (effFillI s)
  else []

theorem fillOuts_all_matched_inner (bs : List (List HashTuple)) (b i : Nat)
    (h : ∀ t ∈ remList bs b i, t.matched = true) : fillOutsInner bs b i = [] := by
  unfold fillOutsInner
  rw [List.filterMap_eq_nil_iff]
  intro t ht
  rw [h t ht]
  rfl

theorem fillOuts_all_matched_outer (bs : List (List HashTuple)) (b i : Nat)
    (h : ∀ t ∈ remList bs b i, t.matched = true) : fillOutsOuter bs b i = [] := by
  unfold fillOutsOuter
  rw [List.filterMap_eq_nil_iff]
  intro t ht
  rw [h t ht]
  rfl

theorem fill_drain_core (cfg : SymCfg) (hoq : cfg.otherqual = none) (fuel : Nat)
    (ih : ∀ s tr fin, s.jstate = HJ_FILL_TUPLES → symDrainTr cfg fuel s = some (tr, fin) →
      tr.map Prod.snd = fillPendingOuts cfg s)
    (s : SymState) (tr : List (Nat × JoinOut)) (fin : SymState)
    (hj : s.jstate = HJ_FILL_TUPLES) (h0 : s.firstFill = false)
    (hdr : symDrainTr cfg (fuel + 1) s = some (tr, fin)) :
    tr.map Prod.snd = fillPendingOuts cfg s := by
  have hstep : symStep cfg s = stepFillTuples cfg s := symStep_eq_fill cfg s hj
  unfold symDrainTr at hdr
  rw [hstep] at hdr
  by_cases hfi : (!s.fillInnerFinished && cfg.fillInner) = true
  · have h1 : s.fillInnerFinished = false := by
      cases hx : s.fillInnerFinished
      · rfl
      · rw [hx] at hfi; simp at hfi
    have h2 : cfg.fillInner = true := (Bool.and_eq_true _ _).mp hfi |>.2
    cases hf : findUnmatched s.innerTable.buckets s.fillBucketNo s.fillIdx with
    | none =>
      rw [shape_fill_innerDone cfg s h0 h1 h2 hf] at hdr
      have hdr2 : symDrainTr cfg fuel
          { s with fillInnerFinished := true, firstFill := true } = some (tr, fin) := hdr
      have hmain := ih { s with fillInnerFinished := true, firstFill := true } tr fin hj hdr2
      rw [hmain]
      have hall := findUnmatched_none s.innerTable.buckets s.fillBucketNo s.fillIdx hf
      unfold fillPendingOuts effFillB effFillI
      simp only [h0, h1, h2, Bool.not_false, Bool.not_true, Bool.and_true, Bool.and_false,
        Bool.true_and, Bool.false_and, if_true, if_false, ite_true, ite_false,
        Bool.false_eq_true]
      rw [fillOuts_all_matched_inner s.innerTable.buckets s.fillBucketNo s.fillIdx hall]
      by_cases hob : (cfg.fillOuter && !s.fillOuterFinished) = true
      · simp [hob]
      · have hob2 : (cfg.fillOuter && !s.fillOuterFinished) = false := by
          cases hx : (cfg.fillOuter && !s.fillOuterFinished)
          · rfl
          · exact absurd hx hob
        simp [hob2]
    | some p =>
      obtain ⟨b, p2⟩ := p
      obtain ⟨j, t⟩ := p2
      have hoqT : evalOtherQual cfg.otherqual none (some t.row) = true := by
        rw [hoq]
        rfl
      rw [shape_fill_innerEmit cfg s b j t h0 h1 h2 hf hoqT] at hdr
      have hdr2 : (match symDrainTr cfg fuel { s with
          fillBucketNo := b, fillIdx := j + 1,
          ecxtOuter := none, ecxtInner := some t.row } with
        | none => (none : Option (List (Nat × JoinOut) × SymState))
        | some (tr2, fin2) =>
          some ((s.jstate, ((none : Option Row), some t.row)) :: tr2, fin2))
          = some (tr, fin) := hdr
      cases hrec : symDrainTr cfg fuel { s with
          fillBucketNo := b, fillIdx := j + 1,
          ecxtOuter := none, ecxtInner := some t.row } with
      | none =>
        rw [hrec] at hdr2
        exact absurd hdr2 (by simp)
      | some pr =>
        obtain ⟨tr2, fin2⟩ := pr
        rw [hrec] at hdr2
        have hdr3 : some ((s.jstate, ((none : Option Row), some t.row)) :: tr2, fin2)
            = some (tr, fin) := hdr2
        obtain ⟨h3, h4⟩ := (Prod.mk.injEq _ _ _ _).mp ((Option.some.injEq _ _).mp hdr3)
        have hmain := ih { s with
            fillBucketNo := b, fillIdx := j + 1,
            ecxtOuter := none, ecxtInner := some t.row } tr2 fin2 hj hrec
        rw [← h3]
        simp only [List.map_cons]
        rw [hmain]
        obtain ⟨hble, hblt, htm, pre, hpreEq, hprem⟩ :=
          findUnmatched_some s.innerTable.buckets s.fillBucketNo s.fillIdx b j t hf
        unfold fillPendingOuts effFillB effFillI
        simp only [h0, h1, h2, Bool.not_false, Bool.and_true, if_true, ite_true,
          Bool.false_eq_true, if_false, ite_false]
        unfold fillOutsInner
        rw [hpreEq, List.filterMap_append, List.filterMap_cons]
        have hpre0 : pre.filterMap
            (fun t => if t.matched then none
              else some ((none : Option Row), some t.row)) = [] := by
          rw [List.filterMap_eq_nil_iff]
          intro u hu
          rw [hprem u hu]
          rfl
        rw [hpre0, htm]
        simp
  · have hfe : (!s.fillInnerFinished && cfg.fillInner) = false := by
      cases hx : (!s.fillInnerFinished && cfg.fillInner)
      · rfl
      · exact absurd hx hfi
    have hfe2 : (cfg.fillInner && !s.fillInnerFinished) = false := by
      rw [Bool.and_comm]; exact hfe
    by_cases hfo : (!s.fillOuterFinished && cfg.fillOuter) = true
    · have h2 : s.fillOuterFinished = false := by
        cases hx : s.fillOuterFinished
        · rfl
        · rw [hx] at hfo; simp at hfo
      have h3 : cfg.fillOuter = true := (Bool.and_eq_true _ _).mp hfo |>.2
      cases hf : findUnmatched s.outerTable.buckets s.fillBucketNo s.fillIdx with
      | none =>
        rw [shape_fill_outerDone cfg s h0 hfe h2 h3 hf] at hdr
        have hdr3 : some (([] : List (Nat × JoinOut)),
            { s with fillOuterFinished := true }) = some (tr, fin) := hdr
        obtain ⟨h3e, h4e⟩ := (Prod.mk.injEq _ _ _ _).mp ((Option.some.injEq _ _).mp hdr3)
        rw [← h3e]
        have hall := findUnmatched_none s.outerTable.buckets s.fillBucketNo s.fillIdx hf
        unfold fillPendingOuts effFillB effFillI
        simp only [hfe2, h0, h2, h3, Bool.not_false, Bool.and_true, Bool.false_eq_true,
          if_false, ite_false, if_true, ite_true]
        rw [fillOuts_all_matched_outer s.outerTable.buckets s.fillBucketNo s.fillIdx hall]
        rfl
      | some p =>
        obtain ⟨b, p2⟩ := p
        obtain ⟨j, t⟩ := p2
        have hoqT : evalOtherQual cfg.otherqual (some t.row) none = true := by
          rw [hoq]
          rfl
        rw [shape_fill_outerEmit cfg s b j t h0 hfe h2 h3 hf hoqT] at hdr
        have hdr2 : (match symDrainTr cfg fuel { s with
            fillBucketNo := b, fillIdx := j + 1,
            ecxtInner := none, ecxtOuter := some t.row } with
          | none => (none : Option (List (Nat × JoinOut) × SymState))
          | some (tr2, fin2) =>
            some ((s.jstate, (some t.row, (none : Option Row))) :: tr2, fin2))
            = some (tr, fin) := hdr
        cases hrec : symDrainTr cfg fuel { s with
            fillBucketNo := b, fillIdx := j + 1,
            ecxtInner := none, ecxtOuter := some t.row } with
        | none =>
          rw [hrec] at hdr2
          exact absurd hdr2 (by simp)
        | some pr =>
          obtain ⟨tr2, fin2⟩ := pr
          rw [hrec] at hdr2
          have hdr3 : some ((s.jstate, (some t.row, (none : Option Row))) :: tr2, fin2)
              = some (tr, fin) := hdr2
          obtain ⟨h3e, h4e⟩ := (Prod.mk.injEq _ _ _ _).mp ((Option.some.injEq _ _).mp hdr3)
          have hmain := ih { s with
              fillBucketNo := b, fillIdx := j + 1,
              ecxtInner := none, ecxtOuter := some t.row } tr2 fin2 hj hrec
          rw [← h3e]
          simp only [List.map_cons]
          rw [hmain]
          obtain ⟨hble, hblt, htm, pre, hpreEq, hprem⟩ :=
            findUnmatched_some s.outerTable.buckets s.fillBucketNo s.fillIdx b j t hf
          unfold fillPendingOuts effFillB effFillI
          simp only [hfe2, h0, h2, h3, Bool.not_false, Bool.and_true, Bool.false_eq_true,
            if_false, ite_false, if_true, ite_true]
          unfold fillOutsOuter
          rw [hpreEq, List.filterMap_append, List.filterMap_cons]
          have hpre0 : pre.filterMap
              (fun t => if t.matched then none
                else some (some t.row, (none : Option Row))) = [] := by
            rw [List.filterMap_eq_nil_iff]
            intro u hu
            rw [hprem u hu]
            rfl
          rw [hpre0, htm]
          simp
    · have hfoe : (!s.fillOuterFinished && cfg.fillOuter) = false := by
        cases hx : (!s.fillOuterFinished && cfg.fillOuter)
        · rfl
        · exact absurd hx hfo
      have hfoe2 : (cfg.fillOuter && !s.fillOuterFinished) = false := by
        rw [Bool.and_comm]; exact hfoe
      rw [shape_fill_done cfg s h0 hfe hfoe] at hdr
      have hdr3 : some (([] : List (Nat × JoinOut)), s) = some (tr, fin) := hdr
      obtain ⟨h3e, h4e⟩ := (Prod.mk.injEq _ _ _ _).mp ((Option.some.injEq _ _).mp hdr3)
      rw [← h3e]
      unfold fillPendingOuts
      rw [hfe2, hfoe2]
      rfl

/-- Draining from a `HJ_FILL_TUPLES` state with no residual qual emits
exactly the pending null-completion outputs, in order. -/
theorem fill_drain_outs (cfg : SymCfg) (hoq : cfg.otherqual = none) :
    ∀ fuel s tr fin, s.jstate = HJ_FILL_TUPLES →
      symDrainTr cfg fuel s = some (tr, fin) →
      tr.map Prod.snd = fillPendingOuts cfg s := by
  intro fuel
  induction fuel with
  | zero =>
    intro s tr fin hj hdr
    exact absurd hdr (by simp [symDrainTr])
  | succ fuel ih =>
    intro s tr fin hj hdr
    have hstep : symStep cfg s = stepFillTuples cfg s := symStep_eq_fill cfg s hj
    by_cases hff : s.firstFill = true
    · have hres := shape_fill_reset cfg s hff
      have hjR : ({ s with firstFill := false, fillBucketNo := 0, fillIdx := 0 } :
          SymState).jstate = HJ_FILL_TUPLES := hj
      have hstepR : symStep cfg { s with
          firstFill := false, fillBucketNo := 0, fillIdx := 0 } = stepFillTuples cfg { s with
          firstFill := false, fillBucketNo := 0, fillIdx := 0 } := symStep_eq_fill cfg _ hjR
      have hdrR : symDrainTr cfg (fuel + 1) { s with
          firstFill := false, fillBucketNo := 0, fillIdx := 0 } = some (tr, fin) := by
        rw [← hdr]
        show (match symStep cfg { s with
            firstFill := false, fillBucketNo := 0, fillIdx := 0 } with
          | .done s2 => some ([], s2)
          | .error => none
          | .yield out s2 =>
            match symDrainTr cfg fuel s2 with
            | none => none
            | some (tr2, fin2) => some ((s.jstate, out) :: tr2, fin2)
          | .next s2 => symDrainTr cfg fuel s2) =
          (match symStep cfg s with
          | .done s2 => some ([], s2)
          | .error => none
          | .yield out s2 =>
            match symDrainTr cfg fuel s2 with
            | none => none
            | some (tr2, fin2) => some ((s.jstate, out) :: tr2, fin2)
          | .next s2 => symDrainTr cfg fuel s2)
        rw [hstepR, ← hres, ← hstep]
      have hpe : fillPendingOuts cfg { s with
          firstFill := false, fillBucketNo := 0, fillIdx := 0 } = fillPendingOuts cfg s := by
        unfold fillPendingOuts effFillB effFillI
        simp [hff]
      rw [← hpe]
      -- drain of the reset state: redo the analysis there via the bound below
      exact fill_drain_core cfg hoq fuel ih _ tr fin hjR rfl hdrR
    · have hff2 : s.firstFill = false := by
        cases hx : s.firstFill
        · rfl
        · exact absurd hx hff
      exact fill_drain_core cfg hoq fuel ih s tr fin hj hff2 hdr

/-! ### Null-key accounting (C2) -/

/-- Null-keyed rows stored in a table's in-memory buckets. -/
def storedNullRows (tbl : HashJoinTable) : Multiset Row :=
  (tableRowsM tbl).filter (fun r => r.key.isNone = true)

/-- Null-keyed rows of an input list. -/
def nullRowsOf (l : List Row) : Multiset Row :=
  (↑l : Multiset Row).filter (fun r => r.key.isNone = true)

/-- Null-keyed rows among the inner-side null-completion outputs
`(NULL, row)` of an output stream. -/
def nullCompletionInnerMS (outs : List JoinOut) : Multiset Row :=
  ↑(outs.filterMap (fun o => match o with
    | (none, some r) => if r.key.isNone then some r else none
    | _ => none))

/-- Null-keyed rows among the outer-side null-completion outputs
`(row, NULL)` of an output stream. -/
def nullCompletionOuterMS (outs : List JoinOut) : Multiset Row :=
  ↑(outs.filterMap (fun o => match o with
    | (some r, none) => if r.key.isNone then some r else none
    | _ => none))

theorem storedNullRows_insert (tbl : HashJoinTable) (r : Row) (h : Nat)
    (hbatch : h % tbl.nbatch = tbl.curbatch)
    (hbuck : h % tbl.nbuckets < tbl.buckets.length) :
    storedNullRows (execHashTableInsert tbl r h) =
      if r.key.isNone = true then r ::ₘ storedNullRows tbl else storedNullRows tbl := by
  unfold storedNullRows
  rw [tableRowsM_insert tbl r h hbatch hbuck, Multiset.filter_cons]
  split_ifs with hnull
  · rw [Multiset.singleton_add]
  · rfl

theorem storedNullRows_setMatchAt (tbl : HashJoinTable) (b j : Nat) :
    storedNullRows (setMatchAt tbl b j) = storedNullRows tbl := by
  unfold storedNullRows
  rw [tableRowsM_setMatchAt]

theorem storedNullRows_setMatchHead (tbl : HashJoinTable) (b : Nat) :
    storedNullRows (setMatchHead tbl b) = storedNullRows tbl := by
  unfold storedNullRows
  rw [tableRowsM_setMatchHead]

theorem storedNullRows_mk (nbuckets nbatch : Nat) (keep : Bool) :
    storedNullRows (mkHashTable nbuckets nbatch keep) = 0 := by
  unfold storedNullRows tableRowsM
  rw [tableRows_mk]
  rfl

theorem nullRowsOf_cons (r : Row) (rest : List Row) :
    nullRowsOf (r :: rest) =
      if r.key.isNone = true then r ::ₘ nullRowsOf rest else nullRowsOf rest := by
  unfold nullRowsOf
  rw [← Multiset.cons_coe, Multiset.filter_cons]
  split_ifs with hnull
  · rw [Multiset.singleton_add]
  · rfl

theorem listModify_mem_at {α : Type} (f : α → α) :
    ∀ (ch : List α) (j : Nat), ∀ x ∈ listModify ch j f,
      x ∈ ch ∨ ∃ a, ch[j]? = some a ∧ x = f a := by
  intro ch
  induction ch with
  | nil =>
    intro j x hx
    exact absurd hx (by simp [listModify])
  | cons a t ih =>
    intro j x hx
    cases j with
    | zero =>
      rcases List.mem_cons.mp hx with hh | hh
      · exact Or.inr ⟨a, by simp, hh⟩
      · exact Or.inl (List.mem_cons_of_mem a hh)
    | succ j =>
      rcases List.mem_cons.mp hx with hh | hh
      · exact Or.inl (by rw [hh]; exact List.mem_cons_self a t)
      · rcases ih j x hh with hcase | ⟨b, hb1, hb2⟩
        · exact Or.inl (List.mem_cons_of_mem a hcase)
        · exact Or.inr ⟨b, by rw [List.getElem?_cons_succ]; exact hb1, hb2⟩

/-- The null-keyed stored tuples of a table are all unmatched. -/
def NullUnmatched (tbl : HashJoinTable) : Prop :=
  ∀ c : Nat, ∀ t ∈ tbl.bucket c, t.row.key.isNone = true → t.matched = false

theorem NullUnmatched_setMatchAt (tbl : HashJoinTable) (b j : Nat) (cand : HashTuple)
    (hj : (tbl.bucket b)[j]? = some cand) (hcand : cand.row.key.isNone = false)
    (hN : NullUnmatched tbl) : NullUnmatched (setMatchAt tbl b j) := by
  intro c t ht hnull
  rw [bucket_setMatchAt] at ht
  by_cases hcb : c = b ∧ b < tbl.buckets.length
  · rw [if_pos hcb] at ht
    rcases listModify_mem_at _ (tbl.bucket b) j t ht with hh | ⟨a, ha1, ha2⟩
    · exact hN b t (hcb.1 ▸ hh) hnull
    · rw [hj] at ha1
      have hac : cand = a := (Option.some.injEq _ _).mp ha1
      subst hac
      rw [ha2] at hnull
      exact absurd hnull (by simp [hcand])
  · rw [if_neg hcb] at ht
    exact hN c t ht hnull

theorem NullUnmatched_setMatchHead (tbl : HashJoinTable) (b : Nat) (t0 : HashTuple)
    (ts : List HashTuple) (hb : tbl.bucket b = t0 :: ts)
    (ht0 : t0.row.key.isNone = false)
    (hN : NullUnmatched tbl) : NullUnmatched (setMatchHead tbl b) := by
  rw [setMatchHead_eq_setMatchAt]
  exact NullUnmatched_setMatchAt tbl b 0 t0 (by rw [hb]; simp) ht0 hN

theorem NullUnmatched_insert (tbl : HashJoinTable) (r : Row) (h : Nat)
    (hN : NullUnmatched tbl) : NullUnmatched (execHashTableInsert tbl r h) := by
  intro c t ht hnull
  by_cases hbatch : h % tbl.nbatch = tbl.curbatch
  · rw [bucket_insert tbl r h c hbatch] at ht
    by_cases hcb : c = h % tbl.nbuckets ∧ h % tbl.nbuckets < tbl.buckets.length
    · rw [if_pos hcb] at ht
      rcases List.mem_cons.mp ht with hh | hh
      · rw [hh]
      · exact hN _ t hh hnull
    · rw [if_neg hcb] at ht
      exact hN c t ht hnull
  · have : (execHashTableInsert tbl r h).bucket c = tbl.bucket c := by
      unfold execHashTableInsert
      rw [if_neg hbatch]
      rfl
    rw [this] at ht
    exact hN c t ht hnull

theorem NullUnmatched_mk (nbuckets nbatch : Nat) (keep : Bool) :
    NullUnmatched (mkHashTable nbuckets nbatch keep) := by
  intro c t ht
  rw [bucket_mk] at ht
  exact absurd ht (by simp)

/-- Table-level invariant for the null-completion accounting: both tables
are single-batch (so nothing ever spills), well-sized, retain nulls
exactly when their side null-fills, and every stored null-keyed tuple is
unmatched. -/
def TblInv (cfg : SymCfg) (ti tou : HashJoinTable) : Prop :=
  ti.nbatch = 1 ∧ ti.curbatch = 0 ∧ tou.nbatch = 1 ∧ tou.curbatch = 0 ∧
  ti.buckets.length = ti.nbuckets ∧ 0 < ti.nbuckets ∧
  tou.buckets.length = tou.nbuckets ∧ 0 < tou.nbuckets ∧
  ti.keepNulls = cfg.fillInner ∧ tou.keepNulls = cfg.fillOuter ∧
  NullUnmatched ti ∧ NullUnmatched tou

/-- Reachability invariant for the null-completion accounting (single
batch): on top of `StepInv` and `TblInv`, in a scan state the bucket the
pulled side's insert hash selects starts with a non-null-keyed tuple (the
freshly pushed row), the fill bookkeeping is untouched before
`HJ_FILL_TUPLES`, and the tables are empty at `HJ_BUILD_HASHTABLE`. -/
def C2Inv (cfg : SymCfg) (s : SymState) : Prop :=
  StepInv s ∧ TblInv cfg s.innerTable s.outerTable ∧
  (s.jstate = HJ_SCAN_OUTER_BUCKET →
    ∃ t ts, s.innerTable.bucket (s.innerInsertHash % s.innerTable.nbuckets) = t :: ts ∧
      t.row.key.isNone = false) ∧
  (s.jstate = HJ_SCAN_INNER_BUCKET →
    ∃ t ts, s.outerTable.bucket (s.outerInsertHash % s.outerTable.nbuckets) = t :: ts ∧
      t.row.key.isNone = false) ∧
  (s.jstate ≠ HJ_FILL_TUPLES →
    s.firstFill = true ∧ s.fillInnerFinished = false ∧ s.fillOuterFinished = false) ∧
  (s.jstate = HJ_BUILD_HASHTABLE →
    storedNullRows s.innerTable = 0 ∧ storedNullRows s.outerTable = 0)

theorem TblInv_insert_inner (cfg : SymCfg) (ti tou : HashJoinTable) (r : Row) (h : Nat)
    (hT : TblInv cfg ti tou) : TblInv cfg (execHashTableInsert ti r h) tou := by
  obtain ⟨h1, h2, h3, h4, h5, h6, h7, h8, h9, h10, h11, h12⟩ := hT
  exact ⟨by rw [insert_nbatch]; exact h1, by rw [insert_curbatch]; exact h2, h3, h4,
    by rw [insert_buckets_length, insert_nbuckets]; exact h5,
    by rw [insert_nbuckets]; exact h6, h7, h8,
    by rw [insert_keepNulls]; exact h9, h10,
    NullUnmatched_insert ti r h h11, h12⟩

theorem TblInv_insert_outer (cfg : SymCfg) (ti tou : HashJoinTable) (r : Row) (h : Nat)
    (hT : TblInv cfg ti tou) : TblInv cfg ti (execHashTableInsert tou r h) := by
  obtain ⟨h1, h2, h3, h4, h5, h6, h7, h8, h9, h10, h11, h12⟩ := hT
  exact ⟨h1, h2, by rw [insert_nbatch]; exact h3, by rw [insert_curbatch]; exact h4,
    h5, h6,
    by rw [insert_buckets_length, insert_nbuckets]; exact h7,
    by rw [insert_nbuckets]; exact h8,
    h9, by rw [insert_keepNulls]; exact h10,
    h11, NullUnmatched_insert tou r h h12⟩

theorem TblInv_scanOuterUpd (cfg : SymCfg) (ti tou : HashJoinTable) (b j b2 : Nat)
    (cand t0 : HashTuple) (ts : List HashTuple) (hT : TblInv cfg ti tou)
    (hcand : (tou.bucket b)[j]? = some cand) (hcnn : cand.row.key.isNone = false)
    (hhead : ti.bucket b2 = t0 :: ts) (hnn : t0.row.key.isNone = false) :
    TblInv cfg (setMatchHead ti b2) (setMatchAt tou b j) := by
  obtain ⟨h1, h2, h3, h4, h5, h6, h7, h8, h9, h10, h11, h12⟩ := hT
  refine ⟨?_, ?_, ?_, ?_, ?_, ?_, ?_, ?_, ?_, ?_, ?_, ?_⟩
  · rw [setMatchHead_eq_setMatchAt, setMatchAt_nbatch]; exact h1
  · rw [setMatchHead_eq_setMatchAt, setMatchAt_curbatch]; exact h2
  · rw [setMatchAt_nbatch]; exact h3
  · rw [setMatchAt_curbatch]; exact h4
  · rw [setMatchHead_eq_setMatchAt, setMatchAt_buckets_length, setMatchAt_nbuckets]
    exact h5
  · rw [setMatchHead_eq_setMatchAt, setMatchAt_nbuckets]; exact h6
  · rw [setMatchAt_buckets_length, setMatchAt_nbuckets]; exact h7
  · rw [setMatchAt_nbuckets]; exact h8
  · rw [setMatchHead_eq_setMatchAt, setMatchAt_keepNulls]; exact h9
  · rw [setMatchAt_keepNulls]; exact h10
  · exact NullUnmatched_setMatchHead ti b2 t0 ts hhead hnn h11
  · exact NullUnmatched_setMatchAt tou b j cand hcand hcnn h12

theorem TblInv_scanInnerUpd (cfg : SymCfg) (ti tou : HashJoinTable) (b j b2 : Nat)
    (cand t0 : HashTuple) (ts : List HashTuple) (hT : TblInv cfg ti tou)
    (hcand : (ti.bucket b)[j]? = some cand) (hcnn : cand.row.key.isNone = false)
    (hhead : tou.bucket b2 = t0 :: ts) (hnn : t0.row.key.isNone = false) :
    TblInv cfg (setMatchAt ti b j) (setMatchHead tou b2) := by
  obtain ⟨h1, h2, h3, h4, h5, h6, h7, h8, h9, h10, h11, h12⟩ := hT
  refine ⟨?_, ?_, ?_, ?_, ?_, ?_, ?_, ?_, ?_, ?_, ?_, ?_⟩
  · rw [setMatchAt_nbatch]; exact h1
  · rw [setMatchAt_curbatch]; exact h2
  · rw [setMatchHead_eq_setMatchAt, setMatchAt_nbatch]; exact h3
  · rw [setMatchHead_eq_setMatchAt, setMatchAt_curbatch]; exact h4
  · rw [setMatchAt_buckets_length, setMatchAt_nbuckets]; exact h5
  · rw [setMatchAt_nbuckets]; exact h6
  · rw [setMatchHead_eq_setMatchAt, setMatchAt_buckets_length, setMatchAt_nbuckets]
    exact h7
  · rw [setMatchHead_eq_setMatchAt, setMatchAt_nbuckets]; exact h8
  · rw [setMatchAt_keepNulls]; exact h9
  · rw [setMatchHead_eq_setMatchAt, setMatchAt_keepNulls]; exact h10
  · exact NullUnmatched_setMatchAt ti b j cand hcand hcnn h11
  · exact NullUnmatched_setMatchHead tou b2 t0 ts hhead hnn h12

theorem TblInv_mk (cfg : SymCfg)
    (hib : cfg.innerNbatch = 1) (hob : cfg.outerNbatch = 1)
    (hinb : 0 < cfg.innerNbuckets) (honb : 0 < cfg.outerNbuckets) :
    TblInv cfg (mkHashTable cfg.innerNbuckets cfg.innerNbatch cfg.fillInner)
      (mkHashTable cfg.outerNbuckets cfg.outerNbatch cfg.fillOuter) :=
  ⟨hib, rfl, hob, rfl, List.length_replicate _ _, hinb, List.length_replicate _ _, honb,
    rfl, rfl, NullUnmatched_mk _ _ _, NullUnmatched_mk _ _ _⟩

/-- Shorthand for the two null-row conservation equations. -/
def NullSums (cfg : SymCfg) (s2 s : SymState) : Prop :=
  (cfg.fillInner = true →
    storedNullRows s2.innerTable + nullRowsOf s2.innerInput
      = storedNullRows s.innerTable + nullRowsOf s.innerInput) ∧
  (cfg.fillOuter = true →
    storedNullRows s2.outerTable + nullRowsOf s2.outerInput
      = storedNullRows s.outerTable + nullRowsOf s.outerInput)

theorem c2_build (cfg : SymCfg)
    (hib : cfg.innerNbatch = 1) (hob : cfg.outerNbatch = 1)
    (hinb : 0 < cfg.innerNbuckets) (honb : 0 < cfg.outerNbuckets)
    (s : SymState) (hI : C2Inv cfg s) (hj : s.jstate = HJ_BUILD_HASHTABLE) :
    ∀ s2, stepBuildHashtable cfg s = .next s2 → C2Inv cfg s2 ∧ NullSums cfg s2 s := by
  intro s2 hstep
  obtain ⟨hSI, hT, hsc5, hsc6, hfl, hbz⟩ := hI
  have hSI2 : StepInv s2 := (dec_build cfg s hSI hj s2 hstep).1
  rw [shape_build] at hstep
  have hs2 := (StepResult.next.injEq _ _).mp hstep
  subst hs2
  obtain ⟨hz1, hz2⟩ := hbz hj
  refine ⟨⟨hSI2, TblInv_mk cfg hib hob hinb honb, ?_, ?_, ?_, ?_⟩, ?_, ?_⟩
  · intro hh; simp [HJ_NEED_NEW_INNER, HJ_SCAN_OUTER_BUCKET] at hh
  · intro hh; simp [HJ_NEED_NEW_INNER, HJ_SCAN_INNER_BUCKET] at hh
  · intro _; exact hfl (by rw [hj]; simp [HJ_BUILD_HASHTABLE, HJ_FILL_TUPLES])
  · intro hh; simp [HJ_NEED_NEW_INNER, HJ_BUILD_HASHTABLE] at hh
  · intro _
    show storedNullRows (mkHashTable cfg.innerNbuckets cfg.innerNbatch cfg.fillInner)
        + nullRowsOf s.innerInput = _
    rw [storedNullRows_mk, hz1]
  · intro _
    show storedNullRows (mkHashTable cfg.outerNbuckets cfg.outerNbatch cfg.fillOuter)
        + nullRowsOf s.outerInput = _
    rw [storedNullRows_mk, hz2]

theorem c2_nno (cfg : SymCfg) (s : SymState) (hI : C2Inv cfg s) (hj : s.jstate = HJ_NEED_NEW_OUTER) :
    (∀ s2, stepNeedNewOuter cfg s = .next s2 → C2Inv cfg s2 ∧ NullSums cfg s2 s) ∧
    (∀ s2, stepNeedNewOuter cfg s = .done s2 →
      cfg.fillInner = false ∧ cfg.fillOuter = false) := by
  obtain ⟨hSI, hT, hsc5, hsc6, hfl, hbz⟩ := hI
  have hT2 := hT
  obtain ⟨t1, t2, t3, t4, t5, t6, t7, t8, t9, t10, t11, t12⟩ := hT2
  obtain ⟨hflags1, hflags2, hflags3⟩ :=
    hfl (by rw [hj]; simp [HJ_NEED_NEW_OUTER, HJ_FILL_TUPLES])
  have hnotb : ∀ v2 : Nat, v2 = HJ_NEED_NEW_INNER ∨ v2 = HJ_FILL_TUPLES →
      ¬v2 = HJ_BUILD_HASHTABLE := by
    intro v2 hv hh
    rcases hv with hv | hv <;> rw [hv] at hh <;>
      simp [HJ_NEED_NEW_INNER, HJ_FILL_TUPLES, HJ_BUILD_HASHTABLE] at hh
  constructor
  · intro s2 hstep
    have hSI2 : StepInv s2 :=
      ((dec_nno cfg s ⟨hSI.1, hSI.2.1, hSI.2.2.1, hSI.2.2.2.1, hSI.2.2.2.2.1,
        hSI.2.2.2.2.2⟩ hj).2.1 s2 hstep).1
    by_cases hon : s.outerTupleNull = true
    · by_cases hin : s.innerTupleNull = true
      · rw [shape_nno_bothNull cfg s hon hin] at hstep
        have hs2 := (StepResult.next.injEq _ _).mp hstep
        subst hs2
        refine ⟨⟨hSI2, hT, ?_, ?_, ?_, ?_⟩, fun _ => rfl, fun _ => rfl⟩
        · intro hh; simp [HJ_FILL_TUPLES, HJ_SCAN_OUTER_BUCKET] at hh
        · intro hh; simp [HJ_FILL_TUPLES, HJ_SCAN_INNER_BUCKET] at hh
        · intro hh; exact absurd rfl hh
        · intro hh; exact absurd hh (hnotb _ (Or.inr rfl))
      · have hinf : s.innerTupleNull = false := by
          cases hx : s.innerTupleNull
          · rfl
          · exact absurd hx hin
        rw [shape_nno_outerNull cfg s hon hinf] at hstep
        have hs2 := (StepResult.next.injEq _ _).mp hstep
        subst hs2
        refine ⟨⟨hSI2, hT, ?_, ?_, ?_, ?_⟩, fun _ => rfl, fun _ => rfl⟩
        · intro hh; simp [HJ_NEED_NEW_INNER, HJ_SCAN_OUTER_BUCKET] at hh
        · intro hh; simp [HJ_NEED_NEW_INNER, HJ_SCAN_INNER_BUCKET] at hh
        · intro _; exact ⟨hflags1, hflags2, hflags3⟩
        · intro hh; exact absurd hh (hnotb _ (Or.inl rfl))
    · have honf : s.outerTupleNull = false := by
        cases hx : s.outerTupleNull
        · rfl
        · exact absurd hx hon
      cases hinput : s.outerInput with
      | nil =>
        by_cases hin : s.innerTupleNull = true
        · by_cases hfill : (cfg.fillInner || cfg.fillOuter) = true
          · rw [shape_nno_exhaust_toFill cfg s honf hinput hin hfill] at hstep
            have hs2 := (StepResult.next.injEq _ _).mp hstep
            subst hs2
            refine ⟨⟨hSI2, hT, ?_, ?_, ?_, ?_⟩, ?_, ?_⟩
            · intro hh; simp [HJ_FILL_TUPLES, HJ_SCAN_OUTER_BUCKET] at hh
            · intro hh; simp [HJ_FILL_TUPLES, HJ_SCAN_INNER_BUCKET] at hh
            · intro hh; exact absurd rfl hh
            · intro hh; exact absurd hh (hnotb _ (Or.inr rfl))
            · intro _; rfl
            · intro _
              show storedNullRows s.outerTable + nullRowsOf s.outerInput = _
              rw [hinput]
          · exact absurd hstep (by
              rw [shape_nno_exhaust_done cfg s honf hinput hin
                (by cases hx : (cfg.fillInner || cfg.fillOuter)
                    · rfl
                    · exact absurd hx hfill)]
              simp)
        · have hinf : s.innerTupleNull = false := by
            cases hx : s.innerTupleNull
            · rfl
            · exact absurd hx hin
          rw [shape_nno_exhaust_toInner cfg s honf hinput hinf] at hstep
          have hs2 := (StepResult.next.injEq _ _).mp hstep
          subst hs2
          refine ⟨⟨hSI2, hT, ?_, ?_, ?_, ?_⟩, ?_, ?_⟩
          · intro hh; simp [HJ_NEED_NEW_INNER, HJ_SCAN_OUTER_BUCKET] at hh
          · intro hh; simp [HJ_NEED_NEW_INNER, HJ_SCAN_INNER_BUCKET] at hh
          · intro _; exact ⟨hflags1, hflags2, hflags3⟩
          · intro hh; exact absurd hh (hnotb _ (Or.inl rfl))
          · intro _; rfl
          · intro _
            show storedNullRows s.outerTable + nullRowsOf s.outerInput = _
            rw [hinput]
      | cons r rest =>
        cases hk : r.key with
        | some k =>
          rw [shape_nno_pull cfg s r rest k honf hinput hk] at hstep
          have hs2 := (StepResult.next.injEq _ _).mp hstep
          subst hs2
          have hbatch : cfg.hashFn k % s.outerTable.nbatch = s.outerTable.curbatch := by
            rw [t3, t4, Nat.mod_one]
          have hbuck : cfg.hashFn k % s.outerTable.nbuckets < s.outerTable.buckets.length := by
            rw [t7]
            exact Nat.mod_lt _ t8
          have hnn : r.key.isNone = false := by rw [hk]; rfl
          refine ⟨⟨hSI2, TblInv_insert_outer cfg _ _ r _ hT, ?_, ?_, ?_, ?_⟩, ?_, ?_⟩
          · intro hh; simp [HJ_SCAN_INNER_BUCKET, HJ_SCAN_OUTER_BUCKET] at hh
          · intro _
            refine ⟨⟨r, cfg.hashFn k, false⟩, s.outerTable.bucket
              (cfg.hashFn k % s.outerTable.nbuckets), ?_, hnn⟩
            show (execHashTableInsert s.outerTable r (cfg.hashFn k)).bucket
                (cfg.hashFn k % (execHashTableInsert s.outerTable r
                  (cfg.hashFn k)).nbuckets) = _
            rw [insert_nbuckets, bucket_insert _ _ _ _ hbatch, if_pos ⟨rfl, hbuck⟩]
          · intro _; exact ⟨hflags1, hflags2, hflags3⟩
          · intro hh; simp [HJ_SCAN_INNER_BUCKET, HJ_BUILD_HASHTABLE] at hh
          · intro _; rfl
          · intro _
            show storedNullRows (execHashTableInsert s.outerTable r (cfg.hashFn k))
                + nullRowsOf rest = _
            rw [storedNullRows_insert _ _ _ hbatch hbuck, if_neg (by rw [hnn]; simp),
              hinput, nullRowsOf_cons, if_neg (by rw [hnn]; simp)]
        | none =>
          by_cases hkn : s.outerTable.keepNulls = true
          · rw [shape_nno_pullNull_kept cfg s r rest honf hinput hk hkn] at hstep
            have hs2 := (StepResult.next.injEq _ _).mp hstep
            subst hs2
            have hbatch : 0 % s.outerTable.nbatch = s.outerTable.curbatch := by
              rw [t3, t4, Nat.mod_one]
            have hbuck : 0 % s.outerTable.nbuckets < s.outerTable.buckets.length := by
              rw [t7]
              exact Nat.mod_lt _ t8
            have hnn : r.key.isNone = true := by rw [hk]; rfl
            refine ⟨⟨hSI2, TblInv_insert_outer cfg _ _ r _ hT, ?_, ?_, ?_, ?_⟩, ?_, ?_⟩
            · intro hh; simp [HJ_NEED_NEW_INNER, HJ_SCAN_OUTER_BUCKET] at hh
            · intro hh; simp [HJ_NEED_NEW_INNER, HJ_SCAN_INNER_BUCKET] at hh
            · intro _; exact ⟨hflags1, hflags2, hflags3⟩
            · intro hh; exact absurd hh (hnotb _ (Or.inl rfl))
            · intro _; rfl
            · intro _
              show storedNullRows (execHashTableInsert s.outerTable r 0)
                  + nullRowsOf rest = _
              rw [storedNullRows_insert _ _ _ hbatch hbuck, if_pos hnn,
                hinput, nullRowsOf_cons, if_pos hnn, Multiset.cons_add,
                Multiset.add_cons]
          · have hknf : s.outerTable.keepNulls = false := by
              cases hx : s.outerTable.keepNulls
              · rfl
              · exact absurd hx hkn
            rw [shape_nno_pullNull_skip cfg s r rest honf hinput hk hknf] at hstep
            have hs2 := (StepResult.next.injEq _ _).mp hstep
            subst hs2
            have hfo : cfg.fillOuter = false := by rw [← t10]; exact hknf
            refine ⟨⟨hSI2, hT, ?_, ?_, ?_, ?_⟩, ?_, ?_⟩
            · intro hh; simp [HJ_NEED_NEW_INNER, HJ_SCAN_OUTER_BUCKET] at hh
            · intro hh; simp [HJ_NEED_NEW_INNER, HJ_SCAN_INNER_BUCKET] at hh
            · intro _; exact ⟨hflags1, hflags2, hflags3⟩
            · intro hh; exact absurd hh (hnotb _ (Or.inl rfl))
            · intro _; rfl
            · intro hh; rw [hh] at hfo; exact absurd hfo (by simp)
  · intro s2 hstep
    by_cases hon : s.outerTupleNull = true
    · by_cases hin : s.innerTupleNull = true
      · rw [shape_nno_bothNull cfg s hon hin] at hstep
        exact absurd hstep (by simp)
      · have hinf : s.innerTupleNull = false := by
          cases hx : s.innerTupleNull
          · rfl
          · exact absurd hx hin
        rw [shape_nno_outerNull cfg s hon hinf] at hstep
        exact absurd hstep (by simp)
    · have honf : s.outerTupleNull = false := by
        cases hx : s.outerTupleNull
        · rfl
        · exact absurd hx hon
      cases hinput : s.outerInput with
      | nil =>
        by_cases hin : s.innerTupleNull = true
        · by_cases hfill : (cfg.fillInner || cfg.fillOuter) = true
          · rw [shape_nno_exhaust_toFill cfg s honf hinput hin hfill] at hstep
            exact absurd hstep (by simp)
          · have hfill2 : (cfg.fillInner || cfg.fillOuter) = false := by
              cases hx : (cfg.fillInner || cfg.fillOuter)
              · rfl
              · exact absurd hx hfill
            exact ⟨(Bool.or_eq_false_iff.mp hfill2).1, (Bool.or_eq_false_iff.mp hfill2).2⟩
        · have hinf : s.innerTupleNull = false := by
            cases hx : s.innerTupleNull
            · rfl
            · exact absurd hx hin
          rw [shape_nno_exhaust_toInner cfg s honf hinput hinf] at hstep
          exact absurd hstep (by simp)
      | cons r rest =>
        cases hk : r.key with
        | some k =>
          rw [shape_nno_pull cfg s r rest k honf hinput hk] at hstep
          exact absurd hstep (by simp)
        | none =>
          by_cases hkn : s.outerTable.keepNulls = true
          · rw [shape_nno_pullNull_kept cfg s r rest honf hinput hk hkn] at hstep
            exact absurd hstep (by simp)
          · have hknf : s.outerTable.keepNulls = false := by
              cases hx : s.outerTable.keepNulls
              · rfl
              · exact absurd hx hkn
            rw [shape_nno_pullNull_skip cfg s r rest honf hinput hk hknf] at hstep
            exact absurd hstep (by simp)

theorem c2_nni (cfg : SymCfg) (s : SymState)
    (hI : C2Inv cfg s) (hj : s.jstate = HJ_NEED_NEW_INNER) :
    (∀ s2, stepNeedNewInner cfg s = .next s2 → C2Inv cfg s2 ∧ NullSums cfg s2 s) ∧
    (∀ s2, stepNeedNewInner cfg s = .done s2 →
      cfg.fillInner = false ∧ cfg.fillOuter = false) := by
  obtain ⟨hSI, hT, hsc5, hsc6, hfl, hbz⟩ := hI
  have hT2 := hT
  obtain ⟨t1, t2, t3, t4, t5, t6, t7, t8, t9, t10, t11, t12⟩ := hT2
  obtain ⟨hflags1, hflags2, hflags3⟩ :=
    hfl (by rw [hj]; simp [HJ_NEED_NEW_INNER, HJ_FILL_TUPLES])
  have hnotb : ∀ v2 : Nat, v2 = HJ_NEED_NEW_OUTER ∨ v2 = HJ_FILL_TUPLES →
      ¬v2 = HJ_BUILD_HASHTABLE := by
    intro v2 hv hh
    rcases hv with hv | hv <;> rw [hv] at hh <;>
      simp [HJ_NEED_NEW_OUTER, HJ_FILL_TUPLES, HJ_BUILD_HASHTABLE] at hh
  constructor
  · intro s2 hstep
    have hSI2 : StepInv s2 := ((dec_nni cfg s hSI hj).2.1 s2 hstep).1
    by_cases hin : s.innerTupleNull = true
    · by_cases hon : s.outerTupleNull = true
      · rw [shape_nni_bothNull cfg s hin hon] at hstep
        have hs2 := (StepResult.next.injEq _ _).mp hstep
        subst hs2
        refine ⟨⟨hSI2, hT, ?_, ?_, ?_, ?_⟩, fun _ => rfl, fun _ => rfl⟩
        · intro hh; simp [HJ_FILL_TUPLES, HJ_SCAN_OUTER_BUCKET] at hh
        · intro hh; simp [HJ_FILL_TUPLES, HJ_SCAN_INNER_BUCKET] at hh
        · intro hh; exact absurd rfl hh
        · intro hh; exact absurd hh (hnotb _ (Or.inr rfl))
      · have honf : s.outerTupleNull = false := by
          cases hx : s.outerTupleNull
          · rfl
          · exact absurd hx hon
        rw [shape_nni_innerNull cfg s hin honf] at hstep
        have hs2 := (StepResult.next.injEq _ _).mp hstep
        subst hs2
        refine ⟨⟨hSI2, hT, ?_, ?_, ?_, ?_⟩, fun _ => rfl, fun _ => rfl⟩
        · intro hh; simp [HJ_NEED_NEW_OUTER, HJ_SCAN_OUTER_BUCKET] at hh
        · intro hh; simp [HJ_NEED_NEW_OUTER, HJ_SCAN_INNER_BUCKET] at hh
        · intro _; exact ⟨hflags1, hflags2, hflags3⟩
        · intro hh; exact absurd hh (hnotb _ (Or.inl rfl))
    · have hinf : s.innerTupleNull = false := by
        cases hx : s.innerTupleNull
        · rfl
        · exact absurd hx hin
      cases hinput : s.innerInput with
      | nil =>
        by_cases hon : s.outerTupleNull = true
        · by_cases hfill : (cfg.fillInner || cfg.fillOuter) = true
          · rw [shape_nni_exhaust_toFill cfg s hinf hinput hon hfill] at hstep
            have hs2 := (StepResult.next.injEq _ _).mp hstep
            subst hs2
            refine ⟨⟨hSI2, hT, ?_, ?_, ?_, ?_⟩, ?_, ?_⟩
            · intro hh; simp [HJ_FILL_TUPLES, HJ_SCAN_OUTER_BUCKET] at hh
            · intro hh; simp [HJ_FILL_TUPLES, HJ_SCAN_INNER_BUCKET] at hh
            · intro hh; exact absurd rfl hh
            · intro hh; exact absurd hh (hnotb _ (Or.inr rfl))
            · intro _
              show storedNullRows s.innerTable + nullRowsOf s.innerInput = _
              rw [hinput]
            · intro _; rfl
          · exact absurd hstep (by
              rw [shape_nni_exhaust_done cfg s hinf hinput hon
                (by cases hx : (cfg.fillInner || cfg.fillOuter)
                    · rfl
                    · exact absurd hx hfill)]
              simp)
        · have honf : s.outerTupleNull = false := by
            cases hx : s.outerTupleNull
            · rfl
            · exact absurd hx hon
          rw [shape_nni_exhaust_toOuter cfg s hinf hinput honf] at hstep
          have hs2 := (StepResult.next.injEq _ _).mp hstep
          subst hs2
          refine ⟨⟨hSI2, hT, ?_, ?_, ?_, ?_⟩, ?_, ?_⟩
          · intro hh; simp [HJ_NEED_NEW_OUTER, HJ_SCAN_OUTER_BUCKET] at hh
          · intro hh; simp [HJ_NEED_NEW_OUTER, HJ_SCAN_INNER_BUCKET] at hh
          · intro _; exact ⟨hflags1, hflags2, hflags3⟩
          · intro hh; exact absurd hh (hnotb _ (Or.inl rfl))
          · intro _
            show storedNullRows s.innerTable + nullRowsOf s.innerInput = _
            rw [hinput]
          · intro _; rfl
      | cons r rest =>
        cases hk : r.key with
        | some k =>
          rw [shape_nni_pull cfg s r rest k hinf hinput hk] at hstep
          have hs2 := (StepResult.next.injEq _ _).mp hstep
          subst hs2
          have hbatch : cfg.hashFn k % s.innerTable.nbatch = s.innerTable.curbatch := by
            rw [t1, t2, Nat.mod_one]
          have hbuck : cfg.hashFn k % s.innerTable.nbuckets < s.innerTable.buckets.length := by
            rw [t5]
            exact Nat.mod_lt _ t6
          have hnn : r.key.isNone = false := by rw [hk]; rfl
          refine ⟨⟨hSI2, TblInv_insert_inner cfg _ _ r _ hT, ?_, ?_, ?_, ?_⟩, ?_, ?_⟩
          · intro _
            refine ⟨⟨r, cfg.hashFn k, false⟩, s.innerTable.bucket
              (cfg.hashFn k % s.innerTable.nbuckets), ?_, hnn⟩
            show (execHashTableInsert s.innerTable r (cfg.hashFn k)).bucket
                (cfg.hashFn k % (execHashTableInsert s.innerTable r
                  (cfg.hashFn k)).nbuckets) = _
            rw [insert_nbuckets, bucket_insert _ _ _ _ hbatch, if_pos ⟨rfl, hbuck⟩]
          · intro hh; simp [HJ_SCAN_OUTER_BUCKET, HJ_SCAN_INNER_BUCKET] at hh
          · intro _; exact ⟨hflags1, hflags2, hflags3⟩
          · intro hh; simp [HJ_SCAN_OUTER_BUCKET, HJ_BUILD_HASHTABLE] at hh
          · intro _
            show storedNullRows (execHashTableInsert s.innerTable r (cfg.hashFn k))
                + nullRowsOf rest = _
            rw [storedNullRows_insert _ _ _ hbatch hbuck, if_neg (by rw [hnn]; simp),
              hinput, nullRowsOf_cons, if_neg (by rw [hnn]; simp)]
          · intro _; rfl
        | none =>
          by_cases hkn : s.innerTable.keepNulls = true
          · rw [shape_nni_pullNull_kept cfg s r rest hinf hinput hk hkn] at hstep
            have hs2 := (StepResult.next.injEq _ _).mp hstep
            subst hs2
            have hbatch : 0 % s.innerTable.nbatch = s.innerTable.curbatch := by
              rw [t1, t2, Nat.mod_one]
            have hbuck : 0 % s.innerTable.nbuckets < s.innerTable.buckets.length := by
              rw [t5]
              exact Nat.mod_lt _ t6
            have hnn : r.key.isNone = true := by rw [hk]; rfl
            refine ⟨⟨hSI2, TblInv_insert_inner cfg _ _ r _ hT, ?_, ?_, ?_, ?_⟩, ?_, ?_⟩
            · intro hh; simp [HJ_NEED_NEW_OUTER, HJ_SCAN_OUTER_BUCKET] at hh
            · intro hh; simp [HJ_NEED_NEW_OUTER, HJ_SCAN_INNER_BUCKET] at hh
            · intro _; exact ⟨hflags1, hflags2, hflags3⟩
            · intro hh; exact absurd hh (hnotb _ (Or.inl rfl))
            · intro _
              show storedNullRows (execHashTableInsert s.innerTable r 0)
                  + nullRowsOf rest = _
              rw [storedNullRows_insert _ _ _ hbatch hbuck, if_pos hnn,
                hinput, nullRowsOf_cons, if_pos hnn, Multiset.cons_add,
                Multiset.add_cons]
            · intro _; rfl
          · have hknf : s.innerTable.keepNulls = false := by
              cases hx : s.innerTable.keepNulls
              · rfl
              · exact absurd hx hkn
            rw [shape_nni_pullNull_skip cfg s r rest hinf hinput hk hknf] at hstep
            have hs2 := (StepResult.next.injEq _ _).mp hstep
            subst hs2
            have hfo : cfg.fillInner = false := by rw [← t9]; exact hknf
            refine ⟨⟨hSI2, hT, ?_, ?_, ?_, ?_⟩, ?_, ?_⟩
            · intro hh; simp [HJ_NEED_NEW_OUTER, HJ_SCAN_OUTER_BUCKET] at hh
            · intro hh; simp [HJ_NEED_NEW_OUTER, HJ_SCAN_INNER_BUCKET] at hh
            · intro _; exact ⟨hflags1, hflags2, hflags3⟩
            · intro hh; exact absurd hh (hnotb _ (Or.inl rfl))
            · intro hh; rw [hh] at hfo; exact absurd hfo (by simp)
            · intro _; rfl
  · intro s2 hstep
    by_cases hin : s.innerTupleNull = true
    · by_cases hon : s.outerTupleNull = true
      · rw [shape_nni_bothNull cfg s hin hon] at hstep
        exact absurd hstep (by simp)
      · have honf : s.outerTupleNull = false := by
          cases hx : s.outerTupleNull
          · rfl
          · exact absurd hx hon
        rw [shape_nni_innerNull cfg s hin honf] at hstep
        exact absurd hstep (by simp)
    · have hinf : s.innerTupleNull = false := by
        cases hx : s.innerTupleNull
        · rfl
        · exact absurd hx hin
      cases hinput : s.innerInput with
      | nil =>
        by_cases hon : s.outerTupleNull = true
        · by_cases hfill : (cfg.fillInner || cfg.fillOuter) = true
          · rw [shape_nni_exhaust_toFill cfg s hinf hinput hon hfill] at hstep
            exact absurd hstep (by simp)
          · have hfill2 : (cfg.fillInner || cfg.fillOuter) = false := by
              cases hx : (cfg.fillInner || cfg.fillOuter)
              · rfl
              · exact absurd hx hfill
            exact ⟨(Bool.or_eq_false_iff.mp hfill2).1, (Bool.or_eq_false_iff.mp hfill2).2⟩
        · have honf : s.outerTupleNull = false := by
            cases hx : s.outerTupleNull
            · rfl
            · exact absurd hx hon
          rw [shape_nni_exhaust_toOuter cfg s hinf hinput honf] at hstep
          exact absurd hstep (by simp)
      | cons r rest =>
        cases hk : r.key with
        | some k =>
          rw [shape_nni_pull cfg s r rest k hinf hinput hk] at hstep
          exact absurd hstep (by simp)
        | none =>
          by_cases hkn : s.innerTable.keepNulls = true
          · rw [shape_nni_pullNull_kept cfg s r rest hinf hinput hk hkn] at hstep
            exact absurd hstep (by simp)
          · have hknf : s.innerTable.keepNulls = false := by
              cases hx : s.innerTable.keepNulls
              · rfl
              · exact absurd hx hkn
            rw [shape_nni_pullNull_skip cfg s r rest hinf hinput hk hknf] at hstep
            exact absurd hstep (by simp)

theorem c2_scanOuter (cfg : SymCfg)
    (hNR : ∀ a b, cfg.hashclauses a b = true →
      a.key.isNone = false ∧ b.key.isNone = false)
    (s : SymState) (hI : C2Inv cfg s) (hj : s.jstate = HJ_SCAN_OUTER_BUCKET) :
    (∀ s2, stepScanOuterBucket cfg s = .next s2 → C2Inv cfg s2 ∧ NullSums cfg s2 s) ∧
    (∀ o s2, stepScanOuterBucket cfg s = .yield o s2 →
      C2Inv cfg s2 ∧ NullSums cfg s2 s ∧ o.1.isSome = true ∧ o.2.isSome = true) := by
  obtain ⟨hSI, hT, hsc5, hsc6, hfl, hbz⟩ := hI
  obtain ⟨t0, ts, hhead, hnnh⟩ := hsc5 hj
  obtain ⟨hflags1, hflags2, hflags3⟩ :=
    hfl (by rw [hj]; simp [HJ_SCAN_OUTER_BUCKET, HJ_FILL_TUPLES])
  obtain ⟨hecS, hinN⟩ := hSI.2.2.2.2.1 hj
  cases hec : s.ecxtInner with
  | none => rw [hec] at hecS; exact absurd hecS (by simp)
  | some pulled =>
  have hb2lt : s.innerInsertHash % s.innerTable.nbuckets < s.innerTable.buckets.length :=
    bucket_ne_nil_lt _ _ (by rw [hhead]; simp)
  have hInvNext : ∀ s2 : SymState, StepInv s2 →
      s2.innerTable = s.innerTable → s2.outerTable = s.outerTable →
      s2.innerInsertHash = s.innerInsertHash →
      (s2.jstate = HJ_SCAN_OUTER_BUCKET ∨
        (s2.jstate ≠ HJ_SCAN_OUTER_BUCKET ∧ s2.jstate ≠ HJ_SCAN_INNER_BUCKET ∧
          s2.jstate ≠ HJ_BUILD_HASHTABLE ∧ s2.jstate ≠ HJ_FILL_TUPLES)) →
      s2.firstFill = s.firstFill → s2.fillInnerFinished = s.fillInnerFinished →
      s2.fillOuterFinished = s.fillOuterFinished →
      C2Inv cfg s2 := by
    intro s2 hS2 e1 e2 e3 hcase e4 e5 e6
    refine ⟨hS2, by rw [e1, e2]; exact hT, ?_, ?_, ?_, ?_⟩
    · intro _
      rw [e1, e3]
      exact ⟨t0, ts, hhead, hnnh⟩
    · intro hh
      rcases hcase with hc | hc
      · rw [hc] at hh
        simp [HJ_SCAN_OUTER_BUCKET, HJ_SCAN_INNER_BUCKET] at hh
      · exact absurd hh hc.2.1
    · intro _
      rw [e4, e5, e6]
      exact ⟨hflags1, hflags2, hflags3⟩
    · intro hh
      rcases hcase with hc | hc
      · rw [hc] at hh
        simp [HJ_SCAN_OUTER_BUCKET, HJ_BUILD_HASHTABLE] at hh
      · exact absurd hh hc.2.2.1
  have hdec := dec_scanOuter cfg s ⟨hSI.1, hSI.2.1, hSI.2.2.1, hSI.2.2.2.1,
    hSI.2.2.2.2.1, hSI.2.2.2.2.2⟩ hj
  cases hf : findFrom s.curOutHashValue (fun r => cfg.hashclauses r pulled)
      (s.outerTable.bucket s.curBucketNo) (startIdx s.curOutTuple) with
  | none =>
    constructor
    · intro s2 hstep
      have hS2 : StepInv s2 := (hdec.2.1 s2 hstep).1
      rw [shape_scanOuter_none cfg s pulled hec hf] at hstep
      have hs2 := (StepResult.next.injEq _ _).mp hstep
      subst hs2
      refine ⟨hInvNext _ hS2 rfl rfl rfl (Or.inr ?_) rfl rfl rfl, fun _ => rfl,
        fun _ => rfl⟩
      refine ⟨?_, ?_, ?_, ?_⟩ <;>
        simp [HJ_NEED_NEW_OUTER, HJ_SCAN_OUTER_BUCKET, HJ_SCAN_INNER_BUCKET,
          HJ_BUILD_HASHTABLE, HJ_FILL_TUPLES]
    · intro o s2 hstep
      rw [shape_scanOuter_none cfg s pulled hec hf] at hstep
      exact absurd hstep (by simp)
  | some p =>
    obtain ⟨j, cand⟩ := p
    have hfe := findFrom_some_emits s.curOutHashValue (fun r => cfg.hashclauses r pulled)
      (s.outerTable.bucket s.curBucketNo) (fun _ => none) (fun _ _ => rfl) _ j cand hf
    have hjc : (s.outerTable.bucket s.curBucketNo)[j]? = some cand := hfe.2.2.1
    have hcnn : cand.row.key.isNone = false := (hNR cand.row pulled hfe.2.2.2.2.1).1
    have hNewHead : (setMatchHead s.innerTable
        (s.innerInsertHash % s.innerTable.nbuckets)).bucket
          (s.innerInsertHash % (setMatchHead s.innerTable
            (s.innerInsertHash % s.innerTable.nbuckets)).nbuckets)
        = { t0 with matched := true } :: ts := by
      rw [setMatchHead_eq_setMatchAt, setMatchAt_nbuckets, bucket_setMatchAt,
        if_pos ⟨rfl, hb2lt⟩, hhead]
      rfl
    by_cases hjq : evalJoinQual cfg.joinqual cand.row pulled = true
    · by_cases hoq : evalOtherQual cfg.otherqual (some cand.row) (some pulled) = true
      · constructor
        · intro s2 hstep
          rw [shape_scanOuter_match cfg s pulled j cand hec hf hjq hoq] at hstep
          exact absurd hstep (by simp)
        · intro o s2 hstep
          have hS2 : StepInv s2 := (hdec.2.2 o s2 hstep).1
          rw [shape_scanOuter_match cfg s pulled j cand hec hf hjq hoq] at hstep
          obtain ⟨ho, hs2⟩ := (StepResult.yield.injEq _ _ _ _).mp hstep
          subst hs2
          subst ho
          refine ⟨⟨hS2, ?_, ?_, ?_, ?_, ?_⟩, ⟨?_, ?_⟩, rfl, rfl⟩
          · exact TblInv_scanOuterUpd cfg s.innerTable s.outerTable s.curBucketNo j
              (s.innerInsertHash % s.innerTable.nbuckets) cand t0 ts hT hjc hcnn
              hhead hnnh
          · intro _
            exact ⟨{ t0 with matched := true }, ts, hNewHead, hnnh⟩
          · intro hh
            rw [hj] at hh
            simp [HJ_SCAN_OUTER_BUCKET, HJ_SCAN_INNER_BUCKET] at hh
          · intro _
            exact ⟨hflags1, hflags2, hflags3⟩
          · intro hh
            rw [hj] at hh
            simp [HJ_SCAN_OUTER_BUCKET, HJ_BUILD_HASHTABLE] at hh
          · intro _
            show storedNullRows (setMatchHead s.innerTable
              (s.innerInsertHash % s.innerTable.nbuckets)) + nullRowsOf s.innerInput = _
            rw [storedNullRows_setMatchHead]
          · intro _
            show storedNullRows (setMatchAt s.outerTable s.curBucketNo j)
              + nullRowsOf s.outerInput = _
            rw [storedNullRows_setMatchAt]
      · have hoqf : evalOtherQual cfg.otherqual (some cand.row) (some pulled) = false := by
          cases hx : evalOtherQual cfg.otherqual (some cand.row) (some pulled)
          · rfl
          · exact absurd hx hoq
        constructor
        · intro s2 hstep
          have hS2 : StepInv s2 := (hdec.2.1 s2 hstep).1
          rw [shape_scanOuter_matchFiltered cfg s pulled j cand hec hf hjq hoqf] at hstep
          have hs2 := (StepResult.next.injEq _ _).mp hstep
          subst hs2
          refine ⟨⟨hS2, ?_, ?_, ?_, ?_, ?_⟩, ?_, ?_⟩
          · exact TblInv_scanOuterUpd cfg s.innerTable s.outerTable s.curBucketNo j
              (s.innerInsertHash % s.innerTable.nbuckets) cand t0 ts hT hjc hcnn
              hhead hnnh
          · intro _
            exact ⟨{ t0 with matched := true }, ts, hNewHead, hnnh⟩
          · intro hh
            rw [hj] at hh
            simp [HJ_SCAN_OUTER_BUCKET, HJ_SCAN_INNER_BUCKET] at hh
          · intro _
            exact ⟨hflags1, hflags2, hflags3⟩
          · intro hh
            rw [hj] at hh
            simp [HJ_SCAN_OUTER_BUCKET, HJ_BUILD_HASHTABLE] at hh
          · intro _
            show storedNullRows (setMatchHead s.innerTable
              (s.innerInsertHash % s.innerTable.nbuckets)) + nullRowsOf s.innerInput = _
            rw [storedNullRows_setMatchHead]
          · intro _
            show storedNullRows (setMatchAt s.outerTable s.curBucketNo j)
              + nullRowsOf s.outerInput = _
            rw [storedNullRows_setMatchAt]
        · intro o s2 hstep
          rw [shape_scanOuter_matchFiltered cfg s pulled j cand hec hf hjq hoqf] at hstep
          exact absurd hstep (by simp)
    · have hjqf : evalJoinQual cfg.joinqual cand.row pulled = false := by
        cases hx : evalJoinQual cfg.joinqual cand.row pulled
        · rfl
        · exact absurd hx hjq
      constructor
      · intro s2 hstep
        have hS2 : StepInv s2 := (hdec.2.1 s2 hstep).1
        rw [shape_scanOuter_noJq cfg s pulled j cand hec hf hjqf] at hstep
        have hs2 := (StepResult.next.injEq _ _).mp hstep
        subst hs2
        exact ⟨hInvNext _ hS2 rfl rfl rfl (Or.inl hj) rfl rfl rfl, fun _ => rfl,
          fun _ => rfl⟩
      · intro o s2 hstep
        rw [shape_scanOuter_noJq cfg s pulled j cand hec hf hjqf] at hstep
        exact absurd hstep (by simp)

theorem c2_scanInner (cfg : SymCfg)
    (hNR : ∀ a b, cfg.hashclauses a b = true →
      a.key.isNone = false ∧ b.key.isNone = false)
    (s : SymState) (hI : C2Inv cfg s) (hj : s.jstate = HJ_SCAN_INNER_BUCKET) :
    (∀ s2, stepScanInnerBucket cfg s = .next s2 → C2Inv cfg s2 ∧ NullSums cfg s2 s) ∧
    (∀ o s2, stepScanInnerBucket cfg s = .yield o s2 →
      C2Inv cfg s2 ∧ NullSums cfg s2 s ∧ o.1.isSome = true ∧ o.2.isSome = true) := by
  obtain ⟨hSI, hT, hsc5, hsc6, hfl, hbz⟩ := hI
  obtain ⟨t0, ts, hhead, hnnh⟩ := hsc6 hj
  obtain ⟨hflags1, hflags2, hflags3⟩ :=
    hfl (by rw [hj]; simp [HJ_SCAN_INNER_BUCKET, HJ_FILL_TUPLES])
  obtain ⟨hecS, houtN⟩ := hSI.2.2.2.2.2 hj
  cases hec : s.ecxtOuter with
  | none => rw [hec] at hecS; exact absurd hecS (by simp)
  | some pulled =>
  have hb2lt : s.outerInsertHash % s.outerTable.nbuckets < s.outerTable.buckets.length :=
    bucket_ne_nil_lt _ _ (by rw [hhead]; simp)
  have hInvNext : ∀ s2 : SymState, StepInv s2 →
      s2.innerTable = s.innerTable → s2.outerTable = s.outerTable →
      s2.outerInsertHash = s.outerInsertHash →
      (s2.jstate = HJ_SCAN_INNER_BUCKET ∨
        (s2.jstate ≠ HJ_SCAN_OUTER_BUCKET ∧ s2.jstate ≠ HJ_SCAN_INNER_BUCKET ∧
          s2.jstate ≠ HJ_BUILD_HASHTABLE ∧ s2.jstate ≠ HJ_FILL_TUPLES)) →
      s2.firstFill = s.firstFill → s2.fillInnerFinished = s.fillInnerFinished →
      s2.fillOuterFinished = s.fillOuterFinished →
      C2Inv cfg s2 := by
    intro s2 hS2 e1 e2 e3 hcase e4 e5 e6
    refine ⟨hS2, by rw [e1, e2]; exact hT, ?_, ?_, ?_, ?_⟩
    · intro hh
      rcases hcase with hc | hc
      · rw [hc] at hh
        simp [HJ_SCAN_OUTER_BUCKET, HJ_SCAN_INNER_BUCKET] at hh
      · exact absurd hh hc.1
    · intro _
      rw [e2, e3]
      exact ⟨t0, ts, hhead, hnnh⟩
    · intro _
      rw [e4, e5, e6]
      exact ⟨hflags1, hflags2, hflags3⟩
    · intro hh
      rcases hcase with hc | hc
      · rw [hc] at hh
        simp [HJ_SCAN_INNER_BUCKET, HJ_BUILD_HASHTABLE] at hh
      · exact absurd hh hc.2.2.1
  have hdec := dec_scanInner cfg s ⟨hSI.1, hSI.2.1, hSI.2.2.1, hSI.2.2.2.1,
    hSI.2.2.2.2.1, hSI.2.2.2.2.2⟩ hj
  cases hf : findFrom s.curHashValue (fun r => cfg.hashclauses pulled r)
      (s.innerTable.bucket s.curBucketNo) (startIdx s.curTuple) with
  | none =>
    constructor
    · intro s2 hstep
      have hS2 : StepInv s2 := (hdec.2.1 s2 hstep).1
      rw [shape_scanInner_none cfg s pulled hec hf] at hstep
      have hs2 := (StepResult.next.injEq _ _).mp hstep
      subst hs2
      refine ⟨hInvNext _ hS2 rfl rfl rfl (Or.inr ?_) rfl rfl rfl, fun _ => rfl,
        fun _ => rfl⟩
      refine ⟨?_, ?_, ?_, ?_⟩ <;>
        simp [HJ_NEED_NEW_INNER, HJ_SCAN_OUTER_BUCKET, HJ_SCAN_INNER_BUCKET,
          HJ_BUILD_HASHTABLE, HJ_FILL_TUPLES]
    · intro o s2 hstep
      rw [shape_scanInner_none cfg s pulled hec hf] at hstep
      exact absurd hstep (by simp)
  | some p =>
    obtain ⟨j, cand⟩ := p
    have hfe := findFrom_some_emits s.curHashValue (fun r => cfg.hashclauses pulled r)
      (s.innerTable.bucket s.curBucketNo) (fun _ => none) (fun _ _ => rfl) _ j cand hf
    have hjc : (s.innerTable.bucket s.curBucketNo)[j]? = some cand := hfe.2.2.1
    have hcnn : cand.row.key.isNone = false := (hNR pulled cand.row hfe.2.2.2.2.1).2
    have hNewHead : (setMatchHead s.outerTable
        (s.outerInsertHash % s.outerTable.nbuckets)).bucket
          (s.outerInsertHash % (setMatchHead s.outerTable
            (s.outerInsertHash % s.outerTable.nbuckets)).nbuckets)
        = { t0 with matched := true } :: ts := by
      rw [setMatchHead_eq_setMatchAt, setMatchAt_nbuckets, bucket_setMatchAt,
        if_pos ⟨rfl, hb2lt⟩, hhead]
      rfl
    by_cases hjq : evalJoinQual cfg.joinqual pulled cand.row = true
    · by_cases hoq : evalOtherQual cfg.otherqual (some pulled) (some cand.row) = true
      · constructor
        · intro s2 hstep
          rw [shape_scanInner_match cfg s pulled j cand hec hf hjq hoq] at hstep
          exact absurd hstep (by simp)
        · intro o s2 hstep
          have hS2 : StepInv s2 := (hdec.2.2 o s2 hstep).1
          rw [shape_scanInner_match cfg s pulled j cand hec hf hjq hoq] at hstep
          obtain ⟨ho, hs2⟩ := (StepResult.yield.injEq _ _ _ _).mp hstep
          subst hs2
          subst ho
          refine ⟨⟨hS2, ?_, ?_, ?_, ?_, ?_⟩, ⟨?_, ?_⟩, rfl, rfl⟩
          · exact TblInv_scanInnerUpd cfg s.innerTable s.outerTable s.curBucketNo j
              (s.outerInsertHash % s.outerTable.nbuckets) cand t0 ts hT hjc hcnn
              hhead hnnh
          · intro hh
            rw [hj] at hh
            simp [HJ_SCAN_OUTER_BUCKET, HJ_SCAN_INNER_BUCKET] at hh
          · intro _
            exact ⟨{ t0 with matched := true }, ts, hNewHead, hnnh⟩
          · intro _
            exact ⟨hflags1, hflags2, hflags3⟩
          · intro hh
            rw [hj] at hh
            simp [HJ_SCAN_INNER_BUCKET, HJ_BUILD_HASHTABLE] at hh
          · intro _
            show storedNullRows (setMatchAt s.innerTable s.curBucketNo j)
              + nullRowsOf s.innerInput = _
            rw [storedNullRows_setMatchAt]
          · intro _
            show storedNullRows (setMatchHead s.outerTable
              (s.outerInsertHash % s.outerTable.nbuckets)) + nullRowsOf s.outerInput = _
            rw [storedNullRows_setMatchHead]
      · have hoqf : evalOtherQual cfg.otherqual (some pulled) (some cand.row) = false := by
          cases hx : evalOtherQual cfg.otherqual (some pulled) (some cand.row)
          · rfl
          · exact absurd hx hoq
        constructor
        · intro s2 hstep
          have hS2 : StepInv s2 := (hdec.2.1 s2 hstep).1
          rw [shape_scanInner_matchFiltered cfg s pulled j cand hec hf hjq hoqf] at hstep
          have hs2 := (StepResult.next.injEq _ _).mp hstep
          subst hs2
          refine ⟨⟨hS2, ?_, ?_, ?_, ?_, ?_⟩, ?_, ?_⟩
          · exact TblInv_scanInnerUpd cfg s.innerTable s.outerTable s.curBucketNo j
              (s.outerInsertHash % s.outerTable.nbuckets) cand t0 ts hT hjc hcnn
              hhead hnnh
          · intro hh
            rw [hj] at hh
            simp [HJ_SCAN_OUTER_BUCKET, HJ_SCAN_INNER_BUCKET] at hh
          · intro _
            exact ⟨{ t0 with matched := true }, ts, hNewHead, hnnh⟩
          · intro _
            exact ⟨hflags1, hflags2, hflags3⟩
          · intro hh
            rw [hj] at hh
            simp [HJ_SCAN_INNER_BUCKET, HJ_BUILD_HASHTABLE] at hh
          · intro _
            show storedNullRows (setMatchAt s.innerTable s.curBucketNo j)
              + nullRowsOf s.innerInput = _
            rw [storedNullRows_setMatchAt]
          · intro _
            show storedNullRows (setMatchHead s.outerTable
              (s.outerInsertHash % s.outerTable.nbuckets)) + nullRowsOf s.outerInput = _
            rw [storedNullRows_setMatchHead]
        · intro o s2 hstep
          rw [shape_scanInner_matchFiltered cfg s pulled j cand hec hf hjq hoqf] at hstep
          exact absurd hstep (by simp)
    · have hjqf : evalJoinQual cfg.joinqual pulled cand.row = false := by
        cases hx : evalJoinQual cfg.joinqual pulled cand.row
        · rfl
        · exact absurd hx hjq
      constructor
      · intro s2 hstep
        have hS2 : StepInv s2 := (hdec.2.1 s2 hstep).1
        rw [shape_scanInner_noJq cfg s pulled j cand hec hf hjqf] at hstep
        have hs2 := (StepResult.next.injEq _ _).mp hstep
        subst hs2
        exact ⟨hInvNext _ hS2 rfl rfl rfl (Or.inl hj) rfl rfl rfl, fun _ => rfl,
          fun _ => rfl⟩
      · intro o s2 hstep
        rw [shape_scanInner_noJq cfg s pulled j cand hec hf hjqf] at hstep
        exact absurd hstep (by simp)

theorem step_keeps_fill_book (cfg : SymCfg) (s : SymState) (hI : StepInv s)
    (hj4 : s.jstate ≠ HJ_FILL_TUPLES) :
    ∀ s2, symStep cfg s = .next s2 →
      s2.firstFill = s.firstFill ∧ s2.fillInnerFinished = s.fillInnerFinished ∧
      s2.fillOuterFinished = s.fillOuterFinished ∧
      (s2.jstate = HJ_FILL_TUPLES → s2.innerInput = [] ∧ s2.outerInput = []) := by
  obtain ⟨hrange, hin, hout, hbuild, hso2, hsi2⟩ := hI
  intro s2 hstep
  have hnofill : ∀ v : Nat, v = HJ_BUILD_HASHTABLE ∨ v = HJ_NEED_NEW_OUTER ∨
      v = HJ_NEED_NEW_INNER ∨ v = HJ_SCAN_OUTER_BUCKET ∨ v = HJ_SCAN_INNER_BUCKET →
      v = HJ_FILL_TUPLES → s2.innerInput = [] ∧ s2.outerInput = [] := by
    intro v hv hh
    exfalso
    rcases hv with hv | hv | hv | hv | hv <;> rw [hv] at hh <;>
      simp [HJ_BUILD_HASHTABLE, HJ_NEED_NEW_OUTER, HJ_NEED_NEW_INNER,
        HJ_SCAN_OUTER_BUCKET, HJ_SCAN_INNER_BUCKET, HJ_FILL_TUPLES] at hh
  by_cases hj1 : s.jstate = HJ_BUILD_HASHTABLE
  · rw [symStep_eq_build cfg s hj1, shape_build] at hstep
    have hs2 := (StepResult.next.injEq _ _).mp hstep
    subst hs2
    exact ⟨rfl, rfl, rfl, hnofill _ (Or.inr (Or.inr (Or.inl rfl)))⟩
  by_cases hj2 : s.jstate = HJ_NEED_NEW_OUTER
  · rw [symStep_eq_nno cfg s hj2] at hstep
    by_cases hon : s.outerTupleNull = true
    · by_cases hinT : s.innerTupleNull = true
      · rw [shape_nno_bothNull cfg s hon hinT] at hstep
        have hs2 := (StepResult.next.injEq _ _).mp hstep
        subst hs2
        exact ⟨rfl, rfl, rfl, fun _ => ⟨hin hinT, hout hon⟩⟩
      · have hinf : s.innerTupleNull = false := by
          cases hx : s.innerTupleNull
          · rfl
          · exact absurd hx hinT
        rw [shape_nno_outerNull cfg s hon hinf] at hstep
        have hs2 := (StepResult.next.injEq _ _).mp hstep
        subst hs2
        exact ⟨rfl, rfl, rfl, hnofill _ (Or.inr (Or.inr (Or.inl rfl)))⟩
    · have honf : s.outerTupleNull = false := by
        cases hx : s.outerTupleNull
        · rfl
        · exact absurd hx hon
      cases hinput : s.outerInput with
      | nil =>
        by_cases hinT : s.innerTupleNull = true
        · by_cases hfill : (cfg.fillInner || cfg.fillOuter) = true
          · rw [shape_nno_exhaust_toFill cfg s honf hinput hinT hfill] at hstep
            have hs2 := (StepResult.next.injEq _ _).mp hstep
            subst hs2
            exact ⟨rfl, rfl, rfl, fun _ => ⟨hin hinT, hinput⟩⟩
          · rw [shape_nno_exhaust_done cfg s honf hinput hinT
              (by cases hx : (cfg.fillInner || cfg.fillOuter)
                  · rfl
                  · exact absurd hx hfill)] at hstep
            exact absurd hstep (by simp)
        · have hinf : s.innerTupleNull = false := by
            cases hx : s.innerTupleNull
            · rfl
            · exact absurd hx hinT
          rw [shape_nno_exhaust_toInner cfg s honf hinput hinf] at hstep
          have hs2 := (StepResult.next.injEq _ _).mp hstep
          subst hs2
          exact ⟨rfl, rfl, rfl, hnofill _ (Or.inr (Or.inr (Or.inl rfl)))⟩
      | cons r rest =>
        cases hk : r.key with
        | some k =>
          rw [shape_nno_pull cfg s r rest k honf hinput hk] at hstep
          have hs2 := (StepResult.next.injEq _ _).mp hstep
          subst hs2
          exact ⟨rfl, rfl, rfl, hnofill _ (Or.inr (Or.inr (Or.inr (Or.inr rfl))))⟩
        | none =>
          by_cases hkn : s.outerTable.keepNulls = true
          · rw [shape_nno_pullNull_kept cfg s r rest honf hinput hk hkn] at hstep
            have hs2 := (StepResult.next.injEq _ _).mp hstep
            subst hs2
            exact ⟨rfl, rfl, rfl, hnofill _ (Or.inr (Or.inr (Or.inl rfl)))⟩
          · have hknf : s.outerTable.keepNulls = false := by
              cases hx : s.outerTable.keepNulls
              · rfl
              · exact absurd hx hkn
            rw [shape_nno_pullNull_skip cfg s r rest honf hinput hk hknf] at hstep
            have hs2 := (StepResult.next.injEq _ _).mp hstep
            subst hs2
            exact ⟨rfl, rfl, rfl, hnofill _ (Or.inr (Or.inr (Or.inl rfl)))⟩
  by_cases hj3 : s.jstate = HJ_NEED_NEW_INNER
  · rw [symStep_eq_nni cfg s hj3] at hstep
    by_cases hinT : s.innerTupleNull = true
    · by_cases hon : s.outerTupleNull = true
      · rw [shape_nni_bothNull cfg s hinT hon] at hstep
        have hs2 := (StepResult.next.injEq _ _).mp hstep
        subst hs2
        exact ⟨rfl, rfl, rfl, fun _ => ⟨hin hinT, hout hon⟩⟩
      · have honf : s.outerTupleNull = false := by
          cases hx : s.outerTupleNull
          · rfl
          · exact absurd hx hon
        rw [shape_nni_innerNull cfg s hinT honf] at hstep
        have hs2 := (StepResult.next.injEq _ _).mp hstep
        subst hs2
        exact ⟨rfl, rfl, rfl, hnofill _ (Or.inr (Or.inl rfl))⟩
    · have hinf : s.innerTupleNull = false := by
        cases hx : s.innerTupleNull
        · rfl
        · exact absurd hx hinT
      cases hinput : s.innerInput with
      | nil =>
        by_cases hon : s.outerTupleNull = true
        · by_cases hfill : (cfg.fillInner || cfg.fillOuter) = true
          · rw [shape_nni_exhaust_toFill cfg s hinf hinput hon hfill] at hstep
            have hs2 := (StepResult.next.injEq _ _).mp hstep
            subst hs2
            exact ⟨rfl, rfl, rfl, fun _ => ⟨hinput, hout hon⟩⟩
          · rw [shape_nni_exhaust_done cfg s hinf hinput hon
              (by cases hx : (cfg.fillInner || cfg.fillOuter)
                  · rfl
                  · exact absurd hx hfill)] at hstep
            exact absurd hstep (by simp)
        · have honf : s.outerTupleNull = false := by
            cases hx : s.outerTupleNull
            · rfl
            · exact absurd hx hon
          rw [shape_nni_exhaust_toOuter cfg s hinf hinput honf] at hstep
          have hs2 := (StepResult.next.injEq _ _).mp hstep
          subst hs2
          exact ⟨rfl, rfl, rfl, hnofill _ (Or.inr (Or.inl rfl))⟩
      | cons r rest =>
        cases hk : r.key with
        | some k =>
          rw [shape_nni_pull cfg s r rest k hinf hinput hk] at hstep
          have hs2 := (StepResult.next.injEq _ _).mp hstep
          subst hs2
          exact ⟨rfl, rfl, rfl, hnofill _ (Or.inr (Or.inr (Or.inr (Or.inl rfl))))⟩
        | none =>
          by_cases hkn : s.innerTable.keepNulls = true
          · rw [shape_nni_pullNull_kept cfg s r rest hinf hinput hk hkn] at hstep
            have hs2 := (StepResult.next.injEq _ _).mp hstep
            subst hs2
            exact ⟨rfl, rfl, rfl, hnofill _ (Or.inr (Or.inl rfl))⟩
          · have hknf : s.innerTable.keepNulls = false := by
              cases hx : s.innerTable.keepNulls
              · rfl
              · exact absurd hx hkn
            rw [shape_nni_pullNull_skip cfg s r rest hinf hinput hk hknf] at hstep
            have hs2 := (StepResult.next.injEq _ _).mp hstep
            subst hs2
            exact ⟨rfl, rfl, rfl, hnofill _ (Or.inr (Or.inl rfl))⟩
  by_cases hj5 : s.jstate = HJ_SCAN_OUTER_BUCKET
  · rw [symStep_eq_scanOuter cfg s hj5] at hstep
    obtain ⟨hecS, _⟩ := hso2 hj5
    cases hec : s.ecxtInner with
    | none => rw [hec] at hecS; exact absurd hecS (by simp)
    | some pulled =>
    cases hf : findFrom s.curOutHashValue (fun r => cfg.hashclauses r pulled)
        (s.outerTable.bucket s.curBucketNo) (startIdx s.curOutTuple) with
    | none =>
      rw [shape_scanOuter_none cfg s pulled hec hf] at hstep
      have hs2 := (StepResult.next.injEq _ _).mp hstep
      subst hs2
      exact ⟨rfl, rfl, rfl, hnofill _ (Or.inr (Or.inl rfl))⟩
    | some p =>
      obtain ⟨j, cand⟩ := p
      by_cases hjq : evalJoinQual cfg.joinqual cand.row pulled = true
      · by_cases hoq : evalOtherQual cfg.otherqual (some cand.row) (some pulled) = true
        · rw [shape_scanOuter_match cfg s pulled j cand hec hf hjq hoq] at hstep
          exact absurd hstep (by simp)
        · have hoqf : evalOtherQual cfg.otherqual (some cand.row) (some pulled)
              = false := by
            cases hx : evalOtherQual cfg.otherqual (some cand.row) (some pulled)
            · rfl
            · exact absurd hx hoq
          rw [shape_scanOuter_matchFiltered cfg s pulled j cand hec hf hjq hoqf] at hstep
          have hs2 := (StepResult.next.injEq _ _).mp hstep
          subst hs2
          refine ⟨rfl, rfl, rfl, ?_⟩
          intro hh
          rw [hj5] at hh
          simp [HJ_SCAN_OUTER_BUCKET, HJ_FILL_TUPLES] at hh
      · have hjqf : evalJoinQual cfg.joinqual cand.row pulled = false := by
          cases hx : evalJoinQual cfg.joinqual cand.row pulled
          · rfl
          · exact absurd hx hjq
        rw [shape_scanOuter_noJq cfg s pulled j cand hec hf hjqf] at hstep
        have hs2 := (StepResult.next.injEq _ _).mp hstep
        subst hs2
        refine ⟨rfl, rfl, rfl, ?_⟩
        intro hh
        rw [hj5] at hh
        simp [HJ_SCAN_OUTER_BUCKET, HJ_FILL_TUPLES] at hh
  by_cases hj6 : s.jstate = HJ_SCAN_INNER_BUCKET
  · rw [symStep_eq_scanInner cfg s hj6] at hstep
    obtain ⟨hecS, _⟩ := hsi2 hj6
    cases hec : s.ecxtOuter with
    | none => rw [hec] at hecS; exact absurd hecS (by simp)
    | some pulled =>
    cases hf : findFrom s.curHashValue (fun r => cfg.hashclauses pulled r)
        (s.innerTable.bucket s.curBucketNo) (startIdx s.curTuple) with
    | none =>
      rw [shape_scanInner_none cfg s pulled hec hf] at hstep
      have hs2 := (StepResult.next.injEq _ _).mp hstep
      subst hs2
      exact ⟨rfl, rfl, rfl, hnofill _ (Or.inr (Or.inr (Or.inl rfl)))⟩
    | some p =>
      obtain ⟨j, cand⟩ := p
      by_cases hjq : evalJoinQual cfg.joinqual pulled cand.row = true
      · by_cases hoq : evalOtherQual cfg.otherqual (some pulled) (some cand.row) = true
        · rw [shape_scanInner_match cfg s pulled j cand hec hf hjq hoq] at hstep
          exact absurd hstep (by simp)
        · have hoqf : evalOtherQual cfg.otherqual (some pulled) (some cand.row)
              = false := by
            cases hx : evalOtherQual cfg.otherqual (some pulled) (some cand.row)
            · rfl
            · exact absurd hx hoq
          rw [shape_scanInner_matchFiltered cfg s pulled j cand hec hf hjq hoqf] at hstep
          have hs2 := (StepResult.next.injEq _ _).mp hstep
          subst hs2
          refine ⟨rfl, rfl, rfl, ?_⟩
          intro hh
          rw [hj6] at hh
          simp [HJ_SCAN_INNER_BUCKET, HJ_FILL_TUPLES] at hh
      · have hjqf : evalJoinQual cfg.joinqual pulled cand.row = false := by
          cases hx : evalJoinQual cfg.joinqual pulled cand.row
          · rfl
          · exact absurd hx hjq
        rw [shape_scanInner_noJq cfg s pulled j cand hec hf hjqf] at hstep
        have hs2 := (StepResult.next.injEq _ _).mp hstep
        subst hs2
        refine ⟨rfl, rfl, rfl, ?_⟩
        intro hh
        rw [hj6] at hh
        simp [HJ_SCAN_INNER_BUCKET, HJ_FILL_TUPLES] at hh
  rw [symStep_eq_error cfg s (by
    simp only [HJ_BUILD_HASHTABLE, HJ_NEED_NEW_OUTER, HJ_NEED_NEW_INNER, HJ_FILL_TUPLES,
      HJ_SCAN_OUTER_BUCKET, HJ_SCAN_INNER_BUCKET] at hj1 hj2 hj3 hj4 hj5 hj6
    omega)] at hstep
  exact absurd hstep (by simp)

theorem filter_map_eq_filterMap {α β : Type} (f : α → β) (p : β → Bool) (l : List α) :
    ((l.map f).filter p) = l.filterMap (fun a => if p (f a) then some (f a) else none) := by
  induction l with
  | nil => rfl
  | cons a t ih =>
    by_cases hp : p (f a) = true
    · simp only [List.map_cons, List.filter_cons, hp, if_true, List.filterMap_cons, ih]
    · have hp2 : p (f a) = false := by
        cases hx : p (f a)
        · rfl
        · exact absurd hx hp
      simp only [List.map_cons, List.filter_cons, hp2, List.filterMap_cons, ih]
      rfl

theorem nullCompletionInnerMS_append (xs ys : List JoinOut) :
    nullCompletionInnerMS (xs ++ ys)
      = nullCompletionInnerMS xs + nullCompletionInnerMS ys := by
  unfold nullCompletionInnerMS
  rw [List.filterMap_append]
  exact (Multiset.coe_add _ _).symm ▸ rfl

theorem nullCompletionOuterMS_append (xs ys : List JoinOut) :
    nullCompletionOuterMS (xs ++ ys)
      = nullCompletionOuterMS xs + nullCompletionOuterMS ys := by
  unfold nullCompletionOuterMS
  rw [List.filterMap_append]
  exact (Multiset.coe_add _ _).symm ▸ rfl

theorem nullCompletionInnerMS_outerOuts (bs : List (List HashTuple)) (b i : Nat) :
    nullCompletionInnerMS (fillOutsOuter bs b i) = 0 := by
  unfold nullCompletionInnerMS fillOutsOuter
  rw [Multiset.coe_eq_zero, List.filterMap_eq_nil_iff]
  intro o ho
  obtain ⟨t, _, hf⟩ := List.mem_filterMap.mp ho
  by_cases hm : t.matched = true
  · rw [if_pos hm] at hf
    exact absurd hf (by simp)
  · rw [if_neg hm] at hf
    have ho2 : (some t.row, (none : Option Row)) = o := (Option.some.injEq _ _).mp hf
    rw [← ho2]

theorem nullCompletionOuterMS_innerOuts (bs : List (List HashTuple)) (b i : Nat) :
    nullCompletionOuterMS (fillOutsInner bs b i) = 0 := by
  unfold nullCompletionOuterMS fillOutsInner
  rw [Multiset.coe_eq_zero, List.filterMap_eq_nil_iff]
  intro o ho
  obtain ⟨t, _, hf⟩ := List.mem_filterMap.mp ho
  by_cases hm : t.matched = true
  · rw [if_pos hm] at hf
    exact absurd hf (by simp)
  · rw [if_neg hm] at hf
    have ho2 : ((none : Option Row), some t.row) = o := (Option.some.injEq _ _).mp hf
    rw [← ho2]

theorem mem_remList_zero_bucket (bs : List (List HashTuple)) (t : HashTuple)
    (ht : t ∈ remList bs 0 0) : ∃ c, c < bs.length ∧ t ∈ bs.getD c [] := by
  rw [remList_zero, List.drop_zero] at ht
  obtain ⟨ch, hch, htc⟩ := List.mem_flatMap.mp ht
  obtain ⟨c, hc, hceq⟩ := List.mem_iff_getElem.mp hch
  refine ⟨c, hc, ?_⟩
  rw [List.getD_eq_getElem bs [] hc, hceq]
  exact htc

theorem nullCompletion_inner_full (tbl : HashJoinTable) (hNU : NullUnmatched tbl) :
    nullCompletionInnerMS (fillOutsInner tbl.buckets 0 0) = storedNullRows tbl := by
  unfold nullCompletionInnerMS fillOutsInner storedNullRows tableRowsM
  have hrows : tableRowsL tbl = (remList tbl.buckets 0 0).map (fun t => t.row) := by
    unfold tableRowsL
    rw [remList_zero, List.drop_zero, List.map_flatMap]
  rw [hrows]
  rw [show (Multiset.filter (fun r => r.key.isNone = true)
      (↑((remList tbl.buckets 0 0).map (fun t => t.row))) : Multiset Row)
      = ↑(((remList tbl.buckets 0 0).map (fun t => t.row)).filter (fun r => r.key.isNone))
    from by
      simp only [Multiset.filter_coe]
      apply Multiset.coe_eq_coe.mpr
      apply List.Perm.of_eq
      apply List.filter_congr
      intro r _
      cases hk : r.key <;> simp [hk]]
  rw [filter_map_eq_filterMap, List.filterMap_filterMap]
  congr 1
  apply List.filterMap_congr
  intro t ht
  obtain ⟨c, hc, htc⟩ := mem_remList_zero_bucket tbl.buckets t ht
  by_cases hnull : t.row.key.isNone = true
  · have hm : t.matched = false := hNU c t htc hnull
    rw [if_neg (by rw [hm]; simp)]
    rfl
  · have hnull2 : t.row.key.isNone = false := by
      cases hx : t.row.key.isNone
      · rfl
      · exact absurd hx hnull
    by_cases hm : t.matched = true
    · rw [if_pos hm]
      show none = if t.row.key.isNone = true then some t.row else none
      rw [hnull2]
      simp
    · rw [if_neg hm]
      rfl

theorem nullCompletion_outer_full (tbl : HashJoinTable) (hNU : NullUnmatched tbl) :
    nullCompletionOuterMS (fillOutsOuter tbl.buckets 0 0) = storedNullRows tbl := by
  unfold nullCompletionOuterMS fillOutsOuter storedNullRows tableRowsM
  have hrows : tableRowsL tbl = (remList tbl.buckets 0 0).map (fun t => t.row) := by
    unfold tableRowsL
    rw [remList_zero, List.drop_zero, List.map_flatMap]
  rw [hrows]
  rw [show (Multiset.filter (fun r => r.key.isNone = true)
      (↑((remList tbl.buckets 0 0).map (fun t => t.row))) : Multiset Row)
      = ↑(((remList tbl.buckets 0 0).map (fun t => t.row)).filter (fun r => r.key.isNone))
    from by
      simp only [Multiset.filter_coe]
      apply Multiset.coe_eq_coe.mpr
      apply List.Perm.of_eq
      apply List.filter_congr
      intro r _
      cases hk : r.key <;> simp [hk]]
  rw [filter_map_eq_filterMap, List.filterMap_filterMap]
  congr 1
  apply List.filterMap_congr
  intro t ht
  obtain ⟨c, hc, htc⟩ := mem_remList_zero_bucket tbl.buckets t ht
  by_cases hnull : t.row.key.isNone = true
  · have hm : t.matched = false := hNU c t htc hnull
    rw [if_neg (by rw [hm]; simp)]
    rfl
  · have hnull2 : t.row.key.isNone = false := by
      cases hx : t.row.key.isNone
      · rfl
      · exact absurd hx hnull
    by_cases hm : t.matched = true
    · rw [if_pos hm]
      show none = if t.row.key.isNone = true then some t.row else none
      rw [hnull2]
      simp
    · rw [if_neg hm]
      rfl

/-- At a fresh fill entry the pending outputs account the stored null rows
on each null-filling side. -/
theorem nullCompletion_fillPending (cfg : SymCfg) (s : SymState)
    (hNUi : NullUnmatched s.innerTable) (hNUo : NullUnmatched s.outerTable)
    (hff : s.firstFill = true) (hfif : s.fillInnerFinished = false)
    (hfof : s.fillOuterFinished = false) :
    (cfg.fillInner = true →
      nullCompletionInnerMS (fillPendingOuts cfg s) = storedNullRows s.innerTable) ∧
    (cfg.fillOuter = true →
      nullCompletionOuterMS (fillPendingOuts cfg s) = storedNullRows s.outerTable) := by
  unfold fillPendingOuts effFillB effFillI
  rw [hff, hfif, hfof]
  simp only [Bool.not_false, Bool.and_true, if_true, ite_true]
  constructor
  · intro hfi
    rw [hfi]
    simp only [Bool.true_and, if_true, ite_true]
    rw [nullCompletionInnerMS_append, nullCompletion_inner_full _ hNUi]
    by_cases hfo : cfg.fillOuter = true
    · rw [if_pos (by rw [hfo])]
      rw [nullCompletionInnerMS_outerOuts, add_zero]
    · rw [if_neg (by intro hh; exact hfo hh)]
      show storedNullRows s.innerTable + nullCompletionInnerMS [] = _
      rw [show nullCompletionInnerMS [] = 0 from rfl, add_zero]
  · intro hfo
    by_cases hfi : cfg.fillInner = true
    · rw [if_pos (by rw [hfi]), nullCompletionOuterMS_append,
        nullCompletionOuterMS_innerOuts, if_pos (by rw [hfo]),
        nullCompletion_outer_full _ hNUo]
      rw [zero_add]
    · rw [if_neg (by intro hh; exact hfi hh), if_pos (by rw [hfo])]
      exact nullCompletion_outer_full _ hNUo

theorem scanOuter_no_done (cfg : SymCfg) (s : SymState) (s2 : SymState) :
    stepScanOuterBucket cfg s ≠ .done s2 := by
  intro h
  simp only [stepScanOuterBucket] at h
  repeat' split at h
  all_goals exact absurd h (by simp)

theorem scanInner_no_done (cfg : SymCfg) (s : SymState) (s2 : SymState) :
    stepScanInnerBucket cfg s ≠ .done s2 := by
  intro h
  simp only [stepScanInnerBucket] at h
  repeat' split at h
  all_goals exact absurd h (by simp)

theorem scanOuter_yield_jstate (cfg : SymCfg) (s : SymState) (o : JoinOut) (s2 : SymState)
    (h : stepScanOuterBucket cfg s = .yield o s2) : s2.jstate = s.jstate := by
  simp only [stepScanOuterBucket] at h
  repeat' split at h
  all_goals try (injection h with ho hs; rw [← hs])
  all_goals exact absurd h (by simp)

theorem scanInner_yield_jstate (cfg : SymCfg) (s : SymState) (o : JoinOut) (s2 : SymState)
    (h : stepScanInnerBucket cfg s = .yield o s2) : s2.jstate = s.jstate := by
  simp only [stepScanInnerBucket] at h
  repeat' split at h
  all_goals try (injection h with ho hs; rw [← hs])
  all_goals exact absurd h (by simp)

theorem nullCompletion_cons_skip (a b : Row) (l : List JoinOut) :
    nullCompletionInnerMS ((some a, some b) :: l) = nullCompletionInnerMS l ∧
    nullCompletionOuterMS ((some a, some b) :: l) = nullCompletionOuterMS l := by
  constructor
  · show ((List.filterMap _ ((some a, some b) :: l) : List Row) : Multiset Row) = _
    rw [List.filterMap_cons]
    rfl
  · show ((List.filterMap _ ((some a, some b) :: l) : List Row) : Multiset Row) = _
    rw [List.filterMap_cons]
    rfl

theorem c2_drain (cfg : SymCfg)
    (hNR : ∀ a b, cfg.hashclauses a b = true →
      a.key.isNone = false ∧ b.key.isNone = false)
    (hoq : cfg.otherqual = none)
    (hib : cfg.innerNbatch = 1) (hob : cfg.outerNbatch = 1)
    (hinb : 0 < cfg.innerNbuckets) (honb : 0 < cfg.outerNbuckets) :
    ∀ fuel s tr fin, C2Inv cfg s → s.jstate ≠ HJ_FILL_TUPLES →
      symDrainTr cfg fuel s = some (tr, fin) →
      (cfg.fillInner = true →
        nullCompletionInnerMS (tr.map Prod.snd)
          = storedNullRows s.innerTable + nullRowsOf s.innerInput) ∧
      (cfg.fillOuter = true →
        nullCompletionOuterMS (tr.map Prod.snd)
          = storedNullRows s.outerTable + nullRowsOf s.outerInput) := by
  intro fuel
  induction fuel with
  | zero =>
    intro s tr fin hI hj4 hdr
    exact absurd hdr (by simp [symDrainTr])
  | succ fuel ih =>
    intro s tr fin hI hj4 hdr
    simp only [symDrainTr] at hdr
    cases hst : symStep cfg s with
    | error =>
      rw [hst] at hdr
      have hN : (none : Option (List (Nat × JoinOut) × SymState)) = some (tr, fin) := hdr
      exact absurd hN (by simp)
    | done s2 =>
      have hfalse : cfg.fillInner = false ∧ cfg.fillOuter = false := by
        by_cases hj1 : s.jstate = HJ_BUILD_HASHTABLE
        · rw [symStep_eq_build cfg s hj1, shape_build] at hst
          exact absurd hst (by simp)
        by_cases hj2 : s.jstate = HJ_NEED_NEW_OUTER
        · rw [symStep_eq_nno cfg s hj2] at hst
          exact (c2_nno cfg s hI hj2).2 s2 hst
        by_cases hj3 : s.jstate = HJ_NEED_NEW_INNER
        · rw [symStep_eq_nni cfg s hj3] at hst
          exact (c2_nni cfg s hI hj3).2 s2 hst
        by_cases hj5 : s.jstate = HJ_SCAN_OUTER_BUCKET
        · rw [symStep_eq_scanOuter cfg s hj5] at hst
          exact absurd hst (scanOuter_no_done cfg s s2)
        by_cases hj6 : s.jstate = HJ_SCAN_INNER_BUCKET
        · rw [symStep_eq_scanInner cfg s hj6] at hst
          exact absurd hst (scanInner_no_done cfg s s2)
        · exfalso
          have hr := hI.1.1
          simp only [HJ_BUILD_HASHTABLE, HJ_NEED_NEW_OUTER, HJ_NEED_NEW_INNER,
            HJ_FILL_TUPLES, HJ_SCAN_OUTER_BUCKET, HJ_SCAN_INNER_BUCKET]
            at hj1 hj2 hj3 hj4 hj5 hj6
          omega
      refine ⟨?_, ?_⟩
      · intro hx
        rw [hfalse.1] at hx
        exact absurd hx (by simp)
      · intro hx
        rw [hfalse.2] at hx
        exact absurd hx (by simp)
    | next s2 =>
      rw [hst] at hdr
      have hdrN : symDrainTr cfg fuel s2 = some (tr, fin) := hdr
      have hstep2 : C2Inv cfg s2 ∧ NullSums cfg s2 s := by
        by_cases hj1 : s.jstate = HJ_BUILD_HASHTABLE
        · rw [symStep_eq_build cfg s hj1] at hst
          exact c2_build cfg hib hob hinb honb s hI hj1 s2 hst
        by_cases hj2 : s.jstate = HJ_NEED_NEW_OUTER
        · rw [symStep_eq_nno cfg s hj2] at hst
          exact (c2_nno cfg s hI hj2).1 s2 hst
        by_cases hj3 : s.jstate = HJ_NEED_NEW_INNER
        · rw [symStep_eq_nni cfg s hj3] at hst
          exact (c2_nni cfg s hI hj3).1 s2 hst
        by_cases hj5 : s.jstate = HJ_SCAN_OUTER_BUCKET
        · rw [symStep_eq_scanOuter cfg s hj5] at hst
          exact (c2_scanOuter cfg hNR s hI hj5).1 s2 hst
        by_cases hj6 : s.jstate = HJ_SCAN_INNER_BUCKET
        · rw [symStep_eq_scanInner cfg s hj6] at hst
          exact (c2_scanInner cfg hNR s hI hj6).1 s2 hst
        · exfalso
          have hr := hI.1.1
          simp only [HJ_BUILD_HASHTABLE, HJ_NEED_NEW_OUTER, HJ_NEED_NEW_INNER,
            HJ_FILL_TUPLES, HJ_SCAN_OUTER_BUCKET, HJ_SCAN_INNER_BUCKET]
            at hj1 hj2 hj3 hj4 hj5 hj6
          omega
      obtain ⟨hI2, hsum⟩ := hstep2
      by_cases h2f : s2.jstate = HJ_FILL_TUPLES
      · obtain ⟨hbf, hbif, hbof, hbin⟩ :=
          step_keeps_fill_book cfg s hI.1 hj4 s2 hst
        obtain ⟨hie, hoe⟩ := hbin h2f
        obtain ⟨hf1, hf2, hf3⟩ := hI.2.2.2.2.1 hj4
        have htr := fill_drain_outs cfg hoq fuel s2 tr fin h2f hdrN
        obtain ⟨_, _, _, _, _, _, _, _, _, _, hNUi2, hNUo2⟩ := hI2.2.1
        have hcomp := nullCompletion_fillPending cfg s2 hNUi2 hNUo2
          (by rw [hbf]; exact hf1) (by rw [hbif]; exact hf2)
          (by rw [hbof]; exact hf3)
        refine ⟨?_, ?_⟩
        · intro hfi
          rw [htr, hcomp.1 hfi]
          have he := hsum.1 hfi
          rw [hie] at he
          simp only [nullRowsOf, Multiset.coe_nil, Multiset.filter_zero,
            add_zero] at he
          exact he
        · intro hfo
          rw [htr, hcomp.2 hfo]
          have he := hsum.2 hfo
          rw [hoe] at he
          simp only [nullRowsOf, Multiset.coe_nil, Multiset.filter_zero,
            add_zero] at he
          exact he
      · obtain ⟨e1, e2⟩ := ih s2 tr fin hI2 h2f hdrN
        exact ⟨fun hfi => (e1 hfi).trans ((hsum.1 hfi)),
          fun hfo => (e2 hfo).trans ((hsum.2 hfo))⟩
    | yield o s2 =>
      rw [hst] at hdr
      have hdr2 : (match symDrainTr cfg fuel s2 with
          | none => none
          | some (tr2, fin2) => some ((s.jstate, o) :: tr2, fin2))
            = some (tr, fin) := hdr
      cases hrec : symDrainTr cfg fuel s2 with
      | none =>
        rw [hrec] at hdr2
        exact absurd hdr2 (by simp)
      | some p =>
        obtain ⟨tr2, fin2⟩ := p
        rw [hrec] at hdr2
        simp only [Option.some.injEq, Prod.mk.injEq] at hdr2
        obtain ⟨htr, hfin⟩ := hdr2
        subst htr
        have hscan : (s.jstate = HJ_SCAN_OUTER_BUCKET ∧
            stepScanOuterBucket cfg s = .yield o s2) ∨
            (s.jstate = HJ_SCAN_INNER_BUCKET ∧
            stepScanInnerBucket cfg s = .yield o s2) := by
          by_cases hj1 : s.jstate = HJ_BUILD_HASHTABLE
          · rw [symStep_eq_build cfg s hj1, shape_build] at hst
            exact absurd hst (by simp)
          by_cases hj2 : s.jstate = HJ_NEED_NEW_OUTER
          · rw [symStep_eq_nno cfg s hj2] at hst
            exact absurd hst (nno_no_yield cfg s o s2)
          by_cases hj3 : s.jstate = HJ_NEED_NEW_INNER
          · rw [symStep_eq_nni cfg s hj3] at hst
            exact absurd hst (nni_no_yield cfg s o s2)
          by_cases hj5 : s.jstate = HJ_SCAN_OUTER_BUCKET
          · refine Or.inl ⟨hj5, ?_⟩
            rw [← symStep_eq_scanOuter cfg s hj5]
            exact hst
          by_cases hj6 : s.jstate = HJ_SCAN_INNER_BUCKET
          · refine Or.inr ⟨hj6, ?_⟩
            rw [← symStep_eq_scanInner cfg s hj6]
            exact hst
          · exfalso
            have hr := hI.1.1
            simp only [HJ_BUILD_HASHTABLE, HJ_NEED_NEW_OUTER, HJ_NEED_NEW_INNER,
              HJ_FILL_TUPLES, HJ_SCAN_OUTER_BUCKET, HJ_SCAN_INNER_BUCKET]
              at hj1 hj2 hj3 hj4 hj5 hj6
            omega
        rcases hscan with ⟨hj5, hys⟩ | ⟨hj6, hys⟩
        · obtain ⟨hI2, hsum, h1s, h2s⟩ :=
            (c2_scanOuter cfg hNR s hI hj5).2 o s2 hys
          obtain ⟨a, ha⟩ := Option.isSome_iff_exists.mp h1s
          obtain ⟨b, hb⟩ := Option.isSome_iff_exists.mp h2s
          have ho : o = (some a, some b) := Prod.ext ha hb
          subst ho
          have hj2state : s2.jstate = s.jstate :=
            scanOuter_yield_jstate cfg s _ s2 hys
          have h2ne : s2.jstate ≠ HJ_FILL_TUPLES := by
            rw [hj2state]; exact hj4
          obtain ⟨e1, e2⟩ := ih s2 tr2 fin2 hI2 h2ne hrec
          refine ⟨?_, ?_⟩
          · intro hfi
            have hmap : ((s.jstate, ((some a, some b) : JoinOut)) :: tr2).map
                Prod.snd = ((some a, some b) : JoinOut) :: tr2.map Prod.snd := rfl
            rw [hmap, (nullCompletion_cons_skip a b (tr2.map Prod.snd)).1,
              e1 hfi, hsum.1 hfi]
          · intro hfo
            have hmap : ((s.jstate, ((some a, some b) : JoinOut)) :: tr2).map
                Prod.snd = ((some a, some b) : JoinOut) :: tr2.map Prod.snd := rfl
            rw [hmap, (nullCompletion_cons_skip a b (tr2.map Prod.snd)).2,
              e2 hfo, hsum.2 hfo]
        · obtain ⟨hI2, hsum, h1s, h2s⟩ :=
            (c2_scanInner cfg hNR s hI hj6).2 o s2 hys
          obtain ⟨a, ha⟩ := Option.isSome_iff_exists.mp h1s
          obtain ⟨b, hb⟩ := Option.isSome_iff_exists.mp h2s
          have ho : o = (some a, some b) := Prod.ext ha hb
          subst ho
          have hj2state : s2.jstate = s.jstate :=
            scanInner_yield_jstate cfg s _ s2 hys
          have h2ne : s2.jstate ≠ HJ_FILL_TUPLES := by
            rw [hj2state]; exact hj4
          obtain ⟨e1, e2⟩ := ih s2 tr2 fin2 hI2 h2ne hrec
          refine ⟨?_, ?_⟩
          · intro hfi
            have hmap : ((s.jstate, ((some a, some b) : JoinOut)) :: tr2).map
                Prod.snd = ((some a, some b) : JoinOut) :: tr2.map Prod.snd := rfl
            rw [hmap, (nullCompletion_cons_skip a b (tr2.map Prod.snd)).1,
              e1 hfi, hsum.1 hfi]
          · intro hfo
            have hmap : ((s.jstate, ((some a, some b) : JoinOut)) :: tr2).map
                Prod.snd = ((some a, some b) : JoinOut) :: tr2.map Prod.snd := rfl
            rw [hmap, (nullCompletion_cons_skip a b (tr2.map Prod.snd)).2,
              e2 hfo, hsum.2 hfo]

theorem scanOuter_yield_keys (cfg : SymCfg)
    (hNR : ∀ a b, cfg.hashclauses a b = true →
      a.key.isNone = false ∧ b.key.isNone = false)
    (s : SymState) (o : JoinOut) (s2 : SymState)
    (h : stepScanOuterBucket cfg s = .yield o s2) :
    ∃ a b, o = (some a, some b) ∧
      a.key.isNone = false ∧ b.key.isNone = false := by
  simp only [stepScanOuterBucket] at h
  repeat' split at h
  all_goals try injection h
  rename_i x1 pulled hec x2 j cand hfind hjq hoq2 ho hs
  have hp : cfg.hashclauses cand.row pulled = true :=
    (findFrom_some_emits s.curOutHashValue (fun r => cfg.hashclauses r pulled)
      (s.outerTable.bucket s.curBucketNo) (fun _ => none) (fun _ _ => rfl)
      (startIdx s.curOutTuple) j cand hfind).2.2.2.2.1
  obtain ⟨hka, hkb⟩ := hNR cand.row pulled hp
  exact ⟨cand.row, pulled, ho.symm, hka, hkb⟩

theorem scanInner_yield_keys (cfg : SymCfg)
    (hNR : ∀ a b, cfg.hashclauses a b = true →
      a.key.isNone = false ∧ b.key.isNone = false)
    (s : SymState) (o : JoinOut) (s2 : SymState)
    (h : stepScanInnerBucket cfg s = .yield o s2) :
    ∃ a b, o = (some a, some b) ∧
      a.key.isNone = false ∧ b.key.isNone = false := by
  simp only [stepScanInnerBucket] at h
  repeat' split at h
  all_goals try injection h
  rename_i x1 pulled hec x2 j cand hfind hjq hoq2 ho hs
  have hp : cfg.hashclauses pulled cand.row = true :=
    (findFrom_some_emits s.curHashValue (fun r => cfg.hashclauses pulled r)
      (s.innerTable.bucket s.curBucketNo) (fun _ => none) (fun _ _ => rfl)
      (startIdx s.curTuple) j cand hfind).2.2.2.2.1
  obtain ⟨hka, hkb⟩ := hNR pulled cand.row hp
  exact ⟨pulled, cand.row, ho.symm, hka, hkb⟩

theorem drain_match_keys (cfg : SymCfg)
    (hNR : ∀ a b, cfg.hashclauses a b = true →
      a.key.isNone = false ∧ b.key.isNone = false) :
    ∀ fuel s tr fin, symDrainTr cfg fuel s = some (tr, fin) →
      ∀ q ∈ tr, q.1 = HJ_SCAN_OUTER_BUCKET ∨ q.1 = HJ_SCAN_INNER_BUCKET →
        ∃ a b, q.2 = (some a, some b) ∧
          a.key.isNone = false ∧ b.key.isNone = false := by
  intro fuel
  induction fuel with
  | zero =>
    intro s tr fin hdr
    exact absurd hdr (by simp [symDrainTr])
  | succ fuel ih =>
    intro s tr fin hdr
    simp only [symDrainTr] at hdr
    cases hst : symStep cfg s with
    | error =>
      rw [hst] at hdr
      have hN : (none : Option (List (Nat × JoinOut) × SymState))
          = some (tr, fin) := hdr
      exact absurd hN (by simp)
    | done s2 =>
      rw [hst] at hdr
      have hD : (some ([], s2) : Option (List (Nat × JoinOut) × SymState))
          = some (tr, fin) := hdr
      simp only [Option.some.injEq, Prod.mk.injEq] at hD
      rw [← hD.1]
      intro q hq
      exact absurd hq (by simp)
    | next s2 =>
      rw [hst] at hdr
      have hdrN : symDrainTr cfg fuel s2 = some (tr, fin) := hdr
      exact ih s2 tr fin hdrN
    | yield o s2 =>
      rw [hst] at hdr
      have hdr2 : (match symDrainTr cfg fuel s2 with
          | none => none
          | some (tr2, fin2) => some ((s.jstate, o) :: tr2, fin2))
            = some (tr, fin) := hdr
      cases hrec : symDrainTr cfg fuel s2 with
      | none =>
        rw [hrec] at hdr2
        exact absurd hdr2 (by simp)
      | some p =>
        obtain ⟨tr2, fin2⟩ := p
        rw [hrec] at hdr2
        simp only [Option.some.injEq, Prod.mk.injEq] at hdr2
        obtain ⟨htr, hfin⟩ := hdr2
        subst htr
        intro q hq hsc
        rcases List.mem_cons.mp hq with hq0 | hqin
        · subst hq0
          rcases hsc with hj5 | hj6
          · have hys : stepScanOuterBucket cfg s = .yield o s2 := by
              rw [← symStep_eq_scanOuter cfg s hj5]
              exact hst
            exact scanOuter_yield_keys cfg hNR s o s2 hys
          · have hys : stepScanInnerBucket cfg s = .yield o s2 := by
              rw [← symStep_eq_scanInner cfg s hj6]
              exact hst
            exact scanInner_yield_keys cfg hNR s o s2 hys
        · exact ih s2 tr2 fin2 hrec q hqin hsc

/-- C2: with null-rejecting hash clauses, no residual qualifier, and
single-batch tables on both sides, a null-keyed row never appears in a
match output yielded by the bucket-scan states (`HJ_SCAN_OUTER_BUCKET` /
`HJ_SCAN_INNER_BUCKET`), and the `HJ_FILL_TUPLES` completion phase emits
exactly one null-padded output row for every null-keyed input row of a
side whose join type requires null fill. -/
theorem c2_nullKeyCompletion (jt : JoinType) (hashFn : Nat → Nat)
    (hc : Row → Row → Bool) (jq : Option (Row → Row → Bool))
    (inb onb : Nat) (innerRows outerRows : List Row)
    (hNR : ∀ a b, hc a b = true → a.key.isNone = false ∧ b.key.isNone = false)
    (hinb : 0 < inb) (honb : 0 < onb)
    (fuel : Nat) (tr : List (Nat × JoinOut)) (fin : SymState)
    (hdr : symDrainTr
        (execInitSymHashJoin jt hashFn hc jq none inb 1 onb 1
          innerRows outerRows).1 fuel
        (execInitSymHashJoin jt hashFn hc jq none inb 1 onb 1
          innerRows outerRows).2
        = some (tr, fin)) :
    (∀ q ∈ tr, q.1 = HJ_SCAN_OUTER_BUCKET ∨ q.1 = HJ_SCAN_INNER_BUCKET →
      ∃ a b, q.2 = (some a, some b) ∧
        a.key.isNone = false ∧ b.key.isNone = false) ∧
    (fillsInner jt = true →
      nullCompletionInnerMS (tr.map Prod.snd) = nullRowsOf innerRows) ∧
    (fillsOuter jt = true →
      nullCompletionOuterMS (tr.map Prod.snd) = nullRowsOf outerRows) := by
  have hInv : C2Inv
      (execInitSymHashJoin jt hashFn hc jq none inb 1 onb 1
        innerRows outerRows).1
      (execInitSymHashJoin jt hashFn hc jq none inb 1 onb 1
        innerRows outerRows).2 := by
    refine ⟨⟨show (1:Nat) ≤ 1 ∧ (1:Nat) ≤ 6 by decide, ?_, ?_,
        fun _ => ⟨rfl, rfl⟩, ?_, ?_⟩,
      TblInv_mk _ rfl rfl hinb honb, ?_, ?_, fun _ => ⟨rfl, rfl, rfl⟩, ?_⟩
    · intro h; exact absurd (show (false:Bool) = true from h) (by decide)
    · intro h; exact absurd (show (false:Bool) = true from h) (by decide)
    · intro h
      exact absurd (show (1:Nat) = HJ_SCAN_OUTER_BUCKET from h) (by decide)
    · intro h
      exact absurd (show (1:Nat) = HJ_SCAN_INNER_BUCKET from h) (by decide)
    · intro h
      exact absurd (show (1:Nat) = HJ_SCAN_OUTER_BUCKET from h) (by decide)
    · intro h
      exact absurd (show (1:Nat) = HJ_SCAN_INNER_BUCKET from h) (by decide)
    · intro _
      exact ⟨storedNullRows_mk _ _ _, storedNullRows_mk _ _ _⟩
  have hmain := c2_drain
    (execInitSymHashJoin jt hashFn hc jq none inb 1 onb 1
      innerRows outerRows).1 hNR rfl rfl rfl hinb honb fuel
    (execInitSymHashJoin jt hashFn hc jq none inb 1 onb 1
      innerRows outerRows).2 tr fin hInv
    (by intro h
        exact absurd (show (1:Nat) = HJ_FILL_TUPLES from h) (by decide)) hdr
  refine ⟨drain_match_keys _ hNR fuel _ tr fin hdr, ?_, ?_⟩
  · intro hfi
    have he := hmain.1 hfi
    rw [he]
    show storedNullRows (mkHashTable inb 1 (fillsInner jt))
        + nullRowsOf innerRows = nullRowsOf innerRows
    rw [storedNullRows_mk, zero_add]
  · intro hfo
    have he := hmain.2 hfo
    rw [he]
    show storedNullRows (mkHashTable onb 1 (fillsOuter jt))
        + nullRowsOf outerRows = nullRowsOf outerRows
    rw [storedNullRows_mk, zero_add]

/-- `exKeyEq` never declares a match involving a null key: the `_, _`
fallback of its match returns false whenever either key is `none`. -/
theorem exKeyEq_nullRejecting :
    ∀ a b : Row, exKeyEq a b = true →
      a.key.isNone = false ∧ b.key.isNone = false := by
  intro a b h
  cases ha : a.key <;> cases hb : b.key <;>
    simp [exKeyEq, ha, hb] at h ⊢

/-- Concrete single-batch right join: inner rows `(1,5)` and the null-key
row `(NULL,9)`, outer row `(1,7)`; two buckets, one batch on each side. -/
def c2wInit : SymCfg × SymState :=
  execInitSymHashJoin JoinType.right exHash exKeyEq none none
    2 1 2 1 [⟨some 1, 5⟩, ⟨none, 9⟩] [⟨some 1, 7⟩]

/-- Trace of `c2wInit`: one probe match and one null completion. -/
def c2wTr : List (Nat × JoinOut) :=
  [(HJ_SCAN_INNER_BUCKET, (some ⟨some 1, 7⟩, some ⟨some 1, 5⟩)),
   (HJ_FILL_TUPLES, (none, some ⟨none, 9⟩))]

/-- Final state of the `c2wInit` drain. -/
def c2wFin : SymState :=
  { jstate := 4, innerInput := [], outerInput := [],
    innerTupleNull := true, outerTupleNull := true,
    innerTable := {
      nbuckets := 2, nbatch := 1, curbatch := 0,
      buckets := [[⟨⟨none, 9⟩, 0, false⟩], [⟨⟨some 1, 5⟩, 1, true⟩]],
      batchFiles := [[]], keepNulls := true },
    outerTable := {
      nbuckets := 2, nbatch := 1, curbatch := 0,
      buckets := [[], [⟨⟨some 1, 7⟩, 1, true⟩]],
      batchFiles := [[]], keepNulls := false },
    curHashValue := 1, curOutHashValue := 1, curBucketNo := 1,
    curTuple := some 0, curOutTuple := none,
    ecxtInner := some ⟨none, 9⟩, ecxtOuter := none,
    innerInsertHash := 0, outerInsertHash := 1,
    firstFill := false, fillInnerFinished := true, fillOuterFinished := false,
    fillBucketNo := 0, fillIdx := 0 }

theorem c2_nullKeyCompletion_witness :
    symDrainTr c2wInit.1 40 c2wInit.2 = some (c2wTr, c2wFin) ∧
    fillsInner JoinType.right = true ∧
    nullCompletionInnerMS (c2wTr.map Prod.snd)
      = nullRowsOf [⟨some 1, 5⟩, ⟨none, 9⟩] := by
  have hdr : symDrainTr c2wInit.1 40 c2wInit.2 = some (c2wTr, c2wFin) := by
    simp [symDrainTr, symStep, stepBuildHashtable, stepNeedNewInner,
      stepNeedNewOuter, stepScanOuterBucket, stepScanInnerBucket,
      stepFillTuples, findFrom, findUnmatched, findUnmatchedIn, hashNodeNext,
      execHashGetHashValue, execHashGetBucketAndBatch, execHashTableInsert,
      mkHashTable, setMatchAt, setMatchHead, listModify, evalJoinQual,
      evalOtherQual, exHash, exKeyEq, execInitSymHashJoin, c2wInit, c2wTr,
      c2wFin, HJ_BUILD_HASHTABLE, HJ_NEED_NEW_OUTER, HJ_NEED_NEW_INNER,
      HJ_FILL_TUPLES, HJ_SCAN_OUTER_BUCKET, HJ_SCAN_INNER_BUCKET, startIdx,
      fillsOuter, fillsInner, HashJoinTable.bucket, HashJoinTable.batchFile,
      rowHashKept]
  exact ⟨hdr, by decide,
    (c2_nullKeyCompletion JoinType.right exHash exKeyEq none 2 2
      [⟨some 1, 5⟩, ⟨none, 9⟩] [⟨some 1, 7⟩] exKeyEq_nullRejecting
      (by decide) (by decide) 40 c2wTr c2wFin hdr).2.1 (by decide)⟩

/-- As `c2wInit`, but the inner table has two batches (one bucket): the
probe row `(1,5)` spills to batch 1, so the head of its insert bucket is
the resident null-key row `(NULL,9)`, which `setMatchHead` then marks. -/
def c2xInit : SymCfg × SymState :=
  execInitSymHashJoin JoinType.right exHash exKeyEq none none
    1 2 1 1 [⟨none, 9⟩, ⟨some 1, 5⟩] [⟨some 1, 7⟩]

/-- Trace of `c2xInit`: the probe match only; no null completion. -/
def c2xTr : List (Nat × JoinOut) :=
  [(HJ_SCAN_OUTER_BUCKET, (some ⟨some 1, 7⟩, some ⟨some 1, 5⟩))]

/-- Final state of the `c2xInit` drain: the null-key row carries a
spurious matched bit, so the fill phase skipped it. -/
def c2xFin : SymState :=
  { jstate := 4, innerInput := [], outerInput := [],
    innerTupleNull := true, outerTupleNull := true,
    innerTable := {
      nbuckets := 1, nbatch := 2, curbatch := 0,
      buckets := [[⟨⟨none, 9⟩, 0, true⟩]],
      batchFiles := [[], [(1, ⟨some 1, 5⟩)]], keepNulls := true },
    outerTable := {
      nbuckets := 1, nbatch := 1, curbatch := 0,
      buckets := [[⟨⟨some 1, 7⟩, 1, true⟩]],
      batchFiles := [[]], keepNulls := false },
    curHashValue := 1, curOutHashValue := 1, curBucketNo := 0,
    curTuple := none, curOutTuple := some 0,
    ecxtInner := some ⟨some 1, 5⟩, ecxtOuter := some ⟨some 1, 7⟩,
    innerInsertHash := 1, outerInsertHash := 1,
    firstFill := false, fillInnerFinished := true, fillOuterFinished := false,
    fillBucketNo := 0, fillIdx := 0 }

theorem c2_counterexample :
    (∀ a b : Row, exKeyEq a b = true →
      a.key.isNone = false ∧ b.key.isNone = false) ∧
    fillsInner JoinType.right = true ∧
    symDrainTr c2xInit.1 40 c2xInit.2 = some (c2xTr, c2xFin) ∧
    nullCompletionInnerMS (c2xTr.map Prod.snd) = 0 ∧
    nullRowsOf [(⟨none, 9⟩ : Row), ⟨some 1, 5⟩] ≠ 0 := by
  refine ⟨exKeyEq_nullRejecting, by decide, ?_, by decide, by decide⟩
  simp [symDrainTr, symStep, stepBuildHashtable, stepNeedNewInner,
    stepNeedNewOuter, stepScanOuterBucket, stepScanInnerBucket,
    stepFillTuples, findFrom, findUnmatched, findUnmatchedIn, hashNodeNext,
    execHashGetHashValue, execHashGetBucketAndBatch, execHashTableInsert,
    mkHashTable, setMatchAt, setMatchHead, listModify, evalJoinQual,
    evalOtherQual, exHash, exKeyEq, execInitSymHashJoin, c2xInit, c2xTr,
    c2xFin, HJ_BUILD_HASHTABLE, HJ_NEED_NEW_OUTER, HJ_NEED_NEW_INNER,
    HJ_FILL_TUPLES, HJ_SCAN_OUTER_BUCKET, HJ_SCAN_INNER_BUCKET, startIdx,
    fillsOuter, fillsInner, HashJoinTable.bucket, HashJoinTable.batchFile,
    rowHashKept]

/-! ### Inner-join refinement (C1): pending-output accounting -/

/-- Hash clauses compatible with the hash function: two rows that can pass
the hash clauses receive the same hash value (the planner only selects
hashable equality operators, whose hash functions agree across the
operator's sides). -/
def HashConsistent (cfg : SymCfg) : Prop :=
  ∀ a b : Row, cfg.hashclauses a b = true →
    rowHashKept cfg a = rowHashKept cfg b

theorem matchOut_some_hc (cfg : SymCfg) (o i : Row) (x : JoinOut)
    (h : matchOut cfg o i = some x) : cfg.hashclauses o i = true := by
  unfold matchOut at h
  by_cases hm : matchB cfg o i = true
  · unfold matchB at hm
    rw [Bool.and_eq_true] at hm
    exact hm.1
  · rw [if_neg hm] at h
    exact absurd h (by simp)

theorem matchOut_none_of_hc (cfg : SymCfg) (o i : Row)
    (h : cfg.hashclauses o i = false) : matchOut cfg o i = none := by
  unfold matchOut matchB
  rw [h]
  rfl

theorem listModify_drop {α : Type} (f : α → α) :
    ∀ (l : List α) (j : Nat),
      (listModify l j f).drop (j + 1) = l.drop (j + 1) := by
  intro l
  induction l with
  | nil => intro j; rfl
  | cons a t ih =>
    intro j
    cases j with
    | zero => rfl
    | succ n =>
      show (a :: listModify t n f).drop (n + 2) = (a :: t).drop (n + 2)
      rw [List.drop_succ_cons, List.drop_succ_cons]
      exact ih n

theorem scanEmits_listModify (H : Nat) (sel : Row → Option JoinOut)
    (l : List HashTuple) (j : Nat) (f : HashTuple → HashTuple) :
    scanEmits H sel (listModify l j f) (j + 1) = scanEmits H sel l (j + 1) := by
  unfold scanEmits
  rw [listModify_drop]

theorem scanEmits_setMatchAt (H : Nat) (sel : Row → Option JoinOut)
    (tbl : HashJoinTable) (b j : Nat) :
    scanEmits H sel ((setMatchAt tbl b j).bucket b) (j + 1)
      = scanEmits H sel (tbl.bucket b) (j + 1) := by
  rw [bucket_setMatchAt]
  by_cases hb : b = b ∧ b < tbl.buckets.length
  · rw [if_pos hb]
    exact scanEmits_listModify H sel (tbl.bucket b) j _
  · rw [if_neg hb]

/-- `tableRowsM` of a freshly created table. -/
theorem tableRowsM_mk (nbuckets nbatch : Nat) (keep : Bool) :
    tableRowsM (mkHashTable nbuckets nbatch keep) = 0 := by
  unfold tableRowsM
  rw [tableRows_mk]
  rfl

/-- Outputs the in-flight bucket scan (if any) will still emit: the scan
states re-enter `ExecScanHashBucket` / `ExecScanOutHashBucket` from the
stored cursor, so the remaining emissions are `scanEmits` from the
position after `hj_CurTuple` / `hj_CurOutTuple`. -/
def scanPend (cfg : SymCfg) (s : SymState) : Multiset JoinOut :=
  if s.jstate = HJ_SCAN_OUTER_BUCKET then
    match s.ecxtInner with
    | some pulled =>
      ↑(scanEmits s.curOutHashValue (fun o => matchOut cfg o pulled)
        (s.outerTable.bucket s.curBucketNo) (startIdx s.curOutTuple))
    | none => 0
  else if s.jstate = HJ_SCAN_INNER_BUCKET then
    match s.ecxtOuter with
    | some pulled =>
      ↑(scanEmits s.curHashValue (fun i => matchOut cfg pulled i)
        (s.innerTable.bucket s.curBucketNo) (startIdx s.curTuple))
    | none => 0
  else 0

/-- Match outputs still owed by the future pulls: each still-unread inner
row will probe the rows currently stored in the outer table, each
still-unread outer row will probe the rows currently stored in the inner
table, and of two still-unread rows the one pulled later probes the table
already holding the other — so each such pair is owed exactly once. -/
def basePend (cfg : SymCfg) (s : SymState) : Multiset JoinOut :=
  pairsMM cfg (tableRowsM s.outerTable) ↑s.innerInput
    + pairsMM cfg ↑s.outerInput ↑s.innerInput
    + pairsMM cfg ↑s.outerInput (tableRowsM s.innerTable)

/-- All match outputs the operator will still emit from state `s`. -/
def pend (cfg : SymCfg) (s : SymState) : Multiset JoinOut :=
  scanPend cfg s + basePend cfg s

theorem scanPend_nonscan (cfg : SymCfg) (s : SymState)
    (h5 : s.jstate ≠ HJ_SCAN_OUTER_BUCKET)
    (h6 : s.jstate ≠ HJ_SCAN_INNER_BUCKET) : scanPend cfg s = 0 := by
  unfold scanPend
  rw [if_neg h5, if_neg h6]

/-- Reachability invariant for the inner-join refinement (single batch on
both sides, all input keys non-null). -/
def C1Inv (cfg : SymCfg) (s : SymState) : Prop :=
  StepInv s ∧
  TableWF cfg s.innerTable ∧ TableWF cfg s.outerTable ∧
  s.innerTable.nbatch = 1 ∧ s.innerTable.curbatch = 0 ∧
  s.outerTable.nbatch = 1 ∧ s.outerTable.curbatch = 0 ∧
  (∀ r ∈ s.innerInput, r.key.isNone = false) ∧
  (∀ r ∈ s.outerInput, r.key.isNone = false) ∧
  (s.jstate = HJ_BUILD_HASHTABLE →
    tableRowsM s.innerTable = 0 ∧ tableRowsM s.outerTable = 0) ∧
  (s.jstate = HJ_FILL_TUPLES → s.innerInput = [] ∧ s.outerInput = [])

/-- A fresh probe scan over the bucket the probe hash selects sees exactly
the stored rows that can match: every row the selector accepts passed the
hash clauses, so (by hash consistency) it carries the probe hash and was
placed in that bucket. Outer-bucket version, probing with the just-pulled
inner row `r`. -/
theorem freshScan_outer (cfg : SymCfg) (hHC : HashConsistent cfg)
    (tbl : HashJoinTable) (hW : TableWF cfg tbl) (r : Row) (k : Nat)
    (hk : r.key = some k) :
    (↑(scanEmits (cfg.hashFn k) (fun o => matchOut cfg o r)
        (tbl.bucket (cfg.hashFn k % tbl.nbuckets)) 0) : Multiset JoinOut)
      = Multiset.filterMap (fun o => matchOut cfg o r) (tableRowsM tbl) := by
  have hH : cfg.hashFn k = rowHashKept cfg r := by
    unfold rowHashKept
    rw [hk]
  have hg : ∀ o x, matchOut cfg o r = some x →
      rowHashKept cfg o = cfg.hashFn k := by
    intro o x hx
    rw [hHC o r (matchOut_some_hc cfg o r x hx), hH]
  have hcore := scan_fresh_core cfg tbl (cfg.hashFn k)
    (fun o => matchOut cfg o r) hW hg
  rw [← hcore]
  unfold tableRowsM
  rfl

/-- Inner-bucket version of `freshScan_outer`, probing with the
just-pulled outer row `r`. -/
theorem freshScan_inner (cfg : SymCfg) (hHC : HashConsistent cfg)
    (tbl : HashJoinTable) (hW : TableWF cfg tbl) (r : Row) (k : Nat)
    (hk : r.key = some k) :
    (↑(scanEmits (cfg.hashFn k) (fun i => matchOut cfg r i)
        (tbl.bucket (cfg.hashFn k % tbl.nbuckets)) 0) : Multiset JoinOut)
      = Multiset.filterMap (fun i => matchOut cfg r i) (tableRowsM tbl) := by
  have hH : cfg.hashFn k = rowHashKept cfg r := by
    unfold rowHashKept
    rw [hk]
  have hg : ∀ i x, matchOut cfg r i = some x →
      rowHashKept cfg i = cfg.hashFn k := by
    intro i x hx
    rw [← hHC r i (matchOut_some_hc cfg r i x hx), hH]
  have hcore := scan_fresh_core cfg tbl (cfg.hashFn k)
    (fun i => matchOut cfg r i) hW hg
  rw [← hcore]
  unfold tableRowsM
  rfl

theorem c1_build (cfg : SymCfg)
    (hib : cfg.innerNbatch = 1) (hob : cfg.outerNbatch = 1)
    (hinb : 0 < cfg.innerNbuckets) (honb : 0 < cfg.outerNbuckets)
    (s : SymState) (hI : C1Inv cfg s) (hj : s.jstate = HJ_BUILD_HASHTABLE) :
    ∀ s2, stepBuildHashtable cfg s = .next s2 →
      C1Inv cfg s2 ∧ pend cfg s = pend cfg s2 := by
  intro s2 hstep
  obtain ⟨hSI, hWi, hWo, hib2, hic2, hob2, hoc2, hInn, hOut, hbz, hfe⟩ := hI
  have hSI2 : StepInv s2 := (dec_build cfg s hSI hj s2 hstep).1
  rw [shape_build] at hstep
  have hs2 := (StepResult.next.injEq _ _).mp hstep
  subst hs2
  obtain ⟨hz1, hz2⟩ := hbz hj
  refine ⟨⟨hSI2, TableWF_mk cfg _ _ _ hinb, TableWF_mk cfg _ _ _ honb,
    hib, rfl, hob, rfl, hInn, hOut, ?_, ?_⟩, ?_⟩
  · intro hh; simp [HJ_NEED_NEW_INNER, HJ_BUILD_HASHTABLE] at hh
  · intro hh; simp [HJ_NEED_NEW_INNER, HJ_FILL_TUPLES] at hh
  · simp [pend, basePend, scanPend, hj, HJ_BUILD_HASHTABLE, HJ_NEED_NEW_INNER,
      HJ_SCAN_OUTER_BUCKET, HJ_SCAN_INNER_BUCKET, tableRowsM_mk, hz1, hz2,
      pairsMM_zero_left, pairsMM_zero_right]

theorem c1_nni (cfg : SymCfg) (hHC : HashConsistent cfg)
    (hfi : cfg.fillInner = false) (hfo : cfg.fillOuter = false)
    (s : SymState) (hI : C1Inv cfg s) (hj : s.jstate = HJ_NEED_NEW_INNER) :
    (∀ s2, stepNeedNewInner cfg s = .next s2 →
      C1Inv cfg s2 ∧ pend cfg s = pend cfg s2) ∧
    (∀ s2, stepNeedNewInner cfg s = .done s2 → pend cfg s = 0) := by
  obtain ⟨hSI, hWi, hWo, hib2, hic2, hob2, hoc2, hInn, hOut, hbz, hfe⟩ := hI
  have h5 : s.jstate ≠ HJ_SCAN_OUTER_BUCKET := by
    rw [hj]; simp [HJ_NEED_NEW_INNER, HJ_SCAN_OUTER_BUCKET]
  have h6 : s.jstate ≠ HJ_SCAN_INNER_BUCKET := by
    rw [hj]; simp [HJ_NEED_NEW_INNER, HJ_SCAN_INNER_BUCKET]
  constructor
  · intro s2 hstep
    have hSI2 : StepInv s2 := ((dec_nni cfg s hSI hj).2.1 s2 hstep).1
    by_cases hin : s.innerTupleNull = true
    · by_cases hon : s.outerTupleNull = true
      · rw [shape_nni_bothNull cfg s hin hon] at hstep
        have hs2 := (StepResult.next.injEq _ _).mp hstep
        subst hs2
        refine ⟨⟨hSI2, hWi, hWo, hib2, hic2, hob2, hoc2, hInn, hOut, ?_, ?_⟩, ?_⟩
        · intro hh; simp [HJ_FILL_TUPLES, HJ_BUILD_HASHTABLE] at hh
        · intro _; exact ⟨hSI.2.1 hin, hSI.2.2.1 hon⟩
        · show scanPend cfg s + basePend cfg s = pend cfg _
          rw [scanPend_nonscan cfg s h5 h6]
          show 0 + basePend cfg s = scanPend cfg _ + basePend cfg s
          rw [scanPend_nonscan cfg _
            (by intro hh; simp [HJ_FILL_TUPLES, HJ_SCAN_OUTER_BUCKET] at hh)
            (by intro hh; simp [HJ_FILL_TUPLES, HJ_SCAN_INNER_BUCKET] at hh)]
      · have honf : s.outerTupleNull = false := by
          cases hx : s.outerTupleNull
          · rfl
          · exact absurd hx hon
        rw [shape_nni_innerNull cfg s hin honf] at hstep
        have hs2 := (StepResult.next.injEq _ _).mp hstep
        subst hs2
        refine ⟨⟨hSI2, hWi, hWo, hib2, hic2, hob2, hoc2, hInn, hOut, ?_, ?_⟩, ?_⟩
        · intro hh; simp [HJ_NEED_NEW_OUTER, HJ_BUILD_HASHTABLE] at hh
        · intro hh; simp [HJ_NEED_NEW_OUTER, HJ_FILL_TUPLES] at hh
        · show scanPend cfg s + basePend cfg s = pend cfg _
          rw [scanPend_nonscan cfg s h5 h6]
          show 0 + basePend cfg s = scanPend cfg _ + basePend cfg s
          rw [scanPend_nonscan cfg _
            (by intro hh; simp [HJ_NEED_NEW_OUTER, HJ_SCAN_OUTER_BUCKET] at hh)
            (by intro hh; simp [HJ_NEED_NEW_OUTER, HJ_SCAN_INNER_BUCKET] at hh)]
    · have hinf : s.innerTupleNull = false := by
        cases hx : s.innerTupleNull
        · rfl
        · exact absurd hx hin
      cases hii : s.innerInput with
      | nil =>
        by_cases hon : s.outerTupleNull = true
        · rw [shape_nni_exhaust_done cfg s hinf hii hon
            (by rw [hfi, hfo]; rfl)] at hstep
          exact absurd hstep (by simp)
        · have honf : s.outerTupleNull = false := by
            cases hx : s.outerTupleNull
            · rfl
            · exact absurd hx hon
          rw [shape_nni_exhaust_toOuter cfg s hinf hii honf] at hstep
          have hs2 := (StepResult.next.injEq _ _).mp hstep
          subst hs2
          refine ⟨⟨hSI2, hWi, hWo, hib2, hic2, hob2, hoc2, hInn, hOut, ?_, ?_⟩, ?_⟩
          · intro hh; simp [HJ_NEED_NEW_OUTER, HJ_BUILD_HASHTABLE] at hh
          · intro hh; simp [HJ_NEED_NEW_OUTER, HJ_FILL_TUPLES] at hh
          · show scanPend cfg s + basePend cfg s = pend cfg _
            rw [scanPend_nonscan cfg s h5 h6]
            show 0 + basePend cfg s = scanPend cfg _ + basePend cfg s
            rw [scanPend_nonscan cfg _
              (by intro hh; simp [HJ_NEED_NEW_OUTER, HJ_SCAN_OUTER_BUCKET] at hh)
              (by intro hh; simp [HJ_NEED_NEW_OUTER, HJ_SCAN_INNER_BUCKET] at hh)]
      | cons r rest =>
        have hrk : r.key.isNone = false :=
          hInn r (by rw [hii]; exact List.mem_cons_self r rest)
        obtain ⟨k, hk⟩ : ∃ k, r.key = some k := by
          cases hkx : r.key
          · rw [hkx] at hrk; exact absurd hrk (by simp)
          · exact ⟨_, rfl⟩
        rw [shape_nni_pull cfg s r rest k hinf hii hk] at hstep
        have hs2 := (StepResult.next.injEq _ _).mp hstep
        subst hs2
        have hH : cfg.hashFn k = rowHashKept cfg r := by
          unfold rowHashKept
          rw [hk]
        have hIT : tableRowsM (execHashTableInsert s.innerTable r (cfg.hashFn k))
            = r ::ₘ tableRowsM s.innerTable :=
          tableRowsM_insert s.innerTable r (cfg.hashFn k)
            (by rw [hib2, Nat.mod_one]; exact hic2.symm)
            (by rw [hWi.1]; exact Nat.mod_lt _ hWi.2.1)
        have hfresh := freshScan_outer cfg hHC s.outerTable hWo r k hk
        refine ⟨⟨hSI2, TableWF_insert cfg s.innerTable r _ hWi hH, hWo,
          by rw [insert_nbatch]; exact hib2,
          by rw [insert_curbatch]; exact hic2,
          hob2, hoc2,
          (fun r2 hr2 => hInn r2 (by rw [hii]; exact List.mem_cons_of_mem r hr2)),
          hOut, ?_, ?_⟩, ?_⟩
        · intro hh; simp [HJ_SCAN_OUTER_BUCKET, HJ_BUILD_HASHTABLE] at hh
        · intro hh; simp [HJ_SCAN_OUTER_BUCKET, HJ_FILL_TUPLES] at hh
        · show scanPend cfg s + basePend cfg s
              = ↑(scanEmits (cfg.hashFn k) (fun o => matchOut cfg o r)
                  (s.outerTable.bucket (cfg.hashFn k % s.outerTable.nbuckets)) 0)
                + (pairsMM cfg (tableRowsM s.outerTable) ↑rest
                  + pairsMM cfg ↑s.outerInput ↑rest
                  + pairsMM cfg ↑s.outerInput
                      (tableRowsM (execHashTableInsert s.innerTable r
                        (cfg.hashFn k))))
          rw [scanPend_nonscan cfg s h5 h6]
          unfold basePend
          rw [hii, hIT, hfresh, ← Multiset.cons_coe]
          simp only [pairsMM_cons_right]
          rw [zero_add]
          abel
  · intro s2 hstep
    by_cases hin : s.innerTupleNull = true
    · by_cases hon : s.outerTupleNull = true
      · rw [shape_nni_bothNull cfg s hin hon] at hstep
        exact absurd hstep (by simp)
      · have honf : s.outerTupleNull = false := by
          cases hx : s.outerTupleNull
          · rfl
          · exact absurd hx hon
        rw [shape_nni_innerNull cfg s hin honf] at hstep
        exact absurd hstep (by simp)
    · have hinf : s.innerTupleNull = false := by
        cases hx : s.innerTupleNull
        · rfl
        · exact absurd hx hin
      cases hii : s.innerInput with
      | nil =>
        by_cases hon : s.outerTupleNull = true
        · have hoe : s.outerInput = [] := hSI.2.2.1 hon
          show scanPend cfg s + basePend cfg s = 0
          rw [scanPend_nonscan cfg s h5 h6]
          unfold basePend
          rw [hii, hoe]
          simp [pairsMM_zero_left, pairsMM_zero_right]
        · have honf : s.outerTupleNull = false := by
            cases hx : s.outerTupleNull
            · rfl
            · exact absurd hx hon
          rw [shape_nni_exhaust_toOuter cfg s hinf hii honf] at hstep
          exact absurd hstep (by simp)
      | cons r rest =>
        have hrk : r.key.isNone = false :=
          hInn r (by rw [hii]; exact List.mem_cons_self r rest)
        obtain ⟨k, hk⟩ : ∃ k, r.key = some k := by
          cases hkx : r.key
          · rw [hkx] at hrk; exact absurd hrk (by simp)
          · exact ⟨_, rfl⟩
        rw [shape_nni_pull cfg s r rest k hinf hii hk] at hstep
        exact absurd hstep (by simp)

theorem c1_nno (cfg : SymCfg) (hHC : HashConsistent cfg)
    (hfi : cfg.fillInner = false) (hfo : cfg.fillOuter = false)
    (s : SymState) (hI : C1Inv cfg s) (hj : s.jstate = HJ_NEED_NEW_OUTER) :
    (∀ s2, stepNeedNewOuter cfg s = .next s2 →
      C1Inv cfg s2 ∧ pend cfg s = pend cfg s2) ∧
    (∀ s2, stepNeedNewOuter cfg s = .done s2 → pend cfg s = 0) := by
  obtain ⟨hSI, hWi, hWo, hib2, hic2, hob2, hoc2, hInn, hOut, hbz, hfe⟩ := hI
  have h5 : s.jstate ≠ HJ_SCAN_OUTER_BUCKET := by
    rw [hj]; simp [HJ_NEED_NEW_OUTER, HJ_SCAN_OUTER_BUCKET]
  have h6 : s.jstate ≠ HJ_SCAN_INNER_BUCKET := by
    rw [hj]; simp [HJ_NEED_NEW_OUTER, HJ_SCAN_INNER_BUCKET]
  constructor
  · intro s2 hstep
    have hSI2 : StepInv s2 := ((dec_nno cfg s hSI hj).2.1 s2 hstep).1
    by_cases hon : s.outerTupleNull = true
    · by_cases hin : s.innerTupleNull = true
      · rw [shape_nno_bothNull cfg s hon hin] at hstep
        have hs2 := (StepResult.next.injEq _ _).mp hstep
        subst hs2
        refine ⟨⟨hSI2, hWi, hWo, hib2, hic2, hob2, hoc2, hInn, hOut, ?_, ?_⟩, ?_⟩
        · intro hh; simp [HJ_FILL_TUPLES, HJ_BUILD_HASHTABLE] at hh
        · intro _; exact ⟨hSI.2.1 hin, hSI.2.2.1 hon⟩
        · show scanPend cfg s + basePend cfg s = pend cfg _
          rw [scanPend_nonscan cfg s h5 h6]
          show 0 + basePend cfg s = scanPend cfg _ + basePend cfg s
          rw [scanPend_nonscan cfg _
            (by intro hh; simp [HJ_FILL_TUPLES, HJ_SCAN_OUTER_BUCKET] at hh)
            (by intro hh; simp [HJ_FILL_TUPLES, HJ_SCAN_INNER_BUCKET] at hh)]
      · have hinf : s.innerTupleNull = false := by
          cases hx : s.innerTupleNull
          · rfl
          · exact absurd hx hin
        rw [shape_nno_outerNull cfg s hon hinf] at hstep
        have hs2 := (StepResult.next.injEq _ _).mp hstep
        subst hs2
        refine ⟨⟨hSI2, hWi, hWo, hib2, hic2, hob2, hoc2, hInn, hOut, ?_, ?_⟩, ?_⟩
        · intro hh; simp [HJ_NEED_NEW_INNER, HJ_BUILD_HASHTABLE] at hh
        · intro hh; simp [HJ_NEED_NEW_INNER, HJ_FILL_TUPLES] at hh
        · show scanPend cfg s + basePend cfg s = pend cfg _
          rw [scanPend_nonscan cfg s h5 h6]
          show 0 + basePend cfg s = scanPend cfg _ + basePend cfg s
          rw [scanPend_nonscan cfg _
            (by intro hh; simp [HJ_NEED_NEW_INNER, HJ_SCAN_OUTER_BUCKET] at hh)
            (by intro hh; simp [HJ_NEED_NEW_INNER, HJ_SCAN_INNER_BUCKET] at hh)]
    · have honf : s.outerTupleNull = false := by
        cases hx : s.outerTupleNull
        · rfl
        · exact absurd hx hon
      cases hoi : s.outerInput with
      | nil =>
        by_cases hin : s.innerTupleNull = true
        · rw [shape_nno_exhaust_done cfg s honf hoi hin
            (by rw [hfi, hfo]; rfl)] at hstep
          exact absurd hstep (by simp)
        · have hinf : s.innerTupleNull = false := by
            cases hx : s.innerTupleNull
            · rfl
            · exact absurd hx hin
          rw [shape_nno_exhaust_toInner cfg s honf hoi hinf] at hstep
          have hs2 := (StepResult.next.injEq _ _).mp hstep
          subst hs2
          refine ⟨⟨hSI2, hWi, hWo, hib2, hic2, hob2, hoc2, hInn, hOut, ?_, ?_⟩, ?_⟩
          · intro hh; simp [HJ_NEED_NEW_INNER, HJ_BUILD_HASHTABLE] at hh
          · intro hh; simp [HJ_NEED_NEW_INNER, HJ_FILL_TUPLES] at hh
          · show scanPend cfg s + basePend cfg s = pend cfg _
            rw [scanPend_nonscan cfg s h5 h6]
            show 0 + basePend cfg s = scanPend cfg _ + basePend cfg s
            rw [scanPend_nonscan cfg _
              (by intro hh; simp [HJ_NEED_NEW_INNER, HJ_SCAN_OUTER_BUCKET] at hh)
              (by intro hh; simp [HJ_NEED_NEW_INNER, HJ_SCAN_INNER_BUCKET] at hh)]
      | cons r rest =>
        have hrk : r.key.isNone = false :=
          hOut r (by rw [hoi]; exact List.mem_cons_self r rest)
        obtain ⟨k, hk⟩ : ∃ k, r.key = some k := by
          cases hkx : r.key
          · rw [hkx] at hrk; exact absurd hrk (by simp)
          · exact ⟨_, rfl⟩
        rw [shape_nno_pull cfg s r rest k honf hoi hk] at hstep
        have hs2 := (StepResult.next.injEq _ _).mp hstep
        subst hs2
        have hH : cfg.hashFn k = rowHashKept cfg r := by
          unfold rowHashKept
          rw [hk]
        have hOT : tableRowsM (execHashTableInsert s.outerTable r (cfg.hashFn k))
            = r ::ₘ tableRowsM s.outerTable :=
          tableRowsM_insert s.outerTable r (cfg.hashFn k)
            (by rw [hob2, Nat.mod_one]; exact hoc2.symm)
            (by rw [hWo.1]; exact Nat.mod_lt _ hWo.2.1)
        have hfresh := freshScan_inner cfg hHC s.innerTable hWi r k hk
        refine ⟨⟨hSI2, hWi, TableWF_insert cfg s.outerTable r _ hWo hH,
          hib2, hic2,
          by rw [insert_nbatch]; exact hob2,
          by rw [insert_curbatch]; exact hoc2,
          hInn,
          (fun r2 hr2 => hOut r2 (by rw [hoi]; exact List.mem_cons_of_mem r hr2)),
          ?_, ?_⟩, ?_⟩
        · intro hh; simp [HJ_SCAN_INNER_BUCKET, HJ_BUILD_HASHTABLE] at hh
        · intro hh; simp [HJ_SCAN_INNER_BUCKET, HJ_FILL_TUPLES] at hh
        · show scanPend cfg s + basePend cfg s
              = ↑(scanEmits (cfg.hashFn k) (fun i => matchOut cfg r i)
                  (s.innerTable.bucket (cfg.hashFn k % s.innerTable.nbuckets)) 0)
                + (pairsMM cfg (tableRowsM (execHashTableInsert s.outerTable r
                      (cfg.hashFn k))) ↑s.innerInput
                  + pairsMM cfg ↑rest ↑s.innerInput
                  + pairsMM cfg ↑rest (tableRowsM s.innerTable))
          rw [scanPend_nonscan cfg s h5 h6]
          unfold basePend
          rw [hoi, hOT, hfresh, ← Multiset.cons_coe]
          simp only [pairsMM_cons_left]
          rw [zero_add]
          abel
  · intro s2 hstep
    by_cases hon : s.outerTupleNull = true
    · by_cases hin : s.innerTupleNull = true
      · rw [shape_nno_bothNull cfg s hon hin] at hstep
        exact absurd hstep (by simp)
      · have hinf : s.innerTupleNull = false := by
          cases hx : s.innerTupleNull
          · rfl
          · exact absurd hx hin
        rw [shape_nno_outerNull cfg s hon hinf] at hstep
        exact absurd hstep (by simp)
    · have honf : s.outerTupleNull = false := by
        cases hx : s.outerTupleNull
        · rfl
        · exact absurd hx hon
      cases hoi : s.outerInput with
      | nil =>
        by_cases hin : s.innerTupleNull = true
        · have hie : s.innerInput = [] := hSI.2.1 hin
          show scanPend cfg s + basePend cfg s = 0
          rw [scanPend_nonscan cfg s h5 h6]
          unfold basePend
          rw [hoi, hie]
          simp [pairsMM_zero_left, pairsMM_zero_right]
        · have hinf : s.innerTupleNull = false := by
            cases hx : s.innerTupleNull
            · rfl
            · exact absurd hx hin
          rw [shape_nno_exhaust_toInner cfg s honf hoi hinf] at hstep
          exact absurd hstep (by simp)
      | cons r rest =>
        have hrk : r.key.isNone = false :=
          hOut r (by rw [hoi]; exact List.mem_cons_self r rest)
        obtain ⟨k, hk⟩ : ∃ k, r.key = some k := by
          cases hkx : r.key
          · rw [hkx] at hrk; exact absurd hrk (by simp)
          · exact ⟨_, rfl⟩
        rw [shape_nno_pull cfg s r rest k honf hoi hk] at hstep
        exact absurd hstep (by simp)

theorem scanPend_scanOuter (cfg : SymCfg) (s : SymState)
    (hj : s.jstate = HJ_SCAN_OUTER_BUCKET) (pulled : Row)
    (hec : s.ecxtInner = some pulled) :
    scanPend cfg s = ↑(scanEmits s.curOutHashValue
      (fun o => matchOut cfg o pulled)
      (s.outerTable.bucket s.curBucketNo) (startIdx s.curOutTuple)) := by
  unfold scanPend
  rw [if_pos hj, hec]

theorem scanPend_scanInner (cfg : SymCfg) (s : SymState)
    (hj : s.jstate = HJ_SCAN_INNER_BUCKET) (pulled : Row)
    (hec : s.ecxtOuter = some pulled) :
    scanPend cfg s = ↑(scanEmits s.curHashValue
      (fun i => matchOut cfg pulled i)
      (s.innerTable.bucket s.curBucketNo) (startIdx s.curTuple)) := by
  unfold scanPend
  rw [if_neg (by rw [hj]; simp [HJ_SCAN_INNER_BUCKET, HJ_SCAN_OUTER_BUCKET]),
    if_pos hj, hec]

theorem c1_scanOuter (cfg : SymCfg)
    (s : SymState) (hI : C1Inv cfg s) (hj : s.jstate = HJ_SCAN_OUTER_BUCKET) :
    (∀ s2, stepScanOuterBucket cfg s = .next s2 →
      C1Inv cfg s2 ∧ pend cfg s = pend cfg s2) ∧
    (∀ o s2, stepScanOuterBucket cfg s = .yield o s2 →
      C1Inv cfg s2 ∧ pend cfg s = o ::ₘ pend cfg s2) := by
  obtain ⟨hSI, hWi, hWo, hib2, hic2, hob2, hoc2, hInn, hOut, hbz, hfe⟩ := hI
  obtain ⟨hecS, hinN⟩ := hSI.2.2.2.2.1 hj
  cases hec : s.ecxtInner with
  | none => rw [hec] at hecS; exact absurd hecS (by simp)
  | some pulled =>
  have hsel : ∀ r, (fun r => cfg.hashclauses r pulled) r = false →
      (fun o => matchOut cfg o pulled) r = none := by
    intro r hr
    exact matchOut_none_of_hc cfg r pulled hr
  have hnotb : ¬s.jstate = HJ_BUILD_HASHTABLE := by
    rw [hj]; simp [HJ_SCAN_OUTER_BUCKET, HJ_BUILD_HASHTABLE]
  have hnotf : ¬s.jstate = HJ_FILL_TUPLES := by
    rw [hj]; simp [HJ_SCAN_OUTER_BUCKET, HJ_FILL_TUPLES]
  cases hf : findFrom s.curOutHashValue (fun r => cfg.hashclauses r pulled)
      (s.outerTable.bucket s.curBucketNo) (startIdx s.curOutTuple) with
  | none =>
    have hze := findFrom_none_emits s.curOutHashValue
      (fun r => cfg.hashclauses r pulled) (s.outerTable.bucket s.curBucketNo)
      (fun o => matchOut cfg o pulled) hsel (startIdx s.curOutTuple) hf
    constructor
    · intro s2 hstep
      have hSI2 : StepInv s2 := ((dec_scanOuter cfg s hSI hj).2.1 s2 hstep).1
      rw [shape_scanOuter_none cfg s pulled hec hf] at hstep
      have hs2 := (StepResult.next.injEq _ _).mp hstep
      subst hs2
      refine ⟨⟨hSI2, hWi, hWo, hib2, hic2, hob2, hoc2, hInn, hOut, ?_, ?_⟩, ?_⟩
      · intro hh; simp [HJ_NEED_NEW_OUTER, HJ_BUILD_HASHTABLE] at hh
      · intro hh; simp [HJ_NEED_NEW_OUTER, HJ_FILL_TUPLES] at hh
      · show scanPend cfg s + basePend cfg s = pend cfg _
        rw [scanPend_scanOuter cfg s hj pulled hec, hze]
        show (↑([] : List JoinOut) : Multiset JoinOut) + basePend cfg s
          = scanPend cfg _ + basePend cfg s
        rw [scanPend_nonscan cfg _
          (by intro hh; simp [HJ_NEED_NEW_OUTER, HJ_SCAN_OUTER_BUCKET] at hh)
          (by intro hh; simp [HJ_NEED_NEW_OUTER, HJ_SCAN_INNER_BUCKET] at hh)]
        rfl
    · intro o s2 hstep
      rw [shape_scanOuter_none cfg s pulled hec hf] at hstep
      exact absurd hstep (by simp)
  | some pr =>
    obtain ⟨j, cand⟩ := pr
    have hfacts := findFrom_some_emits s.curOutHashValue
      (fun r => cfg.hashclauses r pulled) (s.outerTable.bucket s.curBucketNo)
      (fun o => matchOut cfg o pulled) hsel (startIdx s.curOutTuple) j cand hf
    have hhc : cfg.hashclauses cand.row pulled = true := hfacts.2.2.2.2.1
    have hemits : scanEmits s.curOutHashValue (fun o => matchOut cfg o pulled)
        (s.outerTable.bucket s.curBucketNo) (startIdx s.curOutTuple)
        = (matchOut cfg cand.row pulled).toList
          ++ scanEmits s.curOutHashValue (fun o => matchOut cfg o pulled)
            (s.outerTable.bucket s.curBucketNo) (j + 1) := hfacts.2.2.2.2.2
    by_cases hjq : evalJoinQual cfg.joinqual cand.row pulled = true
    · by_cases hoq2 : evalOtherQual cfg.otherqual
          (some cand.row) (some pulled) = true
      · -- match: the machine yields
        have hselc : matchOut cfg cand.row pulled
            = some (some cand.row, some pulled) := by
          unfold matchOut matchB
          rw [hhc, hjq, hoq2]
          rfl
        constructor
        · intro s2 hstep
          rw [shape_scanOuter_match cfg s pulled j cand hec hf hjq hoq2] at hstep
          exact absurd hstep (by simp)
        · intro o s2 hstep
          have hSI2 : StepInv s2 := ((dec_scanOuter cfg s hSI hj).2.2 o s2 hstep).1
          rw [shape_scanOuter_match cfg s pulled j cand hec hf hjq hoq2] at hstep
          obtain ⟨ho, hs2⟩ := (StepResult.yield.injEq _ _ _ _).mp hstep
          subst hs2
          subst ho
          refine ⟨⟨hSI2,
            TableWF_setMatchHead cfg s.innerTable _ hWi,
            TableWF_setMatchAt cfg s.outerTable _ _ hWo,
            by rw [setMatchHead_eq_setMatchAt, setMatchAt_nbatch]; exact hib2,
            by rw [setMatchHead_eq_setMatchAt, setMatchAt_curbatch]; exact hic2,
            by rw [setMatchAt_nbatch]; exact hob2,
            by rw [setMatchAt_curbatch]; exact hoc2,
            hInn, hOut, ?_, ?_⟩, ?_⟩
          · intro hh
            have hh2 : s.jstate = HJ_BUILD_HASHTABLE := hh
            exact absurd hh2 hnotb
          · intro hh
            have hh2 : s.jstate = HJ_FILL_TUPLES := hh
            exact absurd hh2 hnotf
          · unfold pend
            rw [scanPend_scanOuter cfg s hj pulled hec,
              scanPend_scanOuter cfg { s with
                curOutTuple := some j,
                ecxtOuter := some cand.row,
                outerTable := setMatchAt s.outerTable s.curBucketNo j,
                innerTable := setMatchHead s.innerTable
                  (s.innerInsertHash % s.innerTable.nbuckets) } hj pulled hec]
            show ↑(scanEmits s.curOutHashValue (fun o => matchOut cfg o pulled)
                  (s.outerTable.bucket s.curBucketNo) (startIdx s.curOutTuple))
                + basePend cfg s
              = ((some cand.row, some pulled) : JoinOut) ::ₘ
                (↑(scanEmits s.curOutHashValue (fun o => matchOut cfg o pulled)
                    ((setMatchAt s.outerTable s.curBucketNo j).bucket
                      s.curBucketNo) (j + 1))
                  + (pairsMM cfg
                      (tableRowsM (setMatchAt s.outerTable s.curBucketNo j))
                      ↑s.innerInput
                    + pairsMM cfg ↑s.outerInput ↑s.innerInput
                    + pairsMM cfg ↑s.outerInput
                      (tableRowsM (setMatchHead s.innerTable
                        (s.innerInsertHash % s.innerTable.nbuckets)))))
            rw [scanEmits_setMatchAt, tableRowsM_setMatchAt,
              tableRowsM_setMatchHead, hemits, hselc]
            show (↑([((some cand.row, some pulled) : JoinOut)]
                ++ scanEmits s.curOutHashValue (fun o => matchOut cfg o pulled)
                  (s.outerTable.bucket s.curBucketNo) (j + 1)) : Multiset JoinOut)
                + basePend cfg s = _
            rw [List.singleton_append, ← Multiset.cons_coe, Multiset.cons_add]
            rfl
      · -- residual qualifier fails: matched bits set, no emission
        have hoq2f : evalOtherQual cfg.otherqual
            (some cand.row) (some pulled) = false := by
          cases hx : evalOtherQual cfg.otherqual (some cand.row) (some pulled)
          · rfl
          · exact absurd hx hoq2
        have hseln : matchOut cfg cand.row pulled = none := by
          unfold matchOut matchB
          rw [hhc, hjq, hoq2f]
          rfl
        constructor
        · intro s2 hstep
          have hSI2 : StepInv s2 := ((dec_scanOuter cfg s hSI hj).2.1 s2 hstep).1
          rw [shape_scanOuter_matchFiltered cfg s pulled j cand
            hec hf hjq hoq2f] at hstep
          have hs2 := (StepResult.next.injEq _ _).mp hstep
          subst hs2
          refine ⟨⟨hSI2,
            TableWF_setMatchHead cfg s.innerTable _ hWi,
            TableWF_setMatchAt cfg s.outerTable _ _ hWo,
            by rw [setMatchHead_eq_setMatchAt, setMatchAt_nbatch]; exact hib2,
            by rw [setMatchHead_eq_setMatchAt, setMatchAt_curbatch]; exact hic2,
            by rw [setMatchAt_nbatch]; exact hob2,
            by rw [setMatchAt_curbatch]; exact hoc2,
            hInn, hOut, ?_, ?_⟩, ?_⟩
          · intro hh
            have hh2 : s.jstate = HJ_BUILD_HASHTABLE := hh
            exact absurd hh2 hnotb
          · intro hh
            have hh2 : s.jstate = HJ_FILL_TUPLES := hh
            exact absurd hh2 hnotf
          · unfold pend
            rw [scanPend_scanOuter cfg s hj pulled hec,
              scanPend_scanOuter cfg { s with
                curOutTuple := some j,
                ecxtOuter := some cand.row,
                outerTable := setMatchAt s.outerTable s.curBucketNo j,
                innerTable := setMatchHead s.innerTable
                  (s.innerInsertHash % s.innerTable.nbuckets) } hj pulled hec]
            show ↑(scanEmits s.curOutHashValue (fun o => matchOut cfg o pulled)
                  (s.outerTable.bucket s.curBucketNo) (startIdx s.curOutTuple))
                + basePend cfg s
              = ↑(scanEmits s.curOutHashValue (fun o => matchOut cfg o pulled)
                    ((setMatchAt s.outerTable s.curBucketNo j).bucket
                      s.curBucketNo) (j + 1))
                + (pairsMM cfg
                    (tableRowsM (setMatchAt s.outerTable s.curBucketNo j))
                    ↑s.innerInput
                  + pairsMM cfg ↑s.outerInput ↑s.innerInput
                  + pairsMM cfg ↑s.outerInput
                    (tableRowsM (setMatchHead s.innerTable
                      (s.innerInsertHash % s.innerTable.nbuckets))))
            rw [scanEmits_setMatchAt, tableRowsM_setMatchAt,
              tableRowsM_setMatchHead, hemits, hseln]
            rfl
        · intro o s2 hstep
          rw [shape_scanOuter_matchFiltered cfg s pulled j cand
            hec hf hjq hoq2f] at hstep
          exact absurd hstep (by simp)
    · -- join qualifier fails: cursor advances, nothing else changes
      have hjqf : evalJoinQual cfg.joinqual cand.row pulled = false := by
        cases hx : evalJoinQual cfg.joinqual cand.row pulled
        · rfl
        · exact absurd hx hjq
      have hseln : matchOut cfg cand.row pulled = none := by
        unfold matchOut matchB
        rw [hhc, hjqf]
        rfl
      constructor
      · intro s2 hstep
        have hSI2 : StepInv s2 := ((dec_scanOuter cfg s hSI hj).2.1 s2 hstep).1
        rw [shape_scanOuter_noJq cfg s pulled j cand hec hf hjqf] at hstep
        have hs2 := (StepResult.next.injEq _ _).mp hstep
        subst hs2
        refine ⟨⟨hSI2, hWi, hWo, hib2, hic2, hob2, hoc2, hInn, hOut, ?_, ?_⟩, ?_⟩
        · intro hh
          have hh2 : s.jstate = HJ_BUILD_HASHTABLE := hh
          exact absurd hh2 hnotb
        · intro hh
          have hh2 : s.jstate = HJ_FILL_TUPLES := hh
          exact absurd hh2 hnotf
        · unfold pend
          rw [scanPend_scanOuter cfg s hj pulled hec,
            scanPend_scanOuter cfg { s with
              curOutTuple := some j,
              ecxtOuter := some cand.row } hj pulled hec]
          show ↑(scanEmits s.curOutHashValue (fun o => matchOut cfg o pulled)
                (s.outerTable.bucket s.curBucketNo) (startIdx s.curOutTuple))
              + basePend cfg s
            = ↑(scanEmits s.curOutHashValue (fun o => matchOut cfg o pulled)
                  (s.outerTable.bucket s.curBucketNo) (j + 1))
              + basePend cfg s
          rw [hemits, hseln]
          rfl
      · intro o s2 hstep
        rw [shape_scanOuter_noJq cfg s pulled j cand hec hf hjqf] at hstep
        exact absurd hstep (by simp)

theorem c1_scanInner (cfg : SymCfg)
    (s : SymState) (hI : C1Inv cfg s) (hj : s.jstate = HJ_SCAN_INNER_BUCKET) :
    (∀ s2, stepScanInnerBucket cfg s = .next s2 →
      C1Inv cfg s2 ∧ pend cfg s = pend cfg s2) ∧
    (∀ o s2, stepScanInnerBucket cfg s = .yield o s2 →
      C1Inv cfg s2 ∧ pend cfg s = o ::ₘ pend cfg s2) := by
  obtain ⟨hSI, hWi, hWo, hib2, hic2, hob2, hoc2, hInn, hOut, hbz, hfe⟩ := hI
  obtain ⟨hecS, houtN⟩ := hSI.2.2.2.2.2 hj
  cases hec : s.ecxtOuter with
  | none => rw [hec] at hecS; exact absurd hecS (by simp)
  | some pulled =>
  have hsel : ∀ r, (fun r => cfg.hashclauses pulled r) r = false →
      (fun i => matchOut cfg pulled i) r = none := by
    intro r hr
    exact matchOut_none_of_hc cfg pulled r hr
  have hnotb : ¬s.jstate = HJ_BUILD_HASHTABLE := by
    rw [hj]; simp [HJ_SCAN_INNER_BUCKET, HJ_BUILD_HASHTABLE]
  have hnotf : ¬s.jstate = HJ_FILL_TUPLES := by
    rw [hj]; simp [HJ_SCAN_INNER_BUCKET, HJ_FILL_TUPLES]
  cases hf : findFrom s.curHashValue (fun r => cfg.hashclauses pulled r)
      (s.innerTable.bucket s.curBucketNo) (startIdx s.curTuple) with
  | none =>
    have hze := findFrom_none_emits s.curHashValue
      (fun r => cfg.hashclauses pulled r) (s.innerTable.bucket s.curBucketNo)
      (fun i => matchOut cfg pulled i) hsel (startIdx s.curTuple) hf
    constructor
    · intro s2 hstep
      have hSI2 : StepInv s2 := ((dec_scanInner cfg s hSI hj).2.1 s2 hstep).1
      rw [shape_scanInner_none cfg s pulled hec hf] at hstep
      have hs2 := (StepResult.next.injEq _ _).mp hstep
      subst hs2
      refine ⟨⟨hSI2, hWi, hWo, hib2, hic2, hob2, hoc2, hInn, hOut, ?_, ?_⟩, ?_⟩
      · intro hh; simp [HJ_NEED_NEW_INNER, HJ_BUILD_HASHTABLE] at hh
      · intro hh; simp [HJ_NEED_NEW_INNER, HJ_FILL_TUPLES] at hh
      · show scanPend cfg s + basePend cfg s = pend cfg _
        rw [scanPend_scanInner cfg s hj pulled hec, hze]
        show (↑([] : List JoinOut) : Multiset JoinOut) + basePend cfg s
          = scanPend cfg _ + basePend cfg s
        rw [scanPend_nonscan cfg _
          (by intro hh; simp [HJ_NEED_NEW_INNER, HJ_SCAN_OUTER_BUCKET] at hh)
          (by intro hh; simp [HJ_NEED_NEW_INNER, HJ_SCAN_INNER_BUCKET] at hh)]
        rfl
    · intro o s2 hstep
      rw [shape_scanInner_none cfg s pulled hec hf] at hstep
      exact absurd hstep (by simp)
  | some pr =>
    obtain ⟨j, cand⟩ := pr
    have hfacts := findFrom_some_emits s.curHashValue
      (fun r => cfg.hashclauses pulled r) (s.innerTable.bucket s.curBucketNo)
      (fun i => matchOut cfg pulled i) hsel (startIdx s.curTuple) j cand hf
    have hhc : cfg.hashclauses pulled cand.row = true := hfacts.2.2.2.2.1
    have hemits : scanEmits s.curHashValue (fun i => matchOut cfg pulled i)
        (s.innerTable.bucket s.curBucketNo) (startIdx s.curTuple)
        = (matchOut cfg pulled cand.row).toList
          ++ scanEmits s.curHashValue (fun i => matchOut cfg pulled i)
            (s.innerTable.bucket s.curBucketNo) (j + 1) := hfacts.2.2.2.2.2
    by_cases hjq : evalJoinQual cfg.joinqual pulled cand.row = true
    · by_cases hoq2 : evalOtherQual cfg.otherqual
          (some pulled) (some cand.row) = true
      · have hselc : matchOut cfg pulled cand.row
            = some (some pulled, some cand.row) := by
          unfold matchOut matchB
          rw [hhc, hjq, hoq2]
          rfl
        constructor
        · intro s2 hstep
          rw [shape_scanInner_match cfg s pulled j cand hec hf hjq hoq2] at hstep
          exact absurd hstep (by simp)
        · intro o s2 hstep
          have hSI2 : StepInv s2 := ((dec_scanInner cfg s hSI hj).2.2 o s2 hstep).1
          rw [shape_scanInner_match cfg s pulled j cand hec hf hjq hoq2] at hstep
          obtain ⟨ho, hs2⟩ := (StepResult.yield.injEq _ _ _ _).mp hstep
          subst hs2
          subst ho
          refine ⟨⟨hSI2,
            TableWF_setMatchAt cfg s.innerTable _ _ hWi,
            TableWF_setMatchHead cfg s.outerTable _ hWo,
            by rw [setMatchAt_nbatch]; exact hib2,
            by rw [setMatchAt_curbatch]; exact hic2,
            by rw [setMatchHead_eq_setMatchAt, setMatchAt_nbatch]; exact hob2,
            by rw [setMatchHead_eq_setMatchAt, setMatchAt_curbatch]; exact hoc2,
            hInn, hOut, ?_, ?_⟩, ?_⟩
          · intro hh
            have hh2 : s.jstate = HJ_BUILD_HASHTABLE := hh
            exact absurd hh2 hnotb
          · intro hh
            have hh2 : s.jstate = HJ_FILL_TUPLES := hh
            exact absurd hh2 hnotf
          · unfold pend
            rw [scanPend_scanInner cfg s hj pulled hec,
              scanPend_scanInner cfg { s with
                curTuple := some j,
                ecxtInner := some cand.row,
                innerTable := setMatchAt s.innerTable s.curBucketNo j,
                outerTable := setMatchHead s.outerTable
                  (s.outerInsertHash % s.outerTable.nbuckets) } hj pulled hec]
            show ↑(scanEmits s.curHashValue (fun i => matchOut cfg pulled i)
                  (s.innerTable.bucket s.curBucketNo) (startIdx s.curTuple))
                + basePend cfg s
              = ((some pulled, some cand.row) : JoinOut) ::ₘ
                (↑(scanEmits s.curHashValue (fun i => matchOut cfg pulled i)
                    ((setMatchAt s.innerTable s.curBucketNo j).bucket
                      s.curBucketNo) (j + 1))
                  + (pairsMM cfg
                      (tableRowsM (setMatchHead s.outerTable
                        (s.outerInsertHash % s.outerTable.nbuckets)))
                      ↑s.innerInput
                    + pairsMM cfg ↑s.outerInput ↑s.innerInput
                    + pairsMM cfg ↑s.outerInput
                      (tableRowsM (setMatchAt s.innerTable s.curBucketNo j))))
            rw [scanEmits_setMatchAt, tableRowsM_setMatchAt,
              tableRowsM_setMatchHead, hemits, hselc]
            show (↑([((some pulled, some cand.row) : JoinOut)]
                ++ scanEmits s.curHashValue (fun i => matchOut cfg pulled i)
                  (s.innerTable.bucket s.curBucketNo) (j + 1)) : Multiset JoinOut)
                + basePend cfg s = _
            rw [List.singleton_append, ← Multiset.cons_coe, Multiset.cons_add]
            rfl
      · have hoq2f : evalOtherQual cfg.otherqual
            (some pulled) (some cand.row) = false := by
          cases hx : evalOtherQual cfg.otherqual (some pulled) (some cand.row)
          · rfl
          · exact absurd hx hoq2
        have hseln : matchOut cfg pulled cand.row = none := by
          unfold matchOut matchB
          rw [hhc, hjq, hoq2f]
          rfl
        constructor
        · intro s2 hstep
          have hSI2 : StepInv s2 := ((dec_scanInner cfg s hSI hj).2.1 s2 hstep).1
          rw [shape_scanInner_matchFiltered cfg s pulled j cand
            hec hf hjq hoq2f] at hstep
          have hs2 := (StepResult.next.injEq _ _).mp hstep
          subst hs2
          refine ⟨⟨hSI2,
            TableWF_setMatchAt cfg s.innerTable _ _ hWi,
            TableWF_setMatchHead cfg s.outerTable _ hWo,
            by rw [setMatchAt_nbatch]; exact hib2,
            by rw [setMatchAt_curbatch]; exact hic2,
            by rw [setMatchHead_eq_setMatchAt, setMatchAt_nbatch]; exact hob2,
            by rw [setMatchHead_eq_setMatchAt, setMatchAt_curbatch]; exact hoc2,
            hInn, hOut, ?_, ?_⟩, ?_⟩
          · intro hh
            have hh2 : s.jstate = HJ_BUILD_HASHTABLE := hh
            exact absurd hh2 hnotb
          · intro hh
            have hh2 : s.jstate = HJ_FILL_TUPLES := hh
            exact absurd hh2 hnotf
          · unfold pend
            rw [scanPend_scanInner cfg s hj pulled hec,
              scanPend_scanInner cfg { s with
                curTuple := some j,
                ecxtInner := some cand.row,
                innerTable := setMatchAt s.innerTable s.curBucketNo j,
                outerTable := setMatchHead s.outerTable
                  (s.outerInsertHash % s.outerTable.nbuckets) } hj pulled hec]
            show ↑(scanEmits s.curHashValue (fun i => matchOut cfg pulled i)
                  (s.innerTable.bucket s.curBucketNo) (startIdx s.curTuple))
                + basePend cfg s
              = ↑(scanEmits s.curHashValue (fun i => matchOut cfg pulled i)
                    ((setMatchAt s.innerTable s.curBucketNo j).bucket
                      s.curBucketNo) (j + 1))
                + (pairsMM cfg
                    (tableRowsM (setMatchHead s.outerTable
                      (s.outerInsertHash % s.outerTable.nbuckets)))
                    ↑s.innerInput
                  + pairsMM cfg ↑s.outerInput ↑s.innerInput
                  + pairsMM cfg ↑s.outerInput
                    (tableRowsM (setMatchAt s.innerTable s.curBucketNo j)))
            rw [scanEmits_setMatchAt, tableRowsM_setMatchAt,
              tableRowsM_setMatchHead, hemits, hseln]
            rfl
        · intro o s2 hstep
          rw [shape_scanInner_matchFiltered cfg s pulled j cand
            hec hf hjq hoq2f] at hstep
          exact absurd hstep (by simp)
    · have hjqf : evalJoinQual cfg.joinqual pulled cand.row = false := by
        cases hx : evalJoinQual cfg.joinqual pulled cand.row
        · rfl
        · exact absurd hx hjq
      have hseln : matchOut cfg pulled cand.row = none := by
        unfold matchOut matchB
        rw [hhc, hjqf]
        rfl
      constructor
      · intro s2 hstep
        have hSI2 : StepInv s2 := ((dec_scanInner cfg s hSI hj).2.1 s2 hstep).1
        rw [shape_scanInner_noJq cfg s pulled j cand hec hf hjqf] at hstep
        have hs2 := (StepResult.next.injEq _ _).mp hstep
        subst hs2
        refine ⟨⟨hSI2, hWi, hWo, hib2, hic2, hob2, hoc2, hInn, hOut, ?_, ?_⟩, ?_⟩
        · intro hh
          have hh2 : s.jstate = HJ_BUILD_HASHTABLE := hh
          exact absurd hh2 hnotb
        · intro hh
          have hh2 : s.jstate = HJ_FILL_TUPLES := hh
          exact absurd hh2 hnotf
        · unfold pend
          rw [scanPend_scanInner cfg s hj pulled hec,
            scanPend_scanInner cfg { s with
              curTuple := some j,
              ecxtInner := some cand.row } hj pulled hec]
          show ↑(scanEmits s.curHashValue (fun i => matchOut cfg pulled i)
                (s.innerTable.bucket s.curBucketNo) (startIdx s.curTuple))
              + basePend cfg s
            = ↑(scanEmits s.curHashValue (fun i => matchOut cfg pulled i)
                  (s.innerTable.bucket s.curBucketNo) (j + 1))
              + basePend cfg s
          rw [hemits, hseln]
          rfl
      · intro o s2 hstep
        rw [shape_scanInner_noJq cfg s pulled j cand hec hf hjqf] at hstep
        exact absurd hstep (by simp)

/-- With neither fill flag set (inner join), `HJ_FILL_TUPLES` immediately
returns NULL: both unmatched scans are skipped. -/
theorem c1_fill_step (cfg : SymCfg) (hfi : cfg.fillInner = false)
    (hfo : cfg.fillOuter = false) (s : SymState) :
    stepFillTuples cfg s = .done (if s.firstFill then
      { s with firstFill := false, fillBucketNo := 0, fillIdx := 0 }
    else s) := by
  by_cases hff : s.firstFill = true
  · rw [shape_fill_reset cfg s hff,
      shape_fill_done cfg _ rfl
        (by rw [hfi, Bool.and_false])
        (by rw [hfo, Bool.and_false]),
      if_pos hff]
  · have hff2 : s.firstFill = false := by
      cases hx : s.firstFill
      · rfl
      · exact absurd hx hff
    rw [shape_fill_done cfg s hff2
        (by rw [hfi, Bool.and_false])
        (by rw [hfo, Bool.and_false]),
      if_neg hff]

theorem c1_drain (cfg : SymCfg) (hHC : HashConsistent cfg)
    (hfi : cfg.fillInner = false) (hfo : cfg.fillOuter = false)
    (hib : cfg.innerNbatch = 1) (hob : cfg.outerNbatch = 1)
    (hinb : 0 < cfg.innerNbuckets) (honb : 0 < cfg.outerNbuckets) :
    ∀ fuel s tr fin, C1Inv cfg s → symDrainTr cfg fuel s = some (tr, fin) →
      (↑(tr.map Prod.snd) : Multiset JoinOut) = pend cfg s := by
  intro fuel
  induction fuel with
  | zero =>
    intro s tr fin hI hdr
    exact absurd hdr (by simp [symDrainTr])
  | succ fuel ih =>
    intro s tr fin hI hdr
    simp only [symDrainTr] at hdr
    cases hst : symStep cfg s with
    | error =>
      rw [hst] at hdr
      have hN : (none : Option (List (Nat × JoinOut) × SymState))
          = some (tr, fin) := hdr
      exact absurd hN (by simp)
    | done s2 =>
      rw [hst] at hdr
      have hD : (some ([], s2) : Option (List (Nat × JoinOut) × SymState))
          = some (tr, fin) := hdr
      simp only [Option.some.injEq, Prod.mk.injEq] at hD
      rw [← hD.1]
      have hz : pend cfg s = 0 := by
        by_cases hj1 : s.jstate = HJ_BUILD_HASHTABLE
        · rw [symStep_eq_build cfg s hj1, shape_build] at hst
          exact absurd hst (by simp)
        by_cases hj2 : s.jstate = HJ_NEED_NEW_OUTER
        · rw [symStep_eq_nno cfg s hj2] at hst
          exact (c1_nno cfg hHC hfi hfo s hI hj2).2 s2 hst
        by_cases hj3 : s.jstate = HJ_NEED_NEW_INNER
        · rw [symStep_eq_nni cfg s hj3] at hst
          exact (c1_nni cfg hHC hfi hfo s hI hj3).2 s2 hst
        by_cases hj4 : s.jstate = HJ_FILL_TUPLES
        · obtain ⟨hie, hoe⟩ := hI.2.2.2.2.2.2.2.2.2.2 hj4
          show scanPend cfg s + basePend cfg s = 0
          rw [scanPend_nonscan cfg s
            (by rw [hj4]; simp [HJ_FILL_TUPLES, HJ_SCAN_OUTER_BUCKET])
            (by rw [hj4]; simp [HJ_FILL_TUPLES, HJ_SCAN_INNER_BUCKET])]
          unfold basePend
          rw [hie, hoe]
          simp [pairsMM_zero_left, pairsMM_zero_right]
        by_cases hj5 : s.jstate = HJ_SCAN_OUTER_BUCKET
        · rw [symStep_eq_scanOuter cfg s hj5] at hst
          exact absurd hst (scanOuter_no_done cfg s s2)
        by_cases hj6 : s.jstate = HJ_SCAN_INNER_BUCKET
        · rw [symStep_eq_scanInner cfg s hj6] at hst
          exact absurd hst (scanInner_no_done cfg s s2)
        · exfalso
          have hr := hI.1.1
          simp only [HJ_BUILD_HASHTABLE, HJ_NEED_NEW_OUTER, HJ_NEED_NEW_INNER,
            HJ_FILL_TUPLES, HJ_SCAN_OUTER_BUCKET, HJ_SCAN_INNER_BUCKET]
            at hj1 hj2 hj3 hj4 hj5 hj6
          omega
      rw [hz]
      rfl
    | next s2 =>
      rw [hst] at hdr
      have hdrN : symDrainTr cfg fuel s2 = some (tr, fin) := hdr
      have hstep2 : C1Inv cfg s2 ∧ pend cfg s = pend cfg s2 := by
        by_cases hj1 : s.jstate = HJ_BUILD_HASHTABLE
        · rw [symStep_eq_build cfg s hj1] at hst
          exact c1_build cfg hib hob hinb honb s hI hj1 s2 hst
        by_cases hj2 : s.jstate = HJ_NEED_NEW_OUTER
        · rw [symStep_eq_nno cfg s hj2] at hst
          exact (c1_nno cfg hHC hfi hfo s hI hj2).1 s2 hst
        by_cases hj3 : s.jstate = HJ_NEED_NEW_INNER
        · rw [symStep_eq_nni cfg s hj3] at hst
          exact (c1_nni cfg hHC hfi hfo s hI hj3).1 s2 hst
        by_cases hj4 : s.jstate = HJ_FILL_TUPLES
        · rw [symStep_eq_fill cfg s hj4, c1_fill_step cfg hfi hfo s] at hst
          exact absurd hst (by simp)
        by_cases hj5 : s.jstate = HJ_SCAN_OUTER_BUCKET
        · rw [symStep_eq_scanOuter cfg s hj5] at hst
          exact (c1_scanOuter cfg s hI hj5).1 s2 hst
        by_cases hj6 : s.jstate = HJ_SCAN_INNER_BUCKET
        · rw [symStep_eq_scanInner cfg s hj6] at hst
          exact (c1_scanInner cfg s hI hj6).1 s2 hst
        · exfalso
          have hr := hI.1.1
          simp only [HJ_BUILD_HASHTABLE, HJ_NEED_NEW_OUTER, HJ_NEED_NEW_INNER,
            HJ_FILL_TUPLES, HJ_SCAN_OUTER_BUCKET, HJ_SCAN_INNER_BUCKET]
            at hj1 hj2 hj3 hj4 hj5 hj6
          omega
      obtain ⟨hI2, hpe⟩ := hstep2
      rw [hpe]
      exact ih s2 tr fin hI2 hdrN
    | yield o s2 =>
      rw [hst] at hdr
      have hdr2 : (match symDrainTr cfg fuel s2 with
          | none => none
          | some (tr2, fin2) => some ((s.jstate, o) :: tr2, fin2))
            = some (tr, fin) := hdr
      cases hrec : symDrainTr cfg fuel s2 with
      | none =>
        rw [hrec] at hdr2
        exact absurd hdr2 (by simp)
      | some p =>
        obtain ⟨tr2, fin2⟩ := p
        rw [hrec] at hdr2
        simp only [Option.some.injEq, Prod.mk.injEq] at hdr2
        obtain ⟨htr, hfin⟩ := hdr2
        subst htr
        have hscan : (s.jstate = HJ_SCAN_OUTER_BUCKET ∧
            stepScanOuterBucket cfg s = .yield o s2) ∨
            (s.jstate = HJ_SCAN_INNER_BUCKET ∧
            stepScanInnerBucket cfg s = .yield o s2) := by
          by_cases hj1 : s.jstate = HJ_BUILD_HASHTABLE
          · rw [symStep_eq_build cfg s hj1, shape_build] at hst
            exact absurd hst (by simp)
          by_cases hj2 : s.jstate = HJ_NEED_NEW_OUTER
          · rw [symStep_eq_nno cfg s hj2] at hst
            exact absurd hst (nno_no_yield cfg s o s2)
          by_cases hj3 : s.jstate = HJ_NEED_NEW_INNER
          · rw [symStep_eq_nni cfg s hj3] at hst
            exact absurd hst (nni_no_yield cfg s o s2)
          by_cases hj4 : s.jstate = HJ_FILL_TUPLES
          · rw [symStep_eq_fill cfg s hj4, c1_fill_step cfg hfi hfo s] at hst
            exact absurd hst (by simp)
          by_cases hj5 : s.jstate = HJ_SCAN_OUTER_BUCKET
          · refine Or.inl ⟨hj5, ?_⟩
            rw [← symStep_eq_scanOuter cfg s hj5]
            exact hst
          by_cases hj6 : s.jstate = HJ_SCAN_INNER_BUCKET
          · refine Or.inr ⟨hj6, ?_⟩
            rw [← symStep_eq_scanInner cfg s hj6]
            exact hst
          · exfalso
            have hr := hI.1.1
            simp only [HJ_BUILD_HASHTABLE, HJ_NEED_NEW_OUTER, HJ_NEED_NEW_INNER,
              HJ_FILL_TUPLES, HJ_SCAN_OUTER_BUCKET, HJ_SCAN_INNER_BUCKET]
              at hj1 hj2 hj3 hj4 hj5 hj6
            omega
        rcases hscan with ⟨hj5, hys⟩ | ⟨hj6, hys⟩
        · obtain ⟨hI2, hpe⟩ := (c1_scanOuter cfg s hI hj5).2 o s2 hys
          have he := ih s2 tr2 fin2 hI2 hrec
          rw [hpe]
          show (↑(o :: tr2.map Prod.snd) : Multiset JoinOut) = o ::ₘ pend cfg s2
          rw [← Multiset.cons_coe, he]
        · obtain ⟨hI2, hpe⟩ := (c1_scanInner cfg s hI hj6).2 o s2 hys
          have he := ih s2 tr2 fin2 hI2 hrec
          rw [hpe]
          show (↑(o :: tr2.map Prod.snd) : Multiset JoinOut) = o ::ₘ pend cfg s2
          rw [← Multiset.cons_coe, he]

/-- C1: for non-null-keyed inputs, hash clauses consistent with the hash
function, and a single batch on each side, draining the symmetric
hash-join operator configured as an inner join emits exactly the multiset
of joined rows of the nested-loop reference join over the same predicate
and inputs — for every bucket count. -/
theorem c1_innerNestedLoopEquiv (hashFn : Nat → Nat)
    (hc : Row → Row → Bool) (jq : Option (Row → Row → Bool))
    (oq : Option (Option Row → Option Row → Bool))
    (inb onb : Nat) (innerRows outerRows : List Row)
    (hHC : HashConsistent (execInitSymHashJoin JoinType.inner hashFn hc jq oq
      inb 1 onb 1 innerRows outerRows).1)
    (hInn : ∀ r ∈ innerRows, r.key.isNone = false)
    (hOut : ∀ r ∈ outerRows, r.key.isNone = false)
    (hinb : 0 < inb) (honb : 0 < onb)
    (fuel : Nat) (tr : List (Nat × JoinOut)) (fin : SymState)
    (hdr : symDrainTr
        (execInitSymHashJoin JoinType.inner hashFn hc jq oq
          inb 1 onb 1 innerRows outerRows).1 fuel
        (execInitSymHashJoin JoinType.inner hashFn hc jq oq
          inb 1 onb 1 innerRows outerRows).2
        = some (tr, fin)) :
    (↑(tr.map Prod.snd) : Multiset JoinOut)
      = ↑(nestedLoopJoin
          (execInitSymHashJoin JoinType.inner hashFn hc jq oq
            inb 1 onb 1 innerRows outerRows).1 outerRows innerRows) := by
  have hInv : C1Inv
      (execInitSymHashJoin JoinType.inner hashFn hc jq oq
        inb 1 onb 1 innerRows outerRows).1
      (execInitSymHashJoin JoinType.inner hashFn hc jq oq
        inb 1 onb 1 innerRows outerRows).2 := by
    refine ⟨⟨show (1:Nat) ≤ 1 ∧ (1:Nat) ≤ 6 by decide, ?_, ?_,
        fun _ => ⟨rfl, rfl⟩, ?_, ?_⟩,
      TableWF_mk _ _ _ _ hinb, TableWF_mk _ _ _ _ honb,
      rfl, rfl, rfl, rfl, hInn, hOut, ?_, ?_⟩
    · intro h; exact absurd (show (false:Bool) = true from h) (by decide)
    · intro h; exact absurd (show (false:Bool) = true from h) (by decide)
    · intro h
      exact absurd (show (1:Nat) = HJ_SCAN_OUTER_BUCKET from h) (by decide)
    · intro h
      exact absurd (show (1:Nat) = HJ_SCAN_INNER_BUCKET from h) (by decide)
    · intro _
      exact ⟨tableRowsM_mk _ _ _, tableRowsM_mk _ _ _⟩
    · intro h
      exact absurd (show (1:Nat) = HJ_FILL_TUPLES from h) (by decide)
  have hmain := c1_drain
    (execInitSymHashJoin JoinType.inner hashFn hc jq oq
      inb 1 onb 1 innerRows outerRows).1 hHC rfl rfl rfl rfl hinb honb fuel
    (execInitSymHashJoin JoinType.inner hashFn hc jq oq
      inb 1 onb 1 innerRows outerRows).2 tr fin hInv hdr
  rw [hmain]
  show scanPend _ _ + basePend _ _ = _
  rw [scanPend_nonscan _ _
    (by intro h
        exact absurd (show (1:Nat) = HJ_SCAN_OUTER_BUCKET from h) (by decide))
    (by intro h
        exact absurd (show (1:Nat) = HJ_SCAN_INNER_BUCKET from h) (by decide))]
  show (0 : Multiset JoinOut)
      + (pairsMM (execInitSymHashJoin JoinType.inner hashFn hc jq oq
            inb 1 onb 1 innerRows outerRows).1
          (tableRowsM (mkHashTable onb 1 (fillsOuter JoinType.inner)))
          ↑innerRows
        + pairsMM (execInitSymHashJoin JoinType.inner hashFn hc jq oq
            inb 1 onb 1 innerRows outerRows).1 ↑outerRows ↑innerRows
        + pairsMM (execInitSymHashJoin JoinType.inner hashFn hc jq oq
            inb 1 onb 1 innerRows outerRows).1 ↑outerRows
          (tableRowsM (mkHashTable inb 1 (fillsInner JoinType.inner))))
    = _
  rw [tableRowsM_mk, tableRowsM_mk, pairsMM_zero_left, pairsMM_zero_right,
    nestedLoopJoin_eq_pairsMM]
  simp only [zero_add, add_zero]

/-- `exKeyEq` is consistent with any hash function: it only accepts two
rows whose keys are equal, which then hash identically. -/
theorem exKeyEq_hashConsistent (cfg : SymCfg)
    (hhc : cfg.hashclauses = exKeyEq) : HashConsistent cfg := by
  intro a b h
  rw [hhc] at h
  cases ha : a.key with
  | none => simp [exKeyEq, ha] at h
  | some x =>
    cases hb : b.key with
    | none => simp [exKeyEq, ha, hb] at h
    | some y =>
      have hxy : x = y := by
        simp [exKeyEq, ha, hb] at h
        exact h
      unfold rowHashKept
      rw [ha, hb, hxy]

/-- Concrete single-batch inner join: two buckets per side, one matching
key pair across the sides. -/
def c1wInit : SymCfg × SymState :=
  execInitSymHashJoin JoinType.inner exHash exKeyEq none none
    2 1 2 1 [⟨some 1, 10⟩, ⟨some 2, 11⟩] [⟨some 1, 20⟩, ⟨some 3, 21⟩]

/-- Trace of `c1wInit`: the single match, from the inner-bucket scan. -/
def c1wTr : List (Nat × JoinOut) :=
  [(HJ_SCAN_INNER_BUCKET, (some ⟨some 1, 20⟩, some ⟨some 1, 10⟩))]

/-- Final state of the `c1wInit` drain. -/
def c1wFin : SymState :=
  { jstate := 2, innerInput := [], outerInput := [],
    innerTupleNull := true, outerTupleNull := true,
    innerTable := {
      nbuckets := 2, nbatch := 1, curbatch := 0,
      buckets := [[⟨⟨some 2, 11⟩, 2, false⟩], [⟨⟨some 1, 10⟩, 1, true⟩]],
      batchFiles := [[]], keepNulls := false },
    outerTable := {
      nbuckets := 2, nbatch := 1, curbatch := 0,
      buckets := [[], [⟨⟨some 3, 21⟩, 3, false⟩, ⟨⟨some 1, 20⟩, 1, true⟩]],
      batchFiles := [[]], keepNulls := false },
    curHashValue := 3, curOutHashValue := 2, curBucketNo := 1,
    curTuple := none, curOutTuple := none,
    ecxtInner := some ⟨some 2, 11⟩, ecxtOuter := some ⟨some 3, 21⟩,
    innerInsertHash := 2, outerInsertHash := 3,
    firstFill := true, fillInnerFinished := false, fillOuterFinished := false,
    fillBucketNo := 0, fillIdx := 0 }

theorem c1_innerNestedLoopEquiv_witness :
    symDrainTr c1wInit.1 40 c1wInit.2 = some (c1wTr, c1wFin) ∧
    (↑(c1wTr.map Prod.snd) : Multiset JoinOut)
      = ↑(nestedLoopJoin c1wInit.1 [⟨some 1, 20⟩, ⟨some 3, 21⟩]
          [⟨some 1, 10⟩, ⟨some 2, 11⟩]) := by
  have hdr : symDrainTr c1wInit.1 40 c1wInit.2 = some (c1wTr, c1wFin) := by
    simp [symDrainTr, symStep, stepBuildHashtable, stepNeedNewInner,
      stepNeedNewOuter, stepScanOuterBucket, stepScanInnerBucket,
      stepFillTuples, findFrom, findUnmatched, findUnmatchedIn, hashNodeNext,
      execHashGetHashValue, execHashGetBucketAndBatch, execHashTableInsert,
      mkHashTable, setMatchAt, setMatchHead, listModify, evalJoinQual,
      evalOtherQual, exHash, exKeyEq, execInitSymHashJoin, c1wInit, c1wTr,
      c1wFin, HJ_BUILD_HASHTABLE, HJ_NEED_NEW_OUTER, HJ_NEED_NEW_INNER,
      HJ_FILL_TUPLES, HJ_SCAN_OUTER_BUCKET, HJ_SCAN_INNER_BUCKET, startIdx,
      fillsOuter, fillsInner, HashJoinTable.bucket, HashJoinTable.batchFile,
      rowHashKept]
  exact ⟨hdr, c1_innerNestedLoopEquiv exHash exKeyEq none none 2 2
    [⟨some 1, 10⟩, ⟨some 2, 11⟩] [⟨some 1, 20⟩, ⟨some 3, 21⟩]
    (exKeyEq_hashConsistent _ rfl) (by decide) (by decide)
    (by decide) (by decide) 40 c1wTr c1wFin hdr⟩

/-- As `c1wInit`, but the inner table has two batches (one bucket): the
inner row `(1,10)` spills to batch 1, so the outer row's probe of the
in-memory inner bucket finds nothing and the match is lost. -/
def c1xInit : SymCfg × SymState :=
  execInitSymHashJoin JoinType.inner exHash exKeyEq none none
    1 2 1 1 [⟨some 1, 10⟩] [⟨some 1, 20⟩]

/-- Final state of the `c1xInit` drain: the inner row sits unprobed in the
spill file. -/
def c1xFin : SymState :=
  { jstate := 2, innerInput := [], outerInput := [],
    innerTupleNull := true, outerTupleNull := true,
    innerTable := {
      nbuckets := 1, nbatch := 2, curbatch := 0,
      buckets := [[]],
      batchFiles := [[], [(1, ⟨some 1, 10⟩)]], keepNulls := false },
    outerTable := {
      nbuckets := 1, nbatch := 1, curbatch := 0,
      buckets := [[⟨⟨some 1, 20⟩, 1, false⟩]],
      batchFiles := [[]], keepNulls := false },
    curHashValue := 1, curOutHashValue := 1, curBucketNo := 0,
    curTuple := none, curOutTuple := none,
    ecxtInner := some ⟨some 1, 10⟩, ecxtOuter := some ⟨some 1, 20⟩,
    innerInsertHash := 1, outerInsertHash := 1,
    firstFill := true, fillInnerFinished := false, fillOuterFinished := false,
    fillBucketNo := 0, fillIdx := 0 }

theorem c1_counterexample :
    HashConsistent c1xInit.1 ∧
    (∀ r ∈ [(⟨some 1, 10⟩ : Row)], r.key.isNone = false) ∧
    (∀ r ∈ [(⟨some 1, 20⟩ : Row)], r.key.isNone = false) ∧
    symDrainTr c1xInit.1 40 c1xInit.2 = some ([], c1xFin) ∧
    nestedLoopJoin c1xInit.1 [⟨some 1, 20⟩] [⟨some 1, 10⟩]
      = [(some ⟨some 1, 20⟩, some ⟨some 1, 10⟩)] ∧
    (([] : List (Nat × JoinOut)).map Prod.snd : List JoinOut)
      ≠ [((some ⟨some 1, 20⟩, some ⟨some 1, 10⟩) : JoinOut)] := by
  refine ⟨exKeyEq_hashConsistent _ rfl, by decide, by decide, ?_,
    by decide, by decide⟩
  simp [symDrainTr, symStep, stepBuildHashtable, stepNeedNewInner,
    stepNeedNewOuter, stepScanOuterBucket, stepScanInnerBucket,
    stepFillTuples, findFrom, findUnmatched, findUnmatchedIn, hashNodeNext,
    execHashGetHashValue, execHashGetBucketAndBatch, execHashTableInsert,
    mkHashTable, setMatchAt, setMatchHead, listModify, evalJoinQual,
    evalOtherQual, exHash, exKeyEq, execInitSymHashJoin, c1xInit, c1xFin,
    HJ_BUILD_HASHTABLE, HJ_NEED_NEW_OUTER, HJ_NEED_NEW_INNER,
    HJ_FILL_TUPLES, HJ_SCAN_OUTER_BUCKET, HJ_SCAN_INNER_BUCKET, startIdx,
    fillsOuter, fillsInner, HashJoinTable.bucket, HashJoinTable.batchFile,
    rowHashKept]

end PgHashJoin
